import Mathlib

/-!
# Broadcom VK message transport (`drivers/misc/bcm-vk/bcm_vk_msg.c`)

A shallow embedding of the host side message transport of the VK driver:
the message-id allocator, the host-to-card enqueue engine, the card-to-host
dequeue engine and the deferred work handler, followed by the properties
proved about them.

Conventions of the embedding.

* C `uint32_t` values are natural numbers; arithmetic that can wrap is
  written with an explicit `% 4294967296`.
* Arrays indexed by a queue number, a context index or a block index are
  total functions on `Nat`; the code only ever uses masked or range-checked
  indices.
* Locks and memory barriers are not represented: every operation is one
  atomic step of a sequential state machine.  The card shows up as an
  explicit argument wherever the code re-reads memory that the card owns.
* `dev_err`, `dev_crit` and `dev_dbg` calls append to the kernel log
  `bcm_vk.klog`.
-/

namespace BcmVk

/-! ## Constants -/

/-- `VK_MSG_ID_BITMAP_SIZE` (bcm_vk.h). -/
def VK_MSG_ID_BITMAP_SIZE : Nat := 4096

/-- `VK_MSG_ID_OVERFLOW` (bcm_vk.h). -/
def VK_MSG_ID_OVERFLOW : Nat := 0xFFFF

/-- `BCM_VK_MSG_Q_SHIFT` (bcm_vk_msg.c). -/
def BCM_VK_MSG_Q_SHIFT : Nat := 4

/-- `BCM_VK_MSG_Q_MASK` (bcm_vk_msg.c). -/
def BCM_VK_MSG_Q_MASK : Nat := 0xF

/-- `BCM_VK_MSG_ID_MASK` (bcm_vk_msg.c). -/
def BCM_VK_MSG_ID_MASK : Nat := 0xFFF

/-- `BCM_VK_H2VK_ENQ_RETRY` (bcm_vk_msg.c): number of retries before `-EAGAIN`. -/
def BCM_VK_H2VK_ENQ_RETRY : Nat := 10

/-- Linux errno `EAGAIN`. -/
def EAGAIN : Int := 11

/-- Linux errno `ENOMEM`. -/
def ENOMEM : Int := 12

/-- Linux errno `EMSGSIZE`. -/
def EMSGSIZE : Int := 90

/-- Linux errno `EPERM`. -/
def EPERM : Int := 1

/-- Linux errno `EACCES`. -/
def EACCES : Int := 13

/-- Linux errno `EFAULT`. -/
def EFAULT : Int := 14

/-- Linux errno `EINVAL`. -/
def EINVAL : Int := 22

/-- Linux errno `ENOMSG`. -/
def ENOMSG : Int := 42

/-- Linux errno `EBADR`. -/
def EBADR : Int := 53

/-- Linux errno `EOVERFLOW`. -/
def EOVERFLOW : Int := 75

/-- `VK_SIMPLEX_MSG_ID`: message id 0 is kept for one-way messages (the
comment in `bcm_vk_get_msg_id`). -/
def VK_SIMPLEX_MSG_ID : Nat := 0

/-- Modelled from the spec: register offsets, alert bits and function ids that
the code names but whose `#define`s live in headers that are not part of the
sources at hand (`bcm_vk.h` of this revision, `bcm_vk_msg.h`).  They are
parameters of every operation that uses them. -/
structure vk_consts where
  /-- `VK_BAR0_REGSEG_DB_BASE`: offset of the first doorbell register in BAR 0. -/
  VK_BAR0_REGSEG_DB_BASE : Nat
  /-- `VK_BAR0_REGSEG_DB_REG_GAP`: distance between two doorbell registers. -/
  VK_BAR0_REGSEG_DB_REG_GAP : Nat
  /-- `ERR_LOG_HOST_PCIE_DWN`: host alert bit mask. -/
  ERR_LOG_HOST_PCIE_DWN : Nat
  /-- `ERR_LOG_HOST_HB_FAIL`: host alert bit mask. -/
  ERR_LOG_HOST_HB_FAIL : Nat
  /-- `VK_FID_SHUTDOWN`: function id of the one-way shutdown message. -/
  VK_FID_SHUTDOWN : Nat
  /-- `VK_FID_TRANS_BUF`: function id of a buffer transfer. -/
  VK_FID_TRANS_BUF : Nat
  /-- `VK_SHUTDOWN_PID`: shutdown type "the sessions of one pid are gone". -/
  VK_SHUTDOWN_PID : Nat
  /-- `VK_CMD_PLANES_MASK`: mask of the plane count in `args[0]`. -/
  VK_CMD_PLANES_MASK : Nat
  /-- `VK_MSGQ_BLK_SZ_SHIFT`: log2 of the size in bytes of a message block. -/
  VK_MSGQ_BLK_SZ_SHIFT : Nat
  /-- `VK_MSGQ_BLK_SIZE`: the size in bytes of a message block. -/
  VK_MSGQ_BLK_SIZE : Nat
  /-- `VK_CMPT_CTX_MAX`: number of slots in the context pool (`ARRAY_SIZE(vk->ctx)`). -/
  VK_CMPT_CTX_MAX : Nat
  /-- `VK_PID_HT_SHIFT_BIT`: number of bits of a pid hash. -/
  VK_PID_HT_SHIFT_BIT : Nat
  /-- `VK_BAR_FWSTS`: offset of the firmware status register in BAR 0. -/
  VK_BAR_FWSTS : Nat
  /-- `VK_FWSTS_READY`: the status bits of a card that is up. -/
  VK_FWSTS_READY : Nat
  /-- `VK_FWSTS_RESET_MBOX_DB`: the status value "reset by doorbell". -/
  VK_FWSTS_RESET_MBOX_DB : Nat
  /-- `VK_BAR1_MSGQ_DEF_RDY`: offset of the ready marker in BAR 1. -/
  VK_BAR1_MSGQ_DEF_RDY : Nat
  /-- `VK_BAR1_MSGQ_RDY_MARKER`: the value of the ready marker. -/
  VK_BAR1_MSGQ_RDY_MARKER : Nat
  /-- `VK_BAR1_BOOT1_VER_TAG`: offset of the boot1 version tag in BAR 1. -/
  VK_BAR1_BOOT1_VER_TAG : Nat
  /-- `VK_BAR1_DAUTH_MAX`: number of device authentication records. -/
  VK_BAR1_DAUTH_MAX : Nat
  /-- `VK_BAR1_DAUTH_STORE_ADDR(i)`. -/
  VK_BAR1_DAUTH_STORE_ADDR : Nat → Nat
  /-- `VK_BAR1_DAUTH_VALID_ADDR(i)`. -/
  VK_BAR1_DAUTH_VALID_ADDR : Nat → Nat
  /-- `VK_BAR1_SOTP_REVID_MAX`: number of revision id words. -/
  VK_BAR1_SOTP_REVID_MAX : Nat
  /-- `VK_BAR1_SOTP_REVID_ADDR(i)`. -/
  VK_BAR1_SOTP_REVID_ADDR : Nat → Nat
  /-- `VK_BAR0_RESET_DB_NUM`: number of the reset doorbell. -/
  VK_BAR0_RESET_DB_NUM : Nat
  /-- `VK_BAR0_RESET_DB_SOFT`: doorbell value of a soft reset. -/
  VK_BAR0_RESET_DB_SOFT : Nat
  /-- `BAR_OS_UPTIME`: offset of the uptime register in BAR 0. -/
  BAR_OS_UPTIME : Nat
  /-- `VK_BAR1_MSGQ_CTRL_OFF`: offset in BAR 1 of the word that holds the offset
  of the first queue descriptor. -/
  VK_BAR1_MSGQ_CTRL_OFF : Nat
  /-- `VK_BAR1_MSGQ_NR`: offset in BAR 1 of the total number of queues. -/
  VK_BAR1_MSGQ_NR : Nat
  /-- `sizeof(struct bcm_vk_msgq)`: the size in bytes of a queue descriptor. -/
  SIZEOF_MSGQ : Nat
  /-- `VK_SHUTDOWN_GRACEFUL`: shutdown type "the whole card goes down". -/
  VK_SHUTDOWN_GRACEFUL : Nat
  /-- `VK_PID_HT_SZ`: number of buckets of the pid hash table. -/
  VK_PID_HT_SZ : Nat

/-! ## Data model -/

/-- Modelled from the spec: `struct vk_msg_blk` (declared in the absent
`bcm_vk_msg.h`), one message block: function id, size (number of additional
blocks), transport id (queue number in the low 4 bits, message id in the next
12), context id and the argument words. -/
structure vk_msg_blk where
  function_id : Nat
  size : Nat
  trans_id : Nat
  context_id : Nat
  args : List Nat
deriving DecidableEq, Repr

/-- The all-zero block (`kzalloc`ed memory). -/
def vk_msg_blk.zero : vk_msg_blk :=
  { function_id := 0, size := 0, trans_id := 0, context_id := 0, args := [] }

instance : Inhabited vk_msg_blk := ⟨vk_msg_blk.zero⟩

/-- `BCM_VK_GET_Q(msg_p)`. -/
def BCM_VK_GET_Q (msg : vk_msg_blk) : Nat :=
  msg.trans_id &&& BCM_VK_MSG_Q_MASK

/-- `BCM_VK_GET_MSG_ID(msg_p)`. -/
def BCM_VK_GET_MSG_ID (msg : vk_msg_blk) : Nat :=
  (msg.trans_id >>> BCM_VK_MSG_Q_SHIFT) &&& BCM_VK_MSG_ID_MASK

/-- `BCM_VK_SET_MSG_ID(msg_p, val)`. -/
def BCM_VK_SET_MSG_ID (msg : vk_msg_blk) (val : Nat) : vk_msg_blk :=
  { msg with trans_id := ((val <<< BCM_VK_MSG_Q_SHIFT) % 4294967296) ||| BCM_VK_GET_Q msg }

/-- Modelled from the spec: `struct bcm_vk_wkent` (declared in the absent
`bcm_vk_msg.h`), one in-flight message envelope.  `ctx` is the index of the
owning context in `bcm_vk.ctx`; the scatter-gather handles are left out. -/
structure bcm_vk_wkent where
  ctx : Nat
  seq_num : Nat
  usr_msg_id : Nat
  vk2h_blks : Nat
  vk2h_msg : Option (List vk_msg_blk)
  h2vk_blks : Nat
  h2vk_msg : List vk_msg_blk
deriving DecidableEq, Repr

/-- Modelled from the spec: `struct bcm_vk_msgq` (declared in the absent
`bcm_vk_msg.h`), the queue descriptor in card-visible memory, together with
the ring of blocks it describes (`ring i` is the block at
`VK_MSGQ_BLK_ADDR(qinfo, i)`). -/
structure bcm_vk_msgq where
  rd_idx : Nat
  wr_idx : Nat
  size : Nat
  ring : Nat → vk_msg_blk

/-- Modelled from the spec: `struct bcm_vk_sync_qinfo` (declared in the absent
`bcm_vk_msg.h`), the queue geometry cached by `bcm_vk_sync_msgq`. -/
structure bcm_vk_sync_qinfo where
  q_size : Nat
  q_low : Nat
  q_mask : Nat
deriving DecidableEq, Repr

/-- Modelled from the spec: `struct bcm_vk_msg_chan` (declared in the absent
`bcm_vk_msg.h`), one direction of the transport. -/
structure bcm_vk_msg_chan where
  q_nr : Nat
  msgq : Nat → bcm_vk_msgq
  sync_qinfo : Nat → bcm_vk_sync_qinfo
  pendq : Nat → List bcm_vk_wkent

/-- Modelled from the spec: `struct bcm_vk_ctx` (declared in the absent
`bcm_vk_msg.h`), one session context. -/
structure bcm_vk_ctx where
  idx : Nat
  in_use : Bool
  pid : Nat
  hash_idx : Nat
  pend_cnt : Int
  miscdev : Bool
deriving DecidableEq, Repr

/-- Messages written to the kernel log by the operations embedded here. -/
inductive klog_msg
  /-- enqueue: "number of blks %d not matching %d MsgId[0x%x]: func %d ctx 0x%x". -/
  | enq_blks_mismatch (h2vk_blks size_plus_one msg_id function_id context_id : Nat)
  /-- enqueue: "Invalid wr_idx 0x%x => max 0x%x!". -/
  | invalid_wr_idx (wr_idx q_size : Nat)
  /-- enqueue: "MsgQ[..] [Rd Wr] = [%d %d] blks inserted %d". -/
  | blks_inserted (q_num rd_idx wr_idx blks : Nat)
  /-- dequeue: "Invalid rd_idx 0x%x or size 0x%x => max 0x%x!". -/
  | invalid_rd_idx (rd_idx size q_size : Nat)
  /-- dequeue: "Kernel mem allocation failure.". -/
  | alloc_failure
  /-- dequeue: "MsgQ[..] [Rd Wr] = [%d %d] blks extracted %d". -/
  | blks_extracted (q_num rd_idx wr_idx blks : Nat)
  /-- dequeue: "Could not find MsgId[0x%x] for resp func %d bmap %d". -/
  | msg_id_not_found (msg_id function_id : Nat) (bit : Bool)
  /-- dequeue: "total %d drained from queues". -/
  | total_drained (total : Int)
  /-- work handler: "Spurious trigger for workqueue". -/
  | spurious_trigger
  /-- get_ctx: "No context allowed during reset by pid %d". -/
  | no_ctx_in_reset (reset_pid : Nat)
  /-- get_ctx: "All context in use". -/
  | all_ctx_in_use
  /-- free_ctx: "NULL context detected". -/
  | null_ctx
  /-- free_ctx: "context[%d] not in use!". -/
  | ctx_not_in_use (idx : Nat)
  /-- drain_all_pend: "Drained: fid %u size %u msg 0x%x(seq-%x) ctx 0x%x[fd-%d] ... resp %s, bmap %d". -/
  | drained (function_id size msg_id seq_num context_id ctx_idx : Nat) (args : List Nat)
      (responded bit_set : Bool)
  /-- drain_all_pend: "Total drained items %d". -/
  | total_drained_items (num : Nat)
  /-- send_shutdown_msg: "PCIe comm chan - invalid marker (0x%x)!". -/
  | invalid_marker (value : Nat)
  /-- send_shutdown_msg: "Sending shutdown message to q %d for pid %d fails.". -/
  | shutdown_msg_fails (q_num pid : Nat)
  /-- handle_last_sess: "No more sessions, shut down pid %d". -/
  | no_more_sessions (pid : Nat)
  /-- read: "Buf count %ld". -/
  | buf_count (count : Nat)
  /-- read: "Error return 1st block in -EMSGSIZE". -/
  | first_block_error
  /-- write: "Msg count %ld". -/
  | msg_count (count : Nat)
  /-- write: "Failure with size %ld not multiple of %ld". -/
  | size_not_multiple (count blk_size : Nat)
  /-- write: "Blk size %d exceed max queue size allowed %d". -/
  | blk_size_exceed (blks max : Nat)
  /-- write: "msg_id overflow". -/
  | msg_id_overflow
  /-- write: "Message ctx id %d, usr_msg_id 0x%x sent msg_id 0x%x". -/
  | message_ids (ctx_idx usr_msg_id msg_id : Nat)
  /-- write: "No Transfer allowed during reset, pid %d.". -/
  | no_transfer_in_reset (pid : Nat)
  /-- write: "Fail to enqueue msg to h2vk queue". -/
  | enqueue_fail
  /-- append_ib_sgl: "Skip inserting inband SGL, [0x%x/0x%x]". -/
  | skip_ib_sgl (avail q_size : Nat)
  /-- append_ib_sgl: "Num %u sgl items appended, size 0x%x, room 0x%x". -/
  | sgl_appended (item_cnt ib_sgl_size room : Nat)
  /-- release: "Draining with context idx %d pid %d". -/
  | draining_ctx (idx pid : Nat)
  /-- hb_poll: "Last uptime %d current %d, lost %d". -/
  | hb_uptime (last_uptime uptime_s lost_cnt : Nat)
  /-- hb_poll: "Heartbeat Misses %d times, %d s!". -/
  | hb_misses (times secs : Nat)
  /-- sync_msgq: "BAR1 msgq marker not initialized.". -/
  | marker_not_initialized
  /-- sync_msgq: "Msgq info already in sync". -/
  | msgq_already_in_sync
  /-- sync_msgq: "MsgQ[%d] type %d num %d, @ 0x%x, rd_idx %d wr_idx %d, size %d, nxt 0x%x"
  (the fields of the descriptor that are embedded). -/
  | msgq_info (j rd_idx wr_idx size nxt : Nat)
  /-- reset: "Issue Reset 0x%x, 0x%x". -/
  | issue_reset (arg1 arg2 : Nat)
  /-- reset: "Reset already launched by process pid %d". -/
  | reset_already_launched (pid : Nat)
  /-- reset: "Send kill signal to pid %d". -/
  | send_kill_signal (pid : Nat)
  /-- reset: "Reset completed - RB_OPEN = 0x%x SRAM_OPEN %s DDR_OPEN %s". -/
  | reset_completed (ram_open : Nat) (sram_open ddr_open : Bool)
deriving DecidableEq, Repr

/-- Modelled from the spec: `struct bcm_vk_hb_ctrl` (declared in the absent
`bcm_vk_msg.h`), the state of the heartbeat monitor: `timer` is the expiry, in
jiffies, the timer is armed for (`none` while it is not armed), `last_uptime`
the uptime read at the previous tick and `lost_cnt` the loss counter, both
32-bit words. -/
structure bcm_vk_hb_ctrl where
  timer : Option Nat
  last_uptime : Nat
  lost_cnt : Nat
deriving DecidableEq, Repr

/-- The part of `struct bcm_vk` used by the message transport.  `bmap` is the
message-id bitmap, `wq_notf_pend`, `wq_dwnld_pend` and `wq_dwnld_auto` the bits
`BCM_VK_WQ_NOTF_PEND`, `BCM_VK_WQ_DWNLD_PEND` and `BCM_VK_WQ_DWNLD_AUTO` of
`wq_offload`, `wq_queued` counts the `queue_work` calls, `host_alert_notfs` is
`host_alert.notfs`, `seq_num` the function-static counter of
`bcm_h2vk_msg_enqueue`, and `iowrites` lists the 32-bit register writes
(`vkwrite32`) as (bar, offset, value), oldest first.  `pid_ht i` lists the
indices of the contexts linked in hash bucket `i`, head first.  `ctx i` has
`miscdev = true` when its `miscdev` pointer is set.  `card_info`, `alert_cnts`
and `peer_alert` are kept as words of memory; `hb_ctrl` is the heartbeat
monitor. -/
structure bcm_vk where
  msg_id : Nat
  bmap : Nat → Bool
  ctx : Nat → bcm_vk_ctx
  pid_ht : Nat → List Nat
  reset_pid : Nat
  kref : Nat
  msgq_inited : Bool
  h2vk_msg_chan : bcm_vk_msg_chan
  vk2h_msg_chan : bcm_vk_msg_chan
  host_alert_notfs : Nat
  wq_notf_pend : Bool
  wq_dwnld_pend : Bool
  wq_dwnld_auto : Bool
  wq_queued : Nat
  seq_num : Nat
  iowrites : List (Nat × Nat × Nat)
  klog : List klog_msg
  ib_sgl_size : Nat
  host_alert_flags : Nat
  peer_alert_notfs : Nat
  peer_alert_flags : Nat
  card_info : Nat → Nat
  alert_cnts : Nat → Nat
  hb_ctrl : bcm_vk_hb_ctrl

/-! ## Message-id allocator -/

/-- `bcm_vk_msgid_bitmap_clear(vk, start, nbits)`: clears the bits
`start .. start + nbits - 1` of the bitmap. -/
def bcm_vk_msgid_bitmap_clear (vk : bcm_vk) (start nbits : Nat) : bcm_vk :=
  { vk with bmap := fun i => if start ≤ i ∧ i < start + nbits then false else vk.bmap i }

/-- The `while` loop of `bcm_vk_get_msg_id`.  The first argument is the number
of iterations still allowed, `VK_MSG_ID_BITMAP_SIZE - 1 - test_bit_count`; the
result is `(rc, msg_id, bmap)`. -/
def get_msg_id_loop : Nat → Nat → (Nat → Bool) → Nat × Nat × (Nat → Bool)
  | 0, msg_id, bmap => (VK_MSG_ID_OVERFLOW, msg_id, bmap)
  | k + 1, msg_id, bmap =>
    -- vk->msg_id++ on a uint16_t, then wrap to 1 at the bitmap size
    let m := (msg_id + 1) % 65536
    let m := if m = VK_MSG_ID_BITMAP_SIZE then 1 else m
    if bmap m then
      -- test_bit_count++; continue
      get_msg_id_loop k m bmap
    else
      -- rc = vk->msg_id; bitmap_set(vk->bmap, vk->msg_id, 1); break
      (m, m, fun i => if i = m then true else bmap i)

/-- `bcm_vk_get_msg_id(vk)`: the returned id (or `VK_MSG_ID_OVERFLOW`) and the
new device state. -/
def bcm_vk_get_msg_id (vk : bcm_vk) : Nat × bcm_vk :=
  let r := get_msg_id_loop (VK_MSG_ID_BITMAP_SIZE - 1) vk.msg_id vk.bmap
  (r.1, { vk with msg_id := r.2.1, bmap := r.2.2 })

/-- The state of the allocator right after `bcm_vk_data_init` on the
`kzalloc`ed device structure: last issued id 0 and every bit clear. -/
def msgid_fresh (vk : bcm_vk) : Prop :=
  vk.msg_id = 0 ∧ ∀ i, vk.bmap i = false

/-- One call on the allocator: `bcm_vk_get_msg_id`, or
`bcm_vk_msgid_bitmap_clear` of one id. -/
inductive msgid_op
  | allocate
  | release (id : Nat)
deriving DecidableEq, Repr

/-- Runs a sequence of allocator calls from `vk`, keeping the list `live` of
the ids that were returned by a successful allocation and not released since.
The result is `true` when every successful allocation returned an id that is
neither 0 nor in `live` at that moment. -/
def msgid_run_ok : List msgid_op → bcm_vk → List Nat → Bool
  | [], _, _ => true
  | msgid_op.allocate :: ops, vk, live =>
    let r := bcm_vk_get_msg_id vk
    if r.1 = VK_MSG_ID_OVERFLOW then msgid_run_ok ops r.2 live
    else decide (r.1 ≠ 0) && !(live.contains r.1) && msgid_run_ok ops r.2 (r.1 :: live)
  | msgid_op.release id :: ops, vk, live =>
    msgid_run_ok ops (bcm_vk_msgid_bitmap_clear vk id 1) (live.filter (fun j => j != id))

/-- The circular order in which ids are tried after `last` was issued:
`last + 1, last + 2, ..., N - 1, 1, 2, ..., last` with
`N = VK_MSG_ID_BITMAP_SIZE`. -/
def msgid_circular_order (last : Nat) : List Nat :=
  List.range' (last + 1) (VK_MSG_ID_BITMAP_SIZE - 1 - last) ++ List.range' 1 last

/-- The id tried after `m`: the increment of `bcm_vk_get_msg_id`. -/
def msgid_next (m : Nat) : Nat :=
  if (m + 1) % 65536 = VK_MSG_ID_BITMAP_SIZE then 1 else (m + 1) % 65536

/-- The `k` ids tried after `m`, in order. -/
def msgid_cands : Nat → Nat → List Nat
  | 0, _ => []
  | k + 1, m => msgid_next m :: msgid_cands k (msgid_next m)

/-- The value of `msg_id` after `k` increments from `m`. -/
def msgid_walk : Nat → Nat → Nat
  | 0, m => m
  | k + 1, m => msgid_walk k (msgid_next m)

/-- A device structure as `kzalloc` leaves it, after `bcm_vk_data_init` and
`bcm_vk_msg_chan_init`: no context in use, empty pending lists, fresh
allocator. -/
def bcm_vk_zeroed : bcm_vk :=
  let q : bcm_vk_msgq := { rd_idx := 0, wr_idx := 0, size := 0, ring := fun _ => vk_msg_blk.zero }
  let chan : bcm_vk_msg_chan :=
    { q_nr := 0, msgq := fun _ => q,
      sync_qinfo := fun _ => { q_size := 0, q_low := 0, q_mask := 0 },
      pendq := fun _ => [] }
  { msg_id := 0, bmap := fun _ => false,
    ctx := fun i =>
      { idx := i, in_use := false, pid := 0, hash_idx := 0, pend_cnt := 0, miscdev := false },
    pid_ht := fun _ => [], reset_pid := 0, kref := 1, msgq_inited := false,
    h2vk_msg_chan := chan, vk2h_msg_chan := chan, host_alert_notfs := 0,
    wq_notf_pend := false, wq_dwnld_pend := false, wq_dwnld_auto := false, wq_queued := 0,
    seq_num := 0, iowrites := [], klog := [], ib_sgl_size := 0, host_alert_flags := 0,
    peer_alert_notfs := 0, peer_alert_flags := 0, card_info := fun _ => 0,
    alert_cnts := fun _ => 0,
    hb_ctrl := { timer := none, last_uptime := 0, lost_cnt := 0 } }

/-! ## Queue geometry -/

/-- Modelled from the spec: `VK_MSGQ_SIZE_MASK(qinfo)` of the absent
`bcm_vk_msg.h`, the index mask cached at sync time. -/
def VK_MSGQ_SIZE_MASK (qinfo : bcm_vk_sync_qinfo) : Nat :=
  qinfo.q_mask

/-- Modelled from the spec: `VK_MSGQ_INC(qinfo, idx, inc)` of the absent
`bcm_vk_msg.h`: the index advanced by `inc` in 32-bit arithmetic and wrapped
by index masking. -/
def VK_MSGQ_INC (qinfo : bcm_vk_sync_qinfo) (idx inc : Nat) : Nat :=
  ((idx + inc) % 4294967296) &&& VK_MSGQ_SIZE_MASK qinfo

/-- Modelled from the spec: `VK_MSGQ_EMPTY(msgq)` of the absent
`bcm_vk_msg.h`: the descriptor reports empty when both indices are equal. -/
def VK_MSGQ_EMPTY (msgq : bcm_vk_msgq) : Bool :=
  msgq.rd_idx == msgq.wr_idx

/-- Modelled from the spec: `VK_MSGQ_OCCUPIED(msgq, qinfo)` of the absent
`bcm_vk_msg.h`: ring occupancy, `(wr_idx - rd_idx)` in 32-bit arithmetic
wrapped by index masking. -/
def VK_MSGQ_OCCUPIED (msgq : bcm_vk_msgq) (qinfo : bcm_vk_sync_qinfo) : Nat :=
  ((msgq.wr_idx + (4294967296 - msgq.rd_idx % 4294967296)) % 4294967296) &&&
    VK_MSGQ_SIZE_MASK qinfo

/-- Modelled from the spec: `VK_MSGQ_AVAIL_SPACE(msgq, qinfo)` of the absent
`bcm_vk_msg.h`: free space, `q_size - occupancy - 1` in 32-bit arithmetic
(one block is never used, so that the ring is never exactly full). -/
def VK_MSGQ_AVAIL_SPACE (msgq : bcm_vk_msgq) (qinfo : bcm_vk_sync_qinfo) : Nat :=
  (qinfo.q_size + (4294967296 - (VK_MSGQ_OCCUPIED msgq qinfo + 1))) % 4294967296

/-- The geometry `bcm_vk_sync_msgq` caches for a queue whose descriptor
announces `size` blocks: `q_low = q_size >> 1`, `q_mask = q_size - 1`. -/
def sync_qinfo_of_size (size : Nat) : bcm_vk_sync_qinfo :=
  { q_size := size, q_low := size >>> 1,
    q_mask := (size + (4294967296 - 1)) % 4294967296 }

/-! ## Access control and alerts -/

/-- `bcm_vk_drv_access_ok(vk)`. -/
def bcm_vk_drv_access_ok (vk : bcm_vk) : Bool :=
  vk.msgq_inited

/-- Modelled from the spec: `bcm_vk_blk_drv_access(vk)`, called by
`bcm_vk_msg.c` but defined outside the sources at hand: it blocks all further
driver-initiated transport access, that is, `bcm_vk_drv_access_ok` is false
afterwards. -/
def bcm_vk_blk_drv_access (vk : bcm_vk) : bcm_vk :=
  { vk with msgq_inited := false }

/-- `bcm_vk_set_host_alert(vk, bit_mask)`: ors the bits into
`host_alert.notfs` and queues the work item unless the notification-pending
bit was already set (`test_and_set_bit`). -/
def bcm_vk_set_host_alert (vk : bcm_vk) (bit_mask : Nat) : bcm_vk :=
  let vk1 := { vk with host_alert_notfs := vk.host_alert_notfs ||| bit_mask }
  if vk1.wq_notf_pend = false then
    { vk1 with wq_notf_pend := true, wq_queued := vk1.wq_queued + 1 }
  else vk1

/-! ## Enqueue engine (host to card) -/

/-- `BAR_0` of `enum pci_barno`. -/
def BAR_0 : Nat := 0

/-- `bcm_h2vk_doorbell(vk, q_num, db_val)`: one 32-bit write of `db_val` to
the BAR 0 register at `VK_BAR0_REGSEG_DB_BASE + q_num * VK_BAR0_REGSEG_DB_REG_GAP`. -/
def bcm_h2vk_doorbell (K : vk_consts) (vk : bcm_vk) (q_num db_val : Nat) : bcm_vk :=
  { vk with iowrites := vk.iowrites ++
      [(BAR_0, K.VK_BAR0_REGSEG_DB_BASE + q_num * K.VK_BAR0_REGSEG_DB_REG_GAP, db_val)] }

/-- Stores a descriptor back into the host-to-card channel. -/
def set_h2vk_msgq (vk : bcm_vk) (q_num : Nat) (msgq : bcm_vk_msgq) : bcm_vk :=
  { vk with h2vk_msg_chan :=
      { vk.h2vk_msg_chan with
        msgq := fun i => if i = q_num then msgq else vk.h2vk_msg_chan.msgq i } }

/-- What the card does to a host-to-card queue while the host sleeps in the
retry loop: it may publish a new read index.  `card_rd` lists the read
indices it publishes during the successive sleeps; when the list has run out
the card leaves the index alone. -/
def card_consume (msgq : bcm_vk_msgq) (card_rd : List Nat) : bcm_vk_msgq :=
  match card_rd with
  | [] => msgq
  | r :: _ => { msgq with rd_idx := r }

/-- The retry loop of `bcm_h2vk_msg_enqueue`,
`while ((avail < entry->h2vk_blks) && (retry++ < BCM_VK_H2VK_ENQ_RETRY))`,
with `avail` recomputed from the descriptor after every `msleep`.  The first
argument bounds the number of evaluations of the loop condition;
`BCM_VK_H2VK_ENQ_RETRY + 1` is never exhausted.  The result is
`(retry, msgq, sleeps)`. -/
def enq_wait_loop (qinfo : bcm_vk_sync_qinfo) (blks : Nat) :
    Nat → Nat → bcm_vk_msgq → List Nat → Nat → Nat × bcm_vk_msgq × Nat
  | 0, retry, msgq, _, sleeps => (retry, msgq, sleeps)
  | fuel + 1, retry, msgq, card_rd, sleeps =>
    if VK_MSGQ_AVAIL_SPACE msgq qinfo < blks then
      if retry < BCM_VK_H2VK_ENQ_RETRY then
        -- retry++, mutex_unlock, msleep, mutex_lock, avail = VK_MSGQ_AVAIL_SPACE
        enq_wait_loop qinfo blks fuel (retry + 1) (card_consume msgq card_rd) card_rd.tail
          (sleeps + 1)
      else
        -- the post-increment still happens when the comparison fails
        (retry + 1, msgq, sleeps)
    else (retry, msgq, sleeps)

/-- The copy loop of `bcm_h2vk_msg_enqueue`: `n` times
`*dst = *src; src++; wr_idx = VK_MSGQ_INC(qinfo, wr_idx, 1);
dst = VK_MSGQ_BLK_ADDR(qinfo, wr_idx)`.  The result is the ring and the final
write index. -/
def enq_copy_loop (qinfo : bcm_vk_sync_qinfo) :
    Nat → List vk_msg_blk → (Nat → vk_msg_blk) → Nat → (Nat → vk_msg_blk) × Nat
  | 0, _, ring, wr_idx => (ring, wr_idx)
  | n + 1, src, ring, wr_idx =>
    enq_copy_loop qinfo n src.tail
      (fun i => if i = wr_idx then src.headD vk_msg_blk.zero else ring i)
      (VK_MSGQ_INC qinfo wr_idx 1)

/-- What `bcm_h2vk_msg_enqueue` hands back: the return code, the device state,
the work entry (its `seq_num` is written) and the number of `msleep` calls. -/
structure enq_result where
  rc : Int
  vk : bcm_vk
  entry : bcm_vk_wkent
  sleeps : Nat

/-- `bcm_h2vk_msg_enqueue(vk, entry)`.  `card_rd` is what the card does to
the read index of the target queue during the sleeps of the retry loop. -/
def bcm_h2vk_msg_enqueue (K : vk_consts) (vk : bcm_vk) (entry : bcm_vk_wkent)
    (card_rd : List Nat) : enq_result :=
  let src := entry.h2vk_msg.headD vk_msg_blk.zero
  let q_num := BCM_VK_GET_Q src
  if entry.h2vk_blks ≠ (src.size + 1) % 4294967296 then
    { rc := -EMSGSIZE,
      vk := { vk with klog := vk.klog ++
                [klog_msg.enq_blks_mismatch entry.h2vk_blks ((src.size + 1) % 4294967296)
                  (BCM_VK_GET_MSG_ID src) src.function_id src.context_id] },
      entry := entry, sleeps := 0 }
  else
    let qinfo := vk.h2vk_msg_chan.sync_qinfo q_num
    let w := enq_wait_loop qinfo entry.h2vk_blks (BCM_VK_H2VK_ENQ_RETRY + 1) 0
      (vk.h2vk_msg_chan.msgq q_num) card_rd 0
    let retry := w.1
    let msgq := w.2.1
    let sleeps := w.2.2
    if retry > BCM_VK_H2VK_ENQ_RETRY then
      { rc := -EAGAIN, vk := set_h2vk_msgq vk q_num msgq, entry := entry, sleeps := sleeps }
    else
      -- entry->seq_num = seq_num++
      let entry1 := { entry with seq_num := vk.seq_num }
      let vk1 := { set_h2vk_msgq vk q_num msgq with seq_num := (vk.seq_num + 1) % 4294967296 }
      let wr_idx := msgq.wr_idx
      if wr_idx ≥ qinfo.q_size then
        let vk2 := { vk1 with klog := vk1.klog ++ [klog_msg.invalid_wr_idx wr_idx qinfo.q_size] }
        let vk3 := bcm_vk_set_host_alert (bcm_vk_blk_drv_access vk2) K.ERR_LOG_HOST_PCIE_DWN
        -- goto idx_err; return 0
        { rc := 0, vk := vk3, entry := entry1, sleeps := sleeps }
      else
        let c := enq_copy_loop qinfo entry.h2vk_blks entry.h2vk_msg msgq.ring wr_idx
        -- msgq->wr_idx = wr_idx
        let msgq1 := { msgq with ring := c.1, wr_idx := c.2 }
        let vk2 := set_h2vk_msgq vk1 q_num msgq1
        let vk3 := { vk2 with klog := vk2.klog ++
                      [klog_msg.blks_inserted q_num msgq1.rd_idx msgq1.wr_idx entry.h2vk_blks] }
        { rc := 0, vk := bcm_h2vk_doorbell K vk3 q_num ((c.2 + 1) % 4294967296),
          entry := entry1, sleeps := sleeps }

/-- The descriptor of a host-to-card queue after the card has acted during
`j` successive sleeps of the retry loop. -/
def card_after : Nat → bcm_vk_msgq → List Nat → bcm_vk_msgq
  | 0, msgq, _ => msgq
  | j + 1, msgq, card_rd => card_after j (card_consume msgq card_rd) card_rd.tail

/-! ## Pending-request table -/

/-- The two directions of the transport: `&vk->h2vk_msg_chan` and
`&vk->vk2h_msg_chan`. -/
inductive vk_chan_id
  | h2vk
  | vk2h
deriving DecidableEq, Repr

/-- The channel a `struct bcm_vk_msg_chan *` points to. -/
def get_chan (vk : bcm_vk) : vk_chan_id → bcm_vk_msg_chan
  | vk_chan_id.h2vk => vk.h2vk_msg_chan
  | vk_chan_id.vk2h => vk.vk2h_msg_chan

/-- Stores through a `struct bcm_vk_msg_chan *`. -/
def set_chan (vk : bcm_vk) (c : vk_chan_id) (chan : bcm_vk_msg_chan) : bcm_vk :=
  match c with
  | vk_chan_id.h2vk => { vk with h2vk_msg_chan := chan }
  | vk_chan_id.vk2h => { vk with vk2h_msg_chan := chan }

/-- Replaces the pending list of queue `q_num` of a channel. -/
def set_pendq (chan : bcm_vk_msg_chan) (q_num : Nat) (l : List bcm_vk_wkent) :
    bcm_vk_msg_chan :=
  { chan with pendq := fun i => if i = q_num then l else chan.pendq i }

/-- The list walk of `bcm_vk_find_pending`: the first entry whose first block
carries `msg_id`, and the list without it (`list_del`). -/
def find_pending_in (msg_id : Nat) :
    List bcm_vk_wkent → Option (bcm_vk_wkent × List bcm_vk_wkent)
  | [] => none
  | e :: rest =>
    if BCM_VK_GET_MSG_ID (e.h2vk_msg.headD vk_msg_blk.zero) = msg_id then some (e, rest)
    else
      match find_pending_in msg_id rest with
      | none => none
      | some p => some (p.1, e :: p.2)

/-- `bcm_vk_find_pending(vk, chan, q_num, msg_id)`: removes the first entry
with that message id from the pending list of queue `q_num` and clears the
id's bit in the bitmap; `none` when there is no such entry. -/
def bcm_vk_find_pending (vk : bcm_vk) (c : vk_chan_id) (q_num msg_id : Nat) :
    Option bcm_vk_wkent × bcm_vk :=
  match find_pending_in msg_id ((get_chan vk c).pendq q_num) with
  | none => (none, vk)
  | some p =>
    (some p.1,
      bcm_vk_msgid_bitmap_clear (set_chan vk c (set_pendq (get_chan vk c) q_num p.2)) msg_id 1)

/-- `bcm_vk_append_pendq(chan, q_num, entry)`: `list_add_tail`, and the
owning context's `pend_cnt++` when the entry carries a response. -/
def bcm_vk_append_pendq (vk : bcm_vk) (c : vk_chan_id) (q_num : Nat) (entry : bcm_vk_wkent) :
    bcm_vk :=
  let vk1 := set_chan vk c (set_pendq (get_chan vk c) q_num ((get_chan vk c).pendq q_num ++ [entry]))
  if entry.vk2h_msg.isSome then
    { vk1 with ctx := fun i =>
        if i = entry.ctx then { vk1.ctx i with pend_cnt := (vk1.ctx i).pend_cnt + 1 }
        else vk1.ctx i }
  else vk1

/-! ## Dequeue engine (card to host) -/

/-- Stores a descriptor back into the card-to-host channel. -/
def set_vk2h_msgq (vk : bcm_vk) (q_num : Nat) (msgq : bcm_vk_msgq) : bcm_vk :=
  { vk with vk2h_msg_chan :=
      { vk.vk2h_msg_chan with
        msgq := fun i => if i = q_num then msgq else vk.vk2h_msg_chan.msgq i } }

/-- The linearisation loop of `bcm_vk2h_msg_dequeue`: `n` times
`*dst = *src; dst++; rd_idx = VK_MSGQ_INC(qinfo, rd_idx, 1);
src = VK_MSGQ_BLK_ADDR(qinfo, rd_idx)`.  `src` is the index of the block the
source pointer is at.  The result is the linear buffer and the final read
index. -/
def deq_copy_loop (qinfo : bcm_vk_sync_qinfo) (ring : Nat → vk_msg_blk) :
    Nat → Nat → Nat → List vk_msg_blk × Nat
  | 0, _, rd_idx => ([], rd_idx)
  | n + 1, src, rd_idx =>
    let r := deq_copy_loop qinfo ring n (VK_MSGQ_INC qinfo rd_idx 1) (VK_MSGQ_INC qinfo rd_idx 1)
    (ring src :: r.1, r.2)

/-- What `bcm_vk2h_msg_dequeue` hands back: the return value and the device
state. -/
structure deq_result where
  rc : Int
  vk : bcm_vk

/-- The exit of `bcm_vk2h_msg_dequeue` at label `idx_err`: the debug line and
`return total`. -/
def deq_exit (vk : bcm_vk) (total : Nat) : deq_result :=
  { rc := (total : Int),
    vk := { vk with klog := vk.klog ++ [klog_msg.total_drained (total : Int)] } }

/-- The two nested loops of `bcm_vk2h_msg_dequeue`, entered at the test of the
inner `while` for queue `q_num` with `total` messages drained so far.
`kzalloc_ok n` tells whether the buffer allocation made after `n` messages
were drained succeeds.  The first argument bounds the number of loop tests
(one per extracted message and one per queue left behind); `none` means the
bound was too small. -/
def deq_loop (K : vk_consts) (kzalloc_ok : Nat → Bool) :
    Nat → Nat → Nat → bcm_vk → Option deq_result
  | 0, _, _, _ => none
  | fuel + 1, q_num, total, vk =>
    if q_num < vk.vk2h_msg_chan.q_nr then
      let msgq := vk.vk2h_msg_chan.msgq q_num
      let qinfo := vk.vk2h_msg_chan.sync_qinfo q_num
      if VK_MSGQ_EMPTY msgq = false then
        let rd_idx := msgq.rd_idx
        let src := rd_idx &&& VK_MSGQ_SIZE_MASK qinfo
        if rd_idx ≥ qinfo.q_size ∨
            (msgq.ring src).size > (qinfo.q_size + (4294967296 - 1)) % 4294967296 then
          let vk1 := { vk with klog := vk.klog ++
                        [klog_msg.invalid_rd_idx rd_idx (msgq.ring src).size qinfo.q_size] }
          -- goto idx_err
          some (deq_exit
            (bcm_vk_set_host_alert (bcm_vk_blk_drv_access vk1) K.ERR_LOG_HOST_PCIE_DWN) total)
        else
          let num_blks := ((msgq.ring src).size + 1) % 4294967296
          if kzalloc_ok total then
            let c := deq_copy_loop qinfo msgq.ring num_blks src rd_idx
            let data := c.1
            -- total++; msgq->rd_idx = rd_idx
            let vk1 := set_vk2h_msgq vk q_num { msgq with rd_idx := c.2 }
            let vk2 := { vk1 with klog := vk1.klog ++
                          [klog_msg.blks_extracted q_num c.2 msgq.wr_idx num_blks] }
            if (data.headD vk_msg_blk.zero).function_id = K.VK_FID_SHUTDOWN then
              -- kfree(data); continue
              deq_loop K kzalloc_ok fuel q_num (total + 1) vk2
            else
              let msg_id := BCM_VK_GET_MSG_ID (data.headD vk_msg_blk.zero)
              match bcm_vk_find_pending vk2 vk_chan_id.h2vk q_num msg_id with
              | (some entry, vk3) =>
                deq_loop K kzalloc_ok fuel q_num (total + 1)
                  (bcm_vk_append_pendq vk3 vk_chan_id.vk2h q_num
                    { entry with vk2h_blks := num_blks, vk2h_msg := some data })
              | (none, vk3) =>
                deq_loop K kzalloc_ok fuel q_num (total + 1)
                  { vk3 with klog := vk3.klog ++
                      [klog_msg.msg_id_not_found msg_id
                        (data.headD vk_msg_blk.zero).function_id (vk3.bmap msg_id)] }
          else
            -- return -ENOMEM
            some { rc := -ENOMEM,
                   vk := { vk with klog := vk.klog ++ [klog_msg.alloc_failure] } }
      else
        deq_loop K kzalloc_ok fuel (q_num + 1) total vk
    else
      some (deq_exit vk total)

/-- `bcm_vk2h_msg_dequeue(vk)`. -/
def bcm_vk2h_msg_dequeue (K : vk_consts) (kzalloc_ok : Nat → Bool) (fuel : Nat) (vk : bcm_vk) :
    Option deq_result :=
  deq_loop K kzalloc_ok fuel 0 0 vk

/-! ## Deferred work handler -/

/-- The first part of `bcm_vk_wq_handler(work)`: the notification and the
auto-download work items.  `handle_notf` and `auto_load` stand for
`bcm_vk_handle_notf` and `bcm_vk_auto_load_all_images`, which are defined
outside the sources at hand. -/
def wq_handler_offloads (handle_notf auto_load : bcm_vk → bcm_vk) (vk : bcm_vk) : bcm_vk :=
  let vk1 := if vk.wq_notf_pend then handle_notf { vk with wq_notf_pend := false } else vk
  if vk1.wq_dwnld_auto then
    { auto_load vk1 with wq_dwnld_auto := false, wq_dwnld_pend := false }
  else vk1

/-- `bcm_vk_wq_handler(work)`: the work items, then the drain, then
`bcm_vk_blk_drv_access` when the drain returned a negative value. -/
def bcm_vk_wq_handler (K : vk_consts) (handle_notf auto_load : bcm_vk → bcm_vk)
    (kzalloc_ok : Nat → Bool) (fuel : Nat) (vk : bcm_vk) : Option bcm_vk :=
  match bcm_vk2h_msg_dequeue K kzalloc_ok fuel (wq_handler_offloads handle_notf auto_load vk) with
  | none => none
  | some r =>
    if r.rc = 0 then
      some { r.vk with klog := r.vk.klog ++ [klog_msg.spurious_trigger] }
    else if r.rc < 0 then
      some (bcm_vk_blk_drv_access r.vk)
    else some r.vk

/-- The state of the device after `bcm_vk2h_msg_dequeue` declared a fatal
fault in state `vk`: transport access is blocked, the host alert
`ERR_LOG_HOST_PCIE_DWN` is raised and the notification work is pending, while
both channels (every queue's indices and ring, both pending tables), the
message-id bitmap and the contexts are as before. -/
def deq_faulted (K : vk_consts) (vk vk1 : bcm_vk) : Prop :=
  bcm_vk_drv_access_ok vk1 = false ∧
  vk1.host_alert_notfs = vk.host_alert_notfs ||| K.ERR_LOG_HOST_PCIE_DWN ∧
  vk1.wq_notf_pend = true ∧
  vk1.vk2h_msg_chan = vk.vk2h_msg_chan ∧
  vk1.h2vk_msg_chan = vk.h2vk_msg_chan ∧
  vk1.bmap = vk.bmap ∧
  vk1.ctx = vk.ctx

/-! ## Context registry -/

/-- `hash_32(val, bits)` of `linux/hash.h`: the high bits of the product with
`GOLDEN_RATIO_32`. -/
def hash_32 (val bits : Nat) : Nat :=
  ((val * 0x61C88647) % 4294967296) >>> (32 - bits)

/-- `bcm_vk_get_ctx(vk, pid)`: the index of the context handed out (`none`
for `NULL`) and the new device state. -/
def bcm_vk_get_ctx (K : vk_consts) (vk : bcm_vk) (pid : Nat) : Option Nat × bcm_vk :=
  let hash_idx := hash_32 (pid % 4294967296) K.VK_PID_HT_SHIFT_BIT
  if vk.reset_pid ≠ 0 then
    -- goto in_reset_exit
    (none, { vk with klog := vk.klog ++ [klog_msg.no_ctx_in_reset vk.reset_pid] })
  else
    match (List.range K.VK_CMPT_CTX_MAX).find? (fun i => !(vk.ctx i).in_use) with
    | none =>
      -- goto all_in_use_exit
      (none, { vk with klog := vk.klog ++ [klog_msg.all_ctx_in_use] })
    | some i =>
      (some i,
        { vk with
          ctx := fun j =>
            if j = i then
              { vk.ctx i with in_use := true, pid := pid, hash_idx := hash_idx, pend_cnt := 0 }
            else vk.ctx j
          pid_ht := fun h => if h = hash_idx then vk.pid_ht h ++ [i] else vk.pid_ht h
          kref := vk.kref + 1 })

/-- `bcm_vk_free_ctx(vk, ctx)`: the return value and the new device state.
`list_del(&ctx->node)` unlinks the context from the bucket it is on. -/
def bcm_vk_free_ctx (vk : bcm_vk) (ctx : Option Nat) : Int × bcm_vk :=
  match ctx with
  | none => (-EINVAL, { vk with klog := vk.klog ++ [klog_msg.null_ctx] })
  | some c =>
    let idx := (vk.ctx c).idx
    let pid := (vk.ctx c).pid
    if (vk.ctx idx).in_use = false then
      (0, { vk with klog := vk.klog ++ [klog_msg.ctx_not_in_use idx] })
    else
      let vk1 :=
        { vk with
          ctx := fun j =>
            if j = idx then { vk.ctx idx with in_use := false, miscdev := false } else vk.ctx j
          pid_ht := fun h => (vk.pid_ht h).filter (fun j => j != c) }
      let count := (vk1.pid_ht (vk1.ctx c).hash_idx).countP (fun j => (vk1.ctx j).pid == pid)
      ((count : Int), vk1)

/-- The number of contexts of the pool, other than `c`, that are in use with
pid `p`. -/
def other_ctx_with_pid (K : vk_consts) (vk : bcm_vk) (c p : Nat) : Nat :=
  (List.range K.VK_CMPT_CTX_MAX).countP
    (fun j => j != c && (vk.ctx j).in_use && (vk.ctx j).pid == p)

/-- The context pool and the pid hash table as `bcm_vk_data_init` leaves them:
every slot free and carrying its own index, every bucket empty. -/
def registry_fresh (vk : bcm_vk) : Prop :=
  (∀ i, (vk.ctx i).idx = i ∧ (vk.ctx i).in_use = false) ∧ ∀ h, vk.pid_ht h = []

/-- The states the registry reaches from a fresh one by `bcm_vk_get_ctx` and
`bcm_vk_free_ctx` calls, interleaved with steps of the rest of the driver that
leave the registry alone (they may change pending counters and the reset
owner). -/
inductive registry_reach (K : vk_consts) : bcm_vk → Prop
  | fresh (vk : bcm_vk) : registry_fresh vk → registry_reach K vk
  | get_ctx (vk : bcm_vk) (pid : Nat) :
      registry_reach K vk → registry_reach K (bcm_vk_get_ctx K vk pid).2
  | free_ctx (vk : bcm_vk) (ctx : Option Nat) :
      registry_reach K vk → registry_reach K (bcm_vk_free_ctx vk ctx).2
  | other (vk vk1 : bcm_vk) :
      registry_reach K vk →
      (∀ i, (vk1.ctx i).idx = (vk.ctx i).idx ∧ (vk1.ctx i).in_use = (vk.ctx i).in_use ∧
        (vk1.ctx i).pid = (vk.ctx i).pid ∧ (vk1.ctx i).hash_idx = (vk.ctx i).hash_idx) →
      vk1.pid_ht = vk.pid_ht → registry_reach K vk1

/-- The invariant of the registry: every slot carries its own index, only
slots of the pool are in use, and bucket `h` lists, without repetition,
exactly the slots in use whose pid hashes to `h`. -/
def registry_inv (K : vk_consts) (vk : bcm_vk) : Prop :=
  (∀ i, (vk.ctx i).idx = i) ∧
  (∀ i, (vk.ctx i).in_use = true →
    i < K.VK_CMPT_CTX_MAX ∧
      (vk.ctx i).hash_idx = hash_32 ((vk.ctx i).pid % 4294967296) K.VK_PID_HT_SHIFT_BIT) ∧
  (∀ h, (vk.pid_ht h).Nodup) ∧
  (∀ h i, i ∈ vk.pid_ht h ↔ ((vk.ctx i).in_use = true ∧ (vk.ctx i).hash_idx = h))

/-! ## Draining the pending table -/

/-- The ownership test of `bcm_vk_drain_all_pend` and `bcm_vk_read`,
`entry->ctx->idx == ctx->idx`, for the context at index `c`. -/
def wkent_owned (vk : bcm_vk) (c : Nat) (e : bcm_vk_wkent) : Bool :=
  (vk.ctx e.ctx).idx == (vk.ctx c).idx

/-- The walk of `bcm_vk_drain_all_pend` over one pending list
(`list_for_each_entry_safe`).  `ctx` is the context the drain is scoped to
(`none` for `NULL`).  The result is the device state, the entries left on the
list and the entries moved to `del_q`, both in list order. -/
def drain_list (ctx : Option Nat) :
    bcm_vk → List bcm_vk_wkent → bcm_vk × List bcm_vk_wkent × List bcm_vk_wkent
  | vk, [] => (vk, [], [])
  | vk, e :: rest =>
    match ctx with
    | none =>
      let r := drain_list ctx vk rest
      (r.1, r.2.1, e :: r.2.2)
    | some c =>
      if wkent_owned vk c e then
        let msg := e.h2vk_msg.headD vk_msg_blk.zero
        let msg_id := BCM_VK_GET_MSG_ID msg
        let bit_set := vk.bmap msg_id
        let responded := e.vk2h_msg.isSome
        let vk1 :=
          { vk with klog := vk.klog ++
              [klog_msg.drained msg.function_id msg.size msg_id e.seq_num msg.context_id
                (vk.ctx e.ctx).idx [msg.args.getD 0 0, msg.args.getD 1 0] responded bit_set] }
        let vk2 :=
          if responded then
            -- ctx->pend_cnt--
            { vk1 with ctx := fun i =>
                if i = c then { vk1.ctx c with pend_cnt := (vk1.ctx c).pend_cnt - 1 }
                else vk1.ctx i }
          else if bit_set then bcm_vk_msgid_bitmap_clear vk1 msg_id 1
          else vk1
        let r := drain_list ctx vk2 rest
        (r.1, r.2.1, e :: r.2.2)
      else
        let r := drain_list ctx vk rest
        (r.1, e :: r.2.1, r.2.2)

/-- The loop `for (num = 0; num < chan->q_nr; num++)` of
`bcm_vk_drain_all_pend`: the first argument is the number of queues still to
visit, the second the queue number `num`; the result is the device state and
`del_q`. -/
def drain_queues (c : vk_chan_id) (ctx : Option Nat) :
    Nat → Nat → bcm_vk → List bcm_vk_wkent → bcm_vk × List bcm_vk_wkent
  | 0, _, vk, del_q => (vk, del_q)
  | n + 1, num, vk, del_q =>
    let r := drain_list ctx vk ((get_chan vk c).pendq num)
    drain_queues c ctx n (num + 1) (set_chan r.1 c (set_pendq (get_chan r.1 c) num r.2.1))
      (del_q ++ r.2.2)

/-- `bcm_vk_drain_all_pend(dev, chan, ctx)`: the walk over the queues of the
channel, then the batch clean-up of `del_q`, whose entries are freed and
counted in a `uint32_t`. -/
def bcm_vk_drain_all_pend (vk : bcm_vk) (c : vk_chan_id) (ctx : Option Nat) : bcm_vk :=
  let r := drain_queues c ctx (get_chan vk c).q_nr 0 vk []
  let num := r.2.length % 4294967296
  if num ≠ 0 then { r.1 with klog := r.1.klog ++ [klog_msg.total_drained_items num] }
  else r.1

/-- The entries on the pending lists of the queues `num, ..., num + n - 1`, in
queue order, each list head first. -/
def pend_from (pendq : Nat → List bcm_vk_wkent) : Nat → Nat → List bcm_vk_wkent
  | 0, _ => []
  | n + 1, num => pendq num ++ pend_from pendq n (num + 1)

/-- The entries on the pending lists of all queues of a channel. -/
def pend_all (chan : bcm_vk_msg_chan) : List bcm_vk_wkent :=
  pend_from chan.pendq chan.q_nr 0

/-- Tells whether an entry carries no response yet and the internal message
id `id` in its first block. -/
def wkent_awaits (id : Nat) (e : bcm_vk_wkent) : Bool :=
  !e.vk2h_msg.isSome && BCM_VK_GET_MSG_ID (e.h2vk_msg.headD vk_msg_blk.zero) == id

/-! ## Shutdown message and last session -/

/-- `BAR_1` of `enum pci_barno`. -/
def BAR_1 : Nat := 1

/-- `BAR_CODEPUSH_SBL` of `bcm_vk.h`. -/
def BAR_CODEPUSH_SBL : Nat := 0x400

/-- `CODEPUSH_MASK` of `bcm_vk.h`. -/
def CODEPUSH_MASK : Nat := 0xFFFFF000

/-- `BCM_VK_SET_Q(msg_p, val)`; the complement of the mask is taken in 32
bits. -/
def BCM_VK_SET_Q (msg : vk_msg_blk) (val : Nat) : vk_msg_blk :=
  { msg with trans_id := (msg.trans_id &&& (4294967295 - BCM_VK_MSG_Q_MASK)) ||| val }

/-- What the calls of one file operation find in their environment: `rd32 bar
offset` is the value `vkread32` reads, `kzalloc_ok` tells whether the `kzalloc`
of the call succeeds, `copy_ok` whether `copy_from_user` or `copy_to_user`
copies everything, `ubuf i` is block `i` of the user buffer handed to `write`,
and `card_rd` is what the card does to the read index during the sleeps of an
enqueue.  The other fields stand for `bcm_vk_sg_alloc` and the scatter-gather
lists, which are defined outside the sources at hand: `sg_rc` is the return
value of `bcm_vk_sg_alloc`, `sg_msg m` the message `m` after it rewrote the
plane descriptors in place, `planes i` the pair `(data[i].address,
data[i].size)` it left, and `sgl i` block `i` of what `bcm_vk_append_ib_sgl`
copies from `entry->dma[..].sglist`. -/
structure vk_env where
  rd32 : Nat → Nat → Nat
  kzalloc_ok : Bool
  copy_ok : Bool
  ubuf : Nat → vk_msg_blk
  card_rd : List Nat
  sg_rc : Int
  sg_msg : List vk_msg_blk → List vk_msg_blk
  planes : Nat → Nat × Nat
  sgl : Nat → vk_msg_blk

/-- `bcm_vk_msgq_marker_valid(vk)`. -/
def bcm_vk_msgq_marker_valid (K : vk_consts) (rd32 : Nat → Nat → Nat) : Bool :=
  let fw_status := rd32 BAR_0 K.VK_BAR_FWSTS
  let rdy_marker :=
    if fw_status &&& K.VK_FWSTS_READY = K.VK_FWSTS_READY then rd32 BAR_1 K.VK_BAR1_MSGQ_DEF_RDY
    else 0
  rdy_marker == K.VK_BAR1_MSGQ_RDY_MARKER

/-- The work entry `bcm_vk_send_shutdown_msg` builds in `kzalloc`ed memory:
one block with function id `VK_FID_SHUTDOWN`, queue 0, message id
`VK_SIMPLEX_MSG_ID` and the arguments `shut_type` and `pid`. -/
def shutdown_entry (K : vk_consts) (shut_type pid : Nat) : bcm_vk_wkent :=
  let blk :=
    BCM_VK_SET_MSG_ID (BCM_VK_SET_Q { vk_msg_blk.zero with function_id := K.VK_FID_SHUTDOWN } 0)
      VK_SIMPLEX_MSG_ID
  { ctx := 0, seq_num := 0, usr_msg_id := 0, vk2h_blks := 0, vk2h_msg := none, h2vk_blks := 1,
    h2vk_msg := [{ blk with args := [shut_type % 4294967296, pid % 4294967296] }] }

/-- `bcm_vk_send_shutdown_msg(vk, shut_type, pid)`: the return value and the
new device state. -/
def bcm_vk_send_shutdown_msg (K : vk_consts) (vk : bcm_vk) (shut_type pid : Nat) (env : vk_env) :
    Int × bcm_vk :=
  if bcm_vk_msgq_marker_valid K env.rd32 = false then
    (-EINVAL,
      { vk with klog := vk.klog ++
          [klog_msg.invalid_marker (env.rd32 BAR_1 K.VK_BAR1_MSGQ_DEF_RDY)] })
  else if env.kzalloc_ok = false then
    (-ENOMEM, vk)
  else
    let entry := shutdown_entry K shut_type pid
    let r := bcm_h2vk_msg_enqueue K vk entry env.card_rd
    if r.rc ≠ 0 then
      (r.rc,
        { r.vk with klog := r.vk.klog ++
            [klog_msg.shutdown_msg_fails (BCM_VK_GET_Q (entry.h2vk_msg.headD vk_msg_blk.zero))
              pid] })
    else (r.rc, r.vk)

/-- `bcm_vk_handle_last_sess(vk, pid)`: the return value and the new device
state. -/
def bcm_vk_handle_last_sess (K : vk_consts) (vk : bcm_vk) (pid : Nat) (env : vk_env) :
    Int × bcm_vk :=
  if bcm_vk_drv_access_ok vk = false then
    (-EPERM, if vk.reset_pid = pid then { vk with reset_pid := 0 } else vk)
  else
    let vk1 := { vk with klog := vk.klog ++ [klog_msg.no_more_sessions pid] }
    if vk1.reset_pid ≠ pid then
      bcm_vk_send_shutdown_msg K vk1 K.VK_SHUTDOWN_PID pid env
    else
      -- put reset_pid to 0 if it is exiting last session
      (0, { vk1 with reset_pid := 0 })

/-! ## File operations -/

/-- The loop of `bcm_vk_append_ib_sgl` over the planes: the first argument is
the number of planes still to visit, then the plane number `i`, `item_cnt` and
`ib_sgl_size`; `room` is `vk->ib_sgl_size`.  The result is
`(item_cnt, ib_sgl_size)`. -/
def ib_sgl_loop (room : Nat) (planes : Nat → Nat × Nat) : Nat → Nat → Nat → Nat → Nat × Nat
  | 0, _, item_cnt, ib_sgl_size => (item_cnt, ib_sgl_size)
  | n + 1, i, item_cnt, ib_sgl_size =>
    if (planes i).1 ≠ 0 ∧ (ib_sgl_size + (planes i).2) % 4294967296 ≤ room then
      ib_sgl_loop room planes n (i + 1) ((item_cnt + 1) % 4294967296)
        ((ib_sgl_size + (planes i).2) % 4294967296)
    else ib_sgl_loop room planes n (i + 1) item_cnt ib_sgl_size

/-- `bcm_vk_append_ib_sgl(vk, entry, data, num_planes)`: the number of blocks
appended, the device state and the work entry with the blocks copied behind
its `h2vk_blks` blocks. -/
def bcm_vk_append_ib_sgl (K : vk_consts) (vk : bcm_vk) (entry : bcm_vk_wkent) (env : vk_env)
    (num_planes : Nat) : Nat × bcm_vk × bcm_vk_wkent :=
  let msg := entry.h2vk_msg.headD vk_msg_blk.zero
  let q_num := BCM_VK_GET_Q msg
  let msgq := vk.h2vk_msg_chan.msgq q_num
  let qinfo := vk.h2vk_msg_chan.sync_qinfo q_num
  let avail := VK_MSGQ_AVAIL_SPACE msgq qinfo
  if avail < qinfo.q_low then
    (0, { vk with klog := vk.klog ++ [klog_msg.skip_ib_sgl avail qinfo.q_size] }, entry)
  else
    let r := ib_sgl_loop vk.ib_sgl_size env.planes num_planes 0 0 0
    let blks := ((r.2 + K.VK_MSGQ_BLK_SIZE - 1) >>> K.VK_MSGQ_BLK_SZ_SHIFT) % 4294967296
    (blks,
      { vk with klog := vk.klog ++ [klog_msg.sgl_appended r.1 r.2 vk.ib_sgl_size] },
      { entry with h2vk_msg := entry.h2vk_msg ++ (List.range blks).map env.sgl })

/-- The message `copy_from_user` leaves in the work entry of `bcm_vk_write`:
the first `count >> VK_MSGQ_BLK_SZ_SHIFT` blocks of the user buffer. -/
def write_msg (K : vk_consts) (count : Nat) (env : vk_env) : List vk_msg_blk :=
  (List.range (count >>> K.VK_MSGQ_BLK_SZ_SHIFT)).map env.ubuf

/-- The queue number `bcm_vk_write` takes from the first block of the
message. -/
def write_q_num (K : vk_consts) (count : Nat) (env : vk_env) : Nat :=
  BCM_VK_GET_Q ((write_msg K count env).headD vk_msg_blk.zero)

/-- The branch `function_id == VK_FID_TRANS_BUF` of `bcm_vk_write` for the
context at index `c`: `some rc` when it leaves through `bcm_vk_write_free_msgid`
with return value `rc`, together with the device state and the work entry. -/
def write_trans_buf (K : vk_consts) (vk : bcm_vk) (c : Nat) (entry : bcm_vk_wkent)
    (env : vk_env) : Option Int × bcm_vk × bcm_vk_wkent :=
  let msg0 := entry.h2vk_msg.headD vk_msg_blk.zero
  if msg0.function_id = K.VK_FID_TRANS_BUF then
    if vk.reset_pid ≠ 0 then
      (some (-EACCES),
        { vk with klog := vk.klog ++ [klog_msg.no_transfer_in_reset (vk.ctx c).pid] }, entry)
    else
      let num_planes := (msg0.args.getD 0 0) &&& K.VK_CMD_PLANES_MASK
      let msg_size := msg0.size
      if msg_size > entry.h2vk_blks then
        (some (-EMSGSIZE), vk, entry)
      else
        -- rc = bcm_vk_sg_alloc(dev, entry->dma, dir, data, num_planes)
        let entry1 := { entry with h2vk_msg := env.sg_msg entry.h2vk_msg }
        if env.sg_rc ≠ 0 then
          (some env.sg_rc, vk, entry1)
        else
          let a := bcm_vk_append_ib_sgl K vk entry1 env num_planes
          let m := a.2.2.h2vk_msg.headD vk_msg_blk.zero
          (none, a.2.1,
            { a.2.2 with
              h2vk_blks := (a.2.2.h2vk_blks + a.1) % 4294967296
              h2vk_msg := { m with size := m.size + a.1 } :: a.2.2.h2vk_msg.tail })
  else (none, vk, entry)

/-- The end of `bcm_vk_write`, from `bcm_vk_append_pendq` on: the work entry
is stored on the pending list of queue `q_num`, then enqueued; when the
enqueue fails it is taken off the list again (which clears the bit of its
message id) and freed.  The work entry is on the pending list while
`bcm_h2vk_msg_enqueue` writes its `seq_num`, so the tail of the list is
replaced by the entry the enqueue hands back. -/
def write_send (K : vk_consts) (vk : bcm_vk) (q_num count : Nat) (entry : bcm_vk_wkent)
    (env : vk_env) : Int × bcm_vk :=
  let vk3 := bcm_vk_append_pendq vk vk_chan_id.h2vk q_num entry
  let r := bcm_h2vk_msg_enqueue K vk3 entry env.card_rd
  let vk4 :=
    set_chan r.vk vk_chan_id.h2vk
      (set_pendq r.vk.h2vk_msg_chan q_num
        ((r.vk.h2vk_msg_chan.pendq q_num).dropLast ++ [r.entry]))
  if r.rc ≠ 0 then
    (r.rc,
      (bcm_vk_find_pending { vk4 with klog := vk4.klog ++ [klog_msg.enqueue_fail] }
        vk_chan_id.h2vk q_num
        (BCM_VK_GET_MSG_ID (r.entry.h2vk_msg.headD vk_msg_blk.zero))).2)
  else ((count : Int), vk4)

/-- `bcm_vk_write(p_file, buf, count, f_pos)` on the file of the context at
index `c`: the return value and the new device state. -/
def bcm_vk_write (K : vk_consts) (vk : bcm_vk) (c count : Nat) (env : vk_env) : Int × bcm_vk :=
  if bcm_vk_drv_access_ok vk = false then
    (-EPERM, vk)
  else
    let vk0 := { vk with klog := vk.klog ++ [klog_msg.msg_count count] }
    if count &&& (K.VK_MSGQ_BLK_SIZE - 1) ≠ 0 then
      (-EBADR,
        { vk0 with klog := vk0.klog ++ [klog_msg.size_not_multiple count K.VK_MSGQ_BLK_SIZE] })
    else if env.kzalloc_ok = false then
      (-ENOMEM, vk0)
    else if env.copy_ok = false then
      -- goto bcm_vk_write_free_ent with rc still -EPERM
      (-EPERM, vk0)
    else
      let h2vk_blks := (count >>> K.VK_MSGQ_BLK_SZ_SHIFT) % 4294967296
      let h2vk_msg := write_msg K count env
      let msg0 := h2vk_msg.headD vk_msg_blk.zero
      let q_num := write_q_num K count env
      let msgq := vk0.h2vk_msg_chan.msgq q_num
      if (h2vk_blks + (vk0.ib_sgl_size >>> K.VK_MSGQ_BLK_SZ_SHIFT)) % 4294967296 >
          (msgq.size + 4294967295) % 4294967296 then
        (-EOVERFLOW,
          { vk0 with klog := vk0.klog ++
              [klog_msg.blk_size_exceed h2vk_blks ((msgq.size + 4294967295) % 4294967296)] })
      else
        let usr_msg_id := BCM_VK_GET_MSG_ID msg0
        let g := bcm_vk_get_msg_id vk0
        if g.1 = VK_MSG_ID_OVERFLOW then
          (-EOVERFLOW, { g.2 with klog := g.2.klog ++ [klog_msg.msg_id_overflow] })
        else
          let blk0 := BCM_VK_SET_MSG_ID msg0 g.1
          let entry : bcm_vk_wkent :=
            { ctx := c, seq_num := 0, usr_msg_id := usr_msg_id, vk2h_blks := 0, vk2h_msg := none,
              h2vk_blks := h2vk_blks, h2vk_msg := blk0 :: h2vk_msg.tail }
          let vk1 :=
            { g.2 with klog := g.2.klog ++
                [klog_msg.message_ids (g.2.ctx c).idx usr_msg_id (BCM_VK_GET_MSG_ID blk0)] }
          match write_trans_buf K vk1 c entry env with
          | (some rc, vk2, entry1) =>
            -- bcm_vk_write_free_msgid
            (rc,
              bcm_vk_msgid_bitmap_clear vk2
                (BCM_VK_GET_MSG_ID (entry1.h2vk_msg.headD vk_msg_blk.zero)) 1)
          | (none, vk2, entry1) => write_send K vk2 q_num count entry1 env

/-- The list walk of `bcm_vk_read`: the first entry owned by the context at
index `c`, and the list without it. -/
def read_find_in (vk : bcm_vk) (c : Nat) :
    List bcm_vk_wkent → Option (bcm_vk_wkent × List bcm_vk_wkent)
  | [] => none
  | e :: rest =>
    if wkent_owned vk c e then some (e, rest)
    else
      match read_find_in vk c rest with
      | none => none
      | some p => some (p.1, e :: p.2)

/-- The search loops of `bcm_vk_read` over the queues of the card-to-host
channel, high priority first: the first argument is the number of queues still
to visit, the second the queue number.  The result is the queue, the entry
found and the rest of that queue's list. -/
def read_find (vk : bcm_vk) (c : Nat) :
    Nat → Nat → Option (Nat × bcm_vk_wkent × List bcm_vk_wkent)
  | 0, _ => none
  | n + 1, q_num =>
    match read_find_in vk c (vk.vk2h_msg_chan.pendq q_num) with
    | some p => some (q_num, p.1, p.2)
    | none => read_find vk c n (q_num + 1)

/-- What `bcm_vk_read` hands back: the return value, the device state and the
blocks copied to the user buffer. -/
structure read_result where
  rc : Int
  vk : bcm_vk
  ubuf : List vk_msg_blk

/-- `bcm_vk_read(p_file, buf, count, f_pos)` on the file of the context at
index `c`; `copy_ok` tells whether `copy_to_user` copies everything. -/
def bcm_vk_read (K : vk_consts) (vk : bcm_vk) (c count : Nat) (copy_ok : Bool) : read_result :=
  if bcm_vk_drv_access_ok vk = false then
    { rc := -EPERM, vk := vk, ubuf := [] }
  else
    let vk0 := { vk with klog := vk.klog ++ [klog_msg.buf_count count] }
    match read_find vk0 c vk0.vk2h_msg_chan.q_nr 0 with
    | none => { rc := -ENOMSG, vk := vk0, ubuf := [] }
    | some (q_num, entry, rest) =>
      let msg := entry.vk2h_msg.getD []
      let blk0 := BCM_VK_SET_MSG_ID (msg.headD vk_msg_blk.zero) entry.usr_msg_id
      if count ≥ entry.vk2h_blks * K.VK_MSGQ_BLK_SIZE then
        -- list_del(&entry->node); ctx->pend_cnt--; found = true
        let vk1 := set_chan vk0 vk_chan_id.vk2h (set_pendq vk0.vk2h_msg_chan q_num rest)
        let vk2 :=
          { vk1 with ctx := fun i =>
              if i = c then { vk1.ctx c with pend_cnt := (vk1.ctx c).pend_cnt - 1 }
              else vk1.ctx i }
        let rsp_length := (entry.vk2h_blks * K.VK_MSGQ_BLK_SIZE) % 4294967296
        if copy_ok then
          { rc := (rsp_length : Int), vk := vk2, ubuf := (blk0 :: msg.tail).take entry.vk2h_blks }
        else
          { rc := -ENOMSG, vk := vk2, ubuf := [] }
      else
        -- rc = -EMSGSIZE: only the first block goes back
        let tmp_msg := { blk0 with size := (entry.vk2h_blks + 4294967295) % 4294967296 }
        if copy_ok then
          { rc := -EMSGSIZE, vk := vk0, ubuf := [tmp_msg] }
        else
          { rc := -EFAULT,
            vk := { vk0 with klog := vk0.klog ++ [klog_msg.first_block_error] }, ubuf := [] }

/-- `bcm_vk_release(inode, p_file)` on the file of the context at index `c`:
the return value and the new device state. -/
def bcm_vk_release (K : vk_consts) (vk : bcm_vk) (c : Nat) (env : vk_env) : Int × bcm_vk :=
  let pid := (vk.ctx c).pid
  let vk0 := { vk with klog := vk.klog ++ [klog_msg.draining_ctx (vk.ctx c).idx pid] }
  let vk1 := bcm_vk_drain_all_pend vk0 vk_chan_id.h2vk (some c)
  let vk2 := bcm_vk_drain_all_pend vk1 vk_chan_id.vk2h (some c)
  let f := bcm_vk_free_ctx vk2 (some c)
  let r := if f.1 = 0 then bcm_vk_handle_last_sess K f.2 pid env else f
  -- kref_put(&vk->kref, bcm_vk_release_data)
  (r.1, { r.2 with kref := r.2.kref - 1 })

/-! ## Reset -/

/-- `bcm_vk_trigger_reset(vk)`; `rd32 bar offset` is the value `vkread32`
reads. -/
def bcm_vk_trigger_reset (K : vk_consts) (vk : bcm_vk) (rd32 : Nat → Nat → Nat) : bcm_vk :=
  let vk1 := bcm_vk_drain_all_pend vk vk_chan_id.h2vk none
  let vk2 := bcm_vk_drain_all_pend vk1 vk_chan_id.vk2h none
  let dauth :=
    (List.range K.VK_BAR1_DAUTH_MAX).flatMap
      (fun i => [(BAR_1, K.VK_BAR1_DAUTH_STORE_ADDR i, 0), (BAR_1, K.VK_BAR1_DAUTH_VALID_ADDR i, 0)])
  let sotp := (List.range K.VK_BAR1_SOTP_REVID_MAX).map (fun i => (BAR_1, K.VK_BAR1_SOTP_REVID_ADDR i, 0))
  let value := rd32 BAR_0 BAR_CODEPUSH_SBL &&& (4294967295 - CODEPUSH_MASK)
  let vk3 :=
    { vk2 with
      iowrites := vk2.iowrites ++
        [(BAR_1, K.VK_BAR1_MSGQ_DEF_RDY, 0), (BAR_1, K.VK_BAR1_BOOT1_VER_TAG, 0)] ++ dauth ++ sotp ++
        [(BAR_0, BAR_CODEPUSH_SBL, value), (BAR_0, K.VK_BAR_FWSTS, K.VK_FWSTS_RESET_MBOX_DB)]
      card_info := fun _ => 0
      alert_cnts := fun _ => 0 }
  let vk4 := bcm_h2vk_doorbell K vk3 K.VK_BAR0_RESET_DB_NUM K.VK_BAR0_RESET_DB_SOFT
  let vk5 :=
    { vk4 with
      iowrites := vk4.iowrites ++ [(BAR_0, K.BAR_OS_UPTIME, 0)]
      host_alert_notfs := 0
      host_alert_flags := 0
      peer_alert_notfs := 0
      peer_alert_flags := 0 }
  -- bitmap_clear(vk->bmap, 0, VK_MSG_ID_BITMAP_SIZE)
  bcm_vk_msgid_bitmap_clear vk5 0 VK_MSG_ID_BITMAP_SIZE

/-- Tells whether an entry carries a response (`entry->vk2h_msg` is set). -/
def wkent_responded (e : bcm_vk_wkent) : Bool :=
  e.vk2h_msg.isSome

/-- What a context-scoped walk of `bcm_vk_drain_all_pend` over channel `chan`
for the context at index `cx`, having moved the entries `D` to `del_q`, has
done to the device state `vk`: only the bitmap, the contexts, the log and the
pending lists of `chan` have changed; a bit is set afterwards exactly when it
was set before and no entry of `D` without response carries its id; the
pending counter of `cx` went down by the number of entries of `D` with a
response, and nothing else changed in any context. -/
def drain_rel (chan : vk_chan_id) (cx : Nat) (vk X : bcm_vk) (D : List bcm_vk_wkent) : Prop :=
  X = { vk with
        bmap := X.bmap, ctx := X.ctx, klog := X.klog,
        h2vk_msg_chan := X.h2vk_msg_chan, vk2h_msg_chan := X.vk2h_msg_chan } ∧
  (∀ c, c ≠ chan → get_chan X c = get_chan vk c) ∧
  get_chan X chan = { get_chan vk chan with pendq := (get_chan X chan).pendq } ∧
  (∀ id, X.bmap id = (vk.bmap id && !D.any (wkent_awaits id))) ∧
  (∀ i, X.ctx i =
    if i = cx then
      { vk.ctx cx with pend_cnt := (vk.ctx cx).pend_cnt - (D.countP wkent_responded : Nat) }
    else vk.ctx i) ∧
  ∃ l, X.klog = vk.klog ++ l

/-- The message at the head of card-to-host queue `q_num`, linearised as the
copy loop of `bcm_vk2h_msg_dequeue` does (`num_blks = size + 1` blocks from
the read index on), and the read index behind it. -/
def deq_head (vk : bcm_vk) (q_num : Nat) : List vk_msg_blk × Nat :=
  let msgq := vk.vk2h_msg_chan.msgq q_num
  let qinfo := vk.vk2h_msg_chan.sync_qinfo q_num
  let src := msgq.rd_idx &&& VK_MSGQ_SIZE_MASK qinfo
  deq_copy_loop qinfo msgq.ring (((msgq.ring src).size + 1) % 4294967296) src msgq.rd_idx

/-- The inner loop of `bcm_vk2h_msg_dequeue` is at a message of queue `q_num`
that passes the index check: the queue exists and is not empty, the read
index is inside the ring and the size field of the head block is at most
`q_size - 1`. -/
def deq_head_ok (vk : bcm_vk) (q_num : Nat) : Prop :=
  q_num < vk.vk2h_msg_chan.q_nr ∧
  VK_MSGQ_EMPTY (vk.vk2h_msg_chan.msgq q_num) = false ∧
  (vk.vk2h_msg_chan.msgq q_num).rd_idx < (vk.vk2h_msg_chan.sync_qinfo q_num).q_size ∧
  ((vk.vk2h_msg_chan.msgq q_num).ring
      ((vk.vk2h_msg_chan.msgq q_num).rd_idx &&&
        VK_MSGQ_SIZE_MASK (vk.vk2h_msg_chan.sync_qinfo q_num))).size ≤
    ((vk.vk2h_msg_chan.sync_qinfo q_num).q_size + (4294967296 - 1)) % 4294967296

/-- The body of the inner loop of `bcm_vk2h_msg_dequeue` for the message at
the head of queue `q_num`, after the index check has passed and the buffer has
been allocated: the copy out of the ring, the new read index, and then either
the one-way message is dropped, or the pending entry is looked up and moved to
the response list, or the orphan is logged and dropped. -/
def deq_msg_step (K : vk_consts) (vk : bcm_vk) (q_num : Nat) : bcm_vk :=
  let msgq := vk.vk2h_msg_chan.msgq q_num
  let qinfo := vk.vk2h_msg_chan.sync_qinfo q_num
  let src := msgq.rd_idx &&& VK_MSGQ_SIZE_MASK qinfo
  let num_blks := ((msgq.ring src).size + 1) % 4294967296
  let c := deq_head vk q_num
  let data := c.1
  let vk1 := set_vk2h_msgq vk q_num { msgq with rd_idx := c.2 }
  let vk2 := { vk1 with klog := vk1.klog ++
                [klog_msg.blks_extracted q_num c.2 msgq.wr_idx num_blks] }
  if (data.headD vk_msg_blk.zero).function_id = K.VK_FID_SHUTDOWN then
    vk2
  else
    let msg_id := BCM_VK_GET_MSG_ID (data.headD vk_msg_blk.zero)
    match bcm_vk_find_pending vk2 vk_chan_id.h2vk q_num msg_id with
    | (some entry, vk3) =>
      bcm_vk_append_pendq vk3 vk_chan_id.vk2h q_num
        { entry with vk2h_blks := num_blks, vk2h_msg := some data }
    | (none, vk3) =>
      { vk3 with klog := vk3.klog ++
          [klog_msg.msg_id_not_found msg_id
            (data.headD vk_msg_blk.zero).function_id (vk3.bmap msg_id)] }

/-! ## Reachable states of the transport -/

/-- Tells whether the first block of the entry carries the internal message
id `id`. -/
def wkent_has_id (id : Nat) (e : bcm_vk_wkent) : Bool :=
  BCM_VK_GET_MSG_ID (e.h2vk_msg.headD vk_msg_blk.zero) == id

/-- The number of work entries on the host-to-card pending lists that carry
the internal message id `id`. -/
def pend_id_count (vk : bcm_vk) (id : Nat) : Nat :=
  (pend_all vk.h2vk_msg_chan).countP (wkent_has_id id)

/-- The transport after initialisation: the allocator cursor is a valid id,
every bit of the bitmap is clear and every pending list of both channels is
empty.  Queue geometry, rings and contexts are arbitrary. -/
def transport_fresh (vk : bcm_vk) : Prop :=
  vk.msg_id < VK_MSG_ID_BITMAP_SIZE ∧ (∀ i, vk.bmap i = false) ∧
  (∀ q, vk.h2vk_msg_chan.pendq q = []) ∧ (∀ q, vk.vk2h_msg_chan.pendq q = [])

/-- The states the transport reaches from initialisation through
`bcm_vk_write`, `bcm_vk2h_msg_dequeue` (when it returns), `bcm_vk_read`,
`bcm_vk_release` (the context-scoped drains of a session close),
`bcm_vk_trigger_reset` and `bcm_vk_get_ctx`, with the card rewriting queue
descriptors and rings at will in between.  A write names a queue of the
channel (`msgq[q_num]` is dereferenced, so other queue numbers are outside
the defined behaviour of the C code), and `bcm_vk_sg_alloc`, which is defined
outside the sources at hand, is taken to leave the message with a first block
that has the transport id it had. -/
inductive transport_reach (K : vk_consts) : bcm_vk → Prop
  | init (vk : bcm_vk) : transport_fresh vk → transport_reach K vk
  | write (vk : bcm_vk) (c count : Nat) (env : vk_env) :
      transport_reach K vk →
      write_q_num K count env < vk.h2vk_msg_chan.q_nr →
      (∀ b t, ∃ b1 t1, env.sg_msg (b :: t) = b1 :: t1 ∧ b1.trans_id = b.trans_id) →
      transport_reach K (bcm_vk_write K vk c count env).2
  | dequeue (vk : bcm_vk) (kzalloc_ok : Nat → Bool) (fuel : Nat) (r : deq_result) :
      transport_reach K vk →
      bcm_vk2h_msg_dequeue K kzalloc_ok fuel vk = some r →
      transport_reach K r.vk
  | read (vk : bcm_vk) (c count : Nat) (copy_ok : Bool) :
      transport_reach K vk → transport_reach K (bcm_vk_read K vk c count copy_ok).vk
  | release (vk : bcm_vk) (c : Nat) (env : vk_env) :
      transport_reach K vk → transport_reach K (bcm_vk_release K vk c env).2
  | trigger_reset (vk : bcm_vk) (rd32 : Nat → Nat → Nat) :
      transport_reach K vk → transport_reach K (bcm_vk_trigger_reset K vk rd32)
  | get_ctx (vk : bcm_vk) (pid : Nat) :
      transport_reach K vk → transport_reach K (bcm_vk_get_ctx K vk pid).2
  | card (vk : bcm_vk) (h2vk_msgq vk2h_msgq : Nat → bcm_vk_msgq) :
      transport_reach K vk →
      transport_reach K
        { vk with
          h2vk_msg_chan := { vk.h2vk_msg_chan with msgq := h2vk_msgq }
          vk2h_msg_chan := { vk.vk2h_msg_chan with msgq := vk2h_msgq } }

/-- The invariant of the message-id bitmap and the pending tables: the
allocator cursor is a valid id; only queues of the host-to-card channel have
pending entries; entries on host-to-card lists carry no response and entries
on card-to-host lists carry one; and for every id the bit is set exactly when
one entry on the host-to-card lists carries the id, with no entry carrying
it when the bit is clear. -/
def bitmap_inv (vk : bcm_vk) : Prop :=
  vk.msg_id < VK_MSG_ID_BITMAP_SIZE ∧
  (∀ q, vk.h2vk_msg_chan.q_nr ≤ q → vk.h2vk_msg_chan.pendq q = []) ∧
  (∀ q, ∀ e ∈ vk.h2vk_msg_chan.pendq q, e.vk2h_msg = none) ∧
  (∀ q, ∀ e ∈ vk.vk2h_msg_chan.pendq q, e.vk2h_msg.isSome = true) ∧
  (∀ id, id < VK_MSG_ID_BITMAP_SIZE →
    (vk.bmap id = true → pend_id_count vk id = 1) ∧
    (vk.bmap id = false → pend_id_count vk id = 0))

/-! ## Heartbeat monitor -/

/-- `BCM_VK_HB_TIMER_S`: the period of the heartbeat timer in seconds. -/
def BCM_VK_HB_TIMER_S : Nat := 3

/-- `BCM_VK_HB_TIMER_VALUE`, that is `BCM_VK_HB_TIMER_S * HZ`; `HZ` is the
number of jiffies in a second. -/
def BCM_VK_HB_TIMER_VALUE (HZ : Nat) : Nat := BCM_VK_HB_TIMER_S * HZ

/-- `BCM_VK_HB_LOST_MAX`, that is `27 / BCM_VK_HB_TIMER_S`. -/
def BCM_VK_HB_LOST_MAX : Nat := 27 / BCM_VK_HB_TIMER_S

/-- `bcm_vk_hb_poll(t)` on the timer of the device `vk`: `rd32 bar offset` is
the value `vkread32` reads, `jiffies` the time of the call.  `lost_cnt++` is
taken in 32 bits. -/
def bcm_vk_hb_poll (K : vk_consts) (vk : bcm_vk) (rd32 : Nat → Nat → Nat) (jiffies HZ : Nat) :
    bcm_vk :=
  let hb := vk.hb_ctrl
  let vk1 :=
    if bcm_vk_drv_access_ok vk then
      let uptime_s := rd32 BAR_0 K.BAR_OS_UPTIME
      let lost_cnt := if uptime_s = hb.last_uptime then (hb.lost_cnt + 1) % 4294967296 else 0
      { vk with
        klog := vk.klog ++ [klog_msg.hb_uptime hb.last_uptime uptime_s lost_cnt]
        hb_ctrl := { hb with lost_cnt := lost_cnt, last_uptime := uptime_s } }
    else
      { vk with hb_ctrl := { hb with lost_cnt := 0 } }
  let vk2 :=
    if vk1.hb_ctrl.lost_cnt > BCM_VK_HB_LOST_MAX then
      bcm_vk_set_host_alert
        (bcm_vk_blk_drv_access
          { vk1 with klog := vk1.klog ++
              [klog_msg.hb_misses BCM_VK_HB_LOST_MAX (BCM_VK_HB_LOST_MAX * BCM_VK_HB_TIMER_S)] })
        K.ERR_LOG_HOST_HB_FAIL
    else vk1
  -- re-arm timer
  { vk2 with hb_ctrl := { vk2.hb_ctrl with timer := some (jiffies + BCM_VK_HB_TIMER_VALUE HZ) } }

/-- `bcm_vk_hb_init(vk)`: sets the timer up and arms it. -/
def bcm_vk_hb_init (vk : bcm_vk) (jiffies HZ : Nat) : bcm_vk :=
  { vk with hb_ctrl := { vk.hb_ctrl with timer := some (jiffies + BCM_VK_HB_TIMER_VALUE HZ) } }

/-- `bcm_vk_hb_deinit(vk)`: `del_timer`. -/
def bcm_vk_hb_deinit (vk : bcm_vk) : bcm_vk :=
  { vk with hb_ctrl := { vk.hb_ctrl with timer := none } }

/-! ## Queue synchronisation -/

/-- The loop `for (j = 0; j < num_q; j++)` of `bcm_vk_sync_msgq` over the
queues of one channel.  The first argument is the number of queues still to
visit, then the queue number `j` and the BAR 1 offset `off` the pointer `msgq`
is at; `bar1_msgq off` is the descriptor found at that offset and `bar1_nxt
off` its field `nxt`.  The result is the channel, the offset of the next
descriptor and the log lines. -/
def sync_queues (K : vk_consts) (bar1_msgq : Nat → bcm_vk_msgq) (bar1_nxt : Nat → Nat) :
    Nat → Nat → Nat → bcm_vk_msg_chan → List klog_msg → bcm_vk_msg_chan × Nat × List klog_msg
  | 0, _, off, chan, log => (chan, off, log)
  | n + 1, j, off, chan, log =>
    let q := bar1_msgq off
    sync_queues K bar1_msgq bar1_nxt n (j + 1) (off + K.SIZEOF_MSGQ + bar1_nxt off)
      { chan with
        msgq := fun i => if i = j then q else chan.msgq i
        sync_qinfo := fun i =>
          if i = j then
            { q_size := q.size, q_low := q.size >>> 1,
              q_mask := (q.size + (4294967296 - 1)) % 4294967296 }
          else chan.sync_qinfo i }
      (log ++ [klog_msg.msgq_info j q.rd_idx q.wr_idx q.size (bar1_nxt off)])

/-- The part of `bcm_vk_sync_msgq` between the already-in-sync check and
`atomic_set(&vk->msgq_inited, 1)`: for the host-to-card channel, then for the
card-to-host channel, the cached geometry is zeroed (`memset`) and the
descriptors are walked from BAR 1 offset `msgq_off` on. -/
def sync_msgq_parse (K : vk_consts) (vk : bcm_vk) (num_q msgq_off : Nat)
    (bar1_msgq : Nat → bcm_vk_msgq) (bar1_nxt : Nat → Nat) : bcm_vk :=
  let zero : Nat → bcm_vk_sync_qinfo := fun _ => { q_size := 0, q_low := 0, q_mask := 0 }
  let h := sync_queues K bar1_msgq bar1_nxt num_q 0 msgq_off
    { vk.h2vk_msg_chan with sync_qinfo := zero } []
  let v := sync_queues K bar1_msgq bar1_nxt num_q 0 h.2.1
    { vk.vk2h_msg_chan with sync_qinfo := zero } []
  { vk with
    h2vk_msg_chan := h.1
    vk2h_msg_chan := v.1
    klog := vk.klog ++ h.2.2 ++ v.2.2 }

/-- `bcm_vk_sync_msgq(vk, force_sync)`: the return value and the new device
state.  `rd32 bar offset` is the value `vkread32` reads, `bar1_msgq` and
`bar1_nxt` are the queue descriptors the card keeps in BAR 1. -/
def bcm_vk_sync_msgq (K : vk_consts) (vk : bcm_vk) (force_sync : Bool) (rd32 : Nat → Nat → Nat)
    (bar1_msgq : Nat → bcm_vk_msgq) (bar1_nxt : Nat → Nat) : Int × bcm_vk :=
  if bcm_vk_msgq_marker_valid K rd32 = false then
    (0, { vk with klog := vk.klog ++ [klog_msg.marker_not_initialized] })
  else
    let msgq_off := rd32 BAR_1 K.VK_BAR1_MSGQ_CTRL_OFF
    -- each side is always half the total
    let num_q := rd32 BAR_1 K.VK_BAR1_MSGQ_NR / 2
    let vk1 :=
      { vk with
        h2vk_msg_chan := { vk.h2vk_msg_chan with q_nr := num_q }
        vk2h_msg_chan := { vk.vk2h_msg_chan with q_nr := num_q } }
    if bcm_vk_drv_access_ok vk1 = true ∧ force_sync = false then
      -- goto already_inited
      (-EPERM, { vk1 with klog := vk1.klog ++ [klog_msg.msgq_already_in_sync] })
    else
      (0, { sync_msgq_parse K vk1 num_q msgq_off bar1_msgq bar1_nxt with msgq_inited := true })

/-- The BAR 1 offset of the `k`-th queue descriptor of the chain that starts
at `off`: each descriptor is followed, `nxt` bytes behind its end, by the
next one. -/
def msgq_chain_off (K : vk_consts) (bar1_nxt : Nat → Nat) : Nat → Nat → Nat
  | 0, off => off
  | k + 1, off => msgq_chain_off K bar1_nxt k (off + K.SIZEOF_MSGQ + bar1_nxt off)

/-! ## Reset request -/

/-- `BAR_FB_OPEN` of `bcm_vk.h`. -/
def BAR_FB_OPEN : Nat := 0x404

/-- `SRAM_OPEN` of `bcm_vk.h`. -/
def SRAM_OPEN : Nat := 0x10000

/-- `DDR_OPEN` of `bcm_vk.h`. -/
def DDR_OPEN : Nat := 0x20000

/-- `BCM_VK_MIN_RESET_TIME_SEC` of `bcm_vk_dev.c`. -/
def BCM_VK_MIN_RESET_TIME_SEC : Nat := 2

/-- `MSEC_PER_SEC`. -/
def MSEC_PER_SEC : Nat := 1000

/-- Modelled from the spec: `struct vk_reset` (declared in a header that is
not part of the sources at hand), the argument of the reset request: two
32-bit words, the second one the grace period in seconds. -/
structure vk_reset where
  arg1 : Nat
  arg2 : Nat
deriving DecidableEq, Repr

/-- What `bcm_vk_reset` hands back: the return value, the device state, the
pids that were sent `SIGKILL`, in order, and the time slept in milliseconds. -/
structure reset_result where
  rc : Int
  vk : bcm_vk
  killed : List Nat
  slept : Nat

/-- The walk of `bcm_vk_reset` over the pid hash table: the pid of every
context linked in a bucket, bucket by bucket, that is not the reset owner. -/
def reset_kill_pids (K : vk_consts) (vk : bcm_vk) : List Nat :=
  (List.range K.VK_PID_HT_SZ).flatMap
    (fun i => ((vk.pid_ht i).map (fun c => (vk.ctx c).pid)).filter (fun p => p != vk.reset_pid))

/-- `bcm_vk_reset(vk, arg)` of `bcm_vk_dev.c`, called by the task with pid
`current` (not 0) with the user argument `reset`.  The source keeps the reset
owner as the task pointer `reset_ppid`, `NULL` when there is none; it is
embedded as the owner's pid in `reset_pid`, 0 when there is none, and the
contexts are identified by their pid likewise. -/
def bcm_vk_reset (K : vk_consts) (vk : bcm_vk) (current : Nat) (reset : vk_reset) (env : vk_env) :
    reset_result :=
  if env.copy_ok = false then
    { rc := -EACCES, vk := vk, killed := [], slept := 0 }
  else
    let vk0 := { vk with klog := vk.klog ++ [klog_msg.issue_reset reset.arg1 reset.arg2] }
    let arg2 :=
      if reset.arg2 < BCM_VK_MIN_RESET_TIME_SEC then BCM_VK_MIN_RESET_TIME_SEC else reset.arg2
    -- send card level graceful shut down
    let vk1 := (bcm_vk_send_shutdown_msg K vk0 K.VK_SHUTDOWN_GRACEFUL 0 env).2
    if vk1.reset_pid = 0 then
      let vk2 := { vk1 with reset_pid := current }
      -- msleep(reset.arg2 * MSEC_PER_SEC), then kill host apps
      let killed := reset_kill_pids K vk2
      let vk3 := { vk2 with klog := vk2.klog ++ killed.map klog_msg.send_kill_signal }
      let vk4 := bcm_vk_trigger_reset K vk3 env.rd32
      -- msleep(100)
      let ram_open := env.rd32 BAR_0 BAR_FB_OPEN
      { rc := 0,
        vk := { vk4 with klog := vk4.klog ++
                  [klog_msg.reset_completed ram_open (ram_open &&& SRAM_OPEN != 0)
                    (ram_open &&& DDR_OPEN != 0)] },
        killed := killed,
        slept := (arg2 * MSEC_PER_SEC) % 4294967296 + 100 }
    else
      { rc := -EACCES,
        vk := { vk1 with klog := vk1.klog ++ [klog_msg.reset_already_launched vk1.reset_pid] },
        killed := [], slept := 0 }

/-- The dequeue engine faces, at the head of card-to-host queue 0, a message
that declares `size = q_size - 1`, that is `q_size` blocks: the queue exists,
its cached geometry is that of a ring of `2 ^ k` blocks, the read index is
inside the ring and differs from the write index, and the message is one-way
or answers no request on the pending list of the queue. -/
def deq_stuck (K : vk_consts) (vk : bcm_vk) (k : Nat) : Prop :=
  0 < vk.vk2h_msg_chan.q_nr ∧ k ≤ 31 ∧
  (vk.vk2h_msg_chan.sync_qinfo 0).q_size = 2 ^ k ∧
  (vk.vk2h_msg_chan.sync_qinfo 0).q_mask = 2 ^ k - 1 ∧
  (vk.vk2h_msg_chan.msgq 0).rd_idx < 2 ^ k ∧
  (vk.vk2h_msg_chan.msgq 0).wr_idx ≠ (vk.vk2h_msg_chan.msgq 0).rd_idx ∧
  ((vk.vk2h_msg_chan.msgq 0).ring (vk.vk2h_msg_chan.msgq 0).rd_idx).size = 2 ^ k - 1 ∧
  (((vk.vk2h_msg_chan.msgq 0).ring (vk.vk2h_msg_chan.msgq 0).rd_idx).function_id =
      K.VK_FID_SHUTDOWN ∨
    ∀ x ∈ vk.h2vk_msg_chan.pendq 0,
      BCM_VK_GET_MSG_ID (x.h2vk_msg.headD vk_msg_blk.zero) ≠
        BCM_VK_GET_MSG_ID ((vk.vk2h_msg_chan.msgq 0).ring (vk.vk2h_msg_chan.msgq 0).rd_idx))

/-- The number of entries on the card-to-host pending lists of the queues of
the channel that are owned by the context at index `c`. -/
def resp_owned_count (vk : bcm_vk) (c : Nat) : Nat :=
  (pend_all vk.vk2h_msg_chan).countP (wkent_owned vk c)

/-- The queue number `bcm_h2vk_msg_enqueue` takes from the first block of the
entry. -/
abbrev enq_q_num (entry : bcm_vk_wkent) : Nat :=
  BCM_VK_GET_Q (entry.h2vk_msg.headD vk_msg_blk.zero)

/-- The descriptor of the queue an entry is bound for. -/
abbrev enq_msgq (vk : bcm_vk) (entry : bcm_vk_wkent) : bcm_vk_msgq :=
  vk.h2vk_msg_chan.msgq (enq_q_num entry)

/-- The cached geometry of the queue an entry is bound for. -/
abbrev enq_qinfo (vk : bcm_vk) (entry : bcm_vk_wkent) : bcm_vk_sync_qinfo :=
  vk.h2vk_msg_chan.sync_qinfo (enq_q_num entry)

/-- Recognises the log line of an extracted message. -/
def klog_msg.is_extracted : klog_msg → Bool
  | klog_msg.blks_extracted _ _ _ _ => true
  | _ => false

/-- Recognises the log line of a protocol fault found by the dequeue engine. -/
def klog_msg.is_invalid_rd_idx : klog_msg → Bool
  | klog_msg.invalid_rd_idx _ _ _ => true
  | _ => false

/-- What a finished run of the dequeue loops, entered with `total` messages
drained in state `vk`, has done: its log lines `l` come after the old ones;
either an allocation failed, no fault was found and the result is `-ENOMEM`,
or no allocation failed and the result is `total` plus the number of messages
extracted; and transport access is blocked if a protocol fault was found. -/
def deq_post (total : Nat) (vk : bcm_vk) (r : deq_result) : Prop :=
  ∃ l, r.vk.klog = vk.klog ++ l ∧
    ((r.rc = -ENOMEM ∧ klog_msg.alloc_failure ∈ l ∧ l.any klog_msg.is_invalid_rd_idx = false) ∨
      (r.rc = ((total + l.countP klog_msg.is_extracted : Nat) : Int) ∧
        klog_msg.alloc_failure ∉ l)) ∧
    (l.any klog_msg.is_invalid_rd_idx = true → bcm_vk_drv_access_ok r.vk = false)

/-! ## Example data -/

/-- Example values for the constants of the absent headers. -/
def ex_consts : vk_consts :=
  { VK_BAR0_REGSEG_DB_BASE := 0x484, VK_BAR0_REGSEG_DB_REG_GAP := 8,
    ERR_LOG_HOST_PCIE_DWN := 0x8000, ERR_LOG_HOST_HB_FAIL := 0x4000,
    VK_FID_SHUTDOWN := 255, VK_FID_TRANS_BUF := 5, VK_SHUTDOWN_PID := 1,
    VK_CMD_PLANES_MASK := 0xF, VK_MSGQ_BLK_SZ_SHIFT := 4, VK_MSGQ_BLK_SIZE := 16,
    VK_CMPT_CTX_MAX := 4,
    VK_PID_HT_SHIFT_BIT := 7, VK_BAR_FWSTS := 0x41C, VK_FWSTS_READY := 0x3FC,
    VK_FWSTS_RESET_MBOX_DB := 0x10000000, VK_BAR1_MSGQ_DEF_RDY := 0x60c0,
    VK_BAR1_MSGQ_RDY_MARKER := 0xbeefcafe, VK_BAR1_BOOT1_VER_TAG := 0x625c,
    VK_BAR1_DAUTH_MAX := 2, VK_BAR1_DAUTH_STORE_ADDR := fun i => 0x3200 + 64 * i,
    VK_BAR1_DAUTH_VALID_ADDR := fun i => 0x3220 + 64 * i, VK_BAR1_SOTP_REVID_MAX := 2,
    VK_BAR1_SOTP_REVID_ADDR := fun i => 0x3270 + 4 * i, VK_BAR0_RESET_DB_NUM := 3,
    VK_BAR0_RESET_DB_SOFT := 0xffffffff, BAR_OS_UPTIME := 0x444,
    VK_BAR1_MSGQ_CTRL_OFF := 0x60c4, VK_BAR1_MSGQ_NR := 0x60c8, SIZEOF_MSGQ := 32,
    VK_SHUTDOWN_GRACEFUL := 2, VK_PID_HT_SZ := 128 }

/-- Example block with the given function id, size and transport id. -/
def ex_blk (function_id size trans_id : Nat) : vk_msg_blk :=
  { function_id := function_id, size := size, trans_id := trans_id, context_id := 0,
    args := [0, 0] }

/-- Example descriptor of a queue of `size` blocks with zeroed ring memory. -/
def ex_msgq (size rd_idx wr_idx : Nat) : bcm_vk_msgq :=
  { rd_idx := rd_idx, wr_idx := wr_idx, size := size, ring := fun _ => vk_msg_blk.zero }

/-- Example channel: `q_nr` queues, all of `size` blocks with the given
indices, geometry as cached by the sync, empty pending lists. -/
def ex_chan (q_nr size rd_idx wr_idx : Nat) : bcm_vk_msg_chan :=
  { q_nr := q_nr, msgq := fun _ => ex_msgq size rd_idx wr_idx,
    sync_qinfo := fun _ => sync_qinfo_of_size size, pendq := fun _ => [] }

/-- Example device: transport ready, one host-to-card queue of `size` blocks
with the given indices, no card-to-host queue. -/
def ex_vk_h2vk (size rd_idx wr_idx : Nat) : bcm_vk :=
  { bcm_vk_zeroed with msgq_inited := true, h2vk_msg_chan := ex_chan 1 size rd_idx wr_idx }

/-- Example work entry of `n + 1` blocks for queue 0, consistent with its
size field. -/
def ex_entry (n : Nat) : bcm_vk_wkent :=
  { ctx := 0, seq_num := 0, usr_msg_id := 0, vk2h_blks := 0, vk2h_msg := none,
    h2vk_blks := n + 1, h2vk_msg := ex_blk 1 n 0x30 :: List.replicate n (ex_blk 9 9 9) }

/-- Example ring memory holding the given blocks from index 0 on. -/
def ex_ring (blocks : List vk_msg_blk) : Nat → vk_msg_blk :=
  fun i => blocks.getD i vk_msg_blk.zero

/-- Example device for the dequeue engine: transport ready, two queues of
`size` blocks in each direction; card-to-host queue 0 has the given indices
and ring contents, host-to-card queue 0 has the given pending list, everything
else is empty; the bits of ids 1 and 3 are set. -/
def ex_vk_vk2h (size rd_idx wr_idx : Nat) (blocks : List vk_msg_blk)
    (pend : List bcm_vk_wkent) : bcm_vk :=
  { bcm_vk_zeroed with
    msgq_inited := true
    bmap := fun i => i == 1 || i == 3
    h2vk_msg_chan :=
      { ex_chan 2 size 0 0 with pendq := fun i => if i = 0 then pend else [] }
    vk2h_msg_chan :=
      { ex_chan 2 size 0 0 with
        msgq := fun i =>
          if i = 0 then
            { rd_idx := rd_idx, wr_idx := wr_idx, size := size, ring := ex_ring blocks }
          else ex_msgq size 0 0 } }

/-- Example work entry of one block owned by context `ctx`, with the given
transport id; `resp` tells whether a one-block response is attached. -/
def ex_wkent (ctx trans_id : Nat) (resp : Bool) : bcm_vk_wkent :=
  { ctx := ctx, seq_num := 0, usr_msg_id := 7, vk2h_blks := if resp then 1 else 0,
    vk2h_msg := if resp then some [ex_blk 2 0 trans_id] else none,
    h2vk_blks := 1, h2vk_msg := [ex_blk 1 0 trans_id] }

/-- Example environment: the card reports ready with a valid marker, memory
and user copies succeed, the user buffer holds the given blocks, the card
does not move during sleeps, and `bcm_vk_sg_alloc` succeeds without touching
the message. -/
def ex_env (ubuf : List vk_msg_blk) : vk_env :=
  { rd32 := fun bar _ => if bar = 0 then 0x3FC else 0xbeefcafe,
    kzalloc_ok := true, copy_ok := true,
    ubuf := fun i => ubuf.getD i vk_msg_blk.zero,
    card_rd := [], sg_rc := 0, sg_msg := fun m => m,
    planes := fun _ => (0, 0), sgl := fun _ => vk_msg_blk.zero }

/-- Example device for `read`: two queues per channel, the given transport
state, and the given response list on card-to-host queue 0. -/
def ex_vk_resp (ready : Bool) (resp : List bcm_vk_wkent) : bcm_vk :=
  { bcm_vk_zeroed with
    msgq_inited := ready
    h2vk_msg_chan := ex_chan 2 4 0 0
    vk2h_msg_chan := { ex_chan 2 4 0 0 with pendq := fun i => if i = 0 then resp else [] } }

/-- Example device for the heartbeat monitor: the given transport state, last
uptime and loss counter, timer not armed. -/
def ex_vk_hb (ready : Bool) (last_uptime lost_cnt : Nat) : bcm_vk :=
  { bcm_vk_zeroed with
    msgq_inited := ready
    hb_ctrl := { timer := none, last_uptime := last_uptime, lost_cnt := lost_cnt } }

/-- Example register file for the queue synchronisation: the card reports
ready with a valid marker (unless `marker` is false), four queues in total
and the first descriptor at BAR 1 offset `0x100`. -/
def ex_rd32_sync (marker : Bool) : Nat → Nat → Nat :=
  fun bar off =>
    if bar = 0 then 0x3FC
    else if off = 0x60c0 then (if marker then 0xbeefcafe else 0)
    else if off = 0x60c8 then 4
    else 0x100

/-- Example descriptors in BAR 1: the one at offset `0x100` announces 8
blocks, every other one 16; all are empty. -/
def ex_bar1_msgq : Nat → bcm_vk_msgq :=
  fun off => ex_msgq (if off = 0x100 then 8 else 16) 0 0

/-- Example device for the reset request: transport ready, one host-to-card
queue of 4 blocks that is empty, the given reset owner, and context 0 in use
by pid 7 and linked in bucket 0. -/
def ex_vk_reset (reset_pid : Nat) : bcm_vk :=
  { ex_vk_h2vk 4 0 0 with
    reset_pid := reset_pid
    ctx := fun i =>
      { idx := i, in_use := decide (i = 0), pid := if i = 0 then 7 else 0, hash_idx := 0,
        pend_cnt := 0, miscdev := decide (i = 0) }
    pid_ht := fun h => if h = 0 then [0] else [] }

/-- Example device for a message that is longer than the occupancy: one block
is occupied in card-to-host queue 0 (read index 0, write index 1) of 4 blocks;
the block at index 0 answers request 1 and declares two blocks, the block at
index 1 is what an earlier message left there, and the block at index 2 is a
one-way message of three blocks.  Request 1 of context 0 is pending. -/
def ex_vk_beyond : bcm_vk :=
  ex_vk_vk2h 4 0 1 [ex_blk 2 1 0x10, ex_blk 9 9 9, ex_blk 255 2 0] [ex_wkent 0 0x10 false]

/-- Example run, step 1: `bcm_vk_get_ctx` for pid 100 on a fresh device with
two queues per channel hands out context 0. -/
def ex_pend_open : bcm_vk :=
  (bcm_vk_get_ctx ex_consts (ex_vk_resp true []) 100).2

/-- Example run, step 2: context 0 writes a one-block request to queue 0. -/
def ex_pend_written : bcm_vk :=
  (bcm_vk_write ex_consts ex_pend_open 0 16 (ex_env [ex_blk 1 0 0])).2

/-- Example run, step 3: the card has put the one-block response to request 1
into card-to-host queue 0 and moved the write index to 1. -/
def ex_pend_answered : bcm_vk :=
  { ex_pend_written with
    h2vk_msg_chan := { ex_pend_written.h2vk_msg_chan with msgq := fun _ => ex_msgq 4 1 1 }
    vk2h_msg_chan :=
      { ex_pend_written.vk2h_msg_chan with
        msgq := fun i =>
          if i = 0 then { rd_idx := 0, wr_idx := 1, size := 4, ring := ex_ring [ex_blk 2 0 0x10] }
          else ex_msgq 4 0 0 } }

/-- Example run, step 4: `bcm_vk2h_msg_dequeue` has moved the request to the
response list. -/
def ex_pend_drained : bcm_vk :=
  ((bcm_vk2h_msg_dequeue ex_consts (fun _ => true) 10 ex_pend_answered).map
    (fun r => r.vk)).getD ex_pend_answered

/-- Example run with a user id, step 1: context 0 writes a one-block request
to queue 0 whose first block carries the message id 7. -/
def ex_usr_written : bcm_vk :=
  (bcm_vk_write ex_consts ex_pend_open 0 16 (ex_env [ex_blk 1 0 0x70])).2

/-- Example run with a user id, step 2: the card has put the one-block
response to request 1, the id the driver allocated, into card-to-host queue 0
and moved the write index to 1. -/
def ex_usr_answered : bcm_vk :=
  { ex_usr_written with
    h2vk_msg_chan := { ex_usr_written.h2vk_msg_chan with msgq := fun _ => ex_msgq 4 1 1 }
    vk2h_msg_chan :=
      { ex_usr_written.vk2h_msg_chan with
        msgq := fun i =>
          if i = 0 then { rd_idx := 0, wr_idx := 1, size := 4, ring := ex_ring [ex_blk 2 0 0x10] }
          else ex_msgq 4 0 0 } }

/-- Example run with a user id, step 3: `bcm_vk2h_msg_dequeue` has moved the
request to the response list. -/
def ex_usr_drained : bcm_vk :=
  ((bcm_vk2h_msg_dequeue ex_consts (fun _ => true) 10 ex_usr_answered).map
    (fun r => r.vk)).getD ex_usr_answered

/-- The work entry of the example run with a user id: owner 0, user id 7,
and on the wire the id 1 the driver allocated; `resp` tells whether the
response of the card is attached. -/
def ex_usr_wkent (resp : Bool) : bcm_vk_wkent :=
  { ctx := 0, seq_num := 0, usr_msg_id := 7, vk2h_blks := if resp then 1 else 0,
    vk2h_msg := if resp then some [ex_blk 2 0 0x10] else none,
    h2vk_blks := 1, h2vk_msg := [ex_blk 1 0 0x10] }

/-! ## Properties of the message-id allocator -/

theorem get_msg_id_loop_succ (k m : Nat) (bmap : Nat → Bool) :
    get_msg_id_loop (k + 1) m bmap =
      if bmap (msgid_next m) then get_msg_id_loop k (msgid_next m) bmap
      else (msgid_next m, msgid_next m, fun i => if i = msgid_next m then true else bmap i) := by
  simp only [get_msg_id_loop, msgid_next]

theorem msgid_next_lt (m : Nat) (h : m < VK_MSG_ID_BITMAP_SIZE) :
    1 ≤ msgid_next m ∧ msgid_next m < VK_MSG_ID_BITMAP_SIZE := by
  simp only [VK_MSG_ID_BITMAP_SIZE] at h
  simp only [msgid_next, VK_MSG_ID_BITMAP_SIZE]
  split <;> omega

theorem msgid_next_eq (m : Nat) (h : m + 1 < VK_MSG_ID_BITMAP_SIZE) :
    msgid_next m = m + 1 := by
  simp only [VK_MSG_ID_BITMAP_SIZE] at h
  simp only [msgid_next, VK_MSG_ID_BITMAP_SIZE]
  split <;> omega

theorem msgid_next_last : msgid_next (VK_MSG_ID_BITMAP_SIZE - 1) = 1 := by
  decide

theorem msgid_walk_lt (k m : Nat) (h : m < VK_MSG_ID_BITMAP_SIZE) :
    msgid_walk k m < VK_MSG_ID_BITMAP_SIZE := by
  induction k generalizing m with
  | zero => exact h
  | succ k ih => exact ih _ (msgid_next_lt m h).2

/-- The loop returns the first clear candidate, or the overflow value with the
bitmap untouched when every candidate is set. -/
theorem get_msg_id_loop_eq (k m : Nat) (bmap : Nat → Bool) :
    get_msg_id_loop k m bmap =
      match (msgid_cands k m).find? (fun i => !bmap i) with
      | some id => (id, id, fun i => if i = id then true else bmap i)
      | none => (VK_MSG_ID_OVERFLOW, msgid_walk k m, bmap) := by
  induction k generalizing m with
  | zero => simp [get_msg_id_loop, msgid_cands, msgid_walk]
  | succ k ih =>
    rw [get_msg_id_loop_succ]
    by_cases hb : bmap (msgid_next m) = true
    · simp [msgid_cands, msgid_walk, hb, ih]
    · simp [msgid_cands, hb]

theorem msgid_cands_range (k m : Nat) (h : m + k < VK_MSG_ID_BITMAP_SIZE) :
    msgid_cands k m = List.range' (m + 1) k := by
  induction k generalizing m with
  | zero => simp [msgid_cands]
  | succ k ih =>
    have h1 : msgid_next m = m + 1 := msgid_next_eq m (by omega)
    rw [msgid_cands, h1, ih (m + 1) (by omega), List.range'_succ]

theorem msgid_walk_add (k m : Nat) (h : m + k < VK_MSG_ID_BITMAP_SIZE) :
    msgid_walk k m = m + k := by
  induction k generalizing m with
  | zero => simp [msgid_walk]
  | succ k ih =>
    have h1 : msgid_next m = m + 1 := msgid_next_eq m (by omega)
    rw [msgid_walk, h1, ih (m + 1) (by omega)]
    omega

theorem msgid_cands_append (a b m : Nat) :
    msgid_cands (a + b) m = msgid_cands a m ++ msgid_cands b (msgid_walk a m) := by
  induction a generalizing m with
  | zero => simp [msgid_cands, msgid_walk]
  | succ a ih =>
    have : a + 1 + b = (a + b) + 1 := by omega
    rw [this, msgid_cands, msgid_cands, msgid_walk, ih]
    simp

theorem msgid_cands_from_last (j : Nat) (h : j < VK_MSG_ID_BITMAP_SIZE) :
    msgid_cands j (VK_MSG_ID_BITMAP_SIZE - 1) = List.range' 1 j := by
  cases j with
  | zero => simp [msgid_cands]
  | succ j =>
    have h1 : (1 : Nat) + j < VK_MSG_ID_BITMAP_SIZE := by omega
    rw [msgid_cands, msgid_next_last, msgid_cands_range j 1 h1, List.range'_succ]

/-- A full scan tries the ids in the circular order of the specification. -/
theorem msgid_cands_full (last : Nat) (h : last < VK_MSG_ID_BITMAP_SIZE) :
    msgid_cands (VK_MSG_ID_BITMAP_SIZE - 1) last = msgid_circular_order last := by
  have hsplit : VK_MSG_ID_BITMAP_SIZE - 1 = (VK_MSG_ID_BITMAP_SIZE - 1 - last) + last := by omega
  have hw : msgid_walk (VK_MSG_ID_BITMAP_SIZE - 1 - last) last = VK_MSG_ID_BITMAP_SIZE - 1 := by
    rw [msgid_walk_add _ _ (by omega)]
    omega
  rw [msgid_circular_order]
  conv_lhs => rw [hsplit]
  rw [msgid_cands_append, hw, msgid_cands_range _ _ (by omega), msgid_cands_from_last last h]

theorem mem_msgid_circular_order (last i : Nat) (h : last < VK_MSG_ID_BITMAP_SIZE) :
    i ∈ msgid_circular_order last ↔ 1 ≤ i ∧ i < VK_MSG_ID_BITMAP_SIZE := by
  simp only [msgid_circular_order, List.mem_append, List.mem_range'_1]
  omega

/-- What `bcm_vk_get_msg_id` does in a state whose last issued id is in range:
either every id `1 .. N - 1` is set and the overflow value comes back with the
bitmap untouched, or the first clear id of the circular order is returned,
set, and recorded as the last issued id. -/
theorem bcm_vk_get_msg_id_cases (vk : bcm_vk) (h : vk.msg_id < VK_MSG_ID_BITMAP_SIZE) :
    ((∀ i, 1 ≤ i → i < VK_MSG_ID_BITMAP_SIZE → vk.bmap i = true) ∧
      ∃ m, m < VK_MSG_ID_BITMAP_SIZE ∧
        bcm_vk_get_msg_id vk = (VK_MSG_ID_OVERFLOW, { vk with msg_id := m })) ∨
    (∃ id, (msgid_circular_order vk.msg_id).find? (fun i => !vk.bmap i) = some id ∧
      1 ≤ id ∧ id < VK_MSG_ID_BITMAP_SIZE ∧ vk.bmap id = false ∧
      bcm_vk_get_msg_id vk =
        (id, { vk with msg_id := id, bmap := fun i => if i = id then true else vk.bmap i })) := by
  have hloop := get_msg_id_loop_eq (VK_MSG_ID_BITMAP_SIZE - 1) vk.msg_id vk.bmap
  rw [msgid_cands_full vk.msg_id h] at hloop
  cases hf : (msgid_circular_order vk.msg_id).find? (fun i => !vk.bmap i) with
  | none =>
    left
    rw [hf] at hloop
    constructor
    · intro i h1 h2
      have hmem := (mem_msgid_circular_order vk.msg_id i h).2 ⟨h1, h2⟩
      have := (List.find?_eq_none.1 hf) i hmem
      simpa using this
    · refine ⟨msgid_walk (VK_MSG_ID_BITMAP_SIZE - 1) vk.msg_id,
        msgid_walk_lt (VK_MSG_ID_BITMAP_SIZE - 1) vk.msg_id h, ?_⟩
      simp only [bcm_vk_get_msg_id, hloop]
  | some id =>
    right
    rw [hf] at hloop
    have hmem := List.mem_of_find?_eq_some hf
    have hclear := List.find?_some hf
    have hr := (mem_msgid_circular_order vk.msg_id id h).1 hmem
    refine ⟨id, rfl, hr.1, hr.2, by simpa using hclear, ?_⟩
    simp only [bcm_vk_get_msg_id, hloop]

/-- The allocator keeps the last issued id below the bitmap size. -/
theorem bcm_vk_get_msg_id_msg_id_lt (vk : bcm_vk) (h : vk.msg_id < VK_MSG_ID_BITMAP_SIZE) :
    (bcm_vk_get_msg_id vk).2.msg_id < VK_MSG_ID_BITMAP_SIZE := by
  rcases bcm_vk_get_msg_id_cases vk h with ⟨_, m, hm, he⟩ | ⟨id, _, _, h2, _, he⟩
  · rw [he]
    exact hm
  · rw [he]
    exact h2

/-- Invariant behind C1: while every live id has its bit set, a run of
allocator calls never hands out a live id or id 0. -/
theorem msgid_run_ok_of_inv (ops : List msgid_op) (vk : bcm_vk) (live : List Nat)
    (h : vk.msg_id < VK_MSG_ID_BITMAP_SIZE) (hlive : ∀ i ∈ live, vk.bmap i = true) :
    msgid_run_ok ops vk live = true := by
  induction ops generalizing vk live with
  | nil => rfl
  | cons op ops ih =>
    cases op with
    | allocate =>
      rw [msgid_run_ok]
      rcases bcm_vk_get_msg_id_cases vk h with ⟨_, m, hm, he⟩ | ⟨id, _, h1, h2, hc, he⟩
      · simp only [he, if_true]
        exact ih _ _ hm hlive
      · have hne : id ≠ VK_MSG_ID_OVERFLOW := by
          simp only [VK_MSG_ID_BITMAP_SIZE] at h2
          simp only [VK_MSG_ID_OVERFLOW]
          omega
        have hnl : id ∉ live := by
          intro hm
          have := hlive id hm
          rw [hc] at this
          exact Bool.false_ne_true this
        have hrest : msgid_run_ok ops
            { vk with msg_id := id, bmap := fun i => if i = id then true else vk.bmap i }
            (id :: live) = true := by
          apply ih
          · exact h2
          · intro i hi
            by_cases hid : i = id
            · simp [hid]
            · have hi2 : i ∈ live := by simpa [hid] using hi
              simp [hid, hlive i hi2]
        simp only [he, if_neg hne, hrest, Bool.and_true, Bool.and_eq_true, decide_eq_true_eq,
          Bool.not_eq_true']
        refine ⟨by omega, ?_⟩
        simpa using hnl
    | release id =>
      rw [msgid_run_ok]
      apply ih
      · exact h
      · intro i hi
        have hi2 := List.mem_filter.1 hi
        have hne : i ≠ id := by simpa using hi2.2
        have : ¬ (id ≤ i ∧ i < id + 1) := by omega
        simp only [bcm_vk_msgid_bitmap_clear, this, if_false]
        exact hlive i hi2.1

/-- C1: for every sequence of `bcm_vk_get_msg_id` (allocate) and
`bcm_vk_msgid_bitmap_clear` (release of one id) calls starting from the
initialised allocator, no id returned by a successful allocation equals an id
that was returned earlier and not released since, and no successful
allocation returns 0. -/
theorem msgid_alloc_never_live_never_zero (ops : List msgid_op) (vk : bcm_vk)
    (h : msgid_fresh vk) : msgid_run_ok ops vk [] = true := by
  apply msgid_run_ok_of_inv
  · rw [h.1]
    decide
  · intro i hi
    cases hi

theorem msgid_alloc_never_live_never_zero_witness :
    msgid_fresh bcm_vk_zeroed ∧
      msgid_run_ok
        [msgid_op.allocate, msgid_op.allocate, msgid_op.release 1, msgid_op.allocate,
          msgid_op.release 7, msgid_op.allocate]
        bcm_vk_zeroed [] = true :=
  ⟨⟨rfl, fun _ => rfl⟩, msgid_alloc_never_live_never_zero _ _ ⟨rfl, fun _ => rfl⟩⟩

theorem bcm_vk_get_msg_id_of_next_clear (vk : bcm_vk)
    (h : vk.bmap (msgid_next vk.msg_id) = false) :
    bcm_vk_get_msg_id vk =
      (msgid_next vk.msg_id,
        { vk with msg_id := msgid_next vk.msg_id,
                  bmap := fun i => if i = msgid_next vk.msg_id then true else vk.bmap i }) := by
  unfold bcm_vk_get_msg_id
  rw [show VK_MSG_ID_BITMAP_SIZE - 1 = 4094 + 1 from rfl, get_msg_id_loop_succ, h]
  rfl

/-- C2: in every allocator state with a clear id in `1 .. N - 1`
(`N = VK_MSG_ID_BITMAP_SIZE`), `bcm_vk_get_msg_id` returns the first clear id
in the circular order `last + 1, ..., N - 1, 1, 2, ...`, sets its bit and
records it as the last issued id.  It is round-robin, not lowest-free: on a
fresh bitmap three allocations return 1, 2, 3 and, after releasing 2, the next
allocation returns 4. -/
theorem bcm_vk_get_msg_id_round_robin :
    (∀ vk : bcm_vk, vk.msg_id < VK_MSG_ID_BITMAP_SIZE →
      (∃ i, 1 ≤ i ∧ i < VK_MSG_ID_BITMAP_SIZE ∧ vk.bmap i = false) →
      ∃ id, (msgid_circular_order vk.msg_id).find? (fun i => !vk.bmap i) = some id ∧
        bcm_vk_get_msg_id vk =
          (id, { vk with msg_id := id,
                         bmap := fun i => if i = id then true else vk.bmap i })) ∧
    (∀ vk : bcm_vk, msgid_fresh vk →
      (bcm_vk_get_msg_id vk).1 = 1 ∧
      (bcm_vk_get_msg_id (bcm_vk_get_msg_id vk).2).1 = 2 ∧
      (bcm_vk_get_msg_id (bcm_vk_get_msg_id (bcm_vk_get_msg_id vk).2).2).1 = 3 ∧
      (bcm_vk_get_msg_id
        (bcm_vk_msgid_bitmap_clear
          (bcm_vk_get_msg_id (bcm_vk_get_msg_id (bcm_vk_get_msg_id vk).2).2).2 2 1)).1 = 4) := by
  constructor
  · intro vk h ⟨i, h1, h2, hc⟩
    rcases bcm_vk_get_msg_id_cases vk h with ⟨hall, _⟩ | ⟨id, hf, _, _, _, he⟩
    · rw [hall i h1 h2] at hc
      exact absurd hc (by decide)
    · exact ⟨id, hf, he⟩
  · intro vk ⟨h0, hclr⟩
    have n0 : msgid_next 0 = 1 := by decide
    have n1 : msgid_next 1 = 2 := by decide
    have n2 : msgid_next 2 = 3 := by decide
    have n3 : msgid_next 3 = 4 := by decide
    have e1 := bcm_vk_get_msg_id_of_next_clear vk (hclr _)
    rw [h0, n0] at e1
    have e2 := bcm_vk_get_msg_id_of_next_clear (bcm_vk_get_msg_id vk).2
      (by rw [e1]; simp [n1, hclr])
    rw [e1] at e2
    simp only [n1] at e2
    have e3 := bcm_vk_get_msg_id_of_next_clear
      (bcm_vk_get_msg_id (bcm_vk_get_msg_id vk).2).2
      (by rw [e1, e2]; simp [n2, hclr])
    rw [e1, e2] at e3
    simp only [n2] at e3
    have e4 := bcm_vk_get_msg_id_of_next_clear
      (bcm_vk_msgid_bitmap_clear
        (bcm_vk_get_msg_id (bcm_vk_get_msg_id (bcm_vk_get_msg_id vk).2).2).2 2 1)
      (by rw [e1, e2, e3]; simp [bcm_vk_msgid_bitmap_clear, n3, hclr])
    rw [e1, e2, e3] at e4
    simp only [bcm_vk_msgid_bitmap_clear, n3] at e4
    rw [e1, e2, e3]
    simp only [bcm_vk_msgid_bitmap_clear]
    rw [e4]
    exact ⟨trivial, trivial, trivial, rfl⟩

theorem bcm_vk_get_msg_id_round_robin_witness :
    (∃ id, (msgid_circular_order bcm_vk_zeroed.msg_id).find?
          (fun i => !bcm_vk_zeroed.bmap i) = some id ∧
        bcm_vk_get_msg_id bcm_vk_zeroed =
          (id, { bcm_vk_zeroed with
                 msg_id := id,
                 bmap := fun i => if i = id then true else bcm_vk_zeroed.bmap i })) ∧
    (bcm_vk_get_msg_id bcm_vk_zeroed).1 = 1 :=
  ⟨bcm_vk_get_msg_id_round_robin.1 bcm_vk_zeroed (by decide) ⟨1, by decide, by decide, rfl⟩,
    (bcm_vk_get_msg_id_round_robin.2 bcm_vk_zeroed ⟨rfl, fun _ => rfl⟩).1⟩

/-- C3: `bcm_vk_get_msg_id` returns the overflow value `VK_MSG_ID_OVERFLOW`
(0xFFFF) if and only if every id in `1 .. VK_MSG_ID_BITMAP_SIZE - 1` is
already set in the bitmap, and in that case the bitmap is left unchanged.
The last issued id is below the bitmap size in every state the allocator
reaches (`bcm_vk_get_msg_id_msg_id_lt`). -/
theorem bcm_vk_get_msg_id_overflow_iff (vk : bcm_vk) (h : vk.msg_id < VK_MSG_ID_BITMAP_SIZE) :
    ((bcm_vk_get_msg_id vk).1 = VK_MSG_ID_OVERFLOW ↔
      ∀ i, 1 ≤ i → i < VK_MSG_ID_BITMAP_SIZE → vk.bmap i = true) ∧
    ((bcm_vk_get_msg_id vk).1 = VK_MSG_ID_OVERFLOW →
      (bcm_vk_get_msg_id vk).2.bmap = vk.bmap) := by
  rcases bcm_vk_get_msg_id_cases vk h with ⟨hall, m, _, he⟩ | ⟨id, _, h1, h2, hc, he⟩
  · rw [he]
    exact ⟨⟨fun _ => hall, fun _ => rfl⟩, fun _ => rfl⟩
  · have hne : id ≠ VK_MSG_ID_OVERFLOW := by
      simp only [VK_MSG_ID_BITMAP_SIZE] at h2
      simp only [VK_MSG_ID_OVERFLOW]
      omega
    rw [he]
    refine ⟨⟨fun hov => absurd hov hne, fun hall => ?_⟩, fun hov => absurd hov hne⟩
    rw [hall id h1 h2] at hc
    exact absurd hc (by decide)

theorem bcm_vk_get_msg_id_overflow_iff_witness :
    ((bcm_vk_get_msg_id { bcm_vk_zeroed with msg_id := 7, bmap := fun _ => true }).1 =
        VK_MSG_ID_OVERFLOW ↔
      ∀ i, 1 ≤ i → i < VK_MSG_ID_BITMAP_SIZE → (fun _ : Nat => true) i = true) ∧
    ((bcm_vk_get_msg_id { bcm_vk_zeroed with msg_id := 7, bmap := fun _ => true }).1 =
        VK_MSG_ID_OVERFLOW →
      (bcm_vk_get_msg_id { bcm_vk_zeroed with msg_id := 7, bmap := fun _ => true }).2.bmap =
        fun _ => true) :=
  bcm_vk_get_msg_id_overflow_iff { bcm_vk_zeroed with msg_id := 7, bmap := fun _ => true }
    (by decide)

/-! ## Properties of the queue geometry -/

theorem u32_mod_eq : (4294967296 : Nat) = 2 ^ 32 := by norm_num

theorem VK_MSGQ_OCCUPIED_le_mask (msgq : bcm_vk_msgq) (qinfo : bcm_vk_sync_qinfo) :
    VK_MSGQ_OCCUPIED msgq qinfo ≤ qinfo.q_mask :=
  Nat.and_le_right

theorem VK_MSGQ_INC_le_mask (qinfo : bcm_vk_sync_qinfo) (idx inc : Nat) :
    VK_MSGQ_INC qinfo idx inc ≤ qinfo.q_mask :=
  Nat.and_le_right

/-- With the cached mask `q_size - 1` of a non-empty queue, the free space is
`q_size - 1 - occupancy`: no 32-bit wrap, and never more than `q_size - 1`. -/
theorem VK_MSGQ_AVAIL_SPACE_eq (msgq : bcm_vk_msgq) (qinfo : bcm_vk_sync_qinfo)
    (hpos : 0 < qinfo.q_size) (hlt : qinfo.q_size < 4294967296)
    (hmask : qinfo.q_mask = qinfo.q_size - 1) :
    VK_MSGQ_AVAIL_SPACE msgq qinfo = qinfo.q_size - 1 - VK_MSGQ_OCCUPIED msgq qinfo := by
  have h := VK_MSGQ_OCCUPIED_le_mask msgq qinfo
  unfold VK_MSGQ_AVAIL_SPACE
  omega

/-- Masking a 32-bit value with `2 ^ k - 1` is reduction modulo `2 ^ k`. -/
theorem u32_and_mask_eq_mod (x k : Nat) (hk : k ≤ 32) :
    (x % 4294967296) &&& (2 ^ k - 1) = x % 2 ^ k := by
  rw [Nat.and_pow_two_sub_one_eq_mod, u32_mod_eq, Nat.mod_mod_of_dvd _ (pow_dvd_pow 2 hk)]

theorem VK_MSGQ_INC_eq_mod (qinfo : bcm_vk_sync_qinfo) (k idx inc : Nat) (hk : k ≤ 32)
    (hmask : qinfo.q_mask = 2 ^ k - 1) :
    VK_MSGQ_INC qinfo idx inc = (idx + inc) % 2 ^ k := by
  rw [VK_MSGQ_INC, VK_MSGQ_SIZE_MASK, hmask, u32_and_mask_eq_mod _ _ hk]

theorem VK_MSGQ_OCCUPIED_eq_mod (msgq : bcm_vk_msgq) (qinfo : bcm_vk_sync_qinfo) (k : Nat)
    (hk : k ≤ 32) (hmask : qinfo.q_mask = 2 ^ k - 1) :
    VK_MSGQ_OCCUPIED msgq qinfo =
      (msgq.wr_idx + (4294967296 - msgq.rd_idx % 4294967296)) % 2 ^ k := by
  rw [VK_MSGQ_OCCUPIED, VK_MSGQ_SIZE_MASK, hmask, u32_and_mask_eq_mod _ _ hk]

/-! ## Properties of the enqueue engine -/

theorem card_consume_wr_idx (msgq : bcm_vk_msgq) (card_rd : List Nat) :
    (card_consume msgq card_rd).wr_idx = msgq.wr_idx ∧
      (card_consume msgq card_rd).ring = msgq.ring ∧
      (card_consume msgq card_rd).size = msgq.size := by
  cases card_rd <;> exact ⟨rfl, rfl, rfl⟩

theorem card_consume_eq_with (msgq : bcm_vk_msgq) (card_rd : List Nat) :
    card_consume msgq card_rd = { msgq with rd_idx := (card_consume msgq card_rd).rd_idx } := by
  cases card_rd <;> rfl

theorem card_after_eq_with (j : Nat) (msgq : bcm_vk_msgq) (card_rd : List Nat) :
    card_after j msgq card_rd = { msgq with rd_idx := (card_after j msgq card_rd).rd_idx } := by
  induction j generalizing msgq card_rd with
  | zero => rfl
  | succ j ih =>
    rw [card_after]
    have h1 := ih (card_consume msgq card_rd) card_rd.tail
    have h2 := card_consume_eq_with msgq card_rd
    rw [h1]
    cases card_rd <;> rfl

theorem card_consume_of_still (msgq : bcm_vk_msgq) (card_rd : List Nat)
    (h : ∀ r ∈ card_rd, r = msgq.rd_idx) : card_consume msgq card_rd = msgq := by
  cases card_rd with
  | nil => rfl
  | cons r rest =>
    have := h r (List.mem_cons_self r rest)
    simp only [card_consume, this]

/-- The retry loop only ever changes the read index of the descriptor, by the
card's doing: its outcome is the descriptor after `sleeps` sleeps. -/
theorem enq_wait_loop_msgq (qinfo : bcm_vk_sync_qinfo) (blks fuel retry : Nat)
    (msgq : bcm_vk_msgq) (card_rd : List Nat) (sleeps : Nat) :
    ∃ j, (enq_wait_loop qinfo blks fuel retry msgq card_rd sleeps).2.2 = sleeps + j ∧
      (enq_wait_loop qinfo blks fuel retry msgq card_rd sleeps).2.1 =
        card_after j msgq card_rd := by
  induction fuel generalizing retry msgq card_rd sleeps with
  | zero => exact ⟨0, rfl, rfl⟩
  | succ fuel ih =>
    rw [enq_wait_loop]
    by_cases h1 : VK_MSGQ_AVAIL_SPACE msgq qinfo < blks
    · by_cases h2 : retry < BCM_VK_H2VK_ENQ_RETRY
      · obtain ⟨j, hj1, hj2⟩ := ih (retry + 1) (card_consume msgq card_rd) card_rd.tail
          (sleeps + 1)
        refine ⟨j + 1, ?_, ?_⟩
        · simp only [h1, h2, if_true, hj1]
          omega
        · simp only [h1, h2, if_true, hj2, card_after]
      · exact ⟨0, by simp only [h1, h2, if_true, if_false, Nat.add_zero],
          by simp only [h1, h2, if_true, if_false, card_after]⟩
    · exact ⟨0, by simp only [h1, if_false, Nat.add_zero],
        by simp only [h1, if_false, card_after]⟩

/-- When the retry loop ends without exhausting the retries, the space it last
computed is enough for the entry. -/
theorem enq_wait_loop_avail (qinfo : bcm_vk_sync_qinfo) (blks fuel retry : Nat)
    (msgq : bcm_vk_msgq) (card_rd : List Nat) (sleeps : Nat)
    (hfuel : BCM_VK_H2VK_ENQ_RETRY + 1 ≤ fuel + retry)
    (hret : ¬ (enq_wait_loop qinfo blks fuel retry msgq card_rd sleeps).1 >
      BCM_VK_H2VK_ENQ_RETRY) :
    blks ≤ VK_MSGQ_AVAIL_SPACE
      (enq_wait_loop qinfo blks fuel retry msgq card_rd sleeps).2.1 qinfo := by
  induction fuel generalizing retry msgq card_rd sleeps with
  | zero =>
    simp only [enq_wait_loop] at hret
    omega
  | succ fuel ih =>
    rw [enq_wait_loop] at hret ⊢
    by_cases h1 : VK_MSGQ_AVAIL_SPACE msgq qinfo < blks
    · by_cases h2 : retry < BCM_VK_H2VK_ENQ_RETRY
      · simp only [h1, h2, if_true] at hret ⊢
        exact ih (retry + 1) _ _ _ (by omega) hret
      · simp only [h1, h2, if_true, if_false] at hret
        omega
    · simp only [h1, if_false]
      omega

/-- When the space is short at the first check and after each of the next
`BCM_VK_H2VK_ENQ_RETRY - retry` sleeps, the retry loop sleeps that many times
and ends with the retries exhausted. -/
theorem enq_wait_loop_busy (qinfo : bcm_vk_sync_qinfo) (blks fuel retry : Nat)
    (msgq : bcm_vk_msgq) (card_rd : List Nat) (sleeps : Nat)
    (hfuel : BCM_VK_H2VK_ENQ_RETRY + 1 = fuel + retry)
    (hfull : ∀ j, j ≤ BCM_VK_H2VK_ENQ_RETRY - retry →
      VK_MSGQ_AVAIL_SPACE (card_after j msgq card_rd) qinfo < blks) :
    enq_wait_loop qinfo blks fuel retry msgq card_rd sleeps =
      (BCM_VK_H2VK_ENQ_RETRY + 1,
        card_after (BCM_VK_H2VK_ENQ_RETRY - retry) msgq card_rd,
        sleeps + (BCM_VK_H2VK_ENQ_RETRY - retry)) := by
  induction fuel generalizing retry msgq card_rd sleeps with
  | zero =>
    have hr : BCM_VK_H2VK_ENQ_RETRY - retry = 0 := by omega
    have hr2 : retry = BCM_VK_H2VK_ENQ_RETRY + 1 := by omega
    rw [hr, enq_wait_loop, card_after, hr2]
    rfl
  | succ fuel ih =>
    rw [enq_wait_loop]
    have h0 : VK_MSGQ_AVAIL_SPACE msgq qinfo < blks := hfull 0 (Nat.zero_le _)
    by_cases h2 : retry < BCM_VK_H2VK_ENQ_RETRY
    · simp only [h0, h2, if_true]
      have hstep : BCM_VK_H2VK_ENQ_RETRY - retry = (BCM_VK_H2VK_ENQ_RETRY - (retry + 1)) + 1 := by
        omega
      rw [ih (retry + 1) (card_consume msgq card_rd) card_rd.tail (sleeps + 1) (by omega)
        (fun j hj => by
          have := hfull (j + 1) (by omega)
          simpa only [card_after] using this)]
      rw [hstep, card_after]
      have : sleeps + 1 + (BCM_VK_H2VK_ENQ_RETRY - (retry + 1)) =
          sleeps + (BCM_VK_H2VK_ENQ_RETRY - (retry + 1) + 1) := by omega
      rw [this]
    · have hr : retry = BCM_VK_H2VK_ENQ_RETRY := by omega
      simp only [h0, if_true, hr, Nat.lt_irrefl, if_false, Nat.sub_self, card_after,
        Nat.add_zero]

theorem card_after_of_still (j : Nat) (msgq : bcm_vk_msgq) (card_rd : List Nat)
    (h : ∀ r ∈ card_rd, r = msgq.rd_idx) : card_after j msgq card_rd = msgq := by
  induction j generalizing card_rd with
  | zero => rfl
  | succ j ih =>
    rw [card_after, card_consume_of_still msgq card_rd h]
    exact ih card_rd.tail (fun r hr => h r (List.mem_of_mem_tail hr))

theorem card_after_wr_idx (j : Nat) (msgq : bcm_vk_msgq) (card_rd : List Nat) :
    (card_after j msgq card_rd).wr_idx = msgq.wr_idx ∧
      (card_after j msgq card_rd).ring = msgq.ring := by
  rw [card_after_eq_with]
  exact ⟨rfl, rfl⟩

theorem enq_copy_loop_wr_le (qinfo : bcm_vk_sync_qinfo) (n : Nat) (src : List vk_msg_blk)
    (ring : Nat → vk_msg_blk) (wr_idx m : Nat) (hwr : wr_idx ≤ m) (hmask : qinfo.q_mask ≤ m) :
    (enq_copy_loop qinfo n src ring wr_idx).2 ≤ m := by
  induction n generalizing src ring wr_idx with
  | zero => exact hwr
  | succ n ih =>
    rw [enq_copy_loop]
    exact ih _ _ _ (Nat.le_trans (VK_MSGQ_INC_le_mask qinfo wr_idx 1) hmask)

theorem enq_copy_loop_wr_mod (qinfo : bcm_vk_sync_qinfo) (k : Nat) (hk : k ≤ 32)
    (hmask : qinfo.q_mask = 2 ^ k - 1) (n : Nat) (src : List vk_msg_blk)
    (ring : Nat → vk_msg_blk) (wr_idx : Nat) (hwr : wr_idx < 2 ^ k) :
    (enq_copy_loop qinfo n src ring wr_idx).2 = (wr_idx + n) % 2 ^ k := by
  induction n generalizing src ring wr_idx with
  | zero => simp [enq_copy_loop, Nat.mod_eq_of_lt hwr]
  | succ n ih =>
    rw [enq_copy_loop, ih _ _ _ (by
      rw [VK_MSGQ_INC_eq_mod qinfo k wr_idx 1 hk hmask]
      exact Nat.mod_lt _ (Nat.two_pow_pos k)),
      VK_MSGQ_INC_eq_mod qinfo k wr_idx 1 hk hmask, Nat.mod_add_mod]
    congr 1
    omega

/-- The two ways in which `bcm_h2vk_msg_enqueue` returns 0: the size field
matched, the retry loop ended with enough space after `j` sleeps, and then
either the write index was found out of bounds (nothing written, access
blocked, alert raised) or the blocks were copied, the write index stored and
the doorbell rung. -/
theorem bcm_h2vk_msg_enqueue_ok_cases (K : vk_consts) (vk : bcm_vk) (entry : bcm_vk_wkent)
    (card_rd : List Nat) (hrc : (bcm_h2vk_msg_enqueue K vk entry card_rd).rc = 0) :
    entry.h2vk_blks = ((entry.h2vk_msg.headD vk_msg_blk.zero).size + 1) % 4294967296 ∧
    ∃ j, entry.h2vk_blks ≤
        VK_MSGQ_AVAIL_SPACE (card_after j (enq_msgq vk entry) card_rd) (enq_qinfo vk entry) ∧
      (bcm_h2vk_msg_enqueue K vk entry card_rd).sleeps = j ∧
      (((enq_qinfo vk entry).q_size ≤ (enq_msgq vk entry).wr_idx ∧
          (bcm_h2vk_msg_enqueue K vk entry card_rd).vk =
            bcm_vk_set_host_alert
              (bcm_vk_blk_drv_access
                { set_h2vk_msgq vk (enq_q_num entry)
                    (card_after j (enq_msgq vk entry) card_rd) with
                  seq_num := (vk.seq_num + 1) % 4294967296,
                  klog := vk.klog ++
                    [klog_msg.invalid_wr_idx (enq_msgq vk entry).wr_idx
                      (enq_qinfo vk entry).q_size] })
              K.ERR_LOG_HOST_PCIE_DWN) ∨
        ((enq_msgq vk entry).wr_idx < (enq_qinfo vk entry).q_size ∧
          (bcm_h2vk_msg_enqueue K vk entry card_rd).vk =
            bcm_h2vk_doorbell K
              { set_h2vk_msgq vk (enq_q_num entry)
                  { card_after j (enq_msgq vk entry) card_rd with
                    ring := (enq_copy_loop (enq_qinfo vk entry) entry.h2vk_blks entry.h2vk_msg
                      (enq_msgq vk entry).ring (enq_msgq vk entry).wr_idx).1,
                    wr_idx := (enq_copy_loop (enq_qinfo vk entry) entry.h2vk_blks
                      entry.h2vk_msg (enq_msgq vk entry).ring (enq_msgq vk entry).wr_idx).2 } with
                seq_num := (vk.seq_num + 1) % 4294967296,
                klog := vk.klog ++
                  [klog_msg.blks_inserted (enq_q_num entry)
                    (card_after j (enq_msgq vk entry) card_rd).rd_idx
                    (enq_copy_loop (enq_qinfo vk entry) entry.h2vk_blks entry.h2vk_msg
                      (enq_msgq vk entry).ring (enq_msgq vk entry).wr_idx).2
                    entry.h2vk_blks] }
              (enq_q_num entry)
              (((enq_copy_loop (enq_qinfo vk entry) entry.h2vk_blks entry.h2vk_msg
                  (enq_msgq vk entry).ring (enq_msgq vk entry).wr_idx).2 + 1) % 4294967296))) := by
  by_cases hsz : entry.h2vk_blks ≠
      ((entry.h2vk_msg.headD vk_msg_blk.zero).size + 1) % 4294967296
  · exfalso
    unfold bcm_h2vk_msg_enqueue at hrc
    simp only [if_pos hsz] at hrc
    revert hrc
    decide
  · refine ⟨not_not.1 hsz, ?_⟩
    obtain ⟨j, hj1, hj2⟩ := enq_wait_loop_msgq (enq_qinfo vk entry) entry.h2vk_blks
      (BCM_VK_H2VK_ENQ_RETRY + 1) 0 (enq_msgq vk entry) card_rd 0
    have hwr := (card_after_wr_idx j (enq_msgq vk entry) card_rd).1
    have hring := (card_after_wr_idx j (enq_msgq vk entry) card_rd).2
    by_cases hre : (enq_wait_loop (enq_qinfo vk entry) entry.h2vk_blks
        (BCM_VK_H2VK_ENQ_RETRY + 1) 0 (enq_msgq vk entry) card_rd 0).1 > BCM_VK_H2VK_ENQ_RETRY
    · exfalso
      unfold bcm_h2vk_msg_enqueue at hrc
      simp only [if_neg hsz, if_pos hre] at hrc
      revert hrc
      decide
    · have hav := enq_wait_loop_avail (enq_qinfo vk entry) entry.h2vk_blks
        (BCM_VK_H2VK_ENQ_RETRY + 1) 0 (enq_msgq vk entry) card_rd 0 (by omega) hre
      rw [hj2] at hav
      refine ⟨j, hav, ?_, ?_⟩
      · unfold bcm_h2vk_msg_enqueue
        simp only [if_neg hsz, if_neg hre]
        split <;> simp only [hj1, Nat.zero_add]
      · by_cases hidx : (enq_qinfo vk entry).q_size ≤ (enq_msgq vk entry).wr_idx
        · left
          refine ⟨hidx, ?_⟩
          have hidx2 : (enq_wait_loop (enq_qinfo vk entry) entry.h2vk_blks
              (BCM_VK_H2VK_ENQ_RETRY + 1) 0 (enq_msgq vk entry) card_rd 0).2.1.wr_idx ≥
              (enq_qinfo vk entry).q_size := by
            rw [hj2, hwr]
            exact hidx
          unfold bcm_h2vk_msg_enqueue
          simp only [if_neg hsz, if_neg hre, hj2, hwr]
          rw [if_pos hidx]
          rfl
        · right
          refine ⟨Nat.lt_of_not_le hidx, ?_⟩
          have hidx2 : ¬ (enq_wait_loop (enq_qinfo vk entry) entry.h2vk_blks
              (BCM_VK_H2VK_ENQ_RETRY + 1) 0 (enq_msgq vk entry) card_rd 0).2.1.wr_idx ≥
              (enq_qinfo vk entry).q_size := by
            rw [hj2, hwr]
            exact hidx
          unfold bcm_h2vk_msg_enqueue
          simp only [if_neg hsz, if_neg hre, hj2, hwr, hring]
          rw [if_neg (fun h => hidx h)]
          show bcm_h2vk_doorbell K _ _ _ = bcm_h2vk_doorbell K _ _ _
          congr 1
          simp only [set_h2vk_msgq, bcm_vk.mk.injEq, bcm_vk_msg_chan.mk.injEq, true_and,
            and_true]
          funext i
          by_cases hi : i = BCM_VK_GET_Q (entry.h2vk_msg.headD vk_msg_blk.zero)
          · simp only [hi, if_true]
          · simp only [hi, if_false]

/-- C4 (amended): for every `bcm_h2vk_msg_enqueue` that returns 0 on a
power-of-two-sized queue whose write index it found within bounds
(`wr_idx < q_size`), with the read index not moved by the card during the
call, the ring occupancy `(wr_idx - rd_idx) mod q_size` after the call equals
the occupancy before the call plus the entry's block count, and is at most
`q_size - 1`. -/
theorem bcm_h2vk_msg_enqueue_occupancy (K : vk_consts) (vk : bcm_vk) (entry : bcm_vk_wkent)
    (card_rd : List Nat) (k : Nat) (hk : k ≤ 31)
    (hsize : (enq_qinfo vk entry).q_size = 2 ^ k)
    (hmask : (enq_qinfo vk entry).q_mask = 2 ^ k - 1)
    (hcard : ∀ r ∈ card_rd, r = (enq_msgq vk entry).rd_idx)
    (hwr : (enq_msgq vk entry).wr_idx < (enq_qinfo vk entry).q_size)
    (hrc : (bcm_h2vk_msg_enqueue K vk entry card_rd).rc = 0) :
    VK_MSGQ_OCCUPIED
        ((bcm_h2vk_msg_enqueue K vk entry card_rd).vk.h2vk_msg_chan.msgq (enq_q_num entry))
        (enq_qinfo vk entry) =
      VK_MSGQ_OCCUPIED (enq_msgq vk entry) (enq_qinfo vk entry) + entry.h2vk_blks ∧
    VK_MSGQ_OCCUPIED
        ((bcm_h2vk_msg_enqueue K vk entry card_rd).vk.h2vk_msg_chan.msgq (enq_q_num entry))
        (enq_qinfo vk entry) ≤ (enq_qinfo vk entry).q_size - 1 := by
  obtain ⟨_, j, hav, _, hcase⟩ := bcm_h2vk_msg_enqueue_ok_cases K vk entry card_rd hrc
  rcases hcase with ⟨hbad, _⟩ | ⟨_, hvk⟩
  · omega
  · have hk32 : k ≤ 32 := by omega
    have hpow : 2 ^ k ≤ 2 ^ 31 := Nat.pow_le_pow_right (by norm_num) hk
    have hpos : 0 < 2 ^ k := Nat.two_pow_pos k
    have hlt : (enq_qinfo vk entry).q_size < 4294967296 := by
      rw [hsize]
      have : (2 : Nat) ^ 31 = 2147483648 := by norm_num
      omega
    rw [card_after_of_still j _ _ hcard] at hav hvk
    rw [VK_MSGQ_AVAIL_SPACE_eq _ _ (by rw [hsize]; exact hpos) hlt (by rw [hmask, hsize])] at hav
    have hocc0 := VK_MSGQ_OCCUPIED_eq_mod (enq_msgq vk entry) (enq_qinfo vk entry) k hk32 hmask
    have hle0 := VK_MSGQ_OCCUPIED_le_mask (enq_msgq vk entry) (enq_qinfo vk entry)
    have hnew : (bcm_h2vk_msg_enqueue K vk entry card_rd).vk.h2vk_msg_chan.msgq
        (enq_q_num entry) =
        { enq_msgq vk entry with
          ring := (enq_copy_loop (enq_qinfo vk entry) entry.h2vk_blks entry.h2vk_msg
            (enq_msgq vk entry).ring (enq_msgq vk entry).wr_idx).1,
          wr_idx := (enq_copy_loop (enq_qinfo vk entry) entry.h2vk_blks entry.h2vk_msg
            (enq_msgq vk entry).ring (enq_msgq vk entry).wr_idx).2 } := by
      rw [hvk]
      simp only [bcm_h2vk_doorbell, set_h2vk_msgq, if_true]
    have hsum : VK_MSGQ_OCCUPIED (enq_msgq vk entry) (enq_qinfo vk entry) + entry.h2vk_blks <
        2 ^ k := by
      rw [hsize] at hav
      rw [hmask] at hle0
      omega
    have hfinal : VK_MSGQ_OCCUPIED
        ((bcm_h2vk_msg_enqueue K vk entry card_rd).vk.h2vk_msg_chan.msgq (enq_q_num entry))
        (enq_qinfo vk entry) =
        VK_MSGQ_OCCUPIED (enq_msgq vk entry) (enq_qinfo vk entry) + entry.h2vk_blks := by
      have hre : (enq_msgq vk entry).wr_idx + entry.h2vk_blks +
          (4294967296 - (enq_msgq vk entry).rd_idx % 4294967296) =
          ((enq_msgq vk entry).wr_idx +
            (4294967296 - (enq_msgq vk entry).rd_idx % 4294967296)) + entry.h2vk_blks := by
        omega
      rw [VK_MSGQ_OCCUPIED_eq_mod _ _ k hk32 hmask, hnew]
      simp only
      rw [enq_copy_loop_wr_mod (enq_qinfo vk entry) k hk32 hmask _ _ _ _
        (by rw [← hsize]; exact hwr), Nat.mod_add_mod, hre, ← Nat.mod_add_mod, ← hocc0,
        Nat.mod_eq_of_lt hsum]
    refine ⟨hfinal, ?_⟩
    rw [hfinal, hsize]
    omega

theorem bcm_h2vk_msg_enqueue_occupancy_witness :
    VK_MSGQ_OCCUPIED
        ((bcm_h2vk_msg_enqueue ex_consts (ex_vk_h2vk 4 3 0) (ex_entry 1) []).vk.h2vk_msg_chan.msgq
          (enq_q_num (ex_entry 1)))
        (enq_qinfo (ex_vk_h2vk 4 3 0) (ex_entry 1)) =
      VK_MSGQ_OCCUPIED (enq_msgq (ex_vk_h2vk 4 3 0) (ex_entry 1))
        (enq_qinfo (ex_vk_h2vk 4 3 0) (ex_entry 1)) + (ex_entry 1).h2vk_blks ∧
    VK_MSGQ_OCCUPIED
        ((bcm_h2vk_msg_enqueue ex_consts (ex_vk_h2vk 4 3 0) (ex_entry 1) []).vk.h2vk_msg_chan.msgq
          (enq_q_num (ex_entry 1)))
        (enq_qinfo (ex_vk_h2vk 4 3 0) (ex_entry 1)) ≤
      (enq_qinfo (ex_vk_h2vk 4 3 0) (ex_entry 1)).q_size - 1 :=
  bcm_h2vk_msg_enqueue_occupancy ex_consts (ex_vk_h2vk 4 3 0) (ex_entry 1) [] 2 (by decide)
    (by decide) (by decide) (by decide) (by decide) (by decide)

/-- C4 as stated fails: on a queue of size 4 whose write index reads 4, a
one-block entry is accepted (`bcm_h2vk_msg_enqueue` returns 0, the read index
untouched by the card) although nothing is written: the occupancy stays 0
instead of growing by the block count 1. -/
theorem bcm_h2vk_msg_enqueue_occupancy_counterexample :
    (bcm_h2vk_msg_enqueue ex_consts (ex_vk_h2vk 4 0 4) (ex_entry 0) []).rc = 0 ∧
    (enq_qinfo (ex_vk_h2vk 4 0 4) (ex_entry 0)).q_size = 2 ^ 2 ∧
    (ex_entry 0).h2vk_blks = 1 ∧
    VK_MSGQ_OCCUPIED (enq_msgq (ex_vk_h2vk 4 0 4) (ex_entry 0))
      (enq_qinfo (ex_vk_h2vk 4 0 4) (ex_entry 0)) = 0 ∧
    VK_MSGQ_OCCUPIED
      ((bcm_h2vk_msg_enqueue ex_consts (ex_vk_h2vk 4 0 4) (ex_entry 0) []).vk.h2vk_msg_chan.msgq
        (enq_q_num (ex_entry 0)))
      (enq_qinfo (ex_vk_h2vk 4 0 4) (ex_entry 0)) = 0 := by
  decide

/-- C5: for every entry that passes the size validation, if the free space of
its queue is smaller than the entry's block count at the initial check and at
each of the `BCM_VK_H2VK_ENQ_RETRY` (10) re-checks, `bcm_h2vk_msg_enqueue`
returns `-EAGAIN` after exactly 10 sleeps, without writing any ring block,
without changing the write index and without ringing the doorbell (the state
differs from the initial one only in the read index the card published).  In
particular, on a queue with the cached geometry, an entry with more than
`q_size - 1` blocks always ends in `-EAGAIN`, whatever the card does. -/
theorem bcm_h2vk_msg_enqueue_busy (K : vk_consts) (vk : bcm_vk) (entry : bcm_vk_wkent)
    (card_rd : List Nat)
    (hsz : entry.h2vk_blks = ((entry.h2vk_msg.headD vk_msg_blk.zero).size + 1) % 4294967296) :
    ((∀ j, j ≤ BCM_VK_H2VK_ENQ_RETRY →
        VK_MSGQ_AVAIL_SPACE
          (card_after j
            (vk.h2vk_msg_chan.msgq (BCM_VK_GET_Q (entry.h2vk_msg.headD vk_msg_blk.zero)))
            card_rd)
          (vk.h2vk_msg_chan.sync_qinfo (BCM_VK_GET_Q (entry.h2vk_msg.headD vk_msg_blk.zero)))
          < entry.h2vk_blks) →
      (bcm_h2vk_msg_enqueue K vk entry card_rd).rc = -EAGAIN ∧
      (bcm_h2vk_msg_enqueue K vk entry card_rd).sleeps = 10 ∧
      (bcm_h2vk_msg_enqueue K vk entry card_rd).entry = entry ∧
      (bcm_h2vk_msg_enqueue K vk entry card_rd).vk =
        set_h2vk_msgq vk (BCM_VK_GET_Q (entry.h2vk_msg.headD vk_msg_blk.zero))
          { vk.h2vk_msg_chan.msgq (BCM_VK_GET_Q (entry.h2vk_msg.headD vk_msg_blk.zero)) with
            rd_idx :=
              (card_after 10
                (vk.h2vk_msg_chan.msgq (BCM_VK_GET_Q (entry.h2vk_msg.headD vk_msg_blk.zero)))
                card_rd).rd_idx } ∧
      (bcm_h2vk_msg_enqueue K vk entry card_rd).vk.iowrites = vk.iowrites) ∧
    (0 < (vk.h2vk_msg_chan.sync_qinfo
          (BCM_VK_GET_Q (entry.h2vk_msg.headD vk_msg_blk.zero))).q_size →
      (vk.h2vk_msg_chan.sync_qinfo
          (BCM_VK_GET_Q (entry.h2vk_msg.headD vk_msg_blk.zero))).q_size < 4294967296 →
      (vk.h2vk_msg_chan.sync_qinfo
          (BCM_VK_GET_Q (entry.h2vk_msg.headD vk_msg_blk.zero))).q_mask =
        (vk.h2vk_msg_chan.sync_qinfo
          (BCM_VK_GET_Q (entry.h2vk_msg.headD vk_msg_blk.zero))).q_size - 1 →
      (vk.h2vk_msg_chan.sync_qinfo
          (BCM_VK_GET_Q (entry.h2vk_msg.headD vk_msg_blk.zero))).q_size - 1 < entry.h2vk_blks →
      (bcm_h2vk_msg_enqueue K vk entry card_rd).rc = -EAGAIN ∧
      (bcm_h2vk_msg_enqueue K vk entry card_rd).sleeps = 10 ∧
      (bcm_h2vk_msg_enqueue K vk entry card_rd).vk.iowrites = vk.iowrites) := by
  have key : (∀ j, j ≤ BCM_VK_H2VK_ENQ_RETRY →
        VK_MSGQ_AVAIL_SPACE
          (card_after j
            (vk.h2vk_msg_chan.msgq (BCM_VK_GET_Q (entry.h2vk_msg.headD vk_msg_blk.zero)))
            card_rd)
          (vk.h2vk_msg_chan.sync_qinfo (BCM_VK_GET_Q (entry.h2vk_msg.headD vk_msg_blk.zero)))
          < entry.h2vk_blks) →
      bcm_h2vk_msg_enqueue K vk entry card_rd =
        { rc := -EAGAIN,
          vk := set_h2vk_msgq vk (BCM_VK_GET_Q (entry.h2vk_msg.headD vk_msg_blk.zero))
            (card_after 10
              (vk.h2vk_msg_chan.msgq (BCM_VK_GET_Q (entry.h2vk_msg.headD vk_msg_blk.zero)))
              card_rd),
          entry := entry, sleeps := 10 } := by
    intro hfull
    have hw := enq_wait_loop_busy
      (vk.h2vk_msg_chan.sync_qinfo (BCM_VK_GET_Q (entry.h2vk_msg.headD vk_msg_blk.zero)))
      entry.h2vk_blks (BCM_VK_H2VK_ENQ_RETRY + 1) 0
      (vk.h2vk_msg_chan.msgq (BCM_VK_GET_Q (entry.h2vk_msg.headD vk_msg_blk.zero)))
      card_rd 0 rfl hfull
    have hne : ¬ (entry.h2vk_blks ≠
        ((entry.h2vk_msg.headD vk_msg_blk.zero).size + 1) % 4294967296) := fun h => h hsz
    unfold bcm_h2vk_msg_enqueue
    simp only [hw, if_neg hne]
    rfl
  constructor
  · intro hfull
    rw [key hfull]
    refine ⟨rfl, rfl, rfl, ?_, rfl⟩
    rw [card_after_eq_with]
  · intro hpos hlt hmask hbig
    have hfull : ∀ j, j ≤ BCM_VK_H2VK_ENQ_RETRY →
        VK_MSGQ_AVAIL_SPACE
          (card_after j
            (vk.h2vk_msg_chan.msgq (BCM_VK_GET_Q (entry.h2vk_msg.headD vk_msg_blk.zero)))
            card_rd)
          (vk.h2vk_msg_chan.sync_qinfo (BCM_VK_GET_Q (entry.h2vk_msg.headD vk_msg_blk.zero)))
          < entry.h2vk_blks := by
      intro j _
      rw [VK_MSGQ_AVAIL_SPACE_eq _ _ hpos hlt hmask]
      omega
    rw [key hfull]
    exact ⟨rfl, rfl, rfl⟩

theorem bcm_h2vk_msg_enqueue_busy_witness :
    ((bcm_h2vk_msg_enqueue ex_consts (ex_vk_h2vk 4 0 3) (ex_entry 1) [0, 1]).rc = -EAGAIN ∧
      (bcm_h2vk_msg_enqueue ex_consts (ex_vk_h2vk 4 0 3) (ex_entry 1) [0, 1]).sleeps = 10 ∧
      (bcm_h2vk_msg_enqueue ex_consts (ex_vk_h2vk 4 0 3) (ex_entry 1) [0, 1]).vk.iowrites =
        (ex_vk_h2vk 4 0 3).iowrites) ∧
    ((bcm_h2vk_msg_enqueue ex_consts (ex_vk_h2vk 4 0 1) (ex_entry 3) [0, 2, 1]).rc = -EAGAIN ∧
      (bcm_h2vk_msg_enqueue ex_consts (ex_vk_h2vk 4 0 1) (ex_entry 3) [0, 2, 1]).sleeps = 10 ∧
      (bcm_h2vk_msg_enqueue ex_consts (ex_vk_h2vk 4 0 1) (ex_entry 3) [0, 2, 1]).vk.iowrites =
        (ex_vk_h2vk 4 0 1).iowrites) := by
  have h := (bcm_h2vk_msg_enqueue_busy ex_consts (ex_vk_h2vk 4 0 3) (ex_entry 1) [0, 1]
    (by decide)).1 (by decide)
  exact ⟨⟨h.1, h.2.1, h.2.2.2.2⟩,
    (bcm_h2vk_msg_enqueue_busy ex_consts (ex_vk_h2vk 4 0 1) (ex_entry 3) [0, 2, 1]
      (by decide)).2 (by decide) (by decide) (by decide) (by decide)⟩

/-- C6: for every work entry whose declared block count `h2vk_blks` differs
from the size field of its first block plus one (the 32-bit sum the code
compares with), `bcm_h2vk_msg_enqueue` returns `-EMSGSIZE` without sleeping
and leaves the rings, the write indices and the doorbell untouched; the fault
stays with that request: transport access is not blocked and no alert is
raised.  The only change of state is the line in the kernel log. -/
theorem bcm_h2vk_msg_enqueue_size_mismatch (K : vk_consts) (vk : bcm_vk)
    (entry : bcm_vk_wkent) (card_rd : List Nat)
    (h : entry.h2vk_blks ≠ ((entry.h2vk_msg.headD vk_msg_blk.zero).size + 1) % 4294967296) :
    (bcm_h2vk_msg_enqueue K vk entry card_rd).rc = -EMSGSIZE ∧
    (bcm_h2vk_msg_enqueue K vk entry card_rd).sleeps = 0 ∧
    (bcm_h2vk_msg_enqueue K vk entry card_rd).entry = entry ∧
    (bcm_h2vk_msg_enqueue K vk entry card_rd).vk =
      { vk with klog := vk.klog ++
          [klog_msg.enq_blks_mismatch entry.h2vk_blks
            (((entry.h2vk_msg.headD vk_msg_blk.zero).size + 1) % 4294967296)
            (BCM_VK_GET_MSG_ID (entry.h2vk_msg.headD vk_msg_blk.zero))
            (entry.h2vk_msg.headD vk_msg_blk.zero).function_id
            (entry.h2vk_msg.headD vk_msg_blk.zero).context_id] } ∧
    (bcm_h2vk_msg_enqueue K vk entry card_rd).vk.h2vk_msg_chan = vk.h2vk_msg_chan ∧
    (bcm_h2vk_msg_enqueue K vk entry card_rd).vk.iowrites = vk.iowrites ∧
    bcm_vk_drv_access_ok (bcm_h2vk_msg_enqueue K vk entry card_rd).vk =
      bcm_vk_drv_access_ok vk ∧
    (bcm_h2vk_msg_enqueue K vk entry card_rd).vk.host_alert_notfs = vk.host_alert_notfs ∧
    (bcm_h2vk_msg_enqueue K vk entry card_rd).vk.wq_notf_pend = vk.wq_notf_pend ∧
    (bcm_h2vk_msg_enqueue K vk entry card_rd).vk.wq_queued = vk.wq_queued := by
  have hr : bcm_h2vk_msg_enqueue K vk entry card_rd =
      { rc := -EMSGSIZE,
        vk := { vk with klog := vk.klog ++
          [klog_msg.enq_blks_mismatch entry.h2vk_blks
            (((entry.h2vk_msg.headD vk_msg_blk.zero).size + 1) % 4294967296)
            (BCM_VK_GET_MSG_ID (entry.h2vk_msg.headD vk_msg_blk.zero))
            (entry.h2vk_msg.headD vk_msg_blk.zero).function_id
            (entry.h2vk_msg.headD vk_msg_blk.zero).context_id] },
        entry := entry, sleeps := 0 } := by
    unfold bcm_h2vk_msg_enqueue
    simp only [if_pos h]
  rw [hr]
  exact ⟨rfl, rfl, rfl, rfl, rfl, rfl, rfl, rfl, rfl, rfl⟩

theorem bcm_h2vk_msg_enqueue_size_mismatch_witness :
    (bcm_h2vk_msg_enqueue ex_consts (ex_vk_h2vk 4 0 0)
        { ex_entry 1 with h2vk_blks := 3 } []).rc = -EMSGSIZE ∧
    (bcm_h2vk_msg_enqueue ex_consts (ex_vk_h2vk 4 0 0)
        { ex_entry 1 with h2vk_blks := 3 } []).vk.iowrites = (ex_vk_h2vk 4 0 0).iowrites :=
  ⟨(bcm_h2vk_msg_enqueue_size_mismatch ex_consts (ex_vk_h2vk 4 0 0)
      { ex_entry 1 with h2vk_blks := 3 } [] (by decide)).1,
    (bcm_h2vk_msg_enqueue_size_mismatch ex_consts (ex_vk_h2vk 4 0 0)
      { ex_entry 1 with h2vk_blks := 3 } [] (by decide)).2.2.2.2.2.1⟩

/-- C7 (amended): for every `bcm_h2vk_msg_enqueue` on queue `q` that returns 0
having found the write index within bounds (`wr_idx < q_size`, geometry as
cached by the sync), the call stores the new, masked write index in the queue
descriptor and then performs exactly one register write: the doorbell of
queue `q`, at `VK_BAR0_REGSEG_DB_BASE + q * VK_BAR0_REGSEG_DB_REG_GAP` in
BAR 0, with the value new write index + 1, which does not wrap and so is
never 0. -/
theorem bcm_h2vk_msg_enqueue_doorbell (K : vk_consts) (vk : bcm_vk) (entry : bcm_vk_wkent)
    (card_rd : List Nat)
    (hlt : (enq_qinfo vk entry).q_size < 4294967296)
    (hmask : (enq_qinfo vk entry).q_mask = (enq_qinfo vk entry).q_size - 1)
    (hwr : (enq_msgq vk entry).wr_idx < (enq_qinfo vk entry).q_size)
    (hrc : (bcm_h2vk_msg_enqueue K vk entry card_rd).rc = 0) :
    ∃ vk_mid new_wr,
      (vk_mid.h2vk_msg_chan.msgq (enq_q_num entry)).wr_idx = new_wr ∧
      vk_mid.iowrites = vk.iowrites ∧
      new_wr ≤ (enq_qinfo vk entry).q_mask ∧
      new_wr + 1 < 4294967296 ∧
      (bcm_h2vk_msg_enqueue K vk entry card_rd).vk =
        bcm_h2vk_doorbell K vk_mid (enq_q_num entry) (new_wr + 1) ∧
      ((bcm_h2vk_msg_enqueue K vk entry card_rd).vk.h2vk_msg_chan.msgq
        (enq_q_num entry)).wr_idx = new_wr ∧
      (bcm_h2vk_msg_enqueue K vk entry card_rd).vk.iowrites =
        vk.iowrites ++
          [(BAR_0,
            K.VK_BAR0_REGSEG_DB_BASE + enq_q_num entry * K.VK_BAR0_REGSEG_DB_REG_GAP,
            new_wr + 1)] := by
  obtain ⟨_, j, _, _, hcase⟩ := bcm_h2vk_msg_enqueue_ok_cases K vk entry card_rd hrc
  rcases hcase with ⟨hbad, _⟩ | ⟨_, hvk⟩
  · omega
  · have hle : (enq_copy_loop (enq_qinfo vk entry) entry.h2vk_blks entry.h2vk_msg
        (enq_msgq vk entry).ring (enq_msgq vk entry).wr_idx).2 ≤
        (enq_qinfo vk entry).q_size - 1 :=
      enq_copy_loop_wr_le _ _ _ _ _ _ (by omega) (by omega)
    have hnowrap : ((enq_copy_loop (enq_qinfo vk entry) entry.h2vk_blks entry.h2vk_msg
        (enq_msgq vk entry).ring (enq_msgq vk entry).wr_idx).2 + 1) % 4294967296 =
        (enq_copy_loop (enq_qinfo vk entry) entry.h2vk_blks entry.h2vk_msg
        (enq_msgq vk entry).ring (enq_msgq vk entry).wr_idx).2 + 1 :=
      Nat.mod_eq_of_lt (by omega)
    rw [hnowrap] at hvk
    refine ⟨_, _, ?_, ?_, ?_, ?_, hvk, ?_, ?_⟩
    · simp only [set_h2vk_msgq, if_true]
    · rfl
    · omega
    · omega
    · rw [hvk]
      simp only [bcm_h2vk_doorbell, set_h2vk_msgq, if_true]
    · rw [hvk]
      rfl

theorem bcm_h2vk_msg_enqueue_doorbell_witness :
    ∃ vk_mid new_wr,
      (vk_mid.h2vk_msg_chan.msgq (enq_q_num (ex_entry 1))).wr_idx = new_wr ∧
      vk_mid.iowrites = (ex_vk_h2vk 4 0 1).iowrites ∧
      new_wr ≤ (enq_qinfo (ex_vk_h2vk 4 0 1) (ex_entry 1)).q_mask ∧
      new_wr + 1 < 4294967296 ∧
      (bcm_h2vk_msg_enqueue ex_consts (ex_vk_h2vk 4 0 1) (ex_entry 1) []).vk =
        bcm_h2vk_doorbell ex_consts vk_mid (enq_q_num (ex_entry 1)) (new_wr + 1) ∧
      ((bcm_h2vk_msg_enqueue ex_consts (ex_vk_h2vk 4 0 1) (ex_entry 1) []).vk.h2vk_msg_chan.msgq
        (enq_q_num (ex_entry 1))).wr_idx = new_wr ∧
      (bcm_h2vk_msg_enqueue ex_consts (ex_vk_h2vk 4 0 1) (ex_entry 1) []).vk.iowrites =
        (ex_vk_h2vk 4 0 1).iowrites ++
          [(BAR_0,
            ex_consts.VK_BAR0_REGSEG_DB_BASE +
              enq_q_num (ex_entry 1) * ex_consts.VK_BAR0_REGSEG_DB_REG_GAP,
            new_wr + 1)] :=
  bcm_h2vk_msg_enqueue_doorbell ex_consts (ex_vk_h2vk 4 0 1) (ex_entry 1) [] (by decide)
    (by decide) (by decide) (by decide)

/-- C7 as stated fails: on a queue of size 8 whose write index reads 8, a
two-block entry is accepted (`bcm_h2vk_msg_enqueue` returns 0) but the write
index is not stored anew and no doorbell is rung: there is no register write
at all. -/
theorem bcm_h2vk_msg_enqueue_doorbell_counterexample :
    (bcm_h2vk_msg_enqueue ex_consts (ex_vk_h2vk 8 0 8) (ex_entry 1) []).rc = 0 ∧
    (bcm_h2vk_msg_enqueue ex_consts (ex_vk_h2vk 8 0 8) (ex_entry 1) []).vk.iowrites = [] ∧
    ((bcm_h2vk_msg_enqueue ex_consts (ex_vk_h2vk 8 0 8) (ex_entry 1) []).vk.h2vk_msg_chan.msgq
      (enq_q_num (ex_entry 1))).wr_idx = 8 := by
  decide

/-! ## Round trip over the ring -/

theorem add_mod_ne_self (q i s : Nat) (hi : i < q) (hs0 : 0 < s) (hs : s < q) :
    (i + s) % q ≠ i := by
  intro h
  have h1 : (i + s) % q = i % q := by rw [h, Nat.mod_eq_of_lt hi]
  have h2 := Nat.sub_mod_eq_zero_of_mod_eq h1
  rw [Nat.add_sub_cancel_left, Nat.mod_eq_of_lt hs] at h2
  omega

/-- The enqueue copy loop leaves alone every block that is not among the `n`
positions it writes. -/
theorem enq_copy_loop_other (qinfo : bcm_vk_sync_qinfo) (k : Nat) (hk : k ≤ 32)
    (hmask : qinfo.q_mask = 2 ^ k - 1) (n : Nat) (src : List vk_msg_blk)
    (ring : Nat → vk_msg_blk) (wr_idx p : Nat) (hwr : wr_idx < 2 ^ k)
    (hp : ∀ t, t < n → (wr_idx + t) % 2 ^ k ≠ p) :
    (enq_copy_loop qinfo n src ring wr_idx).1 p = ring p := by
  induction n generalizing src ring wr_idx with
  | zero => rfl
  | succ n ih =>
    have hinc := VK_MSGQ_INC_eq_mod qinfo k wr_idx 1 hk hmask
    rw [enq_copy_loop, ih]
    · have h0 := hp 0 (Nat.succ_pos n)
      rw [Nat.add_zero, Nat.mod_eq_of_lt hwr] at h0
      have hpw : ¬ p = wr_idx := fun h => h0 h.symm
      simp only [hpw, if_false]
    · rw [hinc]
      exact Nat.mod_lt _ (Nat.two_pow_pos k)
    · intro t ht
      rw [hinc, Nat.mod_add_mod]
      have := hp (t + 1) (by omega)
      rwa [show wr_idx + (t + 1) = wr_idx + 1 + t by omega] at this

/-- Reading back what the enqueue copy loop wrote, from the same start index
and for the same number of blocks, gives the message and the same final
index. -/
theorem deq_copy_loop_enq_copy_loop (qinfo : bcm_vk_sync_qinfo) (k : Nat) (hk : k ≤ 32)
    (hmask : qinfo.q_mask = 2 ^ k - 1) (msg : List vk_msg_blk) (ring : Nat → vk_msg_blk)
    (i : Nat) (hi : i < 2 ^ k) (hlen : msg.length ≤ 2 ^ k) :
    deq_copy_loop qinfo (enq_copy_loop qinfo msg.length msg ring i).1 msg.length i i =
      (msg, (enq_copy_loop qinfo msg.length msg ring i).2) := by
  induction msg generalizing ring i with
  | nil => rfl
  | cons b rest ih =>
    have hinc := VK_MSGQ_INC_eq_mod qinfo k i 1 hk hmask
    have hi1 : VK_MSGQ_INC qinfo i 1 < 2 ^ k := by
      rw [hinc]
      exact Nat.mod_lt _ (Nat.two_pow_pos k)
    have hlen1 : rest.length + 1 ≤ 2 ^ k := hlen
    have hhead : (enq_copy_loop qinfo rest.length rest
        (fun j => if j = i then b else ring j) (VK_MSGQ_INC qinfo i 1)).1 i = b := by
      rw [enq_copy_loop_other qinfo k hk hmask _ _ _ _ _ hi1]
      · simp only [if_true]
      · intro t ht
        rw [hinc, Nat.mod_add_mod, Nat.add_assoc]
        exact add_mod_ne_self _ _ _ hi (by omega) (by omega)
    simp only [List.length_cons, enq_copy_loop, deq_copy_loop, List.headD_cons, List.tail_cons]
    rw [ih _ _ hi1 (by omega), hhead]

/-- C8: round trip over the ring.  For every power-of-two queue size, every
start index `i < q_size` and every message of `N ≤ q_size - 1` blocks, the
blocks that the dequeue linearisation loop reads starting at read index `i`
(`N` blocks, index masked at each step) from a ring into which the enqueue
copy loop wrote the message starting at write index `i` are, in order, the
blocks of the original message, also when the message wraps past the end of
the ring; and the read index ends where the write index ended. -/
theorem ring_round_trip (qinfo : bcm_vk_sync_qinfo) (k : Nat) (hk : k ≤ 31)
    (hsize : qinfo.q_size = 2 ^ k) (hmask : qinfo.q_mask = 2 ^ k - 1)
    (i : Nat) (hi : i < qinfo.q_size) (msg : List vk_msg_blk)
    (hlen : msg.length ≤ qinfo.q_size - 1) (ring : Nat → vk_msg_blk) :
    (deq_copy_loop qinfo (enq_copy_loop qinfo msg.length msg ring i).1 msg.length
        (i &&& VK_MSGQ_SIZE_MASK qinfo) i).1 = msg ∧
    (deq_copy_loop qinfo (enq_copy_loop qinfo msg.length msg ring i).1 msg.length
        (i &&& VK_MSGQ_SIZE_MASK qinfo) i).2 =
      (enq_copy_loop qinfo msg.length msg ring i).2 := by
  rw [hsize] at hi hlen
  have hsrc : i &&& VK_MSGQ_SIZE_MASK qinfo = i := by
    rw [VK_MSGQ_SIZE_MASK, hmask, Nat.and_pow_two_sub_one_eq_mod, Nat.mod_eq_of_lt hi]
  rw [hsrc, deq_copy_loop_enq_copy_loop qinfo k (by omega) hmask msg ring i hi (by omega)]
  exact ⟨rfl, rfl⟩

theorem ring_round_trip_witness :
    (deq_copy_loop (sync_qinfo_of_size 4)
        (enq_copy_loop (sync_qinfo_of_size 4)
          [ex_blk 1 2 0x30, ex_blk 2 7 7, ex_blk 3 8 8].length
          [ex_blk 1 2 0x30, ex_blk 2 7 7, ex_blk 3 8 8] (fun _ => vk_msg_blk.zero) 2).1
        [ex_blk 1 2 0x30, ex_blk 2 7 7, ex_blk 3 8 8].length
        (2 &&& VK_MSGQ_SIZE_MASK (sync_qinfo_of_size 4)) 2).1 =
      [ex_blk 1 2 0x30, ex_blk 2 7 7, ex_blk 3 8 8] ∧
    (deq_copy_loop (sync_qinfo_of_size 4)
        (enq_copy_loop (sync_qinfo_of_size 4)
          [ex_blk 1 2 0x30, ex_blk 2 7 7, ex_blk 3 8 8].length
          [ex_blk 1 2 0x30, ex_blk 2 7 7, ex_blk 3 8 8] (fun _ => vk_msg_blk.zero) 2).1
        [ex_blk 1 2 0x30, ex_blk 2 7 7, ex_blk 3 8 8].length
        (2 &&& VK_MSGQ_SIZE_MASK (sync_qinfo_of_size 4)) 2).2 =
      (enq_copy_loop (sync_qinfo_of_size 4)
        [ex_blk 1 2 0x30, ex_blk 2 7 7, ex_blk 3 8 8].length
        [ex_blk 1 2 0x30, ex_blk 2 7 7, ex_blk 3 8 8] (fun _ => vk_msg_blk.zero) 2).2 :=
  ring_round_trip (sync_qinfo_of_size 4) 2 (by decide) (by decide) (by decide) 2 (by decide)
    [ex_blk 1 2 0x30, ex_blk 2 7 7, ex_blk 3 8 8] (by decide) (fun _ => vk_msg_blk.zero)

/-! ## Properties of the dequeue engine -/

theorem bcm_vk_set_host_alert_fields (vk : bcm_vk) (m : Nat) :
    (bcm_vk_set_host_alert vk m).msgq_inited = vk.msgq_inited ∧
    (bcm_vk_set_host_alert vk m).klog = vk.klog ∧
    (bcm_vk_set_host_alert vk m).host_alert_notfs = vk.host_alert_notfs ||| m ∧
    (bcm_vk_set_host_alert vk m).wq_notf_pend = true ∧
    (bcm_vk_set_host_alert vk m).vk2h_msg_chan = vk.vk2h_msg_chan ∧
    (bcm_vk_set_host_alert vk m).h2vk_msg_chan = vk.h2vk_msg_chan ∧
    (bcm_vk_set_host_alert vk m).bmap = vk.bmap ∧
    (bcm_vk_set_host_alert vk m).ctx = vk.ctx ∧
    (bcm_vk_set_host_alert vk m).msg_id = vk.msg_id ∧
    (bcm_vk_set_host_alert vk m).iowrites = vk.iowrites := by
  unfold bcm_vk_set_host_alert
  by_cases h : vk.wq_notf_pend = false
  · rw [if_pos h]
    exact ⟨rfl, rfl, rfl, rfl, rfl, rfl, rfl, rfl, rfl, rfl⟩
  · have h1 : vk.wq_notf_pend = true := by simpa using h
    rw [if_neg h]
    exact ⟨rfl, rfl, rfl, h1, rfl, rfl, rfl, rfl, rfl, rfl⟩

theorem bcm_vk_find_pending_klog (vk : bcm_vk) (c : vk_chan_id) (q_num msg_id : Nat) :
    (bcm_vk_find_pending vk c q_num msg_id).2.klog = vk.klog := by
  unfold bcm_vk_find_pending
  split
  · rfl
  · cases c <;> rfl

theorem bcm_vk_find_pending_klog_of_eq (vk : bcm_vk) (c : vk_chan_id) (q_num msg_id : Nat)
    (oe : Option bcm_vk_wkent) (vk3 : bcm_vk)
    (h : bcm_vk_find_pending vk c q_num msg_id = (oe, vk3)) : vk3.klog = vk.klog := by
  have := bcm_vk_find_pending_klog vk c q_num msg_id
  rw [h] at this
  exact this

theorem bcm_vk_append_pendq_klog (vk : bcm_vk) (c : vk_chan_id) (q_num : Nat)
    (entry : bcm_vk_wkent) :
    (bcm_vk_append_pendq vk c q_num entry).klog = vk.klog := by
  unfold bcm_vk_append_pendq
  split <;> cases c <;> rfl

/-- The state in which `bcm_vk2h_msg_dequeue` leaves the device when it finds
a protocol fault at the head of queue `q_num`. -/
theorem deq_loop_fault (K : vk_consts) (kzalloc_ok : Nat → Bool) (fuel q_num total : Nat)
    (vk : bcm_vk) (hq : q_num < vk.vk2h_msg_chan.q_nr)
    (hne : (vk.vk2h_msg_chan.msgq q_num).rd_idx ≠ (vk.vk2h_msg_chan.msgq q_num).wr_idx)
    (hlt : (vk.vk2h_msg_chan.sync_qinfo q_num).q_size < 4294967296)
    (hfault : (vk.vk2h_msg_chan.sync_qinfo q_num).q_size ≤
        (vk.vk2h_msg_chan.msgq q_num).rd_idx ∨
      (vk.vk2h_msg_chan.sync_qinfo q_num).q_size - 1 <
        ((vk.vk2h_msg_chan.msgq q_num).ring
          ((vk.vk2h_msg_chan.msgq q_num).rd_idx &&&
            VK_MSGQ_SIZE_MASK (vk.vk2h_msg_chan.sync_qinfo q_num))).size) :
    deq_loop K kzalloc_ok (fuel + 1) q_num total vk =
      some (deq_exit
        (bcm_vk_set_host_alert
          (bcm_vk_blk_drv_access
            { vk with klog := vk.klog ++
                [klog_msg.invalid_rd_idx (vk.vk2h_msg_chan.msgq q_num).rd_idx
                  ((vk.vk2h_msg_chan.msgq q_num).ring
                    ((vk.vk2h_msg_chan.msgq q_num).rd_idx &&&
                      VK_MSGQ_SIZE_MASK (vk.vk2h_msg_chan.sync_qinfo q_num))).size
                  (vk.vk2h_msg_chan.sync_qinfo q_num).q_size] })
          K.ERR_LOG_HOST_PCIE_DWN) total) := by
  have hemp : VK_MSGQ_EMPTY (vk.vk2h_msg_chan.msgq q_num) = false := by
    simp only [VK_MSGQ_EMPTY, beq_eq_false_iff_ne, ne_eq]
    exact hne
  have hcond : (vk.vk2h_msg_chan.msgq q_num).rd_idx ≥ (vk.vk2h_msg_chan.sync_qinfo q_num).q_size ∨
      ((vk.vk2h_msg_chan.msgq q_num).ring
        ((vk.vk2h_msg_chan.msgq q_num).rd_idx &&&
          VK_MSGQ_SIZE_MASK (vk.vk2h_msg_chan.sync_qinfo q_num))).size >
        ((vk.vk2h_msg_chan.sync_qinfo q_num).q_size + (4294967296 - 1)) % 4294967296 := by
    rcases hfault with h | h
    · exact Or.inl h
    · by_cases h0 : (vk.vk2h_msg_chan.sync_qinfo q_num).q_size = 0
      · left
        omega
      · right
        omega
  rw [deq_loop]
  simp only [hq, if_true, hemp, if_pos hcond]

/-- The dequeue loops pass over empty queues without touching the state. -/
theorem deq_loop_skip_empty (K : vk_consts) (kzalloc_ok : Nat → Bool) (n fuel q_num total : Nat)
    (vk : bcm_vk) (hn : q_num + n ≤ vk.vk2h_msg_chan.q_nr)
    (hemp : ∀ q, q_num ≤ q → q < q_num + n →
      (vk.vk2h_msg_chan.msgq q).rd_idx = (vk.vk2h_msg_chan.msgq q).wr_idx) :
    deq_loop K kzalloc_ok (fuel + n) q_num total vk =
      deq_loop K kzalloc_ok fuel (q_num + n) total vk := by
  induction n generalizing q_num with
  | zero => rfl
  | succ n ih =>
    have hq : q_num < vk.vk2h_msg_chan.q_nr := by omega
    have he : ¬ (VK_MSGQ_EMPTY (vk.vk2h_msg_chan.msgq q_num) = false) := by
      simp only [VK_MSGQ_EMPTY, beq_eq_false_iff_ne, ne_eq, not_not]
      exact hemp q_num (Nat.le_refl _) (by omega)
    rw [show fuel + (n + 1) = (fuel + n) + 1 by omega, deq_loop]
    simp only [hq, if_true, if_neg he]
    rw [ih (q_num + 1) (by omega) (fun q h1 h2 => hemp q (by omega) (by omega))]
    congr 1
    omega

/-- One extracted message in front of a finished run. -/
theorem deq_post_step (total : Nat) (vk vk1 : bcm_vk) (r : deq_result) (pre : List klog_msg)
    (hlog : vk1.klog = vk.klog ++ pre) (hcnt : pre.countP klog_msg.is_extracted = 1)
    (hal : klog_msg.alloc_failure ∉ pre) (hinv : pre.any klog_msg.is_invalid_rd_idx = false)
    (h : deq_post (total + 1) vk1 r) : deq_post total vk r := by
  obtain ⟨l, hl, hcase, hblk⟩ := h
  refine ⟨pre ++ l, ?_, ?_, ?_⟩
  · rw [hl, hlog, List.append_assoc]
  · rcases hcase with ⟨h1, h2, h3⟩ | ⟨h1, h2⟩
    · left
      refine ⟨h1, List.mem_append_right _ h2, ?_⟩
      rw [List.any_append, hinv, h3]
      rfl
    · right
      refine ⟨?_, ?_⟩
      · rw [h1, List.countP_append, hcnt]
        congr 1
        omega
      · intro hm
        rcases List.mem_append.1 hm with hm | hm
        · exact hal hm
        · exact h2 hm
  · intro hany
    rw [List.any_append, hinv, Bool.false_or] at hany
    exact hblk hany

/-- Every finished run of the dequeue loops satisfies `deq_post`. -/
theorem deq_loop_post (K : vk_consts) (kzalloc_ok : Nat → Bool) (fuel q_num total : Nat)
    (vk : bcm_vk) (r : deq_result) (h : deq_loop K kzalloc_ok fuel q_num total vk = some r) :
    deq_post total vk r := by
  induction fuel generalizing q_num total vk with
  | zero => simp [deq_loop] at h
  | succ fuel ih =>
    rw [deq_loop] at h
    by_cases hq : q_num < vk.vk2h_msg_chan.q_nr
    · simp only [hq, if_true] at h
      by_cases hemp : VK_MSGQ_EMPTY (vk.vk2h_msg_chan.msgq q_num) = false
      · simp only [hemp, if_true] at h
        split at h
        · -- protocol fault
          have hr := (Option.some.inj h).symm
          refine ⟨[klog_msg.invalid_rd_idx (vk.vk2h_msg_chan.msgq q_num).rd_idx
              ((vk.vk2h_msg_chan.msgq q_num).ring
                ((vk.vk2h_msg_chan.msgq q_num).rd_idx &&&
                  VK_MSGQ_SIZE_MASK (vk.vk2h_msg_chan.sync_qinfo q_num))).size
              (vk.vk2h_msg_chan.sync_qinfo q_num).q_size,
            klog_msg.total_drained (total : Int)], ?_, ?_, ?_⟩
          · rw [hr]
            simp only [deq_exit, (bcm_vk_set_host_alert_fields _ _).2.1, bcm_vk_blk_drv_access,
              List.append_assoc, List.singleton_append]
          · right
            rw [hr]
            refine ⟨?_, by simp⟩
            simp [deq_exit, klog_msg.is_extracted]
          · intro _
            rw [hr]
            simp only [deq_exit, bcm_vk_drv_access_ok, (bcm_vk_set_host_alert_fields _ _).1,
              bcm_vk_blk_drv_access]
        · split at h
          · -- the buffer was allocated
            split at h
            · -- one-way message
              refine deq_post_step total vk _ r _ rfl ?_ ?_ ?_ (ih _ _ _ h)
              · simp [klog_msg.is_extracted]
              · simp
              · simp [klog_msg.is_invalid_rd_idx]
            · split at h
              · -- matched with a pending entry
                rename_i entry vk3 hfp
                have hk3 := bcm_vk_find_pending_klog_of_eq _ _ _ _ _ _ hfp
                refine deq_post_step total vk _ r _
                  (by rw [bcm_vk_append_pendq_klog, hk3]; rfl) ?_ ?_ ?_ (ih _ _ _ h)
                · simp [klog_msg.is_extracted]
                · simp
                · simp [klog_msg.is_invalid_rd_idx]
              · -- orphaned response
                rename_i vk3 hfp
                have hk3 := bcm_vk_find_pending_klog_of_eq _ _ _ _ _ _ hfp
                refine deq_post_step total vk _ r _
                  (by simp only [hk3]; rw [List.append_assoc]; rfl) ?_ ?_ ?_ (ih _ _ _ h)
                · simp [klog_msg.is_extracted]
                · simp
                · simp [klog_msg.is_invalid_rd_idx]
          · -- allocation failure
            have hr := (Option.some.inj h).symm
            refine ⟨[klog_msg.alloc_failure], ?_, ?_, ?_⟩
            · rw [hr]
            · left
              rw [hr]
              exact ⟨rfl, by simp, by simp [klog_msg.is_invalid_rd_idx]⟩
            · intro hany
              simp [klog_msg.is_invalid_rd_idx] at hany
      · simp only [hemp, if_false] at h
        exact ih _ _ _ h
    · simp only [hq, if_false] at h
      have hr := (Option.some.inj h).symm
      refine ⟨[klog_msg.total_drained (total : Int)], ?_, ?_, ?_⟩
      · rw [hr]
        rfl
      · right
        rw [hr]
        refine ⟨?_, by simp⟩
        simp [deq_exit, klog_msg.is_extracted]
      · intro hany
        simp [klog_msg.is_invalid_rd_idx] at hany

/-- A finished run of the dequeue loops does not depend on the bound: a larger
one gives the same result. -/
theorem deq_loop_fuel_mono (K : vk_consts) (kzalloc_ok : Nat → Bool) (fuel fuel1 q_num total : Nat)
    (vk : bcm_vk) (r : deq_result) (hle : fuel ≤ fuel1)
    (h : deq_loop K kzalloc_ok fuel q_num total vk = some r) :
    deq_loop K kzalloc_ok fuel1 q_num total vk = some r := by
  induction fuel generalizing fuel1 q_num total vk with
  | zero => simp [deq_loop] at h
  | succ fuel ih =>
    obtain ⟨fuel2, rfl⟩ : ∃ fuel2, fuel1 = fuel2 + 1 := ⟨fuel1 - 1, by omega⟩
    have hle2 : fuel ≤ fuel2 := by omega
    rw [deq_loop] at h ⊢
    by_cases hq : q_num < vk.vk2h_msg_chan.q_nr
    · simp only [hq, if_true] at h ⊢
      by_cases hemp : VK_MSGQ_EMPTY (vk.vk2h_msg_chan.msgq q_num) = false
      · simp only [hemp, if_true] at h ⊢
        split
        · rename_i hc
          rw [if_pos hc] at h
          exact h
        · rename_i hc
          rw [if_neg hc] at h
          split
          · rename_i hk
            rw [if_pos hk] at h
            split
            · rename_i hs
              rw [if_pos hs] at h
              exact ih _ _ _ _ hle2 h
            · rename_i hs
              rw [if_neg hs] at h
              split
              · rename_i entry vk3 hfp
                rw [hfp] at h
                exact ih _ _ _ _ hle2 h
              · rename_i vk3 hfp
                rw [hfp] at h
                exact ih _ _ _ _ hle2 h
          · rename_i hk
            rw [if_neg hk] at h
            exact h
      · simp only [hemp, if_false] at h ⊢
        exact ih _ _ _ _ hle2 h
    · simp only [hq, if_false] at h ⊢
      exact h

theorem deq_faulted_of_fault (K : vk_consts) (vk : bcm_vk) (total : Nat) (e : klog_msg) :
    deq_faulted K vk
      (deq_exit
        (bcm_vk_set_host_alert
          (bcm_vk_blk_drv_access { vk with klog := vk.klog ++ [e] })
          K.ERR_LOG_HOST_PCIE_DWN) total).vk := by
  have hf := bcm_vk_set_host_alert_fields
    (bcm_vk_blk_drv_access { vk with klog := vk.klog ++ [e] }) K.ERR_LOG_HOST_PCIE_DWN
  exact ⟨hf.1, hf.2.2.1, hf.2.2.2.1, hf.2.2.2.2.1, hf.2.2.2.2.2.1, hf.2.2.2.2.2.2.1,
    hf.2.2.2.2.2.2.2.1⟩

/-- C9: for every non-empty card-to-host queue whose read index is at least
`q_size` or whose head block declares a size above `q_size - 1`,
`bcm_vk2h_msg_dequeue`, on reaching that queue (with `total` messages drained
so far), declares a fatal fault: it blocks further transport access, raises
the host alert `ERR_LOG_HOST_PCIE_DWN` and stops draining at once, returning
`total`; it does not wrap silently: that queue's read index, like every other
queue, and both pending tables are left unchanged.  In particular this is the
outcome of the whole call when the queues before it are empty. -/
theorem bcm_vk2h_msg_dequeue_fault (K : vk_consts) (kzalloc_ok : Nat → Bool)
    (fuel q_num total : Nat) (vk : bcm_vk) (hq : q_num < vk.vk2h_msg_chan.q_nr)
    (hne : (vk.vk2h_msg_chan.msgq q_num).rd_idx ≠ (vk.vk2h_msg_chan.msgq q_num).wr_idx)
    (hlt : (vk.vk2h_msg_chan.sync_qinfo q_num).q_size < 4294967296)
    (hfault : (vk.vk2h_msg_chan.sync_qinfo q_num).q_size ≤
        (vk.vk2h_msg_chan.msgq q_num).rd_idx ∨
      (vk.vk2h_msg_chan.sync_qinfo q_num).q_size - 1 <
        ((vk.vk2h_msg_chan.msgq q_num).ring
          ((vk.vk2h_msg_chan.msgq q_num).rd_idx &&&
            VK_MSGQ_SIZE_MASK (vk.vk2h_msg_chan.sync_qinfo q_num))).size) :
    (∃ vk1, deq_loop K kzalloc_ok (fuel + 1) q_num total vk =
        some { rc := (total : Int), vk := vk1 } ∧ deq_faulted K vk vk1) ∧
    ((∀ q, q < q_num →
        (vk.vk2h_msg_chan.msgq q).rd_idx = (vk.vk2h_msg_chan.msgq q).wr_idx) →
      ∃ vk1, bcm_vk2h_msg_dequeue K kzalloc_ok (fuel + 1 + q_num) vk =
        some { rc := 0, vk := vk1 } ∧ deq_faulted K vk vk1) := by
  constructor
  · refine ⟨_, ?_, deq_faulted_of_fault K vk total
      (klog_msg.invalid_rd_idx (vk.vk2h_msg_chan.msgq q_num).rd_idx
        ((vk.vk2h_msg_chan.msgq q_num).ring
          ((vk.vk2h_msg_chan.msgq q_num).rd_idx &&&
            VK_MSGQ_SIZE_MASK (vk.vk2h_msg_chan.sync_qinfo q_num))).size
        (vk.vk2h_msg_chan.sync_qinfo q_num).q_size)⟩
    rw [deq_loop_fault K kzalloc_ok fuel q_num total vk hq hne hlt hfault]
    rfl
  · intro hemp
    refine ⟨_, ?_, deq_faulted_of_fault K vk 0
      (klog_msg.invalid_rd_idx (vk.vk2h_msg_chan.msgq q_num).rd_idx
        ((vk.vk2h_msg_chan.msgq q_num).ring
          ((vk.vk2h_msg_chan.msgq q_num).rd_idx &&&
            VK_MSGQ_SIZE_MASK (vk.vk2h_msg_chan.sync_qinfo q_num))).size
        (vk.vk2h_msg_chan.sync_qinfo q_num).q_size)⟩
    unfold bcm_vk2h_msg_dequeue
    have hskip := deq_loop_skip_empty K kzalloc_ok q_num (fuel + 1) 0 0 vk (by omega)
      (fun q _ h2 => hemp q (by omega))
    rw [Nat.zero_add] at hskip
    rw [hskip, deq_loop_fault K kzalloc_ok fuel q_num 0 vk hq hne hlt hfault]
    rfl

theorem bcm_vk2h_msg_dequeue_fault_witness :
    ∃ vk1, bcm_vk2h_msg_dequeue ex_consts (fun _ => true) (0 + 1 + 0)
        (ex_vk_vk2h 4 4 1 [ex_blk 7 0 0x30] [ex_entry 0]) =
        some { rc := 0, vk := vk1 } ∧
      deq_faulted ex_consts (ex_vk_vk2h 4 4 1 [ex_blk 7 0 0x30] [ex_entry 0]) vk1 :=
  (bcm_vk2h_msg_dequeue_fault ex_consts (fun _ => true) 0 0 0
    (ex_vk_vk2h 4 4 1 [ex_blk 7 0 0x30] [ex_entry 0]) (by decide) (by decide) (by decide)
    (by decide)).2 (fun q hq => absurd hq (Nat.not_lt_zero q))

/-- C10 as stated fails: with the read index of queue 0 equal to the queue
size 4, `bcm_vk2h_msg_dequeue` detects the protocol fault (it logs it and
blocks transport access) and returns 0, not a negative value; after one
message has been drained it returns 1.  The work handler finds transport
access blocked although the result of the drain was not negative. -/
theorem bcm_vk2h_msg_dequeue_result_counterexample :
    (bcm_vk2h_msg_dequeue ex_consts (fun _ => true) 5
        (ex_vk_vk2h 4 4 1 [ex_blk 7 0 0x30] [ex_entry 0])).map
      (fun r => (r.rc, decide (r.rc < 0), bcm_vk_drv_access_ok r.vk, r.vk.klog)) =
      some (0, false, false,
        [klog_msg.invalid_rd_idx 4 0 4, klog_msg.total_drained 0]) ∧
    (bcm_vk2h_msg_dequeue ex_consts (fun _ => true) 5
        (ex_vk_vk2h 4 0 2 [ex_blk 7 0 0x30, ex_blk 8 4 8] [ex_entry 0])).map
      (fun r => (r.rc, decide (r.rc < 0), bcm_vk_drv_access_ok r.vk, r.vk.klog)) =
      some (1, false, false,
        [klog_msg.blks_extracted 0 1 2 1, klog_msg.invalid_rd_idx 1 4 4,
          klog_msg.total_drained 1]) ∧
    (bcm_vk_wq_handler ex_consts (fun vk => vk) (fun vk => vk) (fun _ => true) 5
        (ex_vk_vk2h 4 4 1 [ex_blk 7 0 0x30] [ex_entry 0])).map bcm_vk_drv_access_ok =
      some false := by
  decide

/-! ## Properties of the context registry -/

/-- The three ways `bcm_vk_get_ctx` ends: refused during a reset, refused with
every slot of the pool in use, or the first free slot handed out. -/
theorem bcm_vk_get_ctx_cases (K : vk_consts) (vk : bcm_vk) (pid : Nat) :
    (vk.reset_pid ≠ 0 ∧
      bcm_vk_get_ctx K vk pid =
        (none, { vk with klog := vk.klog ++ [klog_msg.no_ctx_in_reset vk.reset_pid] })) ∨
    (vk.reset_pid = 0 ∧ (∀ i, i < K.VK_CMPT_CTX_MAX → (vk.ctx i).in_use = true) ∧
      bcm_vk_get_ctx K vk pid =
        (none, { vk with klog := vk.klog ++ [klog_msg.all_ctx_in_use] })) ∨
    (vk.reset_pid = 0 ∧ ∃ i, i < K.VK_CMPT_CTX_MAX ∧ (vk.ctx i).in_use = false ∧
      (∀ j, j < i → (vk.ctx j).in_use = true) ∧
      bcm_vk_get_ctx K vk pid =
        (some i,
          { vk with
            ctx := fun j =>
              if j = i then
                { vk.ctx i with
                  in_use := true, pid := pid,
                  hash_idx := hash_32 (pid % 4294967296) K.VK_PID_HT_SHIFT_BIT,
                  pend_cnt := 0 }
              else vk.ctx j
            pid_ht := fun h =>
              if h = hash_32 (pid % 4294967296) K.VK_PID_HT_SHIFT_BIT then vk.pid_ht h ++ [i]
              else vk.pid_ht h
            kref := vk.kref + 1 })) := by
  by_cases hr : vk.reset_pid ≠ 0
  · left
    refine ⟨hr, ?_⟩
    unfold bcm_vk_get_ctx
    simp only [if_pos hr]
  · right
    have hr0 : vk.reset_pid = 0 := not_not.1 hr
    cases hf : (List.range K.VK_CMPT_CTX_MAX).find? (fun i => !(vk.ctx i).in_use) with
    | none =>
      left
      refine ⟨hr0, ?_, ?_⟩
      · intro i hi
        have := (List.find?_range_eq_none.1 hf) i hi
        simpa using this
      · unfold bcm_vk_get_ctx
        simp only [if_neg hr, hf]
    | some i =>
      right
      have h := List.find?_range_eq_some.1 hf
      refine ⟨hr0, i, List.mem_range.1 h.2.1, by simpa using h.1, ?_, ?_⟩
      · intro j hj
        have := h.2.2 j hj
        simpa using this
      · unfold bcm_vk_get_ctx
        simp only [if_neg hr, hf]

/-- C16: `bcm_vk_get_ctx(pid)` returns no context if and only if a reset is in
flight (`reset_pid != 0`) or every slot of the context pool is in use; in that
case only a line of the kernel log is added: no slot's in-use flag, no pid
hash list and the device reference count are changed.  Otherwise it returns
a slot that was free (the first one), now marked in use, with the given pid,
pending counter 0, linked at the tail of the bucket `hash_32(pid)`, and the
device reference count incremented by one; nothing else changes. -/
theorem bcm_vk_get_ctx_spec (K : vk_consts) (vk : bcm_vk) (pid : Nat) :
    ((bcm_vk_get_ctx K vk pid).1 = none ↔
      (vk.reset_pid ≠ 0 ∨ ∀ i, i < K.VK_CMPT_CTX_MAX → (vk.ctx i).in_use = true)) ∧
    ((bcm_vk_get_ctx K vk pid).1 = none →
      (∃ l, (bcm_vk_get_ctx K vk pid).2 = { vk with klog := vk.klog ++ l }) ∧
      (bcm_vk_get_ctx K vk pid).2.ctx = vk.ctx ∧
      (bcm_vk_get_ctx K vk pid).2.pid_ht = vk.pid_ht ∧
      (bcm_vk_get_ctx K vk pid).2.kref = vk.kref) ∧
    (∀ i, (bcm_vk_get_ctx K vk pid).1 = some i →
      i < K.VK_CMPT_CTX_MAX ∧ (vk.ctx i).in_use = false ∧
      (∀ j, j < i → (vk.ctx j).in_use = true) ∧
      (bcm_vk_get_ctx K vk pid).2 =
        { vk with
          ctx := fun j =>
            if j = i then
              { vk.ctx i with
                in_use := true, pid := pid,
                hash_idx := hash_32 (pid % 4294967296) K.VK_PID_HT_SHIFT_BIT,
                pend_cnt := 0 }
            else vk.ctx j
          pid_ht := fun h =>
            if h = hash_32 (pid % 4294967296) K.VK_PID_HT_SHIFT_BIT then vk.pid_ht h ++ [i]
            else vk.pid_ht h
          kref := vk.kref + 1 }) := by
  rcases bcm_vk_get_ctx_cases K vk pid with ⟨hr, he⟩ | ⟨hr, hall, he⟩ | ⟨hr, i, hi, hfree, hmin, he⟩
  · rw [he]
    refine ⟨⟨fun _ => Or.inl hr, fun _ => rfl⟩, fun _ => ⟨⟨_, rfl⟩, rfl, rfl, rfl⟩, ?_⟩
    intro i hi
    cases hi
  · rw [he]
    refine ⟨⟨fun _ => Or.inr hall, fun _ => rfl⟩, fun _ => ⟨⟨_, rfl⟩, rfl, rfl, rfl⟩, ?_⟩
    intro i hi
    cases hi
  · rw [he]
    refine ⟨⟨fun h => (by cases h), fun h => ?_⟩, fun h => (by cases h), ?_⟩
    · rcases h with h | h
      · exact absurd hr h
      · rw [h i hi] at hfree
        cases hfree
    · intro j hj
      cases hj
      exact ⟨hi, hfree, hmin, rfl⟩

theorem bcm_vk_get_ctx_spec_witness :
    (bcm_vk_get_ctx ex_consts bcm_vk_zeroed 100).1 = some 0 ∧
    (bcm_vk_get_ctx ex_consts bcm_vk_zeroed 100).2.kref = bcm_vk_zeroed.kref + 1 ∧
    ((bcm_vk_get_ctx ex_consts { bcm_vk_zeroed with reset_pid := 7 } 100).1 = none ∧
      (bcm_vk_get_ctx ex_consts { bcm_vk_zeroed with reset_pid := 7 } 100).2.kref =
        bcm_vk_zeroed.kref) := by
  have h1 := (bcm_vk_get_ctx_spec ex_consts bcm_vk_zeroed 100).2.2 0 (by decide)
  have h2 := (bcm_vk_get_ctx_spec ex_consts { bcm_vk_zeroed with reset_pid := 7 } 100).1.2
    (Or.inl (by decide))
  have h3 := (bcm_vk_get_ctx_spec ex_consts { bcm_vk_zeroed with reset_pid := 7 } 100).2.1 h2
  refine ⟨by decide, ?_, h2, h3.2.2.2⟩
  rw [h1.2.2.2]

/-- What `bcm_vk_free_ctx` does to a context in use that carries its own
index. -/
theorem bcm_vk_free_ctx_in_use (vk : bcm_vk) (c : Nat) (hidx : (vk.ctx c).idx = c)
    (hc : (vk.ctx c).in_use = true) :
    bcm_vk_free_ctx vk (some c) =
      (((((vk.pid_ht (vk.ctx c).hash_idx).filter (fun j => j != c)).countP
          (fun j => (if j = c then { vk.ctx c with in_use := false, miscdev := false }
            else vk.ctx j).pid == (vk.ctx c).pid) : Nat) : Int),
        { vk with
          ctx := fun j =>
            if j = c then { vk.ctx c with in_use := false, miscdev := false } else vk.ctx j
          pid_ht := fun h => (vk.pid_ht h).filter (fun j => j != c) }) := by
  unfold bcm_vk_free_ctx
  simp only [hidx, hc, Bool.true_eq_false, if_false, if_true]

/-- The registry invariant holds in a fresh registry. -/
theorem registry_inv_of_fresh (K : vk_consts) (vk : bcm_vk) (h : registry_fresh vk) :
    registry_inv K vk := by
  refine ⟨fun i => (h.1 i).1, ?_, ?_, ?_⟩
  · intro i hi
    rw [(h.1 i).2] at hi
    cases hi
  · intro b
    rw [h.2 b]
    exact List.nodup_nil
  · intro b i
    rw [h.2 b, (h.1 i).2]
    simp

/-- The registry invariant is kept by `bcm_vk_get_ctx`. -/
theorem registry_inv_get_ctx (K : vk_consts) (vk : bcm_vk) (pid : Nat)
    (h : registry_inv K vk) : registry_inv K (bcm_vk_get_ctx K vk pid).2 := by
  obtain ⟨h1, h2, h3, h4⟩ := h
  rcases bcm_vk_get_ctx_cases K vk pid with ⟨_, he⟩ | ⟨_, _, he⟩ | ⟨_, i, hi, hfree, _, he⟩
  · rw [he]
    exact ⟨h1, h2, h3, h4⟩
  · rw [he]
    exact ⟨h1, h2, h3, h4⟩
  · rw [he]
    refine ⟨?_, ?_, ?_, ?_⟩
    · intro j
      show (if j = i then _ else vk.ctx j).idx = j
      by_cases hj : j = i
      · rw [if_pos hj, hj]
        exact h1 i
      · rw [if_neg hj]
        exact h1 j
    · intro j
      show (if j = i then _ else vk.ctx j).in_use = true → _ ∧
        (if j = i then _ else vk.ctx j).hash_idx =
          hash_32 ((if j = i then _ else vk.ctx j).pid % 4294967296) K.VK_PID_HT_SHIFT_BIT
      by_cases hj : j = i
      · rw [if_pos hj, hj]
        intro _
        exact ⟨hi, rfl⟩
      · rw [if_neg hj]
        exact h2 j
    · intro b
      show (if b = hash_32 (pid % 4294967296) K.VK_PID_HT_SHIFT_BIT then vk.pid_ht b ++ [i]
        else vk.pid_ht b).Nodup
      by_cases hb : b = hash_32 (pid % 4294967296) K.VK_PID_HT_SHIFT_BIT
      · rw [if_pos hb]
        refine List.Nodup.append (h3 b) (List.nodup_singleton i) ?_
        intro x hx hx1
        rw [List.mem_singleton] at hx1
        rw [hx1, h4 b i, hfree] at hx
        exact Bool.noConfusion hx.1
      · rw [if_neg hb]
        exact h3 b
    · intro b j
      show (j ∈ (if b = hash_32 (pid % 4294967296) K.VK_PID_HT_SHIFT_BIT then vk.pid_ht b ++ [i]
        else vk.pid_ht b)) ↔
        ((if j = i then ({ vk.ctx i with
            in_use := true, pid := pid,
            hash_idx := hash_32 (pid % 4294967296) K.VK_PID_HT_SHIFT_BIT,
            pend_cnt := 0 } : bcm_vk_ctx) else vk.ctx j).in_use = true ∧
          (if j = i then ({ vk.ctx i with
            in_use := true, pid := pid,
            hash_idx := hash_32 (pid % 4294967296) K.VK_PID_HT_SHIFT_BIT,
            pend_cnt := 0 } : bcm_vk_ctx) else vk.ctx j).hash_idx = b)
      by_cases hb : b = hash_32 (pid % 4294967296) K.VK_PID_HT_SHIFT_BIT
      · rw [if_pos hb, List.mem_append, List.mem_singleton, h4 b j]
        by_cases hj : j = i
        · rw [if_pos hj]
          exact ⟨fun _ => ⟨rfl, hb.symm⟩, fun _ => Or.inr hj⟩
        · rw [if_neg hj]
          exact ⟨fun h => h.resolve_right hj, fun h => Or.inl h⟩
      · rw [if_neg hb, h4 b j]
        by_cases hj : j = i
        · rw [if_pos hj, hj, hfree]
          constructor
          · intro h
            exact Bool.noConfusion h.1
          · intro h
            exact absurd h.2.symm hb
        · rw [if_neg hj]

/-- The registry invariant is kept by `bcm_vk_free_ctx`. -/
theorem registry_inv_free_ctx (K : vk_consts) (vk : bcm_vk) (ctx : Option Nat)
    (h : registry_inv K vk) : registry_inv K (bcm_vk_free_ctx vk ctx).2 := by
  cases ctx with
  | none => exact h
  | some c =>
    by_cases hc : (vk.ctx c).in_use = true
    · rw [bcm_vk_free_ctx_in_use vk c (h.1 c) hc]
      obtain ⟨h1, h2, h3, h4⟩ := h
      refine ⟨?_, ?_, ?_, ?_⟩
      · intro j
        show (if j = c then _ else vk.ctx j).idx = j
        by_cases hj : j = c
        · rw [if_pos hj, hj]
          exact h1 c
        · rw [if_neg hj]
          exact h1 j
      · intro j
        show (if j = c then ({ vk.ctx c with in_use := false, miscdev := false } : bcm_vk_ctx)
            else vk.ctx j).in_use = true → _ ∧
          (if j = c then ({ vk.ctx c with in_use := false, miscdev := false } : bcm_vk_ctx)
            else vk.ctx j).hash_idx =
            hash_32 ((if j = c then ({ vk.ctx c with in_use := false, miscdev := false } :
              bcm_vk_ctx) else vk.ctx j).pid % 4294967296) K.VK_PID_HT_SHIFT_BIT
        by_cases hj : j = c
        · rw [if_pos hj]
          intro hh
          exact Bool.noConfusion hh
        · rw [if_neg hj]
          exact h2 j
      · intro b
        exact (h3 b).filter _
      · intro b j
        show j ∈ (vk.pid_ht b).filter (fun j => j != c) ↔
          ((if j = c then ({ vk.ctx c with in_use := false, miscdev := false } : bcm_vk_ctx)
            else vk.ctx j).in_use = true ∧
          (if j = c then ({ vk.ctx c with in_use := false, miscdev := false } : bcm_vk_ctx)
            else vk.ctx j).hash_idx = b)
        rw [List.mem_filter, h4 b j]
        by_cases hj : j = c
        · rw [if_pos hj]
          constructor
          · intro hh
            have := hh.2
            simp [hj] at this
          · intro hh
            exact Bool.noConfusion hh.1
        · rw [if_neg hj]
          constructor
          · intro hh
            exact hh.1
          · intro hh
            exact ⟨hh, by simpa using hj⟩
    · have hidx := h.1 c
      have hc1 : (vk.ctx c).in_use = false := by
        cases hv : (vk.ctx c).in_use
        · rfl
        · exact absurd hv hc
      have : (bcm_vk_free_ctx vk (some c)).2 =
          { vk with klog := vk.klog ++ [klog_msg.ctx_not_in_use c] } := by
        unfold bcm_vk_free_ctx
        simp only [hidx, hc1, if_true]
      rw [this]
      exact h

/-- Every state the registry reaches satisfies the registry invariant. -/
theorem registry_inv_of_reach (K : vk_consts) (vk : bcm_vk) (h : registry_reach K vk) :
    registry_inv K vk := by
  induction h with
  | fresh vk hf => exact registry_inv_of_fresh K vk hf
  | get_ctx vk pid _ ih => exact registry_inv_get_ctx K vk pid ih
  | free_ctx vk ctx _ ih => exact registry_inv_free_ctx K vk ctx ih
  | other vk vk1 _ hctx hht ih =>
    obtain ⟨h1, h2, h3, h4⟩ := ih
    refine ⟨?_, ?_, ?_, ?_⟩
    · intro i
      rw [(hctx i).1]
      exact h1 i
    · intro i
      rw [(hctx i).2.1, (hctx i).2.2.1, (hctx i).2.2.2]
      exact h2 i
    · intro b
      rw [hht]
      exact h3 b
    · intro b i
      rw [hht, (hctx i).2.1, (hctx i).2.2.2]
      exact h4 b i

/-- Under the registry invariant, the count `bcm_vk_free_ctx` takes on the
bucket of a context in use is the number of other contexts of the pool in use
with the same pid. -/
theorem bcm_vk_free_ctx_count_of_inv (K : vk_consts) (vk : bcm_vk) (c : Nat)
    (h : registry_inv K vk) (hc : (vk.ctx c).in_use = true) :
    (bcm_vk_free_ctx vk (some c)).1 = (other_ctx_with_pid K vk c (vk.ctx c).pid : Int) := by
  obtain ⟨h1, h2, h3, h4⟩ := h
  rw [bcm_vk_free_ctx_in_use vk c (h1 c) hc]
  show ((_ : Nat) : Int) = _
  congr 1
  unfold other_ctx_with_pid
  rw [List.countP_eq_length_filter, List.countP_eq_length_filter]
  apply List.Perm.length_eq
  rw [List.perm_ext_iff_of_nodup (((h3 _).filter _).filter _) ((List.nodup_range _).filter _)]
  intro j
  simp only [List.mem_filter, List.mem_range, h4, bne_iff_ne, ne_eq, beq_iff_eq,
    Bool.and_eq_true]
  constructor
  · rintro ⟨⟨⟨hu, _⟩, hne⟩, hp⟩
    rw [if_neg hne] at hp
    exact ⟨(h2 j hu).1, ⟨hne, hu⟩, hp⟩
  · rintro ⟨_, ⟨hne, hu⟩, hp⟩
    refine ⟨⟨⟨hu, ?_⟩, hne⟩, ?_⟩
    · rw [(h2 j hu).2, (h2 c hc).2, hp]
    · rw [if_neg hne]
      exact hp

/-- C17: in every registry state reached by `bcm_vk_get_ctx` and
`bcm_vk_free_ctx` calls, for every context `c` in use with pid `p`,
`bcm_vk_free_ctx(c)` returns the number of other contexts still in use with
pid `p` in the whole pool, marks `c` free, unlinks it from every bucket
(the other members keep their order), and leaves every other context as it
was.  In the scenario of pid 100 opening two contexts, closing the first
returns 1 and closing the second returns 0. -/
theorem bcm_vk_free_ctx_count (K : vk_consts) (vk : bcm_vk) (c : Nat)
    (hr : registry_reach K vk) (hc : (vk.ctx c).in_use = true) :
    (bcm_vk_free_ctx vk (some c)).1 = (other_ctx_with_pid K vk c (vk.ctx c).pid : Int) ∧
    ((bcm_vk_free_ctx vk (some c)).2.ctx c).in_use = false ∧
    (∀ h, (bcm_vk_free_ctx vk (some c)).2.pid_ht h = (vk.pid_ht h).filter (fun j => j != c)) ∧
    (∀ h, c ∉ (bcm_vk_free_ctx vk (some c)).2.pid_ht h) ∧
    (∀ j, j ≠ c → (bcm_vk_free_ctx vk (some c)).2.ctx j = vk.ctx j) ∧
    (bcm_vk_free_ctx
      (bcm_vk_get_ctx ex_consts (bcm_vk_get_ctx ex_consts bcm_vk_zeroed 100).2 100).2
      (some 0)).1 = 1 ∧
    (bcm_vk_free_ctx
      (bcm_vk_free_ctx
        (bcm_vk_get_ctx ex_consts (bcm_vk_get_ctx ex_consts bcm_vk_zeroed 100).2 100).2
        (some 0)).2 (some 1)).1 = 0 := by
  have hinv := registry_inv_of_reach K vk hr
  refine ⟨bcm_vk_free_ctx_count_of_inv K vk c hinv hc, ?_, ?_, ?_, ?_, by decide, by decide⟩
  · rw [bcm_vk_free_ctx_in_use vk c (hinv.1 c) hc]
    show (if c = c then _ else vk.ctx c).in_use = false
    rw [if_pos rfl]
  · intro h
    rw [bcm_vk_free_ctx_in_use vk c (hinv.1 c) hc]
  · intro h
    rw [bcm_vk_free_ctx_in_use vk c (hinv.1 c) hc]
    show c ∉ (vk.pid_ht h).filter (fun j => j != c)
    simp [List.mem_filter]
  · intro j hj
    rw [bcm_vk_free_ctx_in_use vk c (hinv.1 c) hc]
    show (if j = c then _ else vk.ctx j) = vk.ctx j
    rw [if_neg hj]

theorem bcm_vk_free_ctx_count_witness :
    ((bcm_vk_get_ctx ex_consts (bcm_vk_get_ctx ex_consts bcm_vk_zeroed 100).2 100).2.ctx 0).in_use
      = true ∧
    other_ctx_with_pid ex_consts
      (bcm_vk_get_ctx ex_consts (bcm_vk_get_ctx ex_consts bcm_vk_zeroed 100).2 100).2 0 100 = 1 ∧
    (bcm_vk_free_ctx
      (bcm_vk_get_ctx ex_consts (bcm_vk_get_ctx ex_consts bcm_vk_zeroed 100).2 100).2
      (some 0)).1 = 1 := by
  have h := bcm_vk_free_ctx_count ex_consts
    (bcm_vk_get_ctx ex_consts (bcm_vk_get_ctx ex_consts bcm_vk_zeroed 100).2 100).2 0
    (registry_reach.get_ctx _ 100 (registry_reach.get_ctx _ 100
      (registry_reach.fresh _ ⟨fun _ => ⟨rfl, rfl⟩, fun _ => rfl⟩)))
    (by decide)
  exact ⟨by decide, by decide, h.2.2.2.2.2.1⟩

/-! ## Properties of the drain -/

theorem get_chan_set_chan (vk : bcm_vk) (c : vk_chan_id) (ch : bcm_vk_msg_chan) :
    get_chan (set_chan vk c ch) c = ch := by
  cases c <;> rfl

theorem get_chan_set_chan_ne (vk : bcm_vk) (c c1 : vk_chan_id) (ch : bcm_vk_msg_chan)
    (h : c1 ≠ c) : get_chan (set_chan vk c ch) c1 = get_chan vk c1 := by
  cases c <;> cases c1 <;> first | rfl | exact absurd rfl h

theorem set_chan_set_chan (vk : bcm_vk) (c : vk_chan_id) (a b : bcm_vk_msg_chan) :
    set_chan (set_chan vk c a) c b = set_chan vk c b := by
  cases c <;> rfl

theorem set_chan_get_chan (vk : bcm_vk) (c : vk_chan_id) :
    set_chan vk c (get_chan vk c) = vk := by
  cases c <;> rfl

theorem set_pendq_self (chan : bcm_vk_msg_chan) (q : Nat) :
    set_pendq chan q (chan.pendq q) = chan := by
  unfold set_pendq
  have : (fun i => if i = q then chan.pendq q else chan.pendq i) = chan.pendq := by
    funext i
    by_cases h : i = q
    · rw [if_pos h, h]
    · rw [if_neg h]
  rw [this]

/-- The ownership test only looks at the `idx` fields of the contexts. -/
theorem wkent_owned_congr (vk vk1 : bcm_vk) (c : Nat)
    (h : ∀ i, (vk1.ctx i).idx = (vk.ctx i).idx) : wkent_owned vk1 c = wkent_owned vk c := by
  funext e
  unfold wkent_owned
  rw [h, h]

/-- The unconditional walk moves the whole list to `del_q` and leaves the
device state alone. -/
theorem drain_list_none (vk : bcm_vk) (l : List bcm_vk_wkent) :
    drain_list none vk l = (vk, [], l) := by
  induction l with
  | nil => rfl
  | cons e rest ih =>
    show ((drain_list none vk rest).1, (drain_list none vk rest).2.1,
      e :: (drain_list none vk rest).2.2) = _
    rw [ih]

theorem drain_rel_refl (chan : vk_chan_id) (cx : Nat) (vk : bcm_vk) :
    drain_rel chan cx vk vk [] := by
  refine ⟨rfl, fun _ _ => rfl, rfl, ?_, ?_, ⟨[], (List.append_nil _).symm⟩⟩
  · intro id
    simp
  · intro i
    by_cases h : i = cx
    · rw [if_pos h, h]
      simp
    · rw [if_neg h]

theorem drain_rel_trans (chan : vk_chan_id) (cx : Nat) (vk X Y : bcm_vk)
    (D1 D2 : List bcm_vk_wkent) (h1 : drain_rel chan cx vk X D1)
    (h2 : drain_rel chan cx X Y D2) : drain_rel chan cx vk Y (D1 ++ D2) := by
  obtain ⟨a1, b1, c1, d1, e1, l1, f1⟩ := h1
  obtain ⟨a2, b2, c2, d2, e2, l2, f2⟩ := h2
  refine ⟨?_, ?_, ?_, ?_, ?_, ⟨l1 ++ l2, ?_⟩⟩
  · rw [a2]
    rw [a1]
  · intro c hc
    rw [b2 c hc, b1 c hc]
  · rw [c2, c1]
  · intro id
    rw [d2, d1, List.any_append]
    cases vk.bmap id <;> cases List.any D1 (wkent_awaits id) <;> rfl
  · intro i
    rw [e2]
    by_cases h : i = cx
    · rw [if_pos h, if_pos h, e1 cx, if_pos rfl, List.countP_append]
      simp only [Nat.cast_add]
      congr 1
      omega
    · rw [if_neg h, if_neg h, e1 i, if_neg h]
  · rw [f2, f1, List.append_assoc]

/-- One owned entry handled by the context-scoped walk. -/
theorem drain_step_rel (chan : vk_chan_id) (cx : Nat) (vk : bcm_vk) (e : bcm_vk_wkent)
    (l : List klog_msg) :
    drain_rel chan cx vk
      (if e.vk2h_msg.isSome then
        { vk with
          klog := vk.klog ++ l
          ctx := fun i =>
            if i = cx then { vk.ctx cx with pend_cnt := (vk.ctx cx).pend_cnt - 1 }
            else vk.ctx i }
      else if vk.bmap (BCM_VK_GET_MSG_ID (e.h2vk_msg.headD vk_msg_blk.zero)) then
        bcm_vk_msgid_bitmap_clear { vk with klog := vk.klog ++ l }
          (BCM_VK_GET_MSG_ID (e.h2vk_msg.headD vk_msg_blk.zero)) 1
      else { vk with klog := vk.klog ++ l }) [e] := by
  have hw : ∀ id, [e].any (wkent_awaits id) =
      (!e.vk2h_msg.isSome && BCM_VK_GET_MSG_ID (e.h2vk_msg.headD vk_msg_blk.zero) == id) := by
    intro id
    rw [List.any_cons, List.any_nil, Bool.or_false]
    rfl
  have hc : [e].countP wkent_responded = if e.vk2h_msg.isSome then 1 else 0 := by
    rw [List.countP_cons, List.countP_nil, Nat.zero_add]
    rfl
  generalize BCM_VK_GET_MSG_ID (e.h2vk_msg.headD vk_msg_blk.zero) = m at hw ⊢
  cases hr : e.vk2h_msg.isSome with
  | true =>
    rw [if_pos rfl]
    rw [hr] at hw hc
    refine ⟨rfl, fun _ _ => rfl, rfl, ?_, ?_, ⟨l, rfl⟩⟩
    · intro id
      rw [hw]
      show vk.bmap id = _
      simp
    · intro i
      rw [hc]
      rfl
  | false =>
    rw [if_neg (by simp)]
    rw [hr] at hw hc
    by_cases hb : vk.bmap m = true
    · rw [if_pos hb]
      refine ⟨rfl, fun _ _ => rfl, rfl, ?_, ?_, ⟨l, rfl⟩⟩
      · intro id
        rw [hw]
        show (if m ≤ id ∧ id < m + 1 then false else vk.bmap id) = _
        by_cases hid : m = id
        · rw [if_pos (by omega)]
          simp [hid]
        · rw [if_neg (by omega)]
          simp [hid]
      · intro i
        rw [hc]
        show vk.ctx i = _
        by_cases h : i = cx
        · rw [if_pos h, h]
          simp
        · rw [if_neg h]
    · rw [if_neg hb]
      refine ⟨rfl, fun _ _ => rfl, rfl, ?_, ?_, ⟨l, rfl⟩⟩
      · intro id
        rw [hw]
        show vk.bmap id = _
        by_cases hid : m = id
        · rw [← hid]
          simp only [Bool.not_eq_true] at hb
          simp [hb]
        · simp [hid]
      · intro i
        rw [hc]
        show vk.ctx i = _
        by_cases h : i = cx
        · rw [if_pos h, h]
          simp
        · rw [if_neg h]

/-- A walk related to `vk` by `drain_rel` evaluates the ownership test as
`vk` does. -/
theorem drain_rel_owned (chan : vk_chan_id) (cx : Nat) (vk X : bcm_vk) (D : List bcm_vk_wkent)
    (h : drain_rel chan cx vk X D) (c : Nat) : wkent_owned X c = wkent_owned vk c := by
  apply wkent_owned_congr
  intro i
  rw [h.2.2.2.2.1 i]
  by_cases hi : i = cx
  · rw [if_pos hi, hi]
  · rw [if_neg hi]

/-- The context-scoped walk over one list: the entries owned by the context
go to `del_q`, the others stay, in order; the channels are not touched. -/
theorem drain_list_some (chan : vk_chan_id) (cx : Nat) (l : List bcm_vk_wkent) :
    ∀ vk : bcm_vk,
      (drain_list (some cx) vk l).2.1 = l.filter (fun e => !wkent_owned vk cx e) ∧
      (drain_list (some cx) vk l).2.2 = l.filter (wkent_owned vk cx) ∧
      (∀ c, get_chan (drain_list (some cx) vk l).1 c = get_chan vk c) ∧
      drain_rel chan cx vk (drain_list (some cx) vk l).1 (l.filter (wkent_owned vk cx)) := by
  induction l with
  | nil =>
    intro vk
    exact ⟨rfl, rfl, fun _ => rfl, drain_rel_refl chan cx vk⟩
  | cons e rest ih =>
    intro vk
    by_cases ho : wkent_owned vk cx e = true
    · have hstep := drain_step_rel chan cx vk e
        [klog_msg.drained (e.h2vk_msg.headD vk_msg_blk.zero).function_id
          (e.h2vk_msg.headD vk_msg_blk.zero).size
          (BCM_VK_GET_MSG_ID (e.h2vk_msg.headD vk_msg_blk.zero)) e.seq_num
          (e.h2vk_msg.headD vk_msg_blk.zero).context_id (vk.ctx e.ctx).idx
          [(e.h2vk_msg.headD vk_msg_blk.zero).args.getD 0 0,
            (e.h2vk_msg.headD vk_msg_blk.zero).args.getD 1 0]
          e.vk2h_msg.isSome (vk.bmap (BCM_VK_GET_MSG_ID (e.h2vk_msg.headD vk_msg_blk.zero)))]
      generalize hvk2 : (if e.vk2h_msg.isSome = true then _ else _ : bcm_vk) = vk2 at hstep
      have hd : drain_list (some cx) vk (e :: rest) =
          ((drain_list (some cx) vk2 rest).1, (drain_list (some cx) vk2 rest).2.1,
            e :: (drain_list (some cx) vk2 rest).2.2) := by
        rw [← hvk2]
        simp only [drain_list, ho, if_true]
      have hown := drain_rel_owned chan cx vk vk2 [e] hstep cx
      have hch : ∀ c, get_chan vk2 c = get_chan vk c := by
        intro c
        rw [← hvk2]
        cases c <;> (repeat' split) <;> rfl
      obtain ⟨i1, i2, i3, i4⟩ := ih vk2
      rw [hd]
      refine ⟨?_, ?_, ?_, ?_⟩
      · show (drain_list (some cx) vk2 rest).2.1 = _
        rw [i1, hown, List.filter_cons_of_neg (by simp [ho])]
      · show e :: (drain_list (some cx) vk2 rest).2.2 = _
        rw [i2, hown, List.filter_cons_of_pos ho]
      · intro c
        show get_chan (drain_list (some cx) vk2 rest).1 c = _
        rw [i3 c, hch c]
      · show drain_rel chan cx vk (drain_list (some cx) vk2 rest).1 _
        rw [List.filter_cons_of_pos ho]
        rw [hown] at i4
        exact drain_rel_trans chan cx vk vk2 _ [e] _ hstep i4
    · have hd : drain_list (some cx) vk (e :: rest) =
          ((drain_list (some cx) vk rest).1, e :: (drain_list (some cx) vk rest).2.1,
            (drain_list (some cx) vk rest).2.2) := by
        simp only [drain_list, ho]
        rfl
      obtain ⟨i1, i2, i3, i4⟩ := ih vk
      rw [hd]
      refine ⟨?_, ?_, ?_, ?_⟩
      · show e :: (drain_list (some cx) vk rest).2.1 = _
        rw [i1, List.filter_cons_of_pos (by simp [ho])]
      · show (drain_list (some cx) vk rest).2.2 = _
        rw [i2, List.filter_cons_of_neg ho]
      · exact i3
      · show drain_rel chan cx vk (drain_list (some cx) vk rest).1 _
        rw [List.filter_cons_of_neg ho]
        exact i4

theorem pend_from_congr (f g : Nat → List bcm_vk_wkent) (n : Nat) :
    ∀ num, (∀ q, num ≤ q → q < num + n → f q = g q) → pend_from f n num = pend_from g n num := by
  induction n with
  | zero => intro num _; rfl
  | succ n ih =>
    intro num h
    show f num ++ pend_from f n (num + 1) = g num ++ pend_from g n (num + 1)
    rw [h num (Nat.le_refl _) (by omega), ih (num + 1) (fun q h1 h2 => h q (by omega) (by omega))]

theorem mem_pend_from (f : Nat → List bcm_vk_wkent) (e : bcm_vk_wkent) (n : Nat) :
    ∀ num, e ∈ pend_from f n num ↔ ∃ q, num ≤ q ∧ q < num + n ∧ e ∈ f q := by
  induction n with
  | zero =>
    intro num
    constructor
    · intro h
      cases h
    · rintro ⟨q, h1, h2, _⟩
      omega
  | succ n ih =>
    intro num
    show e ∈ f num ++ pend_from f n (num + 1) ↔ _
    rw [List.mem_append, ih (num + 1)]
    constructor
    · rintro (h | ⟨q, h1, h2, h3⟩)
      · exact ⟨num, Nat.le_refl _, by omega, h⟩
      · exact ⟨q, by omega, by omega, h3⟩
    · rintro ⟨q, h1, h2, h3⟩
      by_cases hq : q = num
      · left
        rw [← hq]
        exact h3
      · right
        exact ⟨q, by omega, by omega, h3⟩

/-- Every entry on a pending list of a queue of the channel is among
`pend_all`, and conversely. -/
theorem mem_pend_all (chan : bcm_vk_msg_chan) (e : bcm_vk_wkent) :
    e ∈ pend_all chan ↔ ∃ q, q < chan.q_nr ∧ e ∈ chan.pendq q := by
  unfold pend_all
  rw [mem_pend_from]
  constructor
  · rintro ⟨q, _, h2, h3⟩
    exact ⟨q, by omega, h3⟩
  · rintro ⟨q, h2, h3⟩
    exact ⟨q, Nat.zero_le _, by omega, h3⟩

theorem drain_rel_set_pendq (chan : vk_chan_id) (cx : Nat) (vk X : bcm_vk)
    (D : List bcm_vk_wkent) (q : Nat) (l : List bcm_vk_wkent) (h : drain_rel chan cx vk X D) :
    drain_rel chan cx vk (set_chan X chan (set_pendq (get_chan X chan) q l)) D := by
  obtain ⟨a1, b1, c1, d1, e1, l1, f1⟩ := h
  refine ⟨?_, ?_, ?_, ?_, ?_, ⟨l1, ?_⟩⟩
  · cases chan
    · show { X with h2vk_msg_chan := _ } = _
      rw [a1]
      rfl
    · show { X with vk2h_msg_chan := _ } = _
      rw [a1]
      rfl
  · intro c hc
    rw [get_chan_set_chan_ne _ _ _ _ hc]
    exact b1 c hc
  · rw [get_chan_set_chan]
    unfold set_pendq
    rw [c1]
  · intro id
    rw [← d1 id]
    cases chan <;> rfl
  · intro i
    rw [← e1 i]
    cases chan <;> rfl
  · rw [← f1]
    cases chan <;> rfl

/-- The context-scoped walk over the queues `num, ..., num + n - 1`. -/
theorem drain_queues_some (chan : vk_chan_id) (cx : Nat) (n : Nat) :
    ∀ (num : Nat) (vk : bcm_vk) (del : List bcm_vk_wkent),
      (drain_queues chan (some cx) n num vk del).2 =
        del ++ (pend_from (get_chan vk chan).pendq n num).filter (wkent_owned vk cx) ∧
      drain_rel chan cx vk (drain_queues chan (some cx) n num vk del).1
        ((pend_from (get_chan vk chan).pendq n num).filter (wkent_owned vk cx)) ∧
      ∀ q, (get_chan (drain_queues chan (some cx) n num vk del).1 chan).pendq q =
        if num ≤ q ∧ q < num + n then
          ((get_chan vk chan).pendq q).filter (fun e => !wkent_owned vk cx e)
        else (get_chan vk chan).pendq q := by
  induction n with
  | zero =>
    intro num vk del
    refine ⟨(List.append_nil _).symm, drain_rel_refl chan cx vk, ?_⟩
    intro q
    rw [if_neg (by omega)]
    rfl
  | succ n ih =>
    intro num vk del
    obtain ⟨l1, l2, l3, l4⟩ := drain_list_some chan cx ((get_chan vk chan).pendq num) vk
    generalize hr : drain_list (some cx) vk ((get_chan vk chan).pendq num) = r at l1 l2 l3 l4
    have hd : drain_queues chan (some cx) (n + 1) num vk del =
        drain_queues chan (some cx) n (num + 1)
          (set_chan r.1 chan (set_pendq (get_chan r.1 chan) num r.2.1)) (del ++ r.2.2) := by
      rw [← hr]
      rfl
    have hrel := drain_rel_set_pendq chan cx vk r.1 _ num r.2.1 l4
    generalize hvk1 : set_chan r.1 chan (set_pendq (get_chan r.1 chan) num r.2.1) = vk1
      at hd hrel
    have hown := drain_rel_owned chan cx vk vk1 _ hrel cx
    have hpq : ∀ q, (get_chan vk1 chan).pendq q =
        if q = num then ((get_chan vk chan).pendq num).filter (fun e => !wkent_owned vk cx e)
        else (get_chan vk chan).pendq q := by
      intro q
      rw [← hvk1, get_chan_set_chan, l3 chan, ← l1]
      rfl
    obtain ⟨i1, i2, i3⟩ := ih (num + 1) vk1 (del ++ r.2.2)
    have hpf : pend_from (get_chan vk1 chan).pendq n (num + 1) =
        pend_from (get_chan vk chan).pendq n (num + 1) := by
      apply pend_from_congr
      intro q h1 h2
      rw [hpq q, if_neg (by omega)]
    rw [hpf, hown] at i1 i2
    rw [hd]
    refine ⟨?_, ?_, ?_⟩
    · rw [i1, l2, List.append_assoc]
      show _ = del ++ List.filter _ ((get_chan vk chan).pendq num ++ _)
      rw [List.filter_append]
    · show drain_rel chan cx vk _ (List.filter _ ((get_chan vk chan).pendq num ++ _))
      rw [List.filter_append]
      exact drain_rel_trans chan cx vk vk1 _ _ _ hrel i2
    · intro q
      rw [i3 q, hown, hpq q]
      by_cases hq : q = num
      · rw [if_neg (by omega), if_pos hq, if_pos (by omega), hq]
      · rw [if_neg hq]
        by_cases hq2 : num + 1 ≤ q ∧ q < num + 1 + n
        · rw [if_pos hq2, if_pos (by omega)]
        · rw [if_neg hq2, if_neg (by omega)]

/-- The unconditional walk over the queues `num, ..., num + n - 1` empties
their lists and changes nothing else. -/
theorem drain_queues_none (chan : vk_chan_id) (n : Nat) :
    ∀ (num : Nat) (vk : bcm_vk) (del : List bcm_vk_wkent),
      drain_queues chan none n num vk del =
        (set_chan vk chan
          { get_chan vk chan with
            pendq := fun q =>
              if num ≤ q ∧ q < num + n then [] else (get_chan vk chan).pendq q },
          del ++ pend_from (get_chan vk chan).pendq n num) := by
  induction n with
  | zero =>
    intro num vk del
    show (vk, del) = _
    have : (fun q => if num ≤ q ∧ q < num + 0 then [] else (get_chan vk chan).pendq q) =
        (get_chan vk chan).pendq := by
      funext q
      rw [if_neg (by omega)]
    rw [this]
    show (vk, del) = (set_chan vk chan (get_chan vk chan), del ++ [])
    rw [set_chan_get_chan, List.append_nil]
  | succ n ih =>
    intro num vk del
    show drain_queues chan none n (num + 1)
      (set_chan (drain_list none vk ((get_chan vk chan).pendq num)).1 chan
        (set_pendq (get_chan (drain_list none vk ((get_chan vk chan).pendq num)).1 chan) num
          (drain_list none vk ((get_chan vk chan).pendq num)).2.1))
      (del ++ (drain_list none vk ((get_chan vk chan).pendq num)).2.2) = _
    rw [drain_list_none, ih]
    show (set_chan (set_chan vk chan (set_pendq (get_chan vk chan) num [])) chan _,
      del ++ (get_chan vk chan).pendq num ++ _) = _
    rw [set_chan_set_chan, get_chan_set_chan, List.append_assoc]
    congr 2
    · show bcm_vk_msg_chan.mk _ _ _ _ = bcm_vk_msg_chan.mk _ _ _ _
      congr 1
      funext q
      show (if num + 1 ≤ q ∧ q < num + 1 + n then [] else if q = num then []
        else (get_chan vk chan).pendq q) = _
      by_cases hq : q = num
      · rw [if_neg (by omega), if_pos hq, if_pos (by omega)]
      · rw [if_neg hq]
        by_cases hq2 : num + 1 ≤ q ∧ q < num + 1 + n
        · rw [if_pos hq2, if_pos (by omega)]
        · rw [if_neg hq2, if_neg (by omega)]
    · show (get_chan vk chan).pendq num ++
          pend_from (fun i => if i = num then [] else (get_chan vk chan).pendq i) n (num + 1) =
        (get_chan vk chan).pendq num ++ pend_from (get_chan vk chan).pendq n (num + 1)
      congr 1
      apply pend_from_congr
      intro q h1 h2
      show (if q = num then [] else (get_chan vk chan).pendq q) = _
      rw [if_neg (by omega)]

theorem drain_rel_klog (chan : vk_chan_id) (cx : Nat) (vk X : bcm_vk) (D : List bcm_vk_wkent)
    (l : List klog_msg) (h : drain_rel chan cx vk X D) :
    drain_rel chan cx vk { X with klog := X.klog ++ l } D := by
  obtain ⟨a1, b1, c1, d1, e1, l1, f1⟩ := h
  refine ⟨?_, ?_, c1, d1, e1, ⟨l1 ++ l, ?_⟩⟩
  · show { X with klog := _ } = _
    rw [a1]
  · intro c hc
    rw [← b1 c hc]
    cases c <;> rfl
  · show X.klog ++ l = _
    rw [f1, List.append_assoc]

/-- What the context-scoped `bcm_vk_drain_all_pend` does, in terms of
`drain_rel`, and the pending lists it leaves. -/
theorem bcm_vk_drain_all_pend_some (vk : bcm_vk) (chan : vk_chan_id) (cx : Nat) :
    drain_rel chan cx vk (bcm_vk_drain_all_pend vk chan (some cx))
      ((pend_all (get_chan vk chan)).filter (wkent_owned vk cx)) ∧
    ∀ q, (get_chan (bcm_vk_drain_all_pend vk chan (some cx)) chan).pendq q =
      if q < (get_chan vk chan).q_nr then
        ((get_chan vk chan).pendq q).filter (fun e => !wkent_owned vk cx e)
      else (get_chan vk chan).pendq q := by
  obtain ⟨_, h2, h3⟩ := drain_queues_some chan cx (get_chan vk chan).q_nr 0 vk []
  have hq : ∀ q, (0 ≤ q ∧ q < 0 + (get_chan vk chan).q_nr) ↔ q < (get_chan vk chan).q_nr := by
    intro q
    omega
  unfold bcm_vk_drain_all_pend
  by_cases hn :
      (drain_queues chan (some cx) (get_chan vk chan).q_nr 0 vk []).2.length % 4294967296 ≠ 0
  · simp only [if_pos hn]
    refine ⟨drain_rel_klog chan cx vk _ _ _ h2, ?_⟩
    intro q
    have := h3 q
    simp only [hq] at this
    rw [← this]
    cases chan <;> rfl
  · simp only [if_neg hn]
    refine ⟨h2, ?_⟩
    intro q
    have := h3 q
    simp only [hq] at this
    exact this

theorem pend_from_nil (f : Nat → List bcm_vk_wkent) (n : Nat) :
    ∀ num, (∀ q, num ≤ q → q < num + n → f q = []) → pend_from f n num = [] := by
  induction n with
  | zero => intro num _; rfl
  | succ n ih =>
    intro num h
    show f num ++ pend_from f n (num + 1) = []
    rw [h num (Nat.le_refl _) (by omega), ih (num + 1) (fun q h1 h2 => h q (by omega) (by omega))]
    rfl

/-- What the unconditional `bcm_vk_drain_all_pend` does: the pending lists of
the queues of the channel are emptied, a line may be logged, and nothing else
changes. -/
theorem bcm_vk_drain_all_pend_none (vk : bcm_vk) (chan : vk_chan_id) :
    ∃ l, bcm_vk_drain_all_pend vk chan none =
      { set_chan vk chan
          { get_chan vk chan with
            pendq := fun q =>
              if q < (get_chan vk chan).q_nr then [] else (get_chan vk chan).pendq q } with
        klog := vk.klog ++ l } := by
  have hf : (fun q => if 0 ≤ q ∧ q < 0 + (get_chan vk chan).q_nr then []
      else (get_chan vk chan).pendq q) =
      (fun q => if q < (get_chan vk chan).q_nr then [] else (get_chan vk chan).pendq q) := by
    funext q
    by_cases h : q < (get_chan vk chan).q_nr
    · rw [if_pos (by omega), if_pos h]
    · rw [if_neg (by omega), if_neg h]
  unfold bcm_vk_drain_all_pend
  rw [drain_queues_none, hf]
  by_cases hn : ([] ++ pend_from (get_chan vk chan).pendq (get_chan vk chan).q_nr 0 :
      List bcm_vk_wkent).length % 4294967296 ≠ 0
  · simp only [if_pos hn]
    refine ⟨[klog_msg.total_drained_items
      (([] ++ pend_from (get_chan vk chan).pendq (get_chan vk chan).q_nr 0 :
        List bcm_vk_wkent).length % 4294967296)], ?_⟩
    cases chan <;> rfl
  · simp only [if_neg hn]
    refine ⟨[], ?_⟩
    cases chan <;> simp only [set_chan, List.append_nil]

/-- On a channel whose pending lists are all empty the unconditional
`bcm_vk_drain_all_pend` changes nothing. -/
theorem bcm_vk_drain_all_pend_none_of_empty (vk : bcm_vk) (chan : vk_chan_id)
    (h : ∀ q, q < (get_chan vk chan).q_nr → (get_chan vk chan).pendq q = []) :
    bcm_vk_drain_all_pend vk chan none = vk := by
  have hf : (fun q => if 0 ≤ q ∧ q < 0 + (get_chan vk chan).q_nr then []
      else (get_chan vk chan).pendq q) = (get_chan vk chan).pendq := by
    funext q
    by_cases hq : q < (get_chan vk chan).q_nr
    · rw [if_pos (by omega), h q hq]
    · rw [if_neg (by omega)]
  have hp : pend_from (get_chan vk chan).pendq (get_chan vk chan).q_nr 0 = [] :=
    pend_from_nil _ _ 0 (fun q _ h2 => h q (by omega))
  unfold bcm_vk_drain_all_pend
  rw [drain_queues_none, hf, hp]
  show set_chan vk chan (get_chan vk chan) = vk
  exact set_chan_get_chan vk chan

/-- C14: the context-scoped `bcm_vk_drain_all_pend(chan, c)` removes from the
pending list of every queue of the channel exactly the entries owned by `c`
(`entry->ctx->idx == c->idx`) and keeps the others in their order; the lists
of the other channel are not touched.  A bit of the bitmap is set afterwards
exactly when it was set before and no removed entry without response carries
its id; the pending counter of `c` goes down by the number of removed entries
that had a response, and nothing else changes in the contexts (`drain_rel`
also says that only the bitmap, the contexts, the log and the pending lists
of the channel change). -/
theorem bcm_vk_drain_all_pend_scoped (vk : bcm_vk) (chan : vk_chan_id) (c : Nat) :
    (∀ q, q < (get_chan vk chan).q_nr →
      (get_chan (bcm_vk_drain_all_pend vk chan (some c)) chan).pendq q =
        ((get_chan vk chan).pendq q).filter (fun e => !wkent_owned vk c e)) ∧
    (∀ ch, ch ≠ chan → get_chan (bcm_vk_drain_all_pend vk chan (some c)) ch = get_chan vk ch) ∧
    (∀ id, (bcm_vk_drain_all_pend vk chan (some c)).bmap id = true ↔
      (vk.bmap id = true ∧
        ¬ ∃ q e, q < (get_chan vk chan).q_nr ∧ e ∈ (get_chan vk chan).pendq q ∧
          wkent_owned vk c e = true ∧ e.vk2h_msg = none ∧
          BCM_VK_GET_MSG_ID (e.h2vk_msg.headD vk_msg_blk.zero) = id)) ∧
    ((bcm_vk_drain_all_pend vk chan (some c)).ctx c).pend_cnt =
      (vk.ctx c).pend_cnt -
        ((((pend_all (get_chan vk chan)).filter (wkent_owned vk c)).countP
          (fun e => e.vk2h_msg.isSome) : Nat) : Int) ∧
    (∀ i, i ≠ c → (bcm_vk_drain_all_pend vk chan (some c)).ctx i = vk.ctx i) ∧
    drain_rel chan c vk (bcm_vk_drain_all_pend vk chan (some c))
      ((pend_all (get_chan vk chan)).filter (wkent_owned vk c)) := by
  obtain ⟨hrel, hq⟩ := bcm_vk_drain_all_pend_some vk chan c
  refine ⟨?_, hrel.2.1, ?_, ?_, ?_, hrel⟩
  · intro q h
    rw [hq q, if_pos h]
  · intro id
    rw [hrel.2.2.2.1 id]
    simp only [Bool.and_eq_true, Bool.not_eq_true', List.any_eq_false, List.mem_filter,
      mem_pend_all, wkent_awaits, Bool.not_eq_true, Bool.and_eq_true, beq_iff_eq, not_and,
      Bool.not_eq_eq_eq_not, Bool.not_true,
      not_exists, and_imp, forall_exists_index, Bool.not_eq_false]
    constructor
    · rintro ⟨hb, h⟩
      refine ⟨hb, ?_⟩
      intro q e hq1 he ho hn
      exact h e q hq1 he ho (by rw [hn]; rfl)
    · rintro ⟨hb, h⟩
      refine ⟨hb, ?_⟩
      intro e q hq1 he ho hn
      refine h q e hq1 he ho ?_
      cases hv : e.vk2h_msg with
      | none => rfl
      | some v =>
        rw [hv] at hn
        cases hn
  · rw [hrel.2.2.2.2.1 c, if_pos rfl]
    rfl
  · intro i hi
    rw [hrel.2.2.2.2.1 i, if_neg hi]

theorem bcm_vk_drain_all_pend_scoped_witness :
    (get_chan
      (bcm_vk_drain_all_pend
        (ex_vk_vk2h 4 0 0 [] [ex_wkent 0 0x10 false, ex_wkent 1 0x30 false, ex_wkent 0 0x50 true])
        vk_chan_id.h2vk (some 0)) vk_chan_id.h2vk).pendq 0 = [ex_wkent 1 0x30 false] ∧
    (bcm_vk_drain_all_pend
      (ex_vk_vk2h 4 0 0 [] [ex_wkent 0 0x10 false, ex_wkent 1 0x30 false, ex_wkent 0 0x50 true])
      vk_chan_id.h2vk (some 0)).bmap 1 = false ∧
    (bcm_vk_drain_all_pend
      (ex_vk_vk2h 4 0 0 [] [ex_wkent 0 0x10 false, ex_wkent 1 0x30 false, ex_wkent 0 0x50 true])
      vk_chan_id.h2vk (some 0)).bmap 3 = true ∧
    ((bcm_vk_drain_all_pend
      (ex_vk_vk2h 4 0 0 [] [ex_wkent 0 0x10 false, ex_wkent 1 0x30 false, ex_wkent 0 0x50 true])
      vk_chan_id.h2vk (some 0)).ctx 0).pend_cnt = -1 := by
  have h := bcm_vk_drain_all_pend_scoped
    (ex_vk_vk2h 4 0 0 [] [ex_wkent 0 0x10 false, ex_wkent 1 0x30 false, ex_wkent 0 0x50 true])
    vk_chan_id.h2vk 0
  refine ⟨?_, by decide, by decide, ?_⟩
  · rw [h.1 0 (by decide)]
    decide
  · rw [h.2.2.2.1]
    decide

/-- C15: the unconditional `bcm_vk_drain_all_pend(chan, NULL)` leaves the
pending list of every queue of the channel empty and changes nothing but
these lists and the log; applied to a channel whose pending lists are all
empty it changes no state at all, so draining twice gives the same state as
draining once. -/
theorem bcm_vk_drain_all_pend_unconditional (vk : bcm_vk) (chan : vk_chan_id) :
    (∀ q, q < (get_chan vk chan).q_nr →
      (get_chan (bcm_vk_drain_all_pend vk chan none) chan).pendq q = []) ∧
    (∃ l, bcm_vk_drain_all_pend vk chan none =
      { set_chan vk chan
          { get_chan vk chan with
            pendq := fun q =>
              if q < (get_chan vk chan).q_nr then [] else (get_chan vk chan).pendq q } with
        klog := vk.klog ++ l }) ∧
    ((∀ q, q < (get_chan vk chan).q_nr → (get_chan vk chan).pendq q = []) →
      bcm_vk_drain_all_pend vk chan none = vk) ∧
    bcm_vk_drain_all_pend (bcm_vk_drain_all_pend vk chan none) chan none =
      bcm_vk_drain_all_pend vk chan none := by
  obtain ⟨l, hl⟩ := bcm_vk_drain_all_pend_none vk chan
  have hnr : (get_chan (bcm_vk_drain_all_pend vk chan none) chan).q_nr =
      (get_chan vk chan).q_nr := by
    rw [hl]
    cases chan <;> rfl
  have hempty : ∀ q, q < (get_chan vk chan).q_nr →
      (get_chan (bcm_vk_drain_all_pend vk chan none) chan).pendq q = [] := by
    intro q hq
    rw [hl]
    cases chan
    · show (if q < vk.h2vk_msg_chan.q_nr then [] else _) = _
      exact if_pos hq
    · show (if q < vk.vk2h_msg_chan.q_nr then [] else _) = _
      exact if_pos hq
  refine ⟨hempty, ⟨l, hl⟩, bcm_vk_drain_all_pend_none_of_empty vk chan, ?_⟩
  apply bcm_vk_drain_all_pend_none_of_empty
  intro q hq
  rw [hnr] at hq
  exact hempty q hq

theorem bcm_vk_drain_all_pend_unconditional_witness :
    (get_chan
      (bcm_vk_drain_all_pend
        (ex_vk_vk2h 4 0 0 [] [ex_wkent 0 0x10 false, ex_wkent 1 0x30 false])
        vk_chan_id.h2vk none) vk_chan_id.h2vk).pendq 0 = [] ∧
    bcm_vk_drain_all_pend (ex_vk_vk2h 4 0 0 [] []) vk_chan_id.h2vk none =
      ex_vk_vk2h 4 0 0 [] [] := by
  have h1 := bcm_vk_drain_all_pend_unconditional
    (ex_vk_vk2h 4 0 0 [] [ex_wkent 0 0x10 false, ex_wkent 1 0x30 false]) vk_chan_id.h2vk
  have h2 := bcm_vk_drain_all_pend_unconditional (ex_vk_vk2h 4 0 0 [] []) vk_chan_id.h2vk
  refine ⟨h1.1 0 (by decide), h2.2.2.1 ?_⟩
  intro q _
  show (if q = 0 then [] else []) = []
  split <;> rfl

/-! ## Matching responses with pending requests -/

/-- One turn of the inner loop of `bcm_vk2h_msg_dequeue` at a message that
passes the index check and gets its buffer: the message is counted and the
loop goes on in the state `deq_msg_step` gives. -/
theorem deq_loop_step (K : vk_consts) (kzalloc_ok : Nat → Bool) (fuel q_num total : Nat)
    (vk : bcm_vk) (hok : deq_head_ok vk q_num) (hk : kzalloc_ok total = true) :
    deq_loop K kzalloc_ok (fuel + 1) q_num total vk =
      deq_loop K kzalloc_ok fuel q_num (total + 1) (deq_msg_step K vk q_num) := by
  obtain ⟨h1, h2, h3, h4⟩ := hok
  have hnf : ¬ ((vk.vk2h_msg_chan.msgq q_num).rd_idx ≥ (vk.vk2h_msg_chan.sync_qinfo q_num).q_size ∨
      ((vk.vk2h_msg_chan.msgq q_num).ring
        ((vk.vk2h_msg_chan.msgq q_num).rd_idx &&&
          VK_MSGQ_SIZE_MASK (vk.vk2h_msg_chan.sync_qinfo q_num))).size >
      ((vk.vk2h_msg_chan.sync_qinfo q_num).q_size + (4294967296 - 1)) % 4294967296) := by
    intro h
    rcases h with h | h
    · exact absurd h3 (Nat.not_lt.2 h)
    · exact absurd h4 (Nat.not_le.2 h)
  rw [deq_loop]
  simp only [if_pos h1, h2, if_true, if_neg hnf, hk]
  unfold deq_msg_step deq_head
  simp only []
  by_cases hf : ((deq_copy_loop (vk.vk2h_msg_chan.sync_qinfo q_num)
      (vk.vk2h_msg_chan.msgq q_num).ring
      ((((vk.vk2h_msg_chan.msgq q_num).ring
        ((vk.vk2h_msg_chan.msgq q_num).rd_idx &&&
          VK_MSGQ_SIZE_MASK (vk.vk2h_msg_chan.sync_qinfo q_num))).size + 1) % 4294967296)
      ((vk.vk2h_msg_chan.msgq q_num).rd_idx &&&
        VK_MSGQ_SIZE_MASK (vk.vk2h_msg_chan.sync_qinfo q_num))
      (vk.vk2h_msg_chan.msgq q_num).rd_idx).1.headD vk_msg_blk.zero).function_id =
      K.VK_FID_SHUTDOWN
  · rw [if_pos hf, if_pos hf]
  · rw [if_neg hf, if_neg hf]
    split <;> rename_i heq <;> simp only [heq]

theorem find_pending_in_none (m : Nat) (l : List bcm_vk_wkent)
    (h : ∀ x ∈ l, BCM_VK_GET_MSG_ID (x.h2vk_msg.headD vk_msg_blk.zero) ≠ m) :
    find_pending_in m l = none := by
  induction l with
  | nil => rfl
  | cons x rest ih =>
    rw [find_pending_in, if_neg (h x (List.mem_cons_self _ _)),
      ih (fun y hy => h y (List.mem_cons_of_mem _ hy))]

theorem find_pending_in_append (m : Nat) (pre post : List bcm_vk_wkent) (e : bcm_vk_wkent)
    (h : ∀ x ∈ pre, BCM_VK_GET_MSG_ID (x.h2vk_msg.headD vk_msg_blk.zero) ≠ m)
    (he : BCM_VK_GET_MSG_ID (e.h2vk_msg.headD vk_msg_blk.zero) = m) :
    find_pending_in m (pre ++ e :: post) = some (e, pre ++ post) := by
  induction pre with
  | nil =>
    show find_pending_in m (e :: post) = _
    rw [find_pending_in, if_pos he]
    rfl
  | cons x rest ih =>
    show find_pending_in m (x :: (rest ++ e :: post)) = _
    rw [find_pending_in, if_neg (h x (List.mem_cons_self _ _)),
      ih (fun y hy => h y (List.mem_cons_of_mem _ hy))]
    rfl

theorem deq_copy_loop_length (qinfo : bcm_vk_sync_qinfo) (ring : Nat → vk_msg_blk) (n : Nat) :
    ∀ src rd_idx, (deq_copy_loop qinfo ring n src rd_idx).1.length = n := by
  induction n with
  | zero => intro _ _; rfl
  | succ n ih =>
    intro src rd_idx
    show (ring src :: (deq_copy_loop qinfo ring n _ _).1).length = n + 1
    rw [List.length_cons, ih]

theorem deq_copy_loop_rd (qinfo : bcm_vk_sync_qinfo) (ring : Nat → vk_msg_blk) (k : Nat)
    (hk : k ≤ 32) (hm : qinfo.q_mask = 2 ^ k - 1) (n : Nat) :
    ∀ src rd_idx, rd_idx < 2 ^ k →
      (deq_copy_loop qinfo ring n src rd_idx).2 = (rd_idx + n) % 2 ^ k := by
  induction n with
  | zero =>
    intro src rd_idx h
    show rd_idx = _
    rw [Nat.add_zero, Nat.mod_eq_of_lt h]
  | succ n ih =>
    intro src rd_idx h
    show (deq_copy_loop qinfo ring n _ (VK_MSGQ_INC qinfo rd_idx 1)).2 = _
    rw [ih _ _ (by
      rw [VK_MSGQ_INC_eq_mod qinfo k rd_idx 1 hk hm]
      exact Nat.mod_lt _ (Nat.two_pow_pos k)),
      VK_MSGQ_INC_eq_mod qinfo k rd_idx 1 hk hm, Nat.mod_add_mod]
    congr 1
    omega

/-- The state `deq_msg_step` gives when the message is not one-way and the
first entry with its id on the pending list of the queue is `e`. -/
theorem deq_msg_step_match (K : vk_consts) (vk : bcm_vk) (q_num : Nat)
    (pre post : List bcm_vk_wkent) (e : bcm_vk_wkent)
    (hfid : ((deq_head vk q_num).1.headD vk_msg_blk.zero).function_id ≠ K.VK_FID_SHUTDOWN)
    (hpend : vk.h2vk_msg_chan.pendq q_num = pre ++ e :: post)
    (hpre : ∀ x ∈ pre, BCM_VK_GET_MSG_ID (x.h2vk_msg.headD vk_msg_blk.zero) ≠
      BCM_VK_GET_MSG_ID ((deq_head vk q_num).1.headD vk_msg_blk.zero))
    (he : BCM_VK_GET_MSG_ID (e.h2vk_msg.headD vk_msg_blk.zero) =
      BCM_VK_GET_MSG_ID ((deq_head vk q_num).1.headD vk_msg_blk.zero)) :
    deq_msg_step K vk q_num =
      bcm_vk_append_pendq
        (bcm_vk_msgid_bitmap_clear
          (set_chan
            { set_vk2h_msgq vk q_num
                { vk.vk2h_msg_chan.msgq q_num with rd_idx := (deq_head vk q_num).2 } with
              klog := vk.klog ++
                [klog_msg.blks_extracted q_num (deq_head vk q_num).2
                  (vk.vk2h_msg_chan.msgq q_num).wr_idx
                  ((((vk.vk2h_msg_chan.msgq q_num).ring
                    ((vk.vk2h_msg_chan.msgq q_num).rd_idx &&&
                      VK_MSGQ_SIZE_MASK (vk.vk2h_msg_chan.sync_qinfo q_num))).size + 1) %
                    4294967296)] }
            vk_chan_id.h2vk (set_pendq vk.h2vk_msg_chan q_num (pre ++ post)))
          (BCM_VK_GET_MSG_ID ((deq_head vk q_num).1.headD vk_msg_blk.zero)) 1)
        vk_chan_id.vk2h q_num
        { e with
          vk2h_blks :=
            (((vk.vk2h_msg_chan.msgq q_num).ring
              ((vk.vk2h_msg_chan.msgq q_num).rd_idx &&&
                VK_MSGQ_SIZE_MASK (vk.vk2h_msg_chan.sync_qinfo q_num))).size + 1) % 4294967296
          vk2h_msg := some (deq_head vk q_num).1 } := by
  have hfind := find_pending_in_append _ pre post e hpre he
  rw [← hpend] at hfind
  unfold deq_msg_step
  simp only []
  rw [if_neg hfid]
  simp only [bcm_vk_find_pending, get_chan, set_vk2h_msgq, hfind]

/-- The state `deq_msg_step` gives when the message is one-way or no entry on
the pending list of the queue carries its id: only the read index of the queue
and the log have changed. -/
theorem deq_msg_step_discard (K : vk_consts) (vk : bcm_vk) (q_num : Nat)
    (hdis : ((deq_head vk q_num).1.headD vk_msg_blk.zero).function_id = K.VK_FID_SHUTDOWN ∨
      ∀ x ∈ vk.h2vk_msg_chan.pendq q_num,
        BCM_VK_GET_MSG_ID (x.h2vk_msg.headD vk_msg_blk.zero) ≠
          BCM_VK_GET_MSG_ID ((deq_head vk q_num).1.headD vk_msg_blk.zero)) :
    ∃ l, deq_msg_step K vk q_num =
      { set_vk2h_msgq vk q_num
          { vk.vk2h_msg_chan.msgq q_num with rd_idx := (deq_head vk q_num).2 } with
        klog := vk.klog ++ l } := by
  by_cases hfid :
      ((deq_head vk q_num).1.headD vk_msg_blk.zero).function_id = K.VK_FID_SHUTDOWN
  · refine ⟨[klog_msg.blks_extracted q_num (deq_head vk q_num).2
        (vk.vk2h_msg_chan.msgq q_num).wr_idx
        ((((vk.vk2h_msg_chan.msgq q_num).ring
          ((vk.vk2h_msg_chan.msgq q_num).rd_idx &&&
            VK_MSGQ_SIZE_MASK (vk.vk2h_msg_chan.sync_qinfo q_num))).size + 1) %
          4294967296)], ?_⟩
    unfold deq_msg_step
    simp only []
    rw [if_pos hfid]
    rfl
  · have hnone := find_pending_in_none _ _ (hdis.resolve_left hfid)
    refine ⟨[klog_msg.blks_extracted q_num (deq_head vk q_num).2
        (vk.vk2h_msg_chan.msgq q_num).wr_idx
        ((((vk.vk2h_msg_chan.msgq q_num).ring
          ((vk.vk2h_msg_chan.msgq q_num).rd_idx &&&
            VK_MSGQ_SIZE_MASK (vk.vk2h_msg_chan.sync_qinfo q_num))).size + 1) %
          4294967296),
      klog_msg.msg_id_not_found
        (BCM_VK_GET_MSG_ID ((deq_head vk q_num).1.headD vk_msg_blk.zero))
        ((deq_head vk q_num).1.headD vk_msg_blk.zero).function_id
        (vk.bmap (BCM_VK_GET_MSG_ID ((deq_head vk q_num).1.headD vk_msg_blk.zero)))], ?_⟩
    unfold deq_msg_step
    simp only []
    rw [if_neg hfid]
    simp only [bcm_vk_find_pending, get_chan, set_vk2h_msgq, hnone, List.append_assoc,
      List.singleton_append]

/-! ## Properties of the last-session path -/

/-- An enqueue that finds room at once and the write index within bounds
returns 0 without sleeping. -/
theorem bcm_h2vk_msg_enqueue_direct_rc (K : vk_consts) (vk : bcm_vk) (entry : bcm_vk_wkent)
    (card_rd : List Nat)
    (hblks : entry.h2vk_blks = ((entry.h2vk_msg.headD vk_msg_blk.zero).size + 1) % 4294967296)
    (havail : entry.h2vk_blks ≤ VK_MSGQ_AVAIL_SPACE (enq_msgq vk entry) (enq_qinfo vk entry))
    (hwr : (enq_msgq vk entry).wr_idx < (enq_qinfo vk entry).q_size) :
    (bcm_h2vk_msg_enqueue K vk entry card_rd).rc = 0 ∧
    (bcm_h2vk_msg_enqueue K vk entry card_rd).sleeps = 0 := by
  have hw : enq_wait_loop (enq_qinfo vk entry) entry.h2vk_blks (BCM_VK_H2VK_ENQ_RETRY + 1) 0
      (enq_msgq vk entry) card_rd 0 = (0, enq_msgq vk entry, 0) := by
    rw [enq_wait_loop, if_neg (Nat.not_lt.2 havail)]
  unfold bcm_h2vk_msg_enqueue
  simp only [ne_eq, hblks, not_true_eq_false, if_false]
  rw [← hblks]
  simp only [enq_qinfo, enq_msgq, enq_q_num] at hw hwr ⊢
  rw [hw]
  simp only [gt_iff_lt, ge_iff_le]
  rw [if_neg (by decide), if_neg (Nat.not_le.2 hwr)]
  exact ⟨rfl, rfl⟩

/-- An enqueue that finds room at once and the write index within bounds:
the blocks are copied, the write index stored and the doorbell rung. -/
theorem bcm_h2vk_msg_enqueue_direct (K : vk_consts) (vk : bcm_vk) (entry : bcm_vk_wkent)
    (card_rd : List Nat)
    (hblks : entry.h2vk_blks = ((entry.h2vk_msg.headD vk_msg_blk.zero).size + 1) % 4294967296)
    (havail : entry.h2vk_blks ≤ VK_MSGQ_AVAIL_SPACE (enq_msgq vk entry) (enq_qinfo vk entry))
    (hwr : (enq_msgq vk entry).wr_idx < (enq_qinfo vk entry).q_size) :
    (bcm_h2vk_msg_enqueue K vk entry card_rd).rc = 0 ∧
    (bcm_h2vk_msg_enqueue K vk entry card_rd).vk =
      bcm_h2vk_doorbell K
        { set_h2vk_msgq vk (enq_q_num entry)
            { enq_msgq vk entry with
              ring := (enq_copy_loop (enq_qinfo vk entry) entry.h2vk_blks entry.h2vk_msg
                (enq_msgq vk entry).ring (enq_msgq vk entry).wr_idx).1,
              wr_idx := (enq_copy_loop (enq_qinfo vk entry) entry.h2vk_blks entry.h2vk_msg
                (enq_msgq vk entry).ring (enq_msgq vk entry).wr_idx).2 } with
          seq_num := (vk.seq_num + 1) % 4294967296,
          klog := vk.klog ++
            [klog_msg.blks_inserted (enq_q_num entry) (enq_msgq vk entry).rd_idx
              (enq_copy_loop (enq_qinfo vk entry) entry.h2vk_blks entry.h2vk_msg
                (enq_msgq vk entry).ring (enq_msgq vk entry).wr_idx).2
              entry.h2vk_blks] }
        (enq_q_num entry)
        (((enq_copy_loop (enq_qinfo vk entry) entry.h2vk_blks entry.h2vk_msg
          (enq_msgq vk entry).ring (enq_msgq vk entry).wr_idx).2 + 1) % 4294967296) := by
  obtain ⟨hrc, hsl⟩ := bcm_h2vk_msg_enqueue_direct_rc K vk entry card_rd hblks havail hwr
  refine ⟨hrc, ?_⟩
  obtain ⟨_, j, _, hj, hcase⟩ := bcm_h2vk_msg_enqueue_ok_cases K vk entry card_rd hrc
  rw [hsl] at hj
  subst hj
  rcases hcase with ⟨hbad, _⟩ | ⟨_, hvk⟩
  · exact absurd hwr (Nat.not_lt.2 hbad)
  · exact hvk

/-- The message `bcm_vk_send_shutdown_msg` builds: one block with function id
`VK_FID_SHUTDOWN`, transport id 0 (queue 0, message id `VK_SIMPLEX_MSG_ID`)
and the two arguments. -/
theorem shutdown_entry_msg (K : vk_consts) (shut_type pid : Nat) :
    (shutdown_entry K shut_type pid).h2vk_msg =
      [{ function_id := K.VK_FID_SHUTDOWN, size := 0, trans_id := 0, context_id := 0,
         args := [shut_type % 4294967296, pid % 4294967296] }] ∧
    (shutdown_entry K shut_type pid).h2vk_blks = 1 ∧
    enq_q_num (shutdown_entry K shut_type pid) = 0 := by
  have ht : ((((0 : Nat) <<< BCM_VK_MSG_Q_SHIFT) % 4294967296) |||
      (((0 : Nat) &&& (4294967295 - BCM_VK_MSG_Q_MASK)) ||| 0) &&& BCM_VK_MSG_Q_MASK) = 0 := by
    decide
  have hm : (shutdown_entry K shut_type pid).h2vk_msg =
      [{ function_id := K.VK_FID_SHUTDOWN, size := 0, trans_id := 0, context_id := 0,
         args := [shut_type % 4294967296, pid % 4294967296] }] := by
    show [vk_msg_blk.mk _ _ _ _ _] = _
    rw [show (BCM_VK_SET_MSG_ID
      (BCM_VK_SET_Q { vk_msg_blk.zero with function_id := K.VK_FID_SHUTDOWN } 0)
      VK_SIMPLEX_MSG_ID).trans_id = 0 from ht]
    rfl
  refine ⟨hm, rfl, ?_⟩
  unfold enq_q_num
  rw [hm]
  show (0 : Nat) &&& BCM_VK_MSG_Q_MASK = 0
  decide

/-- A shutdown message that finds the marker valid, memory, room in queue 0
and the write index within bounds is written at the write index and the
doorbell of queue 0 is rung. -/
theorem bcm_vk_send_shutdown_msg_sent (K : vk_consts) (vk : bcm_vk) (shut_type pid : Nat)
    (env : vk_env) (hm : bcm_vk_msgq_marker_valid K env.rd32 = true)
    (hk : env.kzalloc_ok = true)
    (havail : 1 ≤ VK_MSGQ_AVAIL_SPACE (vk.h2vk_msg_chan.msgq 0) (vk.h2vk_msg_chan.sync_qinfo 0))
    (hwr : (vk.h2vk_msg_chan.msgq 0).wr_idx < (vk.h2vk_msg_chan.sync_qinfo 0).q_size) :
    (bcm_vk_send_shutdown_msg K vk shut_type pid env).1 = 0 ∧
    ((bcm_vk_send_shutdown_msg K vk shut_type pid env).2.h2vk_msg_chan.msgq 0).ring
        (vk.h2vk_msg_chan.msgq 0).wr_idx =
      { function_id := K.VK_FID_SHUTDOWN, size := 0, trans_id := 0, context_id := 0,
        args := [shut_type % 4294967296, pid % 4294967296] } ∧
    ((bcm_vk_send_shutdown_msg K vk shut_type pid env).2.h2vk_msg_chan.msgq 0).wr_idx =
      VK_MSGQ_INC (vk.h2vk_msg_chan.sync_qinfo 0) (vk.h2vk_msg_chan.msgq 0).wr_idx 1 ∧
    (bcm_vk_send_shutdown_msg K vk shut_type pid env).2.iowrites =
      vk.iowrites ++
        [(BAR_0, K.VK_BAR0_REGSEG_DB_BASE + 0 * K.VK_BAR0_REGSEG_DB_REG_GAP,
          (VK_MSGQ_INC (vk.h2vk_msg_chan.sync_qinfo 0) (vk.h2vk_msg_chan.msgq 0).wr_idx 1 + 1) %
            4294967296)] ∧
    (bcm_vk_send_shutdown_msg K vk shut_type pid env).2.reset_pid = vk.reset_pid ∧
    (bcm_vk_send_shutdown_msg K vk shut_type pid env).2.h2vk_msg_chan.pendq =
      vk.h2vk_msg_chan.pendq := by
  obtain ⟨hmsg, hblk, hq⟩ := shutdown_entry_msg K shut_type pid
  have hb : (shutdown_entry K shut_type pid).h2vk_blks =
      (((shutdown_entry K shut_type pid).h2vk_msg.headD vk_msg_blk.zero).size + 1) %
        4294967296 := by
    rw [hmsg, hblk]
    rfl
  have havail1 : (shutdown_entry K shut_type pid).h2vk_blks ≤
      VK_MSGQ_AVAIL_SPACE (enq_msgq vk (shutdown_entry K shut_type pid))
        (enq_qinfo vk (shutdown_entry K shut_type pid)) := by
    unfold enq_msgq enq_qinfo
    rw [hq, hblk]
    exact havail
  have hwr1 : (enq_msgq vk (shutdown_entry K shut_type pid)).wr_idx <
      (enq_qinfo vk (shutdown_entry K shut_type pid)).q_size := by
    unfold enq_msgq enq_qinfo
    rw [hq]
    exact hwr
  obtain ⟨hrc, hvk⟩ := bcm_h2vk_msg_enqueue_direct K vk (shutdown_entry K shut_type pid)
    env.card_rd hb havail1 hwr1
  have hs : bcm_vk_send_shutdown_msg K vk shut_type pid env =
      (0, (bcm_h2vk_msg_enqueue K vk (shutdown_entry K shut_type pid) env.card_rd).vk) := by
    unfold bcm_vk_send_shutdown_msg
    simp only [hm, hk, Bool.true_eq_false, if_false, hrc, ne_eq, not_true_eq_false]
  rw [hs, hvk]
  unfold enq_msgq enq_qinfo
  rw [hq, hblk, hmsg]
  refine ⟨rfl, ?_, ?_, rfl, rfl, rfl⟩
  · simp only [bcm_h2vk_doorbell, set_h2vk_msgq, enq_copy_loop, if_true, List.headD_cons]
  · simp only [bcm_h2vk_doorbell, set_h2vk_msgq, enq_copy_loop, if_true]

/-- C18: with the transport ready, `bcm_vk_handle_last_sess(vk, p)`, which
`bcm_vk_release` calls when `bcm_vk_free_ctx` returned 0, sends the one-way
`VK_SHUTDOWN_PID` shutdown message for `p` exactly when `p` is not the reset
initiator.  If `reset_pid != p` the call is `bcm_vk_send_shutdown_msg(vk,
VK_SHUTDOWN_PID, p)`, and when that finds the marker valid, memory, a free
block in queue 0 and the write index within bounds, it returns 0 with the
block (function id `VK_FID_SHUTDOWN`, queue 0, message id 0, arguments
`VK_SHUTDOWN_PID` and `p`) written at the write index of queue 0 and the
doorbell of queue 0 rung.  If `reset_pid == p` nothing is sent (the
host-to-card channel and the register writes are as before), 0 is returned
and `reset_pid` is cleared, so that `bcm_vk_get_ctx` afterwards refuses a
context only when every slot of the pool is in use. -/
theorem bcm_vk_handle_last_sess_spec (K : vk_consts) (vk : bcm_vk) (p : Nat) (env : vk_env)
    (hready : bcm_vk_drv_access_ok vk = true) :
    (vk.reset_pid ≠ p →
      bcm_vk_handle_last_sess K vk p env =
        bcm_vk_send_shutdown_msg K { vk with klog := vk.klog ++ [klog_msg.no_more_sessions p] }
          K.VK_SHUTDOWN_PID p env) ∧
    (vk.reset_pid ≠ p → bcm_vk_msgq_marker_valid K env.rd32 = true → env.kzalloc_ok = true →
      1 ≤ VK_MSGQ_AVAIL_SPACE (vk.h2vk_msg_chan.msgq 0) (vk.h2vk_msg_chan.sync_qinfo 0) →
      (vk.h2vk_msg_chan.msgq 0).wr_idx < (vk.h2vk_msg_chan.sync_qinfo 0).q_size →
      (bcm_vk_handle_last_sess K vk p env).1 = 0 ∧
      ((bcm_vk_handle_last_sess K vk p env).2.h2vk_msg_chan.msgq 0).ring
          (vk.h2vk_msg_chan.msgq 0).wr_idx =
        { function_id := K.VK_FID_SHUTDOWN, size := 0, trans_id := 0, context_id := 0,
          args := [K.VK_SHUTDOWN_PID % 4294967296, p % 4294967296] } ∧
      ((bcm_vk_handle_last_sess K vk p env).2.h2vk_msg_chan.msgq 0).wr_idx =
        VK_MSGQ_INC (vk.h2vk_msg_chan.sync_qinfo 0) (vk.h2vk_msg_chan.msgq 0).wr_idx 1 ∧
      (bcm_vk_handle_last_sess K vk p env).2.iowrites =
        vk.iowrites ++
          [(BAR_0, K.VK_BAR0_REGSEG_DB_BASE + 0 * K.VK_BAR0_REGSEG_DB_REG_GAP,
            (VK_MSGQ_INC (vk.h2vk_msg_chan.sync_qinfo 0) (vk.h2vk_msg_chan.msgq 0).wr_idx 1 + 1) %
              4294967296)] ∧
      (bcm_vk_handle_last_sess K vk p env).2.reset_pid = vk.reset_pid) ∧
    (vk.reset_pid = p →
      bcm_vk_handle_last_sess K vk p env =
        (0, { vk with klog := vk.klog ++ [klog_msg.no_more_sessions p], reset_pid := 0 }) ∧
      (bcm_vk_handle_last_sess K vk p env).2.h2vk_msg_chan = vk.h2vk_msg_chan ∧
      (bcm_vk_handle_last_sess K vk p env).2.iowrites = vk.iowrites ∧
      (bcm_vk_handle_last_sess K vk p env).2.reset_pid = 0 ∧
      ∀ pid, (bcm_vk_get_ctx K (bcm_vk_handle_last_sess K vk p env).2 pid).1 = none ↔
        ∀ i, i < K.VK_CMPT_CTX_MAX → (vk.ctx i).in_use = true) := by
  have hsend : vk.reset_pid ≠ p →
      bcm_vk_handle_last_sess K vk p env =
        bcm_vk_send_shutdown_msg K { vk with klog := vk.klog ++ [klog_msg.no_more_sessions p] }
          K.VK_SHUTDOWN_PID p env := by
    intro hne
    unfold bcm_vk_handle_last_sess
    simp only [hready, Bool.true_eq_false, if_false]
    rw [if_pos hne]
  refine ⟨hsend, ?_, ?_⟩
  · intro hne hm hk havail hwr
    rw [hsend hne]
    obtain ⟨h1, h2, h3, h4, h5, _⟩ := bcm_vk_send_shutdown_msg_sent K
      { vk with klog := vk.klog ++ [klog_msg.no_more_sessions p] } K.VK_SHUTDOWN_PID p env hm hk
      havail hwr
    exact ⟨h1, h2, h3, h4, h5⟩
  · intro heq
    have hno : bcm_vk_handle_last_sess K vk p env =
        (0, { vk with klog := vk.klog ++ [klog_msg.no_more_sessions p], reset_pid := 0 }) := by
      unfold bcm_vk_handle_last_sess
      simp only [hready, Bool.true_eq_false, if_false]
      rw [if_neg (not_not.2 heq)]
    rw [hno]
    refine ⟨rfl, rfl, rfl, rfl, ?_⟩
    intro pid
    rcases bcm_vk_get_ctx_cases K
      { vk with klog := vk.klog ++ [klog_msg.no_more_sessions p], reset_pid := 0 } pid with
      ⟨hr, _⟩ | ⟨_, hall, he⟩ | ⟨_, i, hi, hfree, _, he⟩
    · exact absurd rfl hr
    · rw [he]
      exact ⟨fun _ => hall, fun _ => rfl⟩
    · rw [he]
      constructor
      · intro h
        cases h
      · intro h
        have : (vk.ctx i).in_use = false := hfree
        rw [h i hi] at this
        cases this

theorem bcm_vk_handle_last_sess_spec_witness :
    (bcm_vk_handle_last_sess ex_consts (ex_vk_h2vk 4 0 0) 100 (ex_env [])).1 = 0 ∧
    ((bcm_vk_handle_last_sess ex_consts (ex_vk_h2vk 4 0 0) 100
      (ex_env [])).2.h2vk_msg_chan.msgq 0).ring 0 =
        { function_id := 255, size := 0, trans_id := 0, context_id := 0, args := [1, 100] } ∧
    (bcm_vk_handle_last_sess ex_consts (ex_vk_h2vk 4 0 0) 100 (ex_env [])).2.iowrites =
      [(0, 0x484, 2)] ∧
    (bcm_vk_handle_last_sess ex_consts { ex_vk_h2vk 4 0 0 with reset_pid := 100 } 100
      (ex_env [])).2.iowrites = [] ∧
    (bcm_vk_handle_last_sess ex_consts { ex_vk_h2vk 4 0 0 with reset_pid := 100 } 100
      (ex_env [])).2.reset_pid = 0 := by
  have h1 := (bcm_vk_handle_last_sess_spec ex_consts (ex_vk_h2vk 4 0 0) 100 (ex_env [])
    rfl).2.1 (by decide) (by decide) rfl (by decide) (by decide)
  have h2 := (bcm_vk_handle_last_sess_spec ex_consts { ex_vk_h2vk 4 0 0 with reset_pid := 100 }
    100 (ex_env []) rfl).2.2 rfl
  exact ⟨h1.1, h1.2.1, h1.2.2.2.1, h2.2.2.1, h2.2.2.2.1⟩

/-! ## Properties of the transport id -/

/-- The transport id `BCM_VK_SET_MSG_ID` stores, as a number: 16 times the id
(truncated to 28 bits) plus the queue number. -/
theorem BCM_VK_SET_MSG_ID_trans_id (msg : vk_msg_blk) (val : Nat) :
    (BCM_VK_SET_MSG_ID msg val).trans_id = 16 * (val % 268435456) + msg.trans_id % 16 := by
  have hq : BCM_VK_GET_Q msg = msg.trans_id % 16 := by
    show msg.trans_id &&& (2 ^ 4 - 1) = _
    rw [Nat.and_pow_two_sub_one_eq_mod]
  have hlt : msg.trans_id % 16 < 2 ^ 4 := Nat.mod_lt _ (by decide)
  show ((val <<< 4) % 4294967296) ||| BCM_VK_GET_Q msg = _
  rw [hq, Nat.shiftLeft_eq]
  have h1 : (val * 2 ^ 4) % 4294967296 = 2 ^ 4 * (val % 268435456) := by
    norm_num
    omega
  rw [h1, ← Nat.mul_add_lt_is_or hlt]

/-- `BCM_VK_SET_MSG_ID` keeps the queue bits. -/
theorem BCM_VK_GET_Q_SET_MSG_ID (msg : vk_msg_blk) (val : Nat) :
    BCM_VK_GET_Q (BCM_VK_SET_MSG_ID msg val) = BCM_VK_GET_Q msg := by
  have h1 : ∀ m : vk_msg_blk, BCM_VK_GET_Q m = m.trans_id % 16 := by
    intro m
    show m.trans_id &&& (2 ^ 4 - 1) = _
    rw [Nat.and_pow_two_sub_one_eq_mod]
  rw [h1, h1, BCM_VK_SET_MSG_ID_trans_id]
  omega

/-- `BCM_VK_GET_MSG_ID` reads back the id `BCM_VK_SET_MSG_ID` stored, in 12
bits. -/
theorem BCM_VK_GET_MSG_ID_SET_MSG_ID (msg : vk_msg_blk) (val : Nat) :
    BCM_VK_GET_MSG_ID (BCM_VK_SET_MSG_ID msg val) = val % 4096 := by
  show ((BCM_VK_SET_MSG_ID msg val).trans_id >>> 4) &&& (2 ^ 12 - 1) = _
  rw [Nat.and_pow_two_sub_one_eq_mod, Nat.shiftRight_eq_div_pow, BCM_VK_SET_MSG_ID_trans_id]
  norm_num
  omega

theorem BCM_VK_GET_MSG_ID_lt (msg : vk_msg_blk) : BCM_VK_GET_MSG_ID msg < 4096 := by
  show (msg.trans_id >>> 4) &&& (2 ^ 12 - 1) < 4096
  rw [Nat.and_pow_two_sub_one_eq_mod]
  exact Nat.mod_lt _ (by decide)

/-! ## Properties of write -/

/-- C19: with the transport ready and a block size that is a power of two
(`VK_MSGQ_BLK_SIZE = 1 << VK_MSGQ_BLK_SZ_SHIFT`), `bcm_vk_write` with a byte
count that is not a multiple of the block size returns `-EBADR`; and a write
of whole blocks, with memory for the work entry and a readable user buffer,
whose block count plus the in-band SGL reserve (`ib_sgl_size` in blocks)
exceeds `size - 1` of the target queue (a queue of at least one block, all
quantities within 32 bits) returns `-EOVERFLOW`.  In both cases the device
state afterwards is the state before with lines added to the log: bitmap and
allocator cursor, pending lists, rings, write indices and register writes
are untouched. -/
theorem bcm_vk_write_reject (K : vk_consts) (vk : bcm_vk) (c count : Nat) (env : vk_env)
    (hready : bcm_vk_drv_access_ok vk = true)
    (hpow : K.VK_MSGQ_BLK_SIZE = 2 ^ K.VK_MSGQ_BLK_SZ_SHIFT) :
    (¬ K.VK_MSGQ_BLK_SIZE ∣ count →
      (bcm_vk_write K vk c count env).1 = -EBADR ∧
      ∃ l, (bcm_vk_write K vk c count env).2 = { vk with klog := vk.klog ++ l }) ∧
    (K.VK_MSGQ_BLK_SIZE ∣ count → env.kzalloc_ok = true → env.copy_ok = true →
      0 < (vk.h2vk_msg_chan.msgq (write_q_num K count env)).size →
      (vk.h2vk_msg_chan.msgq (write_q_num K count env)).size ≤ 4294967296 →
      count / K.VK_MSGQ_BLK_SIZE + vk.ib_sgl_size / K.VK_MSGQ_BLK_SIZE < 4294967296 →
      count / K.VK_MSGQ_BLK_SIZE + vk.ib_sgl_size / K.VK_MSGQ_BLK_SIZE >
        (vk.h2vk_msg_chan.msgq (write_q_num K count env)).size - 1 →
      (bcm_vk_write K vk c count env).1 = -EOVERFLOW ∧
      ∃ l, (bcm_vk_write K vk c count env).2 = { vk with klog := vk.klog ++ l }) := by
  have hnr : ¬ (bcm_vk_drv_access_ok vk = false) := by
    rw [hready]
    decide
  have hand : count &&& (K.VK_MSGQ_BLK_SIZE - 1) = count % K.VK_MSGQ_BLK_SIZE := by
    rw [hpow, Nat.and_pow_two_sub_one_eq_mod]
  constructor
  · intro hdvd
    have hne : count &&& (K.VK_MSGQ_BLK_SIZE - 1) ≠ 0 := by
      rw [hand]
      exact fun h => hdvd (Nat.dvd_of_mod_eq_zero h)
    unfold bcm_vk_write
    rw [if_neg hnr]
    simp only [if_pos hne]
    exact ⟨trivial, ⟨[klog_msg.msg_count count,
      klog_msg.size_not_multiple count K.VK_MSGQ_BLK_SIZE], by
        simp only [List.append_assoc, List.singleton_append]⟩⟩
  · intro hdvd hk hc hsz hsz2 hfit hex
    have heq : ¬ (count &&& (K.VK_MSGQ_BLK_SIZE - 1) ≠ 0) := by
      rw [hand]
      exact not_not.2 (Nat.mod_eq_zero_of_dvd hdvd)
    have hshift : ∀ x : Nat, x >>> K.VK_MSGQ_BLK_SZ_SHIFT = x / K.VK_MSGQ_BLK_SIZE := by
      intro x
      rw [hpow, Nat.shiftRight_eq_div_pow]
    have hover : ((count >>> K.VK_MSGQ_BLK_SZ_SHIFT) % 4294967296 +
        (vk.ib_sgl_size >>> K.VK_MSGQ_BLK_SZ_SHIFT)) % 4294967296 >
        ((vk.h2vk_msg_chan.msgq (write_q_num K count env)).size + 4294967295) % 4294967296 := by
      rw [hshift, hshift]
      omega
    unfold bcm_vk_write
    rw [if_neg hnr]
    simp only [if_neg heq, hk, hc, Bool.true_eq_false, if_false]
    rw [if_pos hover]
    exact ⟨rfl, ⟨[klog_msg.msg_count count,
      klog_msg.blk_size_exceed ((count >>> K.VK_MSGQ_BLK_SZ_SHIFT) % 4294967296)
        (((vk.h2vk_msg_chan.msgq (write_q_num K count env)).size + 4294967295) % 4294967296)],
      by simp only [List.append_assoc, List.singleton_append]⟩⟩

theorem bcm_vk_write_reject_witness :
    (bcm_vk_write ex_consts (ex_vk_h2vk 4 0 0) 0 17 (ex_env [ex_blk 1 0 0x10])).1 = -EBADR ∧
    (bcm_vk_write ex_consts (ex_vk_h2vk 4 0 0) 0 64
      (ex_env [ex_blk 1 3 0x10, ex_blk 0 0 0, ex_blk 0 0 0, ex_blk 0 0 0])).1 = -EOVERFLOW ∧
    (bcm_vk_write ex_consts (ex_vk_h2vk 4 0 0) 0 64
      (ex_env [ex_blk 1 3 0x10, ex_blk 0 0 0, ex_blk 0 0 0, ex_blk 0 0 0])).2.msg_id = 0 := by
  have h1 := (bcm_vk_write_reject ex_consts (ex_vk_h2vk 4 0 0) 0 17 (ex_env [ex_blk 1 0 0x10])
    rfl rfl).1 (by decide)
  have h2 := (bcm_vk_write_reject ex_consts (ex_vk_h2vk 4 0 0) 0 64
    (ex_env [ex_blk 1 3 0x10, ex_blk 0 0 0, ex_blk 0 0 0, ex_blk 0 0 0]) rfl rfl).2
    (by decide) rfl rfl (by decide) (by decide) (by decide) (by decide)
  obtain ⟨l, hl⟩ := h2.2
  refine ⟨h1.1, h2.1, ?_⟩
  rw [hl]
  rfl

/-! ## Properties of read -/

theorem read_find_in_none (vk : bcm_vk) (c : Nat) (l : List bcm_vk_wkent)
    (h : ∀ x ∈ l, wkent_owned vk c x = false) : read_find_in vk c l = none := by
  induction l with
  | nil => rfl
  | cons x rest ih =>
    rw [read_find_in, if_neg (by rw [h x (List.mem_cons_self _ _)]; decide),
      ih (fun y hy => h y (List.mem_cons_of_mem _ hy))]

theorem read_find_in_append (vk : bcm_vk) (c : Nat) (pre post : List bcm_vk_wkent)
    (e : bcm_vk_wkent) (h : ∀ x ∈ pre, wkent_owned vk c x = false)
    (he : wkent_owned vk c e = true) :
    read_find_in vk c (pre ++ e :: post) = some (e, pre ++ post) := by
  induction pre with
  | nil =>
    show read_find_in vk c (e :: post) = _
    rw [read_find_in, if_pos he]
    rfl
  | cons x rest ih =>
    show read_find_in vk c (x :: (rest ++ e :: post)) = _
    rw [read_find_in, if_neg (by rw [h x (List.mem_cons_self _ _)]; decide),
      ih (fun y hy => h y (List.mem_cons_of_mem _ hy))]
    rfl

theorem read_find_none (vk : bcm_vk) (c : Nat) (n : Nat) :
    ∀ q0, (∀ q1, q0 ≤ q1 → q1 < q0 + n →
        ∀ x ∈ vk.vk2h_msg_chan.pendq q1, wkent_owned vk c x = false) →
      read_find vk c n q0 = none := by
  induction n with
  | zero => intro _ _; rfl
  | succ n ih =>
    intro q0 h
    rw [read_find, read_find_in_none vk c _ (h q0 (Nat.le_refl _) (by omega))]
    exact ih (q0 + 1) (fun q1 h1 h2 => h q1 (by omega) (by omega))

theorem read_find_some (vk : bcm_vk) (c q : Nat) (pre post : List bcm_vk_wkent)
    (e : bcm_vk_wkent) (hpend : vk.vk2h_msg_chan.pendq q = pre ++ e :: post)
    (hpre : ∀ x ∈ pre, wkent_owned vk c x = false) (he : wkent_owned vk c e = true) (n : Nat) :
    ∀ q0, q0 ≤ q → q < q0 + n →
      (∀ q1, q0 ≤ q1 → q1 < q → ∀ x ∈ vk.vk2h_msg_chan.pendq q1, wkent_owned vk c x = false) →
      read_find vk c n q0 = some (q, e, pre ++ post) := by
  induction n with
  | zero =>
    intro q0 h1 h2 _
    omega
  | succ n ih =>
    intro q0 h1 h2 h3
    by_cases hq : q0 = q
    · rw [read_find, hq, hpend, read_find_in_append vk c pre post e hpre he]
    · rw [read_find, read_find_in_none vk c _ (h3 q0 (Nat.le_refl _) (by omega))]
      exact ih (q0 + 1) (by omega) (by omega) (fun q1 h4 h5 => h3 q1 (by omega) h5)

/-- C20 as stated fails: with the transport not ready (`msgq_inited` false) a
context with a response pending gets `-EPERM` from `bcm_vk_read`, however
large the buffer; the response stays on the list and nothing is copied.
With no response pending the result is `-EPERM` too, not `-ENOMSG`. -/
theorem bcm_vk_read_spec_counterexample :
    wkent_owned (ex_vk_resp false [ex_wkent 0 0x10 true]) 0 (ex_wkent 0 0x10 true) = true ∧
    (ex_vk_resp false [ex_wkent 0 0x10 true]).vk2h_msg_chan.pendq 0 = [ex_wkent 0 0x10 true] ∧
    (ex_wkent 0 0x10 true).vk2h_blks * ex_consts.VK_MSGQ_BLK_SIZE ≤ 4096 ∧
    (bcm_vk_read ex_consts (ex_vk_resp false [ex_wkent 0 0x10 true]) 0 4096 true).rc = -EPERM ∧
    (bcm_vk_read ex_consts (ex_vk_resp false [ex_wkent 0 0x10 true]) 0 4096
      true).vk.vk2h_msg_chan.pendq 0 = [ex_wkent 0 0x10 true] ∧
    (bcm_vk_read ex_consts (ex_vk_resp false [ex_wkent 0 0x10 true]) 0 4096 true).ubuf = [] ∧
    (bcm_vk_read ex_consts (ex_vk_resp false []) 0 4096 true).rc = -EPERM ∧
    ¬ (bcm_vk_read ex_consts (ex_vk_resp false []) 0 4096 true).rc = -ENOMSG := by
  decide

/-! ## The bitmap and the pending requests -/

theorem pend_from_filter (f : Nat → List bcm_vk_wkent) (p : bcm_vk_wkent → Bool) (n : Nat) :
    ∀ num, pend_from (fun q => (f q).filter p) n num = (pend_from f n num).filter p := by
  induction n with
  | zero => intro _; rfl
  | succ n ih =>
    intro num
    show (f num).filter p ++ pend_from (fun q => (f q).filter p) n (num + 1) =
      (f num ++ pend_from f n (num + 1)).filter p
    rw [ih, List.filter_append]

theorem countP_pend_from_update (P : bcm_vk_wkent → Bool) (f : Nat → List bcm_vk_wkent)
    (q : Nat) (l : List bcm_vk_wkent) (n : Nat) :
    ∀ num, num ≤ q → q < num + n →
      (pend_from (fun i => if i = q then l else f i) n num).countP P + (f q).countP P =
        (pend_from f n num).countP P + l.countP P := by
  induction n with
  | zero =>
    intro num h1 h2
    omega
  | succ n ih =>
    intro num h1 h2
    show ((if num = q then l else f num) ++
      pend_from (fun i => if i = q then l else f i) n (num + 1)).countP P + _ =
      (f num ++ pend_from f n (num + 1)).countP P + _
    rw [List.countP_append, List.countP_append]
    by_cases hq : num = q
    · rw [if_pos hq, hq]
      have : pend_from (fun i => if i = q then l else f i) n (q + 1) =
          pend_from f n (q + 1) := by
        apply pend_from_congr
        intro i hi1 _
        show (if i = q then l else f i) = f i
        rw [if_neg (by omega)]
      rw [this]
      omega
    · rw [if_neg hq]
      have := ih (num + 1) (by omega) (by omega)
      omega

/-- The invariant only looks at the allocator cursor, the bits, the number of
host-to-card queues and the pending lists. -/
theorem bitmap_inv_congr (vk vk1 : bcm_vk) (hm : vk1.msg_id < VK_MSG_ID_BITMAP_SIZE)
    (hb : ∀ i, vk1.bmap i = vk.bmap i)
    (hn : vk1.h2vk_msg_chan.q_nr = vk.h2vk_msg_chan.q_nr)
    (hp : ∀ q, vk1.h2vk_msg_chan.pendq q = vk.h2vk_msg_chan.pendq q)
    (hv : ∀ q, ∀ e ∈ vk1.vk2h_msg_chan.pendq q, e.vk2h_msg.isSome = true)
    (h : bitmap_inv vk) : bitmap_inv vk1 := by
  obtain ⟨_, h2, h3, _, h5⟩ := h
  have hall : pend_all vk1.h2vk_msg_chan = pend_all vk.h2vk_msg_chan := by
    unfold pend_all
    rw [hn]
    exact pend_from_congr _ _ _ _ (fun q _ _ => hp q)
  refine ⟨hm, ?_, ?_, hv, ?_⟩
  · intro q hq
    rw [hp q]
    exact h2 q (by rw [← hn]; exact hq)
  · intro q e he
    rw [hp q] at he
    exact h3 q e he
  · intro id hid
    unfold pend_id_count
    rw [hall, hb id]
    exact h5 id hid

/-- A state that differs from one satisfying the invariant only outside the
allocator, the bitmap and the pending tables satisfies it too. -/
theorem bitmap_inv_frame (vk vk1 : bcm_vk) (hm : vk1.msg_id = vk.msg_id)
    (hb : vk1.bmap = vk.bmap)
    (hn : vk1.h2vk_msg_chan.q_nr = vk.h2vk_msg_chan.q_nr)
    (hp : vk1.h2vk_msg_chan.pendq = vk.h2vk_msg_chan.pendq)
    (hv : vk1.vk2h_msg_chan.pendq = vk.vk2h_msg_chan.pendq)
    (h : bitmap_inv vk) : bitmap_inv vk1 := by
  refine bitmap_inv_congr vk vk1 (by rw [hm]; exact h.1) (fun i => by rw [hb]) hn
    (fun q => by rw [hp]) ?_ h
  intro q e he
  rw [hv] at he
  exact h.2.2.2.1 q e he

theorem bitmap_inv_of_fresh (vk : bcm_vk) (h : transport_fresh vk) : bitmap_inv vk := by
  obtain ⟨h1, h2, h3, h4⟩ := h
  refine ⟨h1, fun q _ => h3 q, ?_, ?_, ?_⟩
  · intro q e he
    rw [h3 q] at he
    cases he
  · intro q e he
    rw [h4 q] at he
    cases he
  · intro id _
    have : pend_id_count vk id = 0 := by
      unfold pend_id_count pend_all
      rw [pend_from_nil _ _ 0 (fun q _ _ => h3 q)]
      rfl
    refine ⟨fun hb => ?_, fun _ => this⟩
    rw [h2 id] at hb
    cases hb

theorem pend_id_count_update (vk vk1 : bcm_vk) (q : Nat) (l : List bcm_vk_wkent)
    (hq : q < vk.h2vk_msg_chan.q_nr)
    (hn : vk1.h2vk_msg_chan.q_nr = vk.h2vk_msg_chan.q_nr)
    (hp : ∀ q1, vk1.h2vk_msg_chan.pendq q1 = if q1 = q then l else vk.h2vk_msg_chan.pendq q1)
    (id : Nat) :
    pend_id_count vk1 id + (vk.h2vk_msg_chan.pendq q).countP (wkent_has_id id) =
      pend_id_count vk id + l.countP (wkent_has_id id) := by
  unfold pend_id_count pend_all
  rw [hn, pend_from_congr vk1.h2vk_msg_chan.pendq
    (fun i => if i = q then l else vk.h2vk_msg_chan.pendq i) _ 0 (fun q1 _ _ => hp q1)]
  exact countP_pend_from_update _ _ q l _ 0 (Nat.zero_le _) (by omega)

/-- The invariant is kept when an entry carrying a freshly allocated id is
appended to a host-to-card pending list. -/
theorem bitmap_inv_append (vk vk1 : bcm_vk) (id q : Nat) (e : bcm_vk_wkent)
    (h : bitmap_inv vk) (hq : q < vk.h2vk_msg_chan.q_nr)
    (hfresh : vk.bmap id = false)
    (he : BCM_VK_GET_MSG_ID (e.h2vk_msg.headD vk_msg_blk.zero) = id)
    (hresp : e.vk2h_msg = none)
    (hm : vk1.msg_id < VK_MSG_ID_BITMAP_SIZE)
    (hb : ∀ i, vk1.bmap i = if i = id then true else vk.bmap i)
    (hn : vk1.h2vk_msg_chan.q_nr = vk.h2vk_msg_chan.q_nr)
    (hp : ∀ q1, vk1.h2vk_msg_chan.pendq q1 =
      if q1 = q then vk.h2vk_msg_chan.pendq q ++ [e] else vk.h2vk_msg_chan.pendq q1)
    (hv : ∀ q1, ∀ x ∈ vk1.vk2h_msg_chan.pendq q1, x.vk2h_msg.isSome = true) :
    bitmap_inv vk1 := by
  obtain ⟨_, h2, h3, _, h5⟩ := h
  refine ⟨hm, ?_, ?_, hv, ?_⟩
  · intro q1 hq1
    rw [hp q1, if_neg (by omega)]
    exact h2 q1 (by omega)
  · intro q1 x hx
    rw [hp q1] at hx
    by_cases hq1 : q1 = q
    · rw [if_pos hq1] at hx
      rcases List.mem_append.1 hx with hx | hx
      · exact h3 q x hx
      · rw [List.mem_singleton.1 hx]
        exact hresp
    · rw [if_neg hq1] at hx
      exact h3 q1 x hx
  · intro i hi
    have hc := pend_id_count_update vk vk1 q _ hq hn hp i
    rw [List.countP_append, List.countP_cons, List.countP_nil] at hc
    rw [hb i]
    by_cases hid : i = id
    · have hone : wkent_has_id i e = true := by
        unfold wkent_has_id
        rw [he, hid]
        exact beq_self_eq_true _
      have h0 := (h5 i hi).2 (by rw [hid]; exact hfresh)
      rw [hone, h0] at hc
      simp only [if_true] at hc
      rw [if_pos hid]
      exact ⟨fun _ => (by omega), fun hf => (by cases hf)⟩
    · have hzero : wkent_has_id i e = false := by
        unfold wkent_has_id
        rw [he]
        exact beq_false_of_ne (fun heq => hid heq.symm)
      rw [hzero] at hc
      simp only [Bool.false_eq_true, if_false] at hc
      rw [if_neg hid]
      have hceq : pend_id_count vk1 i = pend_id_count vk i := by omega
      rw [hceq]
      exact h5 i hi

/-- The invariant is kept when an entry is taken off a host-to-card pending
list and the bit of its id is cleared. -/
theorem bitmap_inv_remove (vk vk1 : bcm_vk) (m q : Nat) (pre post : List bcm_vk_wkent)
    (e : bcm_vk_wkent) (h : bitmap_inv vk)
    (hpend : vk.h2vk_msg_chan.pendq q = pre ++ e :: post)
    (he : BCM_VK_GET_MSG_ID (e.h2vk_msg.headD vk_msg_blk.zero) = m)
    (hm : vk1.msg_id < VK_MSG_ID_BITMAP_SIZE)
    (hb : ∀ i, vk1.bmap i = if i = m then false else vk.bmap i)
    (hn : vk1.h2vk_msg_chan.q_nr = vk.h2vk_msg_chan.q_nr)
    (hp : ∀ q1, vk1.h2vk_msg_chan.pendq q1 =
      if q1 = q then pre ++ post else vk.h2vk_msg_chan.pendq q1)
    (hv : ∀ q1, ∀ x ∈ vk1.vk2h_msg_chan.pendq q1, x.vk2h_msg.isSome = true) :
    bitmap_inv vk1 := by
  obtain ⟨_, h2, h3, _, h5⟩ := h
  have hq : q < vk.h2vk_msg_chan.q_nr := by
    by_contra hge
    have := h2 q (Nat.le_of_not_lt hge)
    rw [hpend] at this
    cases pre <;> cases this
  refine ⟨hm, ?_, ?_, hv, ?_⟩
  · intro q1 hq1
    rw [hp q1, if_neg (by omega)]
    exact h2 q1 (by omega)
  · intro q1 x hx
    rw [hp q1] at hx
    by_cases hq1 : q1 = q
    · rw [if_pos hq1] at hx
      apply h3 q x
      rw [hpend]
      rcases List.mem_append.1 hx with hx | hx
      · exact List.mem_append_left _ hx
      · exact List.mem_append_right _ (List.mem_cons_of_mem _ hx)
    · rw [if_neg hq1] at hx
      exact h3 q1 x hx
  · intro i hi
    have hc := pend_id_count_update vk vk1 q _ hq hn hp i
    rw [hpend, List.countP_append, List.countP_append, List.countP_cons] at hc
    rw [hb i]
    by_cases hid : i = m
    · have hone : wkent_has_id i e = true := by
        unfold wkent_has_id
        rw [he, hid]
        exact beq_self_eq_true _
      rw [hone] at hc
      simp only [if_true] at hc
      rw [if_pos hid]
      have hle : pend_id_count vk i ≤ 1 := by
        cases hbit : vk.bmap i
        · rw [(h5 i hi).2 hbit]
          exact Nat.zero_le _
        · rw [(h5 i hi).1 hbit]
      exact ⟨fun hf => (by cases hf), fun _ => (by omega)⟩
    · have hzero : wkent_has_id i e = false := by
        unfold wkent_has_id
        rw [he]
        exact beq_false_of_ne (fun heq => hid heq.symm)
      rw [hzero] at hc
      simp only [Bool.false_eq_true, if_false] at hc
      rw [if_neg hid]
      have hceq : pend_id_count vk1 i = pend_id_count vk i := by omega
      rw [hceq]
      exact h5 i hi

theorem countP_filter_split (P p : bcm_vk_wkent → Bool) (l : List bcm_vk_wkent) :
    l.countP P = (l.filter p).countP P + (l.filter (fun e => !p e)).countP P := by
  induction l with
  | nil => rfl
  | cons x rest ih =>
    cases hp : p x <;> cases hP : P x <;>
      simp [List.filter_cons, List.countP_cons, hp, hP, ih] <;> omega

/-- The invariant is kept when the entries selected by `p` are taken off the
host-to-card pending lists and the bits of their ids are cleared, as the
context-scoped drain does. -/
theorem bitmap_inv_filter (vk vk1 : bcm_vk) (p : bcm_vk_wkent → Bool) (h : bitmap_inv vk)
    (hm : vk1.msg_id < VK_MSG_ID_BITMAP_SIZE)
    (hb : ∀ id, vk1.bmap id =
      (vk.bmap id && !((pend_all vk.h2vk_msg_chan).filter p).any (wkent_awaits id)))
    (hn : vk1.h2vk_msg_chan.q_nr = vk.h2vk_msg_chan.q_nr)
    (hp : ∀ q, vk1.h2vk_msg_chan.pendq q =
      if q < vk.h2vk_msg_chan.q_nr then (vk.h2vk_msg_chan.pendq q).filter (fun e => !p e)
      else vk.h2vk_msg_chan.pendq q)
    (hv : ∀ q1, ∀ x ∈ vk1.vk2h_msg_chan.pendq q1, x.vk2h_msg.isSome = true) :
    bitmap_inv vk1 := by
  obtain ⟨_, h2, h3, _, h5⟩ := h
  have hall : pend_all vk1.h2vk_msg_chan =
      (pend_all vk.h2vk_msg_chan).filter (fun e => !p e) := by
    unfold pend_all
    rw [hn, ← pend_from_filter]
    apply pend_from_congr
    intro q _ hq
    rw [hp q, if_pos (by omega)]
  have hawait : ∀ id, ((pend_all vk.h2vk_msg_chan).filter p).any (wkent_awaits id) =
      ((pend_all vk.h2vk_msg_chan).filter p).any (wkent_has_id id) := by
    intro id
    have hcongr : ∀ (l : List bcm_vk_wkent), (∀ x ∈ l, x.vk2h_msg = none) →
        l.any (wkent_awaits id) = l.any (wkent_has_id id) := by
      intro l
      induction l with
      | nil => intro _; rfl
      | cons x rest ih =>
        intro hx
        rw [List.any_cons, List.any_cons, ih (fun y hy => hx y (List.mem_cons_of_mem _ hy))]
        have : wkent_awaits id x = wkent_has_id id x := by
          unfold wkent_awaits wkent_has_id
          rw [hx x (List.mem_cons_self _ _)]
          rfl
        rw [this]
    apply hcongr
    intro x hx
    obtain ⟨q, _, hq⟩ := (mem_pend_all _ _).1 (List.mem_filter.1 hx).1
    exact h3 q x hq
  refine ⟨hm, ?_, ?_, hv, ?_⟩
  · intro q hq
    rw [hp q, if_neg (by omega)]
    exact h2 q (by omega)
  · intro q x hx
    rw [hp q] at hx
    by_cases hq : q < vk.h2vk_msg_chan.q_nr
    · rw [if_pos hq] at hx
      exact h3 q x (List.mem_filter.1 hx).1
    · rw [if_neg hq] at hx
      exact h3 q x hx
  · intro id hid
    have hsplit := countP_filter_split (wkent_has_id id) p (pend_all vk.h2vk_msg_chan)
    have hcnt : pend_id_count vk1 id =
        ((pend_all vk.h2vk_msg_chan).filter (fun e => !p e)).countP (wkent_has_id id) := by
      unfold pend_id_count
      rw [hall]
    rw [hb id, hawait id, hcnt]
    have h5i := h5 id hid
    unfold pend_id_count at h5i
    cases hany : ((pend_all vk.h2vk_msg_chan).filter p).any (wkent_has_id id)
    · have hz : ((pend_all vk.h2vk_msg_chan).filter p).countP (wkent_has_id id) = 0 := by
        rw [List.countP_eq_zero]
        intro x hx hx2
        have : ((pend_all vk.h2vk_msg_chan).filter p).any (wkent_has_id id) = true :=
          List.any_eq_true.2 ⟨x, hx, hx2⟩
        rw [hany] at this
        cases this
      rw [hz, Nat.zero_add] at hsplit
      rw [← hsplit]
      simpa using h5i
    · obtain ⟨x, hx, hx2⟩ := List.any_eq_true.1 hany
      have hpos : 0 < ((pend_all vk.h2vk_msg_chan).filter p).countP (wkent_has_id id) :=
        List.countP_pos_iff.2 ⟨x, hx, hx2⟩
      have hle : (pend_all vk.h2vk_msg_chan).countP (wkent_has_id id) ≤ 1 := by
        cases hbit : vk.bmap id
        · rw [h5i.2 hbit]
          exact Nat.zero_le _
        · rw [h5i.1 hbit]
      constructor
      · intro hf
        simp at hf
      · intro _
        omega

/-- The invariant holds once every host-to-card pending list is empty and
every bit is clear, as after a reset. -/
theorem bitmap_inv_clear (vk vk1 : bcm_vk) (h : bitmap_inv vk)
    (hm : vk1.msg_id < VK_MSG_ID_BITMAP_SIZE)
    (hb : ∀ id, id < VK_MSG_ID_BITMAP_SIZE → vk1.bmap id = false)
    (hp : ∀ q, vk1.h2vk_msg_chan.pendq q =
      if q < vk.h2vk_msg_chan.q_nr then [] else vk.h2vk_msg_chan.pendq q)
    (hv : ∀ q1, ∀ x ∈ vk1.vk2h_msg_chan.pendq q1, x.vk2h_msg.isSome = true) :
    bitmap_inv vk1 := by
  obtain ⟨_, h2, _, _, _⟩ := h
  have hempty : ∀ q, vk1.h2vk_msg_chan.pendq q = [] := by
    intro q
    rw [hp q]
    by_cases hq : q < vk.h2vk_msg_chan.q_nr
    · rw [if_pos hq]
    · rw [if_neg hq]
      exact h2 q (Nat.le_of_not_lt hq)
  refine ⟨hm, fun q _ => hempty q, ?_, hv, ?_⟩
  · intro q x hx
    rw [hempty q] at hx
    cases hx
  · intro id hid
    have : pend_id_count vk1 id = 0 := by
      unfold pend_id_count pend_all
      rw [pend_from_nil _ _ 0 (fun q _ _ => hempty q)]
      rfl
    refine ⟨fun hbit => ?_, fun _ => this⟩
    rw [hb id hid] at hbit
    cases hbit

theorem bitmap_inv_get_ctx (K : vk_consts) (vk : bcm_vk) (pid : Nat) (h : bitmap_inv vk) :
    bitmap_inv (bcm_vk_get_ctx K vk pid).2 := by
  rcases bcm_vk_get_ctx_cases K vk pid with ⟨_, he⟩ | ⟨_, _, he⟩ | ⟨_, i, _, _, _, he⟩ <;>
    rw [he] <;> exact bitmap_inv_frame vk _ rfl rfl rfl rfl rfl h

theorem read_find_in_mem (vk : bcm_vk) (c : Nat) (l : List bcm_vk_wkent) :
    ∀ e rest, read_find_in vk c l = some (e, rest) → ∀ x ∈ rest, x ∈ l := by
  induction l with
  | nil =>
    intro e rest h
    cases h
  | cons y l ih =>
    intro e rest h x hx
    rw [read_find_in] at h
    by_cases ho : wkent_owned vk c y = true
    · rw [if_pos ho] at h
      cases h
      exact List.mem_cons_of_mem _ hx
    · rw [if_neg ho] at h
      cases hr : read_find_in vk c l with
      | none =>
        rw [hr] at h
        cases h
      | some p =>
        rw [hr] at h
        cases h
        rcases List.mem_cons.1 hx with hx | hx
        · rw [hx]
          exact List.mem_cons_self _ _
        · exact List.mem_cons_of_mem _ (ih p.1 p.2 hr x hx)

theorem read_find_mem (vk : bcm_vk) (c : Nat) (n : Nat) :
    ∀ q0 q e rest, read_find vk c n q0 = some (q, e, rest) →
      ∀ x ∈ rest, x ∈ vk.vk2h_msg_chan.pendq q := by
  induction n with
  | zero =>
    intro q0 q e rest h
    cases h
  | succ n ih =>
    intro q0 q e rest h
    rw [read_find] at h
    cases hr : read_find_in vk c (vk.vk2h_msg_chan.pendq q0) with
    | none =>
      rw [hr] at h
      exact ih (q0 + 1) q e rest h
    | some p =>
      rw [hr] at h
      cases h
      exact read_find_in_mem vk c _ p.1 p.2 hr

theorem bitmap_inv_read (K : vk_consts) (vk : bcm_vk) (c count : Nat) (copy_ok : Bool)
    (h : bitmap_inv vk) : bitmap_inv (bcm_vk_read K vk c count copy_ok).vk := by
  unfold bcm_vk_read
  by_cases hr : bcm_vk_drv_access_ok vk = false
  · rw [if_pos hr]
    exact h
  · rw [if_neg hr]
    simp only []
    cases hf : read_find { vk with klog := vk.klog ++ [klog_msg.buf_count count] } c
        vk.vk2h_msg_chan.q_nr 0 with
    | none => exact bitmap_inv_frame vk _ rfl rfl rfl rfl rfl h
    | some p =>
      obtain ⟨q, e, rest⟩ := p
      have hmem := read_find_mem _ c _ 0 q e rest hf
      simp only []
      by_cases hc : count ≥ e.vk2h_blks * K.VK_MSGQ_BLK_SIZE
      · rw [if_pos hc]
        have hgoal : ∀ X : bcm_vk, X.msg_id = vk.msg_id → X.bmap = vk.bmap →
            X.h2vk_msg_chan = vk.h2vk_msg_chan →
            (∀ q1, X.vk2h_msg_chan.pendq q1 =
              if q1 = q then rest else vk.vk2h_msg_chan.pendq q1) → bitmap_inv X := by
          intro X h1 h2 h3 h4
          refine bitmap_inv_congr vk X (by rw [h1]; exact h.1) (fun i => by rw [h2])
            (by rw [h3]) (fun q1 => by rw [h3]) ?_ h
          intro q1 x hx
          rw [h4 q1] at hx
          by_cases hq : q1 = q
          · rw [if_pos hq] at hx
            exact h.2.2.2.1 q x (hmem x hx)
          · rw [if_neg hq] at hx
            exact h.2.2.2.1 q1 x hx
        cases copy_ok
        · exact hgoal _ rfl rfl rfl (fun _ => rfl)
        · exact hgoal _ rfl rfl rfl (fun _ => rfl)
      · rw [if_neg hc]
        cases copy_ok
        · exact bitmap_inv_frame vk _ rfl rfl rfl rfl rfl h
        · exact bitmap_inv_frame vk _ rfl rfl rfl rfl rfl h

theorem bitmap_inv_trigger_reset (K : vk_consts) (vk : bcm_vk) (rd32 : Nat → Nat → Nat)
    (h : bitmap_inv vk) : bitmap_inv (bcm_vk_trigger_reset K vk rd32) := by
  obtain ⟨l1, h1⟩ := bcm_vk_drain_all_pend_none vk vk_chan_id.h2vk
  obtain ⟨l2, h2⟩ := bcm_vk_drain_all_pend_none
    (bcm_vk_drain_all_pend vk vk_chan_id.h2vk none) vk_chan_id.vk2h
  unfold bcm_vk_trigger_reset
  simp only []
  rw [h2, h1]
  refine bitmap_inv_clear vk _ h h.1 ?_ (fun _ => rfl) ?_
  · intro id hid
    show (if 0 ≤ id ∧ id < 0 + VK_MSG_ID_BITMAP_SIZE then false else _) = false
    rw [if_pos ⟨Nat.zero_le _, by omega⟩]
  · intro q x hx
    have hx1 : x ∈ (if q < vk.vk2h_msg_chan.q_nr then [] else vk.vk2h_msg_chan.pendq q) := hx
    by_cases hq : q < vk.vk2h_msg_chan.q_nr
    · rw [if_pos hq] at hx1
      cases hx1
    · rw [if_neg hq] at hx1
      exact h.2.2.2.1 q x hx1

/-- What `bcm_h2vk_msg_enqueue` leaves alone: the allocator, the bitmap, the
contexts, the pending lists of both channels, the card-to-host channel, and
in the work entry everything but `seq_num`. -/
theorem bcm_h2vk_msg_enqueue_frame (K : vk_consts) (vk : bcm_vk) (entry : bcm_vk_wkent)
    (card_rd : List Nat) :
    (bcm_h2vk_msg_enqueue K vk entry card_rd).vk.msg_id = vk.msg_id ∧
    (bcm_h2vk_msg_enqueue K vk entry card_rd).vk.bmap = vk.bmap ∧
    (bcm_h2vk_msg_enqueue K vk entry card_rd).vk.h2vk_msg_chan.q_nr = vk.h2vk_msg_chan.q_nr ∧
    (bcm_h2vk_msg_enqueue K vk entry card_rd).vk.h2vk_msg_chan.pendq =
      vk.h2vk_msg_chan.pendq ∧
    (bcm_h2vk_msg_enqueue K vk entry card_rd).vk.vk2h_msg_chan = vk.vk2h_msg_chan ∧
    (bcm_h2vk_msg_enqueue K vk entry card_rd).entry.h2vk_msg = entry.h2vk_msg ∧
    (bcm_h2vk_msg_enqueue K vk entry card_rd).entry.vk2h_msg = entry.vk2h_msg := by
  unfold bcm_h2vk_msg_enqueue
  simp only []
  split
  · exact ⟨rfl, rfl, rfl, rfl, rfl, rfl, rfl⟩
  · split
    · exact ⟨rfl, rfl, rfl, rfl, rfl, rfl, rfl⟩
    · split
      · have hf := fun X => bcm_vk_set_host_alert_fields X K.ERR_LOG_HOST_PCIE_DWN
        refine ⟨?_, ?_, ?_, ?_, ?_, rfl, rfl⟩
        · exact ((hf _).2.2.2.2.2.2.2.2.1).trans rfl
        · exact ((hf _).2.2.2.2.2.2.1).trans rfl
        · exact (congrArg bcm_vk_msg_chan.q_nr (hf _).2.2.2.2.2.1).trans rfl
        · exact (congrArg bcm_vk_msg_chan.pendq (hf _).2.2.2.2.2.1).trans rfl
        · exact ((hf _).2.2.2.2.1).trans rfl
      · exact ⟨rfl, rfl, rfl, rfl, rfl, rfl, rfl⟩

theorem bitmap_inv_free_ctx (vk : bcm_vk) (ctx : Option Nat) (h : bitmap_inv vk) :
    bitmap_inv (bcm_vk_free_ctx vk ctx).2 := by
  unfold bcm_vk_free_ctx
  cases ctx with
  | none => exact bitmap_inv_frame vk _ rfl rfl rfl rfl rfl h
  | some c =>
    simp only []
    split <;> exact bitmap_inv_frame vk _ rfl rfl rfl rfl rfl h

theorem bitmap_inv_send_shutdown_msg (K : vk_consts) (vk : bcm_vk) (shut_type pid : Nat)
    (env : vk_env) (h : bitmap_inv vk) :
    bitmap_inv (bcm_vk_send_shutdown_msg K vk shut_type pid env).2 := by
  obtain ⟨f1, f2, f3, f4, f5, _, _⟩ :=
    bcm_h2vk_msg_enqueue_frame K vk (shutdown_entry K shut_type pid) env.card_rd
  unfold bcm_vk_send_shutdown_msg
  split
  · exact bitmap_inv_frame vk _ rfl rfl rfl rfl rfl h
  · split
    · exact h
    · simp only []
      split
      · exact bitmap_inv_frame vk _ f1 f2 f3 f4 (by rw [← f5]) h
      · exact bitmap_inv_frame vk _ f1 f2 f3 f4 (by rw [← f5]) h

theorem bitmap_inv_handle_last_sess (K : vk_consts) (vk : bcm_vk) (pid : Nat) (env : vk_env)
    (h : bitmap_inv vk) : bitmap_inv (bcm_vk_handle_last_sess K vk pid env).2 := by
  unfold bcm_vk_handle_last_sess
  split
  · simp only []
    split
    · exact bitmap_inv_frame vk _ rfl rfl rfl rfl rfl h
    · exact h
  · simp only []
    split
    · exact bitmap_inv_send_shutdown_msg K _ _ _ env
        (bitmap_inv_frame vk _ rfl rfl rfl rfl rfl h)
    · exact bitmap_inv_frame vk _ rfl rfl rfl rfl rfl h

theorem drain_rel_frame (chan : vk_chan_id) (cx : Nat) (vk X : bcm_vk) (D : List bcm_vk_wkent)
    (h : drain_rel chan cx vk X D) :
    X.msg_id = vk.msg_id ∧ (get_chan X chan).q_nr = (get_chan vk chan).q_nr := by
  obtain ⟨a1, _, c1, _⟩ := h
  constructor
  · rw [a1]
  · rw [c1]

theorem bitmap_inv_drain_h2vk (vk : bcm_vk) (c : Nat) (h : bitmap_inv vk) :
    bitmap_inv (bcm_vk_drain_all_pend vk vk_chan_id.h2vk (some c)) := by
  obtain ⟨hrel, hq⟩ := bcm_vk_drain_all_pend_some vk vk_chan_id.h2vk c
  obtain ⟨hm, hn⟩ := drain_rel_frame _ _ _ _ _ hrel
  have hv : (bcm_vk_drain_all_pend vk vk_chan_id.h2vk (some c)).vk2h_msg_chan =
      vk.vk2h_msg_chan := hrel.2.1 vk_chan_id.vk2h (by decide)
  refine bitmap_inv_filter vk _ (wkent_owned vk c) h (by rw [hm]; exact h.1) hrel.2.2.2.1 hn hq ?_
  intro q x hx
  rw [hv] at hx
  exact h.2.2.2.1 q x hx

theorem bitmap_inv_drain_vk2h (vk : bcm_vk) (c : Nat) (h : bitmap_inv vk) :
    bitmap_inv (bcm_vk_drain_all_pend vk vk_chan_id.vk2h (some c)) := by
  obtain ⟨hrel, hq⟩ := bcm_vk_drain_all_pend_some vk vk_chan_id.vk2h c
  obtain ⟨hm, _⟩ := drain_rel_frame _ _ _ _ _ hrel
  have hh : (bcm_vk_drain_all_pend vk vk_chan_id.vk2h (some c)).h2vk_msg_chan =
      vk.h2vk_msg_chan := hrel.2.1 vk_chan_id.h2vk (by decide)
  refine bitmap_inv_congr vk _ (by rw [hm]; exact h.1) ?_ (by rw [hh]) (fun q => by rw [hh])
    ?_ h
  · intro i
    rw [hrel.2.2.2.1 i]
    have hany : ((pend_all (get_chan vk vk_chan_id.vk2h)).filter (wkent_owned vk c)).any
        (wkent_awaits i) = false := by
      rw [List.any_eq_false]
      intro x hx
      obtain ⟨q, _, hxq⟩ := (mem_pend_all _ _).1 (List.mem_filter.1 hx).1
      have := h.2.2.2.1 q x hxq
      unfold wkent_awaits
      rw [this]
      simp
    rw [hany]
    simp
  · intro q x hx
    have hx1 : x ∈ (get_chan (bcm_vk_drain_all_pend vk vk_chan_id.vk2h (some c))
        vk_chan_id.vk2h).pendq q := hx
    rw [hq q] at hx1
    by_cases hlt : q < (get_chan vk vk_chan_id.vk2h).q_nr
    · rw [if_pos hlt] at hx1
      exact h.2.2.2.1 q x (List.mem_filter.1 hx1).1
    · rw [if_neg hlt] at hx1
      exact h.2.2.2.1 q x hx1

theorem bitmap_inv_release (K : vk_consts) (vk : bcm_vk) (c : Nat) (env : vk_env)
    (h : bitmap_inv vk) : bitmap_inv (bcm_vk_release K vk c env).2 := by
  have h0 : bitmap_inv
      { vk with klog := vk.klog ++ [klog_msg.draining_ctx (vk.ctx c).idx (vk.ctx c).pid] } :=
    bitmap_inv_frame vk _ rfl rfl rfl rfl rfl h
  have h1 := bitmap_inv_drain_h2vk _ c h0
  have h2 := bitmap_inv_drain_vk2h _ c h1
  have h3 := bitmap_inv_free_ctx _ (some c) h2
  unfold bcm_vk_release
  simp only []
  split
  · exact bitmap_inv_frame _ _ rfl rfl rfl rfl rfl
      (bitmap_inv_handle_last_sess K _ (vk.ctx c).pid env h3)
  · exact bitmap_inv_frame _ _ rfl rfl rfl rfl rfl h3

theorem bcm_vk_find_pending_some (vk : bcm_vk) (c : vk_chan_id) (q m : Nat) (e : bcm_vk_wkent)
    (rest : List bcm_vk_wkent)
    (h : find_pending_in m ((get_chan vk c).pendq q) = some (e, rest)) :
    bcm_vk_find_pending vk c q m =
      (some e,
        bcm_vk_msgid_bitmap_clear (set_chan vk c (set_pendq (get_chan vk c) q rest)) m 1) := by
  unfold bcm_vk_find_pending
  rw [h]

theorem bcm_vk_find_pending_none (vk : bcm_vk) (c : vk_chan_id) (q m : Nat)
    (h : find_pending_in m ((get_chan vk c).pendq q) = none) :
    bcm_vk_find_pending vk c q m = (none, vk) := by
  unfold bcm_vk_find_pending
  rw [h]

/-- No entry on the host-to-card pending lists carries an id whose bit is
clear. -/
theorem bitmap_inv_no_entry (vk : bcm_vk) (h : bitmap_inv vk) (id q : Nat)
    (hid : id < VK_MSG_ID_BITMAP_SIZE) (hfresh : vk.bmap id = false) :
    ∀ x ∈ vk.h2vk_msg_chan.pendq q,
      BCM_VK_GET_MSG_ID (x.h2vk_msg.headD vk_msg_blk.zero) ≠ id := by
  intro x hx heq
  have hq : q < vk.h2vk_msg_chan.q_nr := by
    by_contra hge
    rw [h.2.1 q (Nat.le_of_not_lt hge)] at hx
    cases hx
  have h0 := (h.2.2.2.2 id hid).2 hfresh
  unfold pend_id_count at h0
  rw [List.countP_eq_zero] at h0
  apply h0 x ((mem_pend_all _ _).2 ⟨q, hq, hx⟩)
  unfold wkent_has_id
  rw [heq]
  exact beq_self_eq_true _

/-- The invariant holds after the end of `bcm_vk_write`, entered with a
freshly allocated id in the first block of the work entry. -/
theorem bitmap_inv_write_send (K : vk_consts) (vk vk2 : bcm_vk) (id q count : Nat)
    (entry : bcm_vk_wkent) (env : vk_env) (h : bitmap_inv vk)
    (hq : q < vk.h2vk_msg_chan.q_nr) (hid : id < VK_MSG_ID_BITMAP_SIZE)
    (hfresh : vk.bmap id = false)
    (he : BCM_VK_GET_MSG_ID (entry.h2vk_msg.headD vk_msg_blk.zero) = id)
    (hresp : entry.vk2h_msg = none)
    (h2m : vk2.msg_id < VK_MSG_ID_BITMAP_SIZE)
    (h2b : ∀ i, vk2.bmap i = if i = id then true else vk.bmap i)
    (h2h : vk2.h2vk_msg_chan = vk.h2vk_msg_chan)
    (h2v : vk2.vk2h_msg_chan = vk.vk2h_msg_chan) :
    bitmap_inv (write_send K vk2 q count entry env).2 := by
  have happ : bcm_vk_append_pendq vk2 vk_chan_id.h2vk q entry =
      set_chan vk2 vk_chan_id.h2vk
        (set_pendq (get_chan vk2 vk_chan_id.h2vk) q
          ((get_chan vk2 vk_chan_id.h2vk).pendq q ++ [entry])) := by
    unfold bcm_vk_append_pendq
    simp only [hresp, Option.isSome_none, Bool.false_eq_true, if_false]
  obtain ⟨f1, f2, f3, f4, f5, f6, f7⟩ := bcm_h2vk_msg_enqueue_frame K
    (bcm_vk_append_pendq vk2 vk_chan_id.h2vk q entry) entry env.card_rd
  rw [happ] at f1 f2 f3 f4 f5 f6 f7
  unfold write_send
  simp only []
  rw [happ]
  generalize bcm_h2vk_msg_enqueue K
    (set_chan vk2 vk_chan_id.h2vk
      (set_pendq (get_chan vk2 vk_chan_id.h2vk) q
        ((get_chan vk2 vk_chan_id.h2vk).pendq q ++ [entry]))) entry env.card_rd = r
    at f1 f2 f3 f4 f5 f6 f7
  have hpq : r.vk.h2vk_msg_chan.pendq q = vk.h2vk_msg_chan.pendq q ++ [entry] := by
    rw [f4, ← h2h]
    show (if q = q then _ else _) = _
    rw [if_pos rfl]
    rfl
  have hpo : ∀ q1, q1 ≠ q → r.vk.h2vk_msg_chan.pendq q1 = vk.h2vk_msg_chan.pendq q1 := by
    intro q1 hq1
    rw [f4, ← h2h]
    show (if q1 = q then _ else _) = _
    rw [if_neg hq1]
    rfl
  have hre : BCM_VK_GET_MSG_ID (r.entry.h2vk_msg.headD vk_msg_blk.zero) = id := by
    rw [f6]
    exact he
  have hb : ∀ i, r.vk.bmap i = if i = id then true else vk.bmap i := by
    intro i
    rw [f2, ← h2b i]
    rfl
  have hv : r.vk.vk2h_msg_chan = vk.vk2h_msg_chan := by
    rw [f5, ← h2v]
    rfl
  have hm : r.vk.msg_id < VK_MSG_ID_BITMAP_SIZE := by
    rw [f1]
    exact h2m
  have hn : r.vk.h2vk_msg_chan.q_nr = vk.h2vk_msg_chan.q_nr := by
    rw [f3, ← h2h]
    rfl
  by_cases hrc : r.rc ≠ 0
  · rw [if_pos hrc]
    have hfind : find_pending_in (BCM_VK_GET_MSG_ID (r.entry.h2vk_msg.headD vk_msg_blk.zero))
        ((get_chan
          { set_chan r.vk vk_chan_id.h2vk
              (set_pendq r.vk.h2vk_msg_chan q
                ((r.vk.h2vk_msg_chan.pendq q).dropLast ++ [r.entry])) with
            klog := (set_chan r.vk vk_chan_id.h2vk
              (set_pendq r.vk.h2vk_msg_chan q
                ((r.vk.h2vk_msg_chan.pendq q).dropLast ++ [r.entry]))).klog ++
              [klog_msg.enqueue_fail] }
          vk_chan_id.h2vk).pendq q) =
        some (r.entry, vk.h2vk_msg_chan.pendq q ++ []) := by
      show find_pending_in _ (if q = q then _ else _) = _
      rw [if_pos rfl, hpq, List.dropLast_concat]
      exact find_pending_in_append _ _ [] _
        (by rw [hre]; exact bitmap_inv_no_entry vk h id q hid hfresh) rfl
    rw [bcm_vk_find_pending_some _ _ _ _ _ _ hfind]
    refine bitmap_inv_congr vk _ hm ?_ hn ?_ ?_ h
    · intro i
      show (if _ ≤ i ∧ i < _ + 1 then false else r.vk.bmap i) = _
      rw [hre, hb i]
      by_cases hi : i = id
      · rw [if_pos (by omega), hi, hfresh]
      · rw [if_neg (by omega), if_neg hi]
    · intro q1
      show (if q1 = q then _ else if q1 = q then _ else r.vk.h2vk_msg_chan.pendq q1) = _
      by_cases hq1 : q1 = q
      · rw [if_pos hq1, List.append_nil, hq1]
      · rw [if_neg hq1, if_neg hq1, hpo q1 hq1]
    · intro q1 x hx
      have hx1 : x ∈ r.vk.vk2h_msg_chan.pendq q1 := hx
      rw [hv] at hx1
      exact h.2.2.2.1 q1 x hx1
  · rw [if_neg hrc]
    refine bitmap_inv_append vk _ id q r.entry h hq hfresh hre (by rw [f7]; exact hresp) hm hb hn
      ?_ ?_
    · intro q1
      show (if q1 = q then _ else r.vk.h2vk_msg_chan.pendq q1) = _
      by_cases hq1 : q1 = q
      · rw [if_pos hq1, if_pos hq1, hpq, List.dropLast_concat]
      · rw [if_neg hq1, if_neg hq1, hpo q1 hq1]
    · intro q1 x hx
      have hx1 : x ∈ r.vk.vk2h_msg_chan.pendq q1 := hx
      rw [hv] at hx1
      exact h.2.2.2.1 q1 x hx1

/-- What the buffer-transfer branch of `bcm_vk_write` does to the device
state and the work entry: the state gets log lines only, and the first block
of the message keeps its transport id when `bcm_vk_sg_alloc` leaves it. -/
theorem write_trans_buf_spec (K : vk_consts) (vk : bcm_vk) (c : Nat) (entry : bcm_vk_wkent)
    (env : vk_env) (b : vk_msg_blk) (t : List vk_msg_blk) (hmsg : entry.h2vk_msg = b :: t)
    (hsg : ∀ b t, ∃ b1 t1, env.sg_msg (b :: t) = b1 :: t1 ∧ b1.trans_id = b.trans_id) :
    (∃ l, (write_trans_buf K vk c entry env).2.1 = { vk with klog := vk.klog ++ l }) ∧
    ((write_trans_buf K vk c entry env).2.2.h2vk_msg.headD vk_msg_blk.zero).trans_id =
      b.trans_id ∧
    (write_trans_buf K vk c entry env).2.2.vk2h_msg = entry.vk2h_msg := by
  obtain ⟨b1, t1, hs1, hs2⟩ := hsg b t
  unfold write_trans_buf
  simp only []
  split
  · split
    · refine ⟨⟨_, rfl⟩, ?_, rfl⟩
      rw [hmsg]
      rfl
    · split
      · refine ⟨⟨[], (by simp)⟩, ?_, rfl⟩
        rw [hmsg]
        rfl
      · split
        · refine ⟨⟨[], (by simp)⟩, ?_, rfl⟩
          show ((env.sg_msg entry.h2vk_msg).headD vk_msg_blk.zero).trans_id = _
          rw [hmsg, hs1]
          exact hs2
        · unfold bcm_vk_append_ib_sgl
          simp only []
          split
          · refine ⟨⟨_, rfl⟩, ?_, rfl⟩
            show ((env.sg_msg entry.h2vk_msg).headD vk_msg_blk.zero).trans_id = _
            rw [hmsg, hs1]
            exact hs2
          · refine ⟨⟨_, rfl⟩, ?_, rfl⟩
            show (((env.sg_msg entry.h2vk_msg) ++ _).headD vk_msg_blk.zero).trans_id = _
            rw [hmsg, hs1]
            exact hs2
  · refine ⟨⟨[], (by simp)⟩, ?_, rfl⟩
    rw [hmsg]
    rfl

theorem bitmap_inv_write (K : vk_consts) (vk : bcm_vk) (c count : Nat) (env : vk_env)
    (h : bitmap_inv vk) (hq : write_q_num K count env < vk.h2vk_msg_chan.q_nr)
    (hsg : ∀ b t, ∃ b1 t1, env.sg_msg (b :: t) = b1 :: t1 ∧ b1.trans_id = b.trans_id) :
    bitmap_inv (bcm_vk_write K vk c count env).2 := by
  unfold bcm_vk_write
  split
  · exact h
  · simp only []
    split
    · exact bitmap_inv_frame vk _ rfl rfl rfl rfl rfl h
    · split
      · exact bitmap_inv_frame vk _ rfl rfl rfl rfl rfl h
      · split
        · exact bitmap_inv_frame vk _ rfl rfl rfl rfl rfl h
        · split
          · exact bitmap_inv_frame vk _ rfl rfl rfl rfl rfl h
          · rcases bcm_vk_get_msg_id_cases
              { vk with klog := vk.klog ++ [klog_msg.msg_count count] } h.1 with
              ⟨_, m, hm, hg⟩ | ⟨id, _, hid1, hid2, hfresh, hg⟩
            · rw [hg]
              rw [if_pos rfl]
              exact bitmap_inv_congr vk _ hm (fun _ => rfl) rfl (fun _ => rfl) h.2.2.2.1 h
            · rw [hg]
              have hne : ¬ (id = VK_MSG_ID_OVERFLOW) := by
                intro heq
                rw [heq] at hid2
                exact absurd hid2 (by decide)
              simp only []
              rw [if_neg hne]
              have hgid : BCM_VK_GET_MSG_ID
                  (BCM_VK_SET_MSG_ID ((write_msg K count env).headD vk_msg_blk.zero) id) = id := by
                rw [BCM_VK_GET_MSG_ID_SET_MSG_ID]
                exact Nat.mod_eq_of_lt hid2
              obtain ⟨⟨l, hl⟩, htr, hvm⟩ := write_trans_buf_spec K
                { vk with
                  msg_id := id
                  bmap := fun i => if i = id then true else vk.bmap i
                  klog := vk.klog ++ [klog_msg.msg_count count] ++
                    [klog_msg.message_ids (vk.ctx c).idx
                      (BCM_VK_GET_MSG_ID ((write_msg K count env).headD vk_msg_blk.zero))
                      (BCM_VK_GET_MSG_ID
                        (BCM_VK_SET_MSG_ID ((write_msg K count env).headD vk_msg_blk.zero)
                          id))] }
                c
                { ctx := c, seq_num := 0,
                  usr_msg_id :=
                    BCM_VK_GET_MSG_ID ((write_msg K count env).headD vk_msg_blk.zero),
                  vk2h_blks := 0, vk2h_msg := none,
                  h2vk_blks := (count >>> K.VK_MSGQ_BLK_SZ_SHIFT) % 4294967296,
                  h2vk_msg :=
                    BCM_VK_SET_MSG_ID ((write_msg K count env).headD vk_msg_blk.zero) id ::
                      (write_msg K count env).tail }
                env _ _ rfl hsg
              have hid3 : BCM_VK_GET_MSG_ID
                  ((write_trans_buf K
                    { vk with
                      msg_id := id
                      bmap := fun i => if i = id then true else vk.bmap i
                      klog := vk.klog ++ [klog_msg.msg_count count] ++
                        [klog_msg.message_ids (vk.ctx c).idx
                          (BCM_VK_GET_MSG_ID ((write_msg K count env).headD vk_msg_blk.zero))
                          (BCM_VK_GET_MSG_ID
                            (BCM_VK_SET_MSG_ID
                              ((write_msg K count env).headD vk_msg_blk.zero) id))] }
                    c
                    { ctx := c, seq_num := 0,
                      usr_msg_id :=
                        BCM_VK_GET_MSG_ID ((write_msg K count env).headD vk_msg_blk.zero),
                      vk2h_blks := 0, vk2h_msg := none,
                      h2vk_blks := (count >>> K.VK_MSGQ_BLK_SZ_SHIFT) % 4294967296,
                      h2vk_msg :=
                        BCM_VK_SET_MSG_ID ((write_msg K count env).headD vk_msg_blk.zero) id ::
                          (write_msg K count env).tail }
                    env).2.2.h2vk_msg.headD vk_msg_blk.zero) = id := by
                have hcg : ∀ x y : vk_msg_blk, x.trans_id = y.trans_id →
                    BCM_VK_GET_MSG_ID x = BCM_VK_GET_MSG_ID y := by
                  intro x y hxy
                  unfold BCM_VK_GET_MSG_ID
                  rw [hxy]
                exact (hcg _ _ htr).trans hgid
              generalize write_trans_buf K _ c _ env = w at hl htr hvm hid3
              obtain ⟨rc, vk2, entry1⟩ := w
              simp only [] at hl htr hvm hid3
              cases rc with
              | some rc =>
                simp only []
                rw [hid3, hl]
                refine bitmap_inv_congr vk _ hid2 ?_ rfl (fun _ => rfl) h.2.2.2.1 h
                intro i
                show (if id ≤ i ∧ i < id + 1 then false else if i = id then true else vk.bmap i) = _
                by_cases hi : i = id
                · rw [if_pos (by omega), hi, hfresh]
                · rw [if_neg (by omega), if_neg hi]
              | none =>
                simp only []
                rw [hl]
                exact bitmap_inv_write_send K vk _ id _ count entry1 env h hq hid2 hfresh hid3
                  hvm hid2 (fun _ => rfl) rfl rfl

theorem find_pending_in_some (m : Nat) (l : List bcm_vk_wkent) :
    ∀ e rest, find_pending_in m l = some (e, rest) →
      ∃ pre post, l = pre ++ e :: post ∧ rest = pre ++ post ∧
        BCM_VK_GET_MSG_ID (e.h2vk_msg.headD vk_msg_blk.zero) = m := by
  induction l with
  | nil =>
    intro e rest h
    cases h
  | cons y l ih =>
    intro e rest h
    rw [find_pending_in] at h
    by_cases hy : BCM_VK_GET_MSG_ID (y.h2vk_msg.headD vk_msg_blk.zero) = m
    · rw [if_pos hy] at h
      cases h
      exact ⟨[], l, rfl, rfl, hy⟩
    · rw [if_neg hy] at h
      cases hr : find_pending_in m l with
      | none =>
        rw [hr] at h
        cases h
      | some p =>
        rw [hr] at h
        cases h
        obtain ⟨pre, post, h1, h2, h3⟩ := ih p.1 p.2 hr
        exact ⟨y :: pre, post, by rw [h1]; rfl, by rw [h2]; rfl, h3⟩

theorem bitmap_inv_deq_msg_step (K : vk_consts) (vk : bcm_vk) (q : Nat) (h : bitmap_inv vk) :
    bitmap_inv (deq_msg_step K vk q) := by
  unfold deq_msg_step
  simp only []
  split
  · exact bitmap_inv_frame vk _ rfl rfl rfl rfl rfl h
  · cases hfp : find_pending_in
        (BCM_VK_GET_MSG_ID ((deq_head vk q).1.headD vk_msg_blk.zero))
        (vk.h2vk_msg_chan.pendq q) with
    | none =>
      simp only [bcm_vk_find_pending, get_chan, set_vk2h_msgq, hfp]
      exact bitmap_inv_frame vk _ rfl rfl rfl rfl rfl h
    | some p =>
      obtain ⟨e, rest⟩ := p
      obtain ⟨pre, post, h1, h2, h3⟩ := find_pending_in_some _ _ e rest hfp
      simp only [bcm_vk_find_pending, get_chan, set_vk2h_msgq, hfp]
      refine bitmap_inv_remove vk _ _ q pre post e h h1 h3 h.1 ?_ rfl ?_ ?_
      · intro i
        show (if _ ≤ i ∧ i < _ + 1 then false else vk.bmap i) = _
        by_cases hi : i = BCM_VK_GET_MSG_ID ((deq_head vk q).1.headD vk_msg_blk.zero)
        · rw [if_pos (by omega), if_pos hi]
        · rw [if_neg (by omega), if_neg hi]
      · intro q1
        show (if q1 = q then rest else vk.h2vk_msg_chan.pendq q1) = _
        rw [h2]
      · intro q1 x hx
        have hx1 : x ∈ (if q1 = q then vk.vk2h_msg_chan.pendq q ++
            [{ e with
               vk2h_blks :=
                 (((vk.vk2h_msg_chan.msgq q).ring
                   ((vk.vk2h_msg_chan.msgq q).rd_idx &&&
                     VK_MSGQ_SIZE_MASK (vk.vk2h_msg_chan.sync_qinfo q))).size + 1) % 4294967296
               vk2h_msg := some (deq_head vk q).1 }]
            else vk.vk2h_msg_chan.pendq q1) := hx
        by_cases hq1 : q1 = q
        · rw [if_pos hq1] at hx1
          rcases List.mem_append.1 hx1 with hx2 | hx2
          · exact h.2.2.2.1 q x hx2
          · rw [List.mem_singleton.1 hx2]
            rfl
        · rw [if_neg hq1] at hx1
          exact h.2.2.2.1 q1 x hx1

theorem bitmap_inv_deq_loop (K : vk_consts) (kzalloc_ok : Nat → Bool) (fuel : Nat) :
    ∀ (q_num total : Nat) (vk : bcm_vk) (r : deq_result), bitmap_inv vk →
      deq_loop K kzalloc_ok fuel q_num total vk = some r → bitmap_inv r.vk := by
  induction fuel with
  | zero =>
    intro q_num total vk r _ h
    cases h
  | succ fuel ih =>
    intro q_num total vk r hinv h
    by_cases hq : q_num < vk.vk2h_msg_chan.q_nr
    · by_cases hemp : VK_MSGQ_EMPTY (vk.vk2h_msg_chan.msgq q_num) = false
      · by_cases hfault : (vk.vk2h_msg_chan.msgq q_num).rd_idx ≥
            (vk.vk2h_msg_chan.sync_qinfo q_num).q_size ∨
            ((vk.vk2h_msg_chan.msgq q_num).ring
              ((vk.vk2h_msg_chan.msgq q_num).rd_idx &&&
                VK_MSGQ_SIZE_MASK (vk.vk2h_msg_chan.sync_qinfo q_num))).size >
            ((vk.vk2h_msg_chan.sync_qinfo q_num).q_size + (4294967296 - 1)) % 4294967296
        · rw [deq_loop] at h
          simp only [hq, if_true, hemp, if_pos hfault] at h
          have hr := (Option.some.inj h).symm
          rw [hr]
          have hf := fun X => bcm_vk_set_host_alert_fields X K.ERR_LOG_HOST_PCIE_DWN
          refine bitmap_inv_frame vk _ ?_ ?_ ?_ ?_ ?_ hinv
          · exact ((hf _).2.2.2.2.2.2.2.2.1).trans rfl
          · exact ((hf _).2.2.2.2.2.2.1).trans rfl
          · exact (congrArg bcm_vk_msg_chan.q_nr (hf _).2.2.2.2.2.1).trans rfl
          · exact (congrArg bcm_vk_msg_chan.pendq (hf _).2.2.2.2.2.1).trans rfl
          · exact (congrArg bcm_vk_msg_chan.pendq (hf _).2.2.2.2.1).trans rfl
        · by_cases hk : kzalloc_ok total = true
          · have hok : deq_head_ok vk q_num :=
              ⟨hq, hemp, Nat.lt_of_not_le (fun hge => hfault (Or.inl hge)),
                Nat.le_of_not_lt (fun hgt => hfault (Or.inr hgt))⟩
            rw [deq_loop_step K kzalloc_ok fuel q_num total vk hok hk] at h
            exact ih _ _ _ r (bitmap_inv_deq_msg_step K vk q_num hinv) h
          · rw [deq_loop] at h
            simp only [hq, if_true, hemp, if_neg hfault, hk, Bool.false_eq_true, if_false] at h
            have hr := (Option.some.inj h).symm
            rw [hr]
            exact bitmap_inv_frame vk _ rfl rfl rfl rfl rfl hinv
      · rw [deq_loop] at h
        simp only [hq, if_true, hemp, if_false] at h
        exact ih _ _ _ r hinv h
    · rw [deq_loop] at h
      simp only [hq, if_false] at h
      have hr := (Option.some.inj h).symm
      rw [hr]
      exact bitmap_inv_frame vk _ rfl rfl rfl rfl rfl hinv

/-- Every state the transport reaches satisfies the invariant of the bitmap
and the pending tables. -/
theorem bitmap_inv_of_reach (K : vk_consts) (vk : bcm_vk) (h : transport_reach K vk) :
    bitmap_inv vk := by
  induction h with
  | init vk hf => exact bitmap_inv_of_fresh vk hf
  | write vk c count env _ hq hsg ih => exact bitmap_inv_write K vk c count env ih hq hsg
  | dequeue vk kzalloc_ok fuel r _ hr ih =>
    exact bitmap_inv_deq_loop K kzalloc_ok fuel 0 0 vk r ih hr
  | read vk c count copy_ok _ ih => exact bitmap_inv_read K vk c count copy_ok ih
  | release vk c env _ ih => exact bitmap_inv_release K vk c env ih
  | trigger_reset vk rd32 _ ih => exact bitmap_inv_trigger_reset K vk rd32 ih
  | get_ctx vk pid _ ih => exact bitmap_inv_get_ctx K vk pid ih
  | card vk a b _ ih => exact bitmap_inv_frame vk _ rfl rfl rfl rfl rfl ih

/-- C13: in every state reachable from initialisation through `bcm_vk_write`,
`bcm_vk2h_msg_dequeue`, `bcm_vk_read`, session close (`bcm_vk_release` with
its context-scoped drains), `bcm_vk_trigger_reset` (and `bcm_vk_get_ctx`, and
the card rewriting the rings), the bit of a message id is set if and only if
exactly one work entry carrying that internal id is on the host-to-card
pending lists, and clear if and only if there is none; every entry on such a
list is on the list of a queue of the channel and carries no response yet.
Between the calls no id is claimed without its entry being on a list: the
claim of an id and the appending of its entry both happen inside
`bcm_vk_write`. -/
theorem bitmap_iff_one_pending (K : vk_consts) (vk : bcm_vk) (h : transport_reach K vk)
    (id : Nat) (hid : id < VK_MSG_ID_BITMAP_SIZE) :
    (vk.bmap id = true ↔ pend_id_count vk id = 1) ∧
    (vk.bmap id = false ↔ pend_id_count vk id = 0) ∧
    (∀ q, ∀ e ∈ vk.h2vk_msg_chan.pendq q, q < vk.h2vk_msg_chan.q_nr ∧ e.vk2h_msg = none) := by
  obtain ⟨_, h2, h3, _, h5⟩ := bitmap_inv_of_reach K vk h
  obtain ⟨ht, hf⟩ := h5 id hid
  refine ⟨⟨ht, ?_⟩, ⟨hf, ?_⟩, ?_⟩
  · intro hc
    cases hb : vk.bmap id
    · rw [hf hb] at hc
      cases hc
    · rfl
  · intro hc
    cases hb : vk.bmap id
    · rfl
    · rw [ht hb] at hc
      cases hc
  · intro q e he
    refine ⟨?_, h3 q e he⟩
    by_contra hge
    rw [h2 q (Nat.le_of_not_lt hge)] at he
    cases he

theorem bitmap_iff_one_pending_witness :
    (bcm_vk_write ex_consts (ex_vk_h2vk 4 0 0) 0 16 (ex_env [ex_blk 1 0 0x70])).1 = 16 ∧
    (bcm_vk_write ex_consts (ex_vk_h2vk 4 0 0) 0 16 (ex_env [ex_blk 1 0 0x70])).2.bmap 1 = true ∧
    pend_id_count
      (bcm_vk_write ex_consts (ex_vk_h2vk 4 0 0) 0 16 (ex_env [ex_blk 1 0 0x70])).2 1 = 1 ∧
    (bcm_vk_write ex_consts (ex_vk_h2vk 4 0 0) 0 16 (ex_env [ex_blk 1 0 0x70])).2.bmap 2 =
      false ∧
    pend_id_count
      (bcm_vk_write ex_consts (ex_vk_h2vk 4 0 0) 0 16 (ex_env [ex_blk 1 0 0x70])).2 2 = 0 := by
  have hreach : transport_reach ex_consts
      (bcm_vk_write ex_consts (ex_vk_h2vk 4 0 0) 0 16 (ex_env [ex_blk 1 0 0x70])).2 :=
    transport_reach.write _ 0 16 _
      (transport_reach.init _ ⟨by decide, fun _ => rfl, fun _ => rfl, fun _ => rfl⟩)
      (by decide) (fun b t => ⟨b, t, rfl, rfl⟩)
  have h1 := bitmap_iff_one_pending ex_consts _ hreach 1 (by decide)
  have h2 := bitmap_iff_one_pending ex_consts _ hreach 2 (by decide)
  have hb1 : (bcm_vk_write ex_consts (ex_vk_h2vk 4 0 0) 0 16
      (ex_env [ex_blk 1 0 0x70])).2.bmap 1 = true := by decide
  have hb2 : (bcm_vk_write ex_consts (ex_vk_h2vk 4 0 0) 0 16
      (ex_env [ex_blk 1 0 0x70])).2.bmap 2 = false := by decide
  exact ⟨by decide, hb1, h1.1.1 hb1, hb2, h2.2.1.1 hb2⟩

/-! ## Properties of read with a buffer that is too small -/

theorem bcm_vk_read_fit (K : vk_consts) (vk : bcm_vk) (c count q : Nat)
    (pre post : List bcm_vk_wkent) (e : bcm_vk_wkent)
    (hready : bcm_vk_drv_access_ok vk = true)
    (hq : q < vk.vk2h_msg_chan.q_nr)
    (hpend : vk.vk2h_msg_chan.pendq q = pre ++ e :: post)
    (he : wkent_owned vk c e = true)
    (hpre : ∀ x ∈ pre, wkent_owned vk c x = false)
    (hlow : ∀ q1, q1 < q → ∀ x ∈ vk.vk2h_msg_chan.pendq q1, wkent_owned vk c x = false)
    (hcount : e.vk2h_blks * K.VK_MSGQ_BLK_SIZE ≤ count)
    (hfit : e.vk2h_blks * K.VK_MSGQ_BLK_SIZE < 4294967296) :
    (bcm_vk_read K vk c count true).rc = ((e.vk2h_blks * K.VK_MSGQ_BLK_SIZE : Nat) : Int) ∧
    (bcm_vk_read K vk c count true).ubuf =
      (BCM_VK_SET_MSG_ID ((e.vk2h_msg.getD []).headD vk_msg_blk.zero) e.usr_msg_id ::
        (e.vk2h_msg.getD []).tail).take e.vk2h_blks ∧
    (bcm_vk_read K vk c count true).vk.vk2h_msg_chan.pendq q = pre ++ post ∧
    ((bcm_vk_read K vk c count true).vk.ctx c).pend_cnt = (vk.ctx c).pend_cnt - 1 := by
  have hnr : ¬ (bcm_vk_drv_access_ok vk = false) := by
    rw [hready]
    decide
  have hfind : read_find { vk with klog := vk.klog ++ [klog_msg.buf_count count] } c
      vk.vk2h_msg_chan.q_nr 0 = some (q, e, pre ++ post) :=
    read_find_some { vk with klog := vk.klog ++ [klog_msg.buf_count count] } c q pre post e
      hpend hpre he _ 0 (Nat.zero_le _) (by omega) (fun q1 _ h2 => hlow q1 h2)
  unfold bcm_vk_read
  rw [if_neg hnr]
  simp only [hfind, ge_iff_le, hcount, if_true, Nat.mod_eq_of_lt hfit]
  refine ⟨trivial, trivial, ?_, ?_⟩
  · simp only [set_chan, set_pendq, if_true]
  · simp only [set_chan, if_true]

/-- C21 as stated fails: with the transport not ready (`msgq_inited` false) a
context whose first pending response (one block, 16 bytes) is larger than the
buffer (8 bytes) gets `-EPERM` from `bcm_vk_read`, not `-EMSGSIZE`, and no
block is handed back. -/
theorem bcm_vk_read_too_small_counterexample :
    wkent_owned (ex_vk_resp false [ex_wkent 0 0x10 true]) 0 (ex_wkent 0 0x10 true) = true ∧
    (ex_vk_resp false [ex_wkent 0 0x10 true]).vk2h_msg_chan.pendq 0 = [ex_wkent 0 0x10 true] ∧
    8 < (ex_wkent 0 0x10 true).vk2h_blks * ex_consts.VK_MSGQ_BLK_SIZE ∧
    (bcm_vk_read ex_consts (ex_vk_resp false [ex_wkent 0 0x10 true]) 0 8 true).rc = -EPERM ∧
    ¬ (bcm_vk_read ex_consts (ex_vk_resp false [ex_wkent 0 0x10 true]) 0 8 true).rc = -EMSGSIZE ∧
    (bcm_vk_read ex_consts (ex_vk_resp false [ex_wkent 0 0x10 true]) 0 8 true).ubuf = [] := by
  decide

/-! ## Properties of the heartbeat monitor -/

/-- The loss counter `bcm_vk_hb_poll` computes before it looks at the
threshold. -/
theorem bcm_vk_hb_poll_cases (K : vk_consts) (vk : bcm_vk) (rd32 : Nat → Nat → Nat)
    (jiffies HZ : Nat) :
    (bcm_vk_drv_access_ok vk = false →
      bcm_vk_hb_poll K vk rd32 jiffies HZ =
        { vk with hb_ctrl := { vk.hb_ctrl with
            lost_cnt := 0, timer := some (jiffies + BCM_VK_HB_TIMER_S * HZ) } }) ∧
    (∀ lost, bcm_vk_drv_access_ok vk = true →
      lost = (if rd32 BAR_0 K.BAR_OS_UPTIME = vk.hb_ctrl.last_uptime
        then (vk.hb_ctrl.lost_cnt + 1) % 4294967296 else 0) →
      lost ≤ BCM_VK_HB_LOST_MAX →
      bcm_vk_hb_poll K vk rd32 jiffies HZ =
        { vk with
          klog := vk.klog ++
            [klog_msg.hb_uptime vk.hb_ctrl.last_uptime (rd32 BAR_0 K.BAR_OS_UPTIME) lost]
          hb_ctrl :=
            { lost_cnt := lost, last_uptime := rd32 BAR_0 K.BAR_OS_UPTIME,
              timer := some (jiffies + BCM_VK_HB_TIMER_S * HZ) } }) ∧
    (∀ lost, bcm_vk_drv_access_ok vk = true →
      lost = (if rd32 BAR_0 K.BAR_OS_UPTIME = vk.hb_ctrl.last_uptime
        then (vk.hb_ctrl.lost_cnt + 1) % 4294967296 else 0) →
      lost > BCM_VK_HB_LOST_MAX →
      bcm_vk_hb_poll K vk rd32 jiffies HZ =
        { vk with
          klog := vk.klog ++
            [klog_msg.hb_uptime vk.hb_ctrl.last_uptime (rd32 BAR_0 K.BAR_OS_UPTIME) lost] ++
            [klog_msg.hb_misses 9 27]
          hb_ctrl :=
            { lost_cnt := lost, last_uptime := rd32 BAR_0 K.BAR_OS_UPTIME,
              timer := some (jiffies + BCM_VK_HB_TIMER_S * HZ) }
          msgq_inited := false
          host_alert_notfs := vk.host_alert_notfs ||| K.ERR_LOG_HOST_HB_FAIL
          wq_notf_pend := true
          wq_queued := if vk.wq_notf_pend = false then vk.wq_queued + 1 else vk.wq_queued }) := by
  refine ⟨?_, ?_, ?_⟩
  · intro hr
    unfold bcm_vk_hb_poll
    have h0 : ¬ (0 > BCM_VK_HB_LOST_MAX) := by decide
    simp only [hr, Bool.false_eq_true, if_false, h0]
    rfl
  · intro lost hr hl hle
    unfold bcm_vk_hb_poll
    simp only [hr, if_true, ← hl, Nat.not_lt.mpr hle, gt_iff_lt, if_false]
    rfl
  · intro lost hr hl hgt
    unfold bcm_vk_hb_poll
    simp only [hr, if_true, ← hl, hgt, gt_iff_lt]
    unfold bcm_vk_set_host_alert bcm_vk_blk_drv_access
    by_cases hw : vk.wq_notf_pend = false
    · simp only [hw, if_true]
      rfl
    · have hw1 : vk.wq_notf_pend = true := by simpa using hw
      simp only [hw1, Bool.true_eq_false, if_false]
      rfl

/-- C26: one heartbeat tick `bcm_vk_hb_poll` on a device whose loss counter is
below the top of its 32-bit range.  The new loss counter is the old one plus 1
if the transport is ready and the uptime read equals the uptime recorded at
the previous tick, and 0 otherwise; the recorded uptime becomes the uptime
read when the transport is ready and stays when it is not.  The threshold
`BCM_VK_HB_LOST_MAX` is 9.  If the new counter exceeds it, transport access is
blocked and the host alert `ERR_LOG_HOST_HB_FAIL` is raised (the bit is ored
into the notifications and the work is pending) with the error line logged;
if it does not, neither happens on this tick: the transport flag, the alert
notifications and the work queue are as before and no error line is logged.
In both cases the timer is re-armed for `jiffies + 3 * HZ`. -/
theorem bcm_vk_hb_poll_spec (K : vk_consts) (vk : bcm_vk) (rd32 : Nat → Nat → Nat)
    (jiffies HZ : Nat) (hcnt : vk.hb_ctrl.lost_cnt < 4294967295) :
    (bcm_vk_hb_poll K vk rd32 jiffies HZ).hb_ctrl.lost_cnt =
      (if bcm_vk_drv_access_ok vk = true ∧ rd32 BAR_0 K.BAR_OS_UPTIME = vk.hb_ctrl.last_uptime
        then vk.hb_ctrl.lost_cnt + 1 else 0) ∧
    (bcm_vk_hb_poll K vk rd32 jiffies HZ).hb_ctrl.last_uptime =
      (if bcm_vk_drv_access_ok vk = true then rd32 BAR_0 K.BAR_OS_UPTIME
        else vk.hb_ctrl.last_uptime) ∧
    BCM_VK_HB_LOST_MAX = 9 ∧
    ((bcm_vk_hb_poll K vk rd32 jiffies HZ).hb_ctrl.lost_cnt > BCM_VK_HB_LOST_MAX →
      bcm_vk_drv_access_ok (bcm_vk_hb_poll K vk rd32 jiffies HZ) = false ∧
      (bcm_vk_hb_poll K vk rd32 jiffies HZ).host_alert_notfs =
        vk.host_alert_notfs ||| K.ERR_LOG_HOST_HB_FAIL ∧
      (bcm_vk_hb_poll K vk rd32 jiffies HZ).wq_notf_pend = true ∧
      (bcm_vk_hb_poll K vk rd32 jiffies HZ).wq_queued =
        (if vk.wq_notf_pend = false then vk.wq_queued + 1 else vk.wq_queued) ∧
      klog_msg.hb_misses 9 27 ∈ (bcm_vk_hb_poll K vk rd32 jiffies HZ).klog) ∧
    ((bcm_vk_hb_poll K vk rd32 jiffies HZ).hb_ctrl.lost_cnt ≤ BCM_VK_HB_LOST_MAX →
      bcm_vk_drv_access_ok (bcm_vk_hb_poll K vk rd32 jiffies HZ) = bcm_vk_drv_access_ok vk ∧
      (bcm_vk_hb_poll K vk rd32 jiffies HZ).host_alert_notfs = vk.host_alert_notfs ∧
      (bcm_vk_hb_poll K vk rd32 jiffies HZ).wq_notf_pend = vk.wq_notf_pend ∧
      (bcm_vk_hb_poll K vk rd32 jiffies HZ).wq_queued = vk.wq_queued ∧
      (∀ a b, klog_msg.hb_misses a b ∈ (bcm_vk_hb_poll K vk rd32 jiffies HZ).klog →
        klog_msg.hb_misses a b ∈ vk.klog)) ∧
    (bcm_vk_hb_poll K vk rd32 jiffies HZ).hb_ctrl.timer =
      some (jiffies + BCM_VK_HB_TIMER_S * HZ) := by
  have hmod : (vk.hb_ctrl.lost_cnt + 1) % 4294967296 = vk.hb_ctrl.lost_cnt + 1 :=
    Nat.mod_eq_of_lt (by omega)
  have hmax : BCM_VK_HB_LOST_MAX = 9 := by decide
  obtain ⟨hA, hB, hC⟩ := bcm_vk_hb_poll_cases K vk rd32 jiffies HZ
  cases hr : bcm_vk_drv_access_ok vk with
  | false =>
    rw [hA hr]
    refine ⟨?_, ?_, hmax,
      fun h => absurd (show 0 > BCM_VK_HB_LOST_MAX from h) (by decide),
      fun _ => ⟨hr, rfl, rfl, rfl, fun _ _ h => h⟩, rfl⟩
    · simp only [Bool.false_eq_true, false_and, if_false]
    · simp only [Bool.false_eq_true, if_false]
  | true =>
    simp only [true_and, if_true]
    generalize hl : (if rd32 BAR_0 K.BAR_OS_UPTIME = vk.hb_ctrl.last_uptime
      then vk.hb_ctrl.lost_cnt + 1 else 0) = lost
    have hl1 : lost = (if rd32 BAR_0 K.BAR_OS_UPTIME = vk.hb_ctrl.last_uptime
        then (vk.hb_ctrl.lost_cnt + 1) % 4294967296 else 0) := by
      rw [hmod]
      exact hl.symm
    by_cases hgt : lost > BCM_VK_HB_LOST_MAX
    · rw [hC lost hr hl1 hgt]
      refine ⟨rfl, rfl, hmax, fun _ => ⟨rfl, rfl, rfl, rfl, ?_⟩,
        fun h => absurd hgt (Nat.not_lt.mpr h), rfl⟩
      simp only [List.mem_append, List.mem_singleton, or_true]
    · rw [hB lost hr hl1 (Nat.not_lt.mp hgt)]
      refine ⟨rfl, rfl, hmax, fun h => absurd h hgt, fun _ => ⟨hr, rfl, rfl, rfl, ?_⟩, rfl⟩
      intro a b h
      simpa using h

theorem bcm_vk_hb_poll_spec_witness :
    (bcm_vk_hb_poll ex_consts (ex_vk_hb true 7 9) (fun _ _ => 7) 1000 250).hb_ctrl.lost_cnt = 10 ∧
    bcm_vk_drv_access_ok (bcm_vk_hb_poll ex_consts (ex_vk_hb true 7 9) (fun _ _ => 7) 1000 250) =
      false ∧
    (bcm_vk_hb_poll ex_consts (ex_vk_hb true 7 9) (fun _ _ => 7) 1000 250).host_alert_notfs =
      0x4000 ∧
    (bcm_vk_hb_poll ex_consts (ex_vk_hb true 7 9) (fun _ _ => 7) 1000 250).hb_ctrl.timer =
      some 1750 := by
  have h := bcm_vk_hb_poll_spec ex_consts (ex_vk_hb true 7 9) (fun _ _ => 7) 1000 250
    (by decide)
  have h1 : (bcm_vk_hb_poll ex_consts (ex_vk_hb true 7 9) (fun _ _ => 7) 1000
      250).hb_ctrl.lost_cnt = 10 := by
    rw [h.1]
    decide
  have h2 := h.2.2.2.1 (by rw [h1]; decide)
  refine ⟨h1, h2.1, ?_, ?_⟩
  · rw [h2.2.1]
    decide
  · rw [h.2.2.2.2.2]
    decide

/-! ## Properties of the queue synchronisation -/

theorem sync_queues_spec (K : vk_consts) (bar1_msgq : Nat → bcm_vk_msgq) (bar1_nxt : Nat → Nat)
    (n : Nat) :
    ∀ j off chan log,
      (sync_queues K bar1_msgq bar1_nxt n j off chan log).1.q_nr = chan.q_nr ∧
      (sync_queues K bar1_msgq bar1_nxt n j off chan log).1.pendq = chan.pendq ∧
      (∀ i, j ≤ i → i < j + n →
        (sync_queues K bar1_msgq bar1_nxt n j off chan log).1.msgq i =
          bar1_msgq (msgq_chain_off K bar1_nxt (i - j) off) ∧
        (sync_queues K bar1_msgq bar1_nxt n j off chan log).1.sync_qinfo i =
          sync_qinfo_of_size (bar1_msgq (msgq_chain_off K bar1_nxt (i - j) off)).size) ∧
      (∀ i, (i < j ∨ j + n ≤ i) →
        (sync_queues K bar1_msgq bar1_nxt n j off chan log).1.msgq i = chan.msgq i ∧
        (sync_queues K bar1_msgq bar1_nxt n j off chan log).1.sync_qinfo i = chan.sync_qinfo i) ∧
      (sync_queues K bar1_msgq bar1_nxt n j off chan log).2.1 =
        msgq_chain_off K bar1_nxt n off := by
  induction n with
  | zero =>
    intro j off chan log
    refine ⟨rfl, rfl, ?_, fun _ _ => ⟨rfl, rfl⟩, rfl⟩
    intro i h1 h2
    omega
  | succ n ih =>
    intro j off chan log
    rw [sync_queues]
    obtain ⟨h1, h2, h3, h4, h5⟩ := ih (j + 1) (off + K.SIZEOF_MSGQ + bar1_nxt off)
      { chan with
        msgq := fun i => if i = j then bar1_msgq off else chan.msgq i
        sync_qinfo := fun i =>
          if i = j then
            { q_size := (bar1_msgq off).size, q_low := (bar1_msgq off).size >>> 1,
              q_mask := ((bar1_msgq off).size + (4294967296 - 1)) % 4294967296 }
          else chan.sync_qinfo i }
      (log ++ [klog_msg.msgq_info j (bar1_msgq off).rd_idx (bar1_msgq off).wr_idx
        (bar1_msgq off).size (bar1_nxt off)])
    refine ⟨h1, h2, ?_, ?_, ?_⟩
    · intro i hi1 hi2
      by_cases hij : i = j
      · subst hij
        obtain ⟨h41, h42⟩ := h4 i (Or.inl (Nat.lt_succ_self i))
        rw [h41, h42, Nat.sub_self]
        simp only [if_true]
        exact ⟨rfl, rfl⟩
      · have h := h3 i (by omega) (by omega)
        have hs : i - j = (i - (j + 1)) + 1 := by omega
        rw [hs]
        exact h
    · intro i hi
      obtain ⟨h41, h42⟩ := h4 i (by omega)
      have hij : i ≠ j := by omega
      rw [h41, h42]
      simp only [if_neg hij]
      exact ⟨trivial, trivial⟩
    · rw [h5]
      rfl

/-- C22: `bcm_vk_sync_msgq(vk, force)`.  With the ready marker absent it
returns 0 and the state changes only by one line of the log, so the cached
geometry, the queue counts and the transport-ready flag are as before.  With
the marker present it returns `-EPERM` exactly when the transport is already
marked ready and `force` is false (the flag and the cached geometry are then
as before), and 0 otherwise.  In that last case both channels have `q_nr =
num_q`, half of the total the card announces; queue `j < num_q` of the
host-to-card channel is bound to the `j`-th descriptor of the chain in BAR 1
and queue `j` of the card-to-host channel to descriptor `num_q + j`; for both
the cached geometry is `q_size` = the size the descriptor announces, `q_low =
q_size / 2` and `q_mask = q_size - 1` (in 32 bits); the pending lists are as
before; and the transport-ready flag is set on the state the walk over all
queues has produced, a walk that itself leaves the flag alone. -/
theorem bcm_vk_sync_msgq_spec (K : vk_consts) (vk : bcm_vk) (force : Bool)
    (rd32 : Nat → Nat → Nat) (bar1_msgq : Nat → bcm_vk_msgq) (bar1_nxt : Nat → Nat) :
    (bcm_vk_msgq_marker_valid K rd32 = false →
      bcm_vk_sync_msgq K vk force rd32 bar1_msgq bar1_nxt =
        (0, { vk with klog := vk.klog ++ [klog_msg.marker_not_initialized] }) ∧
      (bcm_vk_sync_msgq K vk force rd32 bar1_msgq bar1_nxt).2.h2vk_msg_chan = vk.h2vk_msg_chan ∧
      (bcm_vk_sync_msgq K vk force rd32 bar1_msgq bar1_nxt).2.vk2h_msg_chan = vk.vk2h_msg_chan ∧
      (bcm_vk_sync_msgq K vk force rd32 bar1_msgq bar1_nxt).2.msgq_inited = vk.msgq_inited) ∧
    (bcm_vk_msgq_marker_valid K rd32 = true →
      ((bcm_vk_sync_msgq K vk force rd32 bar1_msgq bar1_nxt).1 = -EPERM ↔
        (bcm_vk_drv_access_ok vk = true ∧ force = false)) ∧
      ((bcm_vk_sync_msgq K vk force rd32 bar1_msgq bar1_nxt).1 = -EPERM ∨
        (bcm_vk_sync_msgq K vk force rd32 bar1_msgq bar1_nxt).1 = 0) ∧
      ((bcm_vk_drv_access_ok vk = true ∧ force = false) →
        (bcm_vk_sync_msgq K vk force rd32 bar1_msgq bar1_nxt).2.msgq_inited = vk.msgq_inited ∧
        (bcm_vk_sync_msgq K vk force rd32 bar1_msgq bar1_nxt).2.h2vk_msg_chan.sync_qinfo =
          vk.h2vk_msg_chan.sync_qinfo ∧
        (bcm_vk_sync_msgq K vk force rd32 bar1_msgq bar1_nxt).2.vk2h_msg_chan.sync_qinfo =
          vk.vk2h_msg_chan.sync_qinfo) ∧
      (¬ (bcm_vk_drv_access_ok vk = true ∧ force = false) →
        (bcm_vk_sync_msgq K vk force rd32 bar1_msgq bar1_nxt).1 = 0 ∧
        (bcm_vk_sync_msgq K vk force rd32 bar1_msgq bar1_nxt).2.h2vk_msg_chan.q_nr =
          rd32 BAR_1 K.VK_BAR1_MSGQ_NR / 2 ∧
        (bcm_vk_sync_msgq K vk force rd32 bar1_msgq bar1_nxt).2.vk2h_msg_chan.q_nr =
          rd32 BAR_1 K.VK_BAR1_MSGQ_NR / 2 ∧
        (∀ j, j < rd32 BAR_1 K.VK_BAR1_MSGQ_NR / 2 →
          (bcm_vk_sync_msgq K vk force rd32 bar1_msgq bar1_nxt).2.h2vk_msg_chan.msgq j =
            bar1_msgq (msgq_chain_off K bar1_nxt j (rd32 BAR_1 K.VK_BAR1_MSGQ_CTRL_OFF)) ∧
          (bcm_vk_sync_msgq K vk force rd32 bar1_msgq bar1_nxt).2.vk2h_msg_chan.msgq j =
            bar1_msgq (msgq_chain_off K bar1_nxt j
              (msgq_chain_off K bar1_nxt (rd32 BAR_1 K.VK_BAR1_MSGQ_NR / 2)
                (rd32 BAR_1 K.VK_BAR1_MSGQ_CTRL_OFF))) ∧
          (∀ chan, chan = vk_chan_id.h2vk ∨ chan = vk_chan_id.vk2h →
            ((get_chan (bcm_vk_sync_msgq K vk force rd32 bar1_msgq bar1_nxt).2 chan).sync_qinfo
                j).q_size =
              ((get_chan (bcm_vk_sync_msgq K vk force rd32 bar1_msgq bar1_nxt).2 chan).msgq
                j).size ∧
            ((get_chan (bcm_vk_sync_msgq K vk force rd32 bar1_msgq bar1_nxt).2 chan).sync_qinfo
                j).q_low =
              ((get_chan (bcm_vk_sync_msgq K vk force rd32 bar1_msgq bar1_nxt).2 chan).sync_qinfo
                j).q_size / 2 ∧
            ((get_chan (bcm_vk_sync_msgq K vk force rd32 bar1_msgq bar1_nxt).2 chan).sync_qinfo
                j).q_mask =
              (((get_chan (bcm_vk_sync_msgq K vk force rd32 bar1_msgq bar1_nxt).2 chan).sync_qinfo
                j).q_size + 4294967295) % 4294967296 ∧
            (0 < ((get_chan (bcm_vk_sync_msgq K vk force rd32 bar1_msgq bar1_nxt).2
                chan).sync_qinfo j).q_size →
              ((get_chan (bcm_vk_sync_msgq K vk force rd32 bar1_msgq bar1_nxt).2
                chan).sync_qinfo j).q_size < 4294967296 →
              ((get_chan (bcm_vk_sync_msgq K vk force rd32 bar1_msgq bar1_nxt).2
                chan).sync_qinfo j).q_mask =
              ((get_chan (bcm_vk_sync_msgq K vk force rd32 bar1_msgq bar1_nxt).2
                chan).sync_qinfo j).q_size - 1))) ∧
        (bcm_vk_sync_msgq K vk force rd32 bar1_msgq bar1_nxt).2.h2vk_msg_chan.pendq =
          vk.h2vk_msg_chan.pendq ∧
        (bcm_vk_sync_msgq K vk force rd32 bar1_msgq bar1_nxt).2.vk2h_msg_chan.pendq =
          vk.vk2h_msg_chan.pendq ∧
        (bcm_vk_sync_msgq K vk force rd32 bar1_msgq bar1_nxt).2.msgq_inited = true ∧
        (∃ parsed : bcm_vk, parsed.msgq_inited = vk.msgq_inited ∧
          (bcm_vk_sync_msgq K vk force rd32 bar1_msgq bar1_nxt).2 =
            { parsed with msgq_inited := true }))) := by
  refine ⟨?_, ?_⟩
  · intro hm
    unfold bcm_vk_sync_msgq
    rw [if_pos hm]
    exact ⟨rfl, rfl, rfl, rfl⟩
  · intro hm
    have hm1 : ¬ (bcm_vk_msgq_marker_valid K rd32 = false) := by
      rw [hm]
      decide
    by_cases hc : bcm_vk_drv_access_ok vk = true ∧ force = false
    · have hres : bcm_vk_sync_msgq K vk force rd32 bar1_msgq bar1_nxt =
          (-EPERM,
            { vk with
              h2vk_msg_chan := { vk.h2vk_msg_chan with q_nr := rd32 BAR_1 K.VK_BAR1_MSGQ_NR / 2 }
              vk2h_msg_chan := { vk.vk2h_msg_chan with q_nr := rd32 BAR_1 K.VK_BAR1_MSGQ_NR / 2 }
              klog := vk.klog ++ [klog_msg.msgq_already_in_sync] }) := by
        unfold bcm_vk_sync_msgq
        rw [if_neg hm1]
        simp only []
        split
        · rfl
        · rename_i h
          exact absurd hc h
      rw [hres]
      exact ⟨⟨fun _ => hc, fun _ => rfl⟩, Or.inl rfl, fun _ => ⟨rfl, rfl, rfl⟩,
        fun h => absurd hc h⟩
    · have hres : bcm_vk_sync_msgq K vk force rd32 bar1_msgq bar1_nxt =
          (0,
            { sync_msgq_parse K
                { vk with
                  h2vk_msg_chan :=
                    { vk.h2vk_msg_chan with q_nr := rd32 BAR_1 K.VK_BAR1_MSGQ_NR / 2 }
                  vk2h_msg_chan :=
                    { vk.vk2h_msg_chan with q_nr := rd32 BAR_1 K.VK_BAR1_MSGQ_NR / 2 } }
                (rd32 BAR_1 K.VK_BAR1_MSGQ_NR / 2) (rd32 BAR_1 K.VK_BAR1_MSGQ_CTRL_OFF)
                bar1_msgq bar1_nxt with msgq_inited := true }) := by
        unfold bcm_vk_sync_msgq
        rw [if_neg hm1]
        simp only []
        split
        · rename_i h
          exact absurd h hc
        · rfl
      rw [hres]
      have hne : ¬ ((0 : Int) = -EPERM) := by decide
      refine ⟨⟨fun h => absurd h hne, fun h => absurd h hc⟩, Or.inr rfl, fun h => absurd h hc,
        fun _ => ?_⟩
      obtain ⟨a1, a2, a3, _, a5⟩ := sync_queues_spec K bar1_msgq bar1_nxt
        (rd32 BAR_1 K.VK_BAR1_MSGQ_NR / 2) 0 (rd32 BAR_1 K.VK_BAR1_MSGQ_CTRL_OFF)
        { q_nr := rd32 BAR_1 K.VK_BAR1_MSGQ_NR / 2, msgq := vk.h2vk_msg_chan.msgq,
          sync_qinfo := fun _ => { q_size := 0, q_low := 0, q_mask := 0 },
          pendq := vk.h2vk_msg_chan.pendq } []
      obtain ⟨b1, b2, b3, _, _⟩ := sync_queues_spec K bar1_msgq bar1_nxt
        (rd32 BAR_1 K.VK_BAR1_MSGQ_NR / 2) 0
        (sync_queues K bar1_msgq bar1_nxt (rd32 BAR_1 K.VK_BAR1_MSGQ_NR / 2) 0
          (rd32 BAR_1 K.VK_BAR1_MSGQ_CTRL_OFF)
          { q_nr := rd32 BAR_1 K.VK_BAR1_MSGQ_NR / 2, msgq := vk.h2vk_msg_chan.msgq,
            sync_qinfo := fun _ => { q_size := 0, q_low := 0, q_mask := 0 },
            pendq := vk.h2vk_msg_chan.pendq } []).2.1
        { q_nr := rd32 BAR_1 K.VK_BAR1_MSGQ_NR / 2, msgq := vk.vk2h_msg_chan.msgq,
          sync_qinfo := fun _ => { q_size := 0, q_low := 0, q_mask := 0 },
          pendq := vk.vk2h_msg_chan.pendq } []
      have hgeo : ∀ s : Nat,
          (sync_qinfo_of_size s).q_size = s ∧
          (sync_qinfo_of_size s).q_low = (sync_qinfo_of_size s).q_size / 2 ∧
          (sync_qinfo_of_size s).q_mask =
            ((sync_qinfo_of_size s).q_size + 4294967295) % 4294967296 ∧
          (0 < (sync_qinfo_of_size s).q_size → (sync_qinfo_of_size s).q_size < 4294967296 →
            (sync_qinfo_of_size s).q_mask = (sync_qinfo_of_size s).q_size - 1) := by
        intro s
        refine ⟨rfl, ?_, rfl, ?_⟩
        · show s >>> 1 = s / 2
          rw [Nat.shiftRight_eq_div_pow]
        · intro h0 h1
          show (s + (4294967296 - 1)) % 4294967296 = s - 1
          have h0 : 0 < s := h0
          have h1 : s < 4294967296 := h1
          omega
      have close : ∀ (qi : bcm_vk_sync_qinfo) (m : bcm_vk_msgq) (s : Nat),
          qi = sync_qinfo_of_size s → m.size = s →
          qi.q_size = m.size ∧ qi.q_low = qi.q_size / 2 ∧
          qi.q_mask = (qi.q_size + 4294967295) % 4294967296 ∧
          (0 < qi.q_size → qi.q_size < 4294967296 → qi.q_mask = qi.q_size - 1) := by
        intro qi m s h1 h2
        subst h1
        rw [h2]
        exact hgeo s
      refine ⟨rfl, a1, b1, ?_, a2, b2, rfl, ?_⟩
      swap
      · refine ⟨_, ?_, rfl⟩
        rfl
      intro j hj
      obtain ⟨a31, a32⟩ := a3 j (Nat.zero_le _) (by omega)
      obtain ⟨b31, b32⟩ := b3 j (Nat.zero_le _) (by omega)
      rw [Nat.sub_zero] at a31 a32 b31 b32
      refine ⟨a31,
        b31.trans (congrArg (fun o => bar1_msgq (msgq_chain_off K bar1_nxt j o)) a5), ?_⟩
      intro chan hchan
      rcases hchan with h | h
      · subst h
        exact close _ _ _ a32 (congrArg bcm_vk_msgq.size a31)
      · subst h
        exact close _ _ _ b32 (congrArg bcm_vk_msgq.size b31)

theorem bcm_vk_sync_msgq_spec_witness :
    bcm_vk_msgq_marker_valid ex_consts (ex_rd32_sync true) = true ∧
    (bcm_vk_sync_msgq ex_consts bcm_vk_zeroed false (ex_rd32_sync true) ex_bar1_msgq
      (fun _ => 0)).1 = 0 ∧
    (bcm_vk_sync_msgq ex_consts bcm_vk_zeroed false (ex_rd32_sync true) ex_bar1_msgq
      (fun _ => 0)).2.msgq_inited = true ∧
    (bcm_vk_sync_msgq ex_consts bcm_vk_zeroed false (ex_rd32_sync true) ex_bar1_msgq
      (fun _ => 0)).2.h2vk_msg_chan.q_nr = 2 ∧
    (bcm_vk_sync_msgq ex_consts bcm_vk_zeroed false (ex_rd32_sync true) ex_bar1_msgq
      (fun _ => 0)).2.h2vk_msg_chan.sync_qinfo 0 = { q_size := 8, q_low := 4, q_mask := 7 } ∧
    (bcm_vk_sync_msgq ex_consts bcm_vk_zeroed false (ex_rd32_sync true) ex_bar1_msgq
      (fun _ => 0)).2.vk2h_msg_chan.sync_qinfo 1 = { q_size := 16, q_low := 8, q_mask := 15 } ∧
    (bcm_vk_sync_msgq ex_consts
      (bcm_vk_sync_msgq ex_consts bcm_vk_zeroed false (ex_rd32_sync true) ex_bar1_msgq
        (fun _ => 0)).2 false (ex_rd32_sync true) ex_bar1_msgq (fun _ => 0)).1 = -EPERM ∧
    (bcm_vk_sync_msgq ex_consts bcm_vk_zeroed false (ex_rd32_sync false) ex_bar1_msgq
      (fun _ => 0)).1 = 0 ∧
    (bcm_vk_sync_msgq ex_consts bcm_vk_zeroed false (ex_rd32_sync false) ex_bar1_msgq
      (fun _ => 0)).2.msgq_inited = false := by
  have h := (bcm_vk_sync_msgq_spec ex_consts bcm_vk_zeroed false (ex_rd32_sync true)
    ex_bar1_msgq (fun _ => 0)).2 (by decide)
  have h1 := h.2.2.2 (by decide)
  have h2 := (bcm_vk_sync_msgq_spec ex_consts
    (bcm_vk_sync_msgq ex_consts bcm_vk_zeroed false (ex_rd32_sync true) ex_bar1_msgq
      (fun _ => 0)).2 false (ex_rd32_sync true) ex_bar1_msgq (fun _ => 0)).2 (by decide)
  have h3 := (bcm_vk_sync_msgq_spec ex_consts bcm_vk_zeroed false (ex_rd32_sync false)
    ex_bar1_msgq (fun _ => 0)).1 (by decide)
  refine ⟨by decide, h1.1, h1.2.2.2.2.2.2.1, ?_, by decide, by decide,
    h2.1.2 ⟨h1.2.2.2.2.2.2.1, rfl⟩, ?_, ?_⟩
  · rw [h1.2.1]
    decide
  · rw [h3.1]
  · rw [h3.2.2.2]
    rfl

/-! ## Properties of the reset request -/

theorem bcm_vk_set_host_alert_registry (vk : bcm_vk) (m : Nat) :
    (bcm_vk_set_host_alert vk m).pid_ht = vk.pid_ht ∧
    (bcm_vk_set_host_alert vk m).reset_pid = vk.reset_pid ∧
    (bcm_vk_set_host_alert vk m).kref = vk.kref := by
  unfold bcm_vk_set_host_alert
  by_cases h : vk.wq_notf_pend = false
  · rw [if_pos h]
    exact ⟨rfl, rfl, rfl⟩
  · rw [if_neg h]
    exact ⟨rfl, rfl, rfl⟩

/-- What `bcm_h2vk_msg_enqueue` leaves alone in the registry, and what it
writes to registers: nothing, or the doorbell of the queue of the entry. -/
theorem bcm_h2vk_msg_enqueue_registry (K : vk_consts) (vk : bcm_vk) (entry : bcm_vk_wkent)
    (card_rd : List Nat) :
    (bcm_h2vk_msg_enqueue K vk entry card_rd).vk.ctx = vk.ctx ∧
    (bcm_h2vk_msg_enqueue K vk entry card_rd).vk.pid_ht = vk.pid_ht ∧
    (bcm_h2vk_msg_enqueue K vk entry card_rd).vk.reset_pid = vk.reset_pid ∧
    (bcm_h2vk_msg_enqueue K vk entry card_rd).vk.kref = vk.kref ∧
    ((bcm_h2vk_msg_enqueue K vk entry card_rd).vk.iowrites = vk.iowrites ∨
      ∃ v, (bcm_h2vk_msg_enqueue K vk entry card_rd).vk.iowrites =
        vk.iowrites ++
          [(BAR_0, K.VK_BAR0_REGSEG_DB_BASE + enq_q_num entry * K.VK_BAR0_REGSEG_DB_REG_GAP, v)]) := by
  unfold bcm_h2vk_msg_enqueue
  simp only []
  split
  · exact ⟨rfl, rfl, rfl, rfl, Or.inl rfl⟩
  · split
    · exact ⟨rfl, rfl, rfl, rfl, Or.inl rfl⟩
    · split
      · have hf := fun X => bcm_vk_set_host_alert_fields X K.ERR_LOG_HOST_PCIE_DWN
        have hg := fun X => bcm_vk_set_host_alert_registry X K.ERR_LOG_HOST_PCIE_DWN
        refine ⟨?_, ?_, ?_, ?_, Or.inl ?_⟩
        · exact ((hf _).2.2.2.2.2.2.2.1).trans rfl
        · exact ((hg _).1).trans rfl
        · exact ((hg _).2.1).trans rfl
        · exact ((hg _).2.2).trans rfl
        · exact ((hf _).2.2.2.2.2.2.2.2.2).trans rfl
      · exact ⟨rfl, rfl, rfl, rfl, Or.inr ⟨_, rfl⟩⟩

/-- What `bcm_vk_send_shutdown_msg` leaves alone: the registry, the bitmap,
the pending lists of both channels and the card-to-host channel; it writes no
register but, at most, the doorbell of queue 0. -/
theorem bcm_vk_send_shutdown_msg_frame (K : vk_consts) (vk : bcm_vk) (shut_type pid : Nat)
    (env : vk_env) :
    (bcm_vk_send_shutdown_msg K vk shut_type pid env).2.ctx = vk.ctx ∧
    (bcm_vk_send_shutdown_msg K vk shut_type pid env).2.pid_ht = vk.pid_ht ∧
    (bcm_vk_send_shutdown_msg K vk shut_type pid env).2.reset_pid = vk.reset_pid ∧
    (bcm_vk_send_shutdown_msg K vk shut_type pid env).2.kref = vk.kref ∧
    (bcm_vk_send_shutdown_msg K vk shut_type pid env).2.bmap = vk.bmap ∧
    (bcm_vk_send_shutdown_msg K vk shut_type pid env).2.h2vk_msg_chan.pendq =
      vk.h2vk_msg_chan.pendq ∧
    (bcm_vk_send_shutdown_msg K vk shut_type pid env).2.h2vk_msg_chan.q_nr =
      vk.h2vk_msg_chan.q_nr ∧
    (bcm_vk_send_shutdown_msg K vk shut_type pid env).2.vk2h_msg_chan = vk.vk2h_msg_chan ∧
    ((bcm_vk_send_shutdown_msg K vk shut_type pid env).2.iowrites = vk.iowrites ∨
      ∃ v, (bcm_vk_send_shutdown_msg K vk shut_type pid env).2.iowrites =
        vk.iowrites ++ [(BAR_0, K.VK_BAR0_REGSEG_DB_BASE + 0 * K.VK_BAR0_REGSEG_DB_REG_GAP, v)]) := by
  obtain ⟨_, f2, f3, f4, f5, _, _⟩ :=
    bcm_h2vk_msg_enqueue_frame K vk (shutdown_entry K shut_type pid) env.card_rd
  obtain ⟨g1, g2, g3, g4, g5⟩ :=
    bcm_h2vk_msg_enqueue_registry K vk (shutdown_entry K shut_type pid) env.card_rd
  rw [(shutdown_entry_msg K shut_type pid).2.2] at g5
  unfold bcm_vk_send_shutdown_msg
  split
  · exact ⟨rfl, rfl, rfl, rfl, rfl, rfl, rfl, rfl, Or.inl rfl⟩
  · split
    · exact ⟨rfl, rfl, rfl, rfl, rfl, rfl, rfl, rfl, Or.inl rfl⟩
    · simp only []
      split
      · exact ⟨g1, g2, g3, g4, f2, f4, f3, f5, g5⟩
      · exact ⟨g1, g2, g3, g4, f2, f4, f3, f5, g5⟩

/-- What `bcm_vk_trigger_reset` leaves behind: the pending lists of the queues
of both channels are empty, every bit of the bitmap is clear, the card info,
the alert counters and both alert records are zeroed; the register writes end
with the reset status, the reset doorbell and the uptime; the transport-ready
flag and the registry are not touched. -/
theorem bcm_vk_trigger_reset_spec (K : vk_consts) (vk : bcm_vk) (rd32 : Nat → Nat → Nat) :
    (∀ q, q < vk.h2vk_msg_chan.q_nr → (bcm_vk_trigger_reset K vk rd32).h2vk_msg_chan.pendq q = []) ∧
    (∀ q, q < vk.vk2h_msg_chan.q_nr → (bcm_vk_trigger_reset K vk rd32).vk2h_msg_chan.pendq q = []) ∧
    (∀ q, vk.h2vk_msg_chan.q_nr ≤ q →
      (bcm_vk_trigger_reset K vk rd32).h2vk_msg_chan.pendq q = vk.h2vk_msg_chan.pendq q) ∧
    (∀ q, vk.vk2h_msg_chan.q_nr ≤ q →
      (bcm_vk_trigger_reset K vk rd32).vk2h_msg_chan.pendq q = vk.vk2h_msg_chan.pendq q) ∧
    (bcm_vk_trigger_reset K vk rd32).h2vk_msg_chan.q_nr = vk.h2vk_msg_chan.q_nr ∧
    (bcm_vk_trigger_reset K vk rd32).vk2h_msg_chan.q_nr = vk.vk2h_msg_chan.q_nr ∧
    (∀ i, i < VK_MSG_ID_BITMAP_SIZE → (bcm_vk_trigger_reset K vk rd32).bmap i = false) ∧
    (∀ i, (bcm_vk_trigger_reset K vk rd32).card_info i = 0) ∧
    (∀ i, (bcm_vk_trigger_reset K vk rd32).alert_cnts i = 0) ∧
    (bcm_vk_trigger_reset K vk rd32).host_alert_notfs = 0 ∧
    (bcm_vk_trigger_reset K vk rd32).host_alert_flags = 0 ∧
    (bcm_vk_trigger_reset K vk rd32).peer_alert_notfs = 0 ∧
    (bcm_vk_trigger_reset K vk rd32).peer_alert_flags = 0 ∧
    (bcm_vk_trigger_reset K vk rd32).msgq_inited = vk.msgq_inited ∧
    (bcm_vk_trigger_reset K vk rd32).ctx = vk.ctx ∧
    (bcm_vk_trigger_reset K vk rd32).pid_ht = vk.pid_ht ∧
    (bcm_vk_trigger_reset K vk rd32).reset_pid = vk.reset_pid ∧
    (∃ l, (bcm_vk_trigger_reset K vk rd32).iowrites =
      vk.iowrites ++ l ++
        [(BAR_0, K.VK_BAR_FWSTS, K.VK_FWSTS_RESET_MBOX_DB),
          (BAR_0, K.VK_BAR0_REGSEG_DB_BASE + K.VK_BAR0_RESET_DB_NUM * K.VK_BAR0_REGSEG_DB_REG_GAP,
            K.VK_BAR0_RESET_DB_SOFT),
          (BAR_0, K.BAR_OS_UPTIME, 0)]) := by
  obtain ⟨l1, h1⟩ := bcm_vk_drain_all_pend_none vk vk_chan_id.h2vk
  obtain ⟨l2, h2⟩ := bcm_vk_drain_all_pend_none
    (bcm_vk_drain_all_pend vk vk_chan_id.h2vk none) vk_chan_id.vk2h
  unfold bcm_vk_trigger_reset
  simp only []
  rw [h2, h1]
  refine ⟨?_, ?_, ?_, ?_, rfl, rfl, ?_, fun _ => rfl, fun _ => rfl, rfl, rfl, rfl, rfl, rfl, rfl,
    rfl, rfl, ?_⟩
  · intro q hq
    show (if q < vk.h2vk_msg_chan.q_nr then [] else vk.h2vk_msg_chan.pendq q) = []
    rw [if_pos hq]
  · intro q hq
    show (if q < vk.vk2h_msg_chan.q_nr then [] else vk.vk2h_msg_chan.pendq q) = []
    rw [if_pos hq]
  · intro q hq
    show (if q < vk.h2vk_msg_chan.q_nr then [] else vk.h2vk_msg_chan.pendq q) = _
    rw [if_neg (by omega)]
  · intro q hq
    show (if q < vk.vk2h_msg_chan.q_nr then [] else vk.vk2h_msg_chan.pendq q) = _
    rw [if_neg (by omega)]
  · intro i hi
    show (if 0 ≤ i ∧ i < 0 + VK_MSG_ID_BITMAP_SIZE then false else _) = false
    rw [if_pos ⟨Nat.zero_le _, by omega⟩]
  · refine ⟨[(BAR_1, K.VK_BAR1_MSGQ_DEF_RDY, 0), (BAR_1, K.VK_BAR1_BOOT1_VER_TAG, 0)] ++
      (List.range K.VK_BAR1_DAUTH_MAX).flatMap
        (fun i => [(BAR_1, K.VK_BAR1_DAUTH_STORE_ADDR i, 0),
          (BAR_1, K.VK_BAR1_DAUTH_VALID_ADDR i, 0)]) ++
      (List.range K.VK_BAR1_SOTP_REVID_MAX).map (fun i => (BAR_1, K.VK_BAR1_SOTP_REVID_ADDR i, 0)) ++
      [(BAR_0, BAR_CODEPUSH_SBL, rd32 BAR_0 BAR_CODEPUSH_SBL &&& (4294967295 - CODEPUSH_MASK))],
      ?_⟩
    simp only [bcm_h2vk_doorbell, bcm_vk_msgid_bitmap_clear, set_chan, List.append_assoc,
      List.cons_append, List.nil_append]

/-- What becomes of a reset request whose argument was copied in, in terms of
the state `bcm_vk_send_shutdown_msg` leaves: rejected when a reset owner is
recorded, carried out otherwise. -/
theorem bcm_vk_reset_cases (K : vk_consts) (vk : bcm_vk) (current : Nat) (reset : vk_reset)
    (env : vk_env) (hcopy : env.copy_ok = true) :
    (vk.reset_pid ≠ 0 →
      bcm_vk_reset K vk current reset env =
        { rc := -EACCES,
          vk :=
            { (bcm_vk_send_shutdown_msg K
                { vk with klog := vk.klog ++ [klog_msg.issue_reset reset.arg1 reset.arg2] }
                K.VK_SHUTDOWN_GRACEFUL 0 env).2 with
              klog := (bcm_vk_send_shutdown_msg K
                { vk with klog := vk.klog ++ [klog_msg.issue_reset reset.arg1 reset.arg2] }
                K.VK_SHUTDOWN_GRACEFUL 0 env).2.klog ++
                  [klog_msg.reset_already_launched vk.reset_pid] },
          killed := [], slept := 0 }) ∧
    (vk.reset_pid = 0 →
      bcm_vk_reset K vk current reset env =
        { rc := 0,
          vk :=
            { bcm_vk_trigger_reset K
                { (bcm_vk_send_shutdown_msg K
                    { vk with klog := vk.klog ++ [klog_msg.issue_reset reset.arg1 reset.arg2] }
                    K.VK_SHUTDOWN_GRACEFUL 0 env).2 with
                  reset_pid := current
                  klog := (bcm_vk_send_shutdown_msg K
                    { vk with klog := vk.klog ++ [klog_msg.issue_reset reset.arg1 reset.arg2] }
                    K.VK_SHUTDOWN_GRACEFUL 0 env).2.klog ++
                      (reset_kill_pids K
                        { (bcm_vk_send_shutdown_msg K
                            { vk with
                              klog := vk.klog ++ [klog_msg.issue_reset reset.arg1 reset.arg2] }
                            K.VK_SHUTDOWN_GRACEFUL 0 env).2 with
                          reset_pid := current }).map klog_msg.send_kill_signal } env.rd32 with
              klog := (bcm_vk_trigger_reset K
                { (bcm_vk_send_shutdown_msg K
                    { vk with klog := vk.klog ++ [klog_msg.issue_reset reset.arg1 reset.arg2] }
                    K.VK_SHUTDOWN_GRACEFUL 0 env).2 with
                  reset_pid := current
                  klog := (bcm_vk_send_shutdown_msg K
                    { vk with klog := vk.klog ++ [klog_msg.issue_reset reset.arg1 reset.arg2] }
                    K.VK_SHUTDOWN_GRACEFUL 0 env).2.klog ++
                      (reset_kill_pids K
                        { (bcm_vk_send_shutdown_msg K
                            { vk with
                              klog := vk.klog ++ [klog_msg.issue_reset reset.arg1 reset.arg2] }
                            K.VK_SHUTDOWN_GRACEFUL 0 env).2 with
                          reset_pid := current }).map klog_msg.send_kill_signal } env.rd32).klog ++
                [klog_msg.reset_completed (env.rd32 BAR_0 BAR_FB_OPEN)
                  (env.rd32 BAR_0 BAR_FB_OPEN &&& SRAM_OPEN != 0)
                  (env.rd32 BAR_0 BAR_FB_OPEN &&& DDR_OPEN != 0)] },
          killed := reset_kill_pids K
            { (bcm_vk_send_shutdown_msg K
                { vk with klog := vk.klog ++ [klog_msg.issue_reset reset.arg1 reset.arg2] }
                K.VK_SHUTDOWN_GRACEFUL 0 env).2 with reset_pid := current },
          slept :=
            ((if reset.arg2 < BCM_VK_MIN_RESET_TIME_SEC then BCM_VK_MIN_RESET_TIME_SEC
              else reset.arg2) * MSEC_PER_SEC) % 4294967296 + 100 }) := by
  have hc : ¬ (env.copy_ok = false) := by
    rw [hcopy]
    decide
  obtain ⟨_, _, f3, _⟩ := bcm_vk_send_shutdown_msg_frame K
    { vk with klog := vk.klog ++ [klog_msg.issue_reset reset.arg1 reset.arg2] }
    K.VK_SHUTDOWN_GRACEFUL 0 env
  have f3 : (bcm_vk_send_shutdown_msg K
      { vk with klog := vk.klog ++ [klog_msg.issue_reset reset.arg1 reset.arg2] }
      K.VK_SHUTDOWN_GRACEFUL 0 env).2.reset_pid = vk.reset_pid := f3
  refine ⟨?_, ?_⟩
  · intro hown
    unfold bcm_vk_reset
    rw [if_neg hc]
    simp only []
    rw [if_neg (by rw [f3]; exact hown), f3]
  · intro hown
    unfold bcm_vk_reset
    rw [if_neg hc]
    simp only []
    rw [if_pos (by rw [f3]; exact hown)]

/-- C23: for every device state in which a reset owner is recorded, a reset
request `bcm_vk_reset`, whoever the calling task is and whatever the argument,
returns `-EACCES` and leaves the registry as it was: the recorded reset owner,
every context slot, every pid hash list and the reference count; no task is
sent a signal. -/
theorem bcm_vk_reset_already_in_progress (K : vk_consts) (vk : bcm_vk) (current : Nat)
    (reset : vk_reset) (env : vk_env) (hown : vk.reset_pid ≠ 0) :
    (bcm_vk_reset K vk current reset env).rc = -EACCES ∧
    (bcm_vk_reset K vk current reset env).vk.reset_pid = vk.reset_pid ∧
    (bcm_vk_reset K vk current reset env).vk.ctx = vk.ctx ∧
    (bcm_vk_reset K vk current reset env).vk.pid_ht = vk.pid_ht ∧
    (bcm_vk_reset K vk current reset env).vk.kref = vk.kref ∧
    (bcm_vk_reset K vk current reset env).killed = [] := by
  cases hcopy : env.copy_ok with
  | false =>
    unfold bcm_vk_reset
    rw [if_pos hcopy]
    exact ⟨rfl, rfl, rfl, rfl, rfl, rfl⟩
  | true =>
    obtain ⟨f1, f2, f3, f4, _⟩ := bcm_vk_send_shutdown_msg_frame K
      { vk with klog := vk.klog ++ [klog_msg.issue_reset reset.arg1 reset.arg2] }
      K.VK_SHUTDOWN_GRACEFUL 0 env
    rw [(bcm_vk_reset_cases K vk current reset env hcopy).1 hown]
    exact ⟨rfl, f3, f1, f2, f4, rfl⟩

theorem bcm_vk_reset_already_in_progress_witness :
    (ex_vk_reset 5).reset_pid ≠ 0 ∧
    (bcm_vk_reset ex_consts (ex_vk_reset 5) 9 { arg1 := 0, arg2 := 1 } (ex_env [])).rc = -EACCES ∧
    (bcm_vk_reset ex_consts (ex_vk_reset 5) 9 { arg1 := 0, arg2 := 1 } (ex_env [])).vk.reset_pid =
      5 ∧
    (bcm_vk_reset ex_consts (ex_vk_reset 5) 9 { arg1 := 0, arg2 := 1 } (ex_env [])).vk.pid_ht 0 =
      [0] := by
  have h := bcm_vk_reset_already_in_progress ex_consts (ex_vk_reset 5) 9 { arg1 := 0, arg2 := 1 }
    (ex_env []) (by decide)
  refine ⟨by decide, h.1, h.2.1, ?_⟩
  rw [h.2.2.2.1]
  rfl

/-- C24 (what the code does): a reset request that is rejected because a reset
owner is recorded has sent the graceful shutdown message all the same, since
`bcm_vk_send_shutdown_msg` is called before the owner is looked at.  When the
argument was copied in, the marker is valid, memory is there, queue 0 has a
free block and its write index is within bounds, the request returns
`-EACCES` with the shutdown block (function id `VK_FID_SHUTDOWN`, arguments
`VK_SHUTDOWN_GRACEFUL` and 0) written at the write index of queue 0, the
write index advanced and the doorbell of queue 0 rung.  The other steps are
not carried out: no task is sent a signal, the pending lists of both channels
are as before, and the doorbell is the only register written. -/
theorem bcm_vk_reset_rejected_sends_shutdown (K : vk_consts) (vk : bcm_vk) (current : Nat)
    (reset : vk_reset) (env : vk_env) (hown : vk.reset_pid ≠ 0) (hcopy : env.copy_ok = true)
    (hm : bcm_vk_msgq_marker_valid K env.rd32 = true) (hk : env.kzalloc_ok = true)
    (havail : 1 ≤ VK_MSGQ_AVAIL_SPACE (vk.h2vk_msg_chan.msgq 0) (vk.h2vk_msg_chan.sync_qinfo 0))
    (hwr : (vk.h2vk_msg_chan.msgq 0).wr_idx < (vk.h2vk_msg_chan.sync_qinfo 0).q_size) :
    (bcm_vk_reset K vk current reset env).rc = -EACCES ∧
    ((bcm_vk_reset K vk current reset env).vk.h2vk_msg_chan.msgq 0).ring
        (vk.h2vk_msg_chan.msgq 0).wr_idx =
      { function_id := K.VK_FID_SHUTDOWN, size := 0, trans_id := 0, context_id := 0,
        args := [K.VK_SHUTDOWN_GRACEFUL % 4294967296, 0] } ∧
    ((bcm_vk_reset K vk current reset env).vk.h2vk_msg_chan.msgq 0).wr_idx =
      VK_MSGQ_INC (vk.h2vk_msg_chan.sync_qinfo 0) (vk.h2vk_msg_chan.msgq 0).wr_idx 1 ∧
    (bcm_vk_reset K vk current reset env).vk.iowrites =
      vk.iowrites ++
        [(BAR_0, K.VK_BAR0_REGSEG_DB_BASE + 0 * K.VK_BAR0_REGSEG_DB_REG_GAP,
          (VK_MSGQ_INC (vk.h2vk_msg_chan.sync_qinfo 0) (vk.h2vk_msg_chan.msgq 0).wr_idx 1 + 1) %
            4294967296)] ∧
    (bcm_vk_reset K vk current reset env).killed = [] ∧
    (bcm_vk_reset K vk current reset env).vk.h2vk_msg_chan.pendq = vk.h2vk_msg_chan.pendq ∧
    (bcm_vk_reset K vk current reset env).vk.vk2h_msg_chan.pendq = vk.vk2h_msg_chan.pendq := by
  obtain ⟨_, _, _, _, _, _, _, f8, _⟩ := bcm_vk_send_shutdown_msg_frame K
    { vk with klog := vk.klog ++ [klog_msg.issue_reset reset.arg1 reset.arg2] }
    K.VK_SHUTDOWN_GRACEFUL 0 env
  obtain ⟨_, s2, s3, s4, _, s6⟩ := bcm_vk_send_shutdown_msg_sent K
    { vk with klog := vk.klog ++ [klog_msg.issue_reset reset.arg1 reset.arg2] }
    K.VK_SHUTDOWN_GRACEFUL 0 env hm hk havail hwr
  rw [(bcm_vk_reset_cases K vk current reset env hcopy).1 hown]
  exact ⟨rfl, s2, s3, s4, rfl, s6, congrArg bcm_vk_msg_chan.pendq f8⟩

theorem bcm_vk_reset_rejected_sends_shutdown_witness :
    (ex_vk_reset 5).reset_pid = 5 ∧
    ((ex_vk_reset 5).h2vk_msg_chan.msgq 0).wr_idx = 0 ∧
    (bcm_vk_reset ex_consts (ex_vk_reset 5) 9 { arg1 := 0, arg2 := 1 } (ex_env [])).rc = -EACCES ∧
    ((bcm_vk_reset ex_consts (ex_vk_reset 5) 9 { arg1 := 0, arg2 := 1 }
      (ex_env [])).vk.h2vk_msg_chan.msgq 0).ring 0 =
      { function_id := 255, size := 0, trans_id := 0, context_id := 0, args := [2, 0] } ∧
    ((bcm_vk_reset ex_consts (ex_vk_reset 5) 9 { arg1 := 0, arg2 := 1 }
      (ex_env [])).vk.h2vk_msg_chan.msgq 0).wr_idx = 1 ∧
    (bcm_vk_reset ex_consts (ex_vk_reset 5) 9 { arg1 := 0, arg2 := 1 } (ex_env [])).vk.iowrites =
      [(0, 0x484, 2)] := by
  have h := bcm_vk_reset_rejected_sends_shutdown ex_consts (ex_vk_reset 5) 9
    { arg1 := 0, arg2 := 1 } (ex_env []) (by decide) rfl (by decide) rfl (by decide) (by decide)
  refine ⟨rfl, rfl, h.1, ?_, ?_, ?_⟩
  · exact h.2.1.trans (by decide)
  · exact h.2.2.1.trans (by decide)
  · exact h.2.2.2.1.trans (by decide)

/-- A shutdown message that is sent, or that finds the marker invalid, leaves
the transport-ready flag alone. -/
theorem bcm_vk_send_shutdown_msg_inited (K : vk_consts) (vk : bcm_vk) (shut_type pid : Nat)
    (env : vk_env)
    (h : bcm_vk_msgq_marker_valid K env.rd32 = false ∨
      (env.kzalloc_ok = true ∧
        1 ≤ VK_MSGQ_AVAIL_SPACE (vk.h2vk_msg_chan.msgq 0) (vk.h2vk_msg_chan.sync_qinfo 0) ∧
        (vk.h2vk_msg_chan.msgq 0).wr_idx < (vk.h2vk_msg_chan.sync_qinfo 0).q_size)) :
    (bcm_vk_send_shutdown_msg K vk shut_type pid env).2.msgq_inited = vk.msgq_inited := by
  by_cases hm : bcm_vk_msgq_marker_valid K env.rd32 = false
  · unfold bcm_vk_send_shutdown_msg
    rw [if_pos hm]
  · rcases h with h | ⟨hk, havail, hwr⟩
    · exact absurd h hm
    · have hm1 : bcm_vk_msgq_marker_valid K env.rd32 = true := by simpa using hm
      obtain ⟨hmsg, hblk, hq⟩ := shutdown_entry_msg K shut_type pid
      have hb : (shutdown_entry K shut_type pid).h2vk_blks =
          (((shutdown_entry K shut_type pid).h2vk_msg.headD vk_msg_blk.zero).size + 1) %
            4294967296 := by
        rw [hmsg, hblk]
        rfl
      have havail1 : (shutdown_entry K shut_type pid).h2vk_blks ≤
          VK_MSGQ_AVAIL_SPACE (enq_msgq vk (shutdown_entry K shut_type pid))
            (enq_qinfo vk (shutdown_entry K shut_type pid)) := by
        unfold enq_msgq enq_qinfo
        rw [hq, hblk]
        exact havail
      have hwr1 : (enq_msgq vk (shutdown_entry K shut_type pid)).wr_idx <
          (enq_qinfo vk (shutdown_entry K shut_type pid)).q_size := by
        unfold enq_msgq enq_qinfo
        rw [hq]
        exact hwr
      obtain ⟨hrc, hvk⟩ := bcm_h2vk_msg_enqueue_direct K vk (shutdown_entry K shut_type pid)
        env.card_rd hb havail1 hwr1
      have hs : bcm_vk_send_shutdown_msg K vk shut_type pid env =
          (0, (bcm_h2vk_msg_enqueue K vk (shutdown_entry K shut_type pid) env.card_rd).vk) := by
        unfold bcm_vk_send_shutdown_msg
        simp only [hm1, hk, Bool.true_eq_false, if_false, hrc, ne_eq, not_true_eq_false]
      rw [hs, hvk]
      rfl

/-- C25 (what the code does): a reset request that finds no reset owner
recorded is carried out and returns 0 with the caller recorded as owner.
Afterwards the pending lists of the queues of both channels are empty, every
bit of the message-id bitmap is clear, and the card info, the alert counters
and the host and peer alert records are zeroed.  The transport-ready flag is
what `bcm_vk_send_shutdown_msg` left: neither `bcm_vk_reset` nor
`bcm_vk_trigger_reset` writes it.  So, when the shutdown message was sent or
found the marker invalid, `bcm_vk_drv_access_ok` after the reset is what it was
before; on a device that was ready it is still true. -/
theorem bcm_vk_reset_completed (K : vk_consts) (vk : bcm_vk) (current : Nat)
    (reset : vk_reset) (env : vk_env) (hown : vk.reset_pid = 0) (hcopy : env.copy_ok = true) :
    (bcm_vk_reset K vk current reset env).rc = 0 ∧
    (bcm_vk_reset K vk current reset env).vk.reset_pid = current ∧
    (∀ q, q < vk.h2vk_msg_chan.q_nr →
      (bcm_vk_reset K vk current reset env).vk.h2vk_msg_chan.pendq q = []) ∧
    (∀ q, q < vk.vk2h_msg_chan.q_nr →
      (bcm_vk_reset K vk current reset env).vk.vk2h_msg_chan.pendq q = []) ∧
    (∀ i, i < VK_MSG_ID_BITMAP_SIZE → (bcm_vk_reset K vk current reset env).vk.bmap i = false) ∧
    (∀ i, (bcm_vk_reset K vk current reset env).vk.card_info i = 0) ∧
    (∀ i, (bcm_vk_reset K vk current reset env).vk.alert_cnts i = 0) ∧
    (bcm_vk_reset K vk current reset env).vk.host_alert_notfs = 0 ∧
    (bcm_vk_reset K vk current reset env).vk.host_alert_flags = 0 ∧
    (bcm_vk_reset K vk current reset env).vk.peer_alert_notfs = 0 ∧
    (bcm_vk_reset K vk current reset env).vk.peer_alert_flags = 0 ∧
    bcm_vk_drv_access_ok (bcm_vk_reset K vk current reset env).vk =
      bcm_vk_drv_access_ok (bcm_vk_send_shutdown_msg K
        { vk with klog := vk.klog ++ [klog_msg.issue_reset reset.arg1 reset.arg2] }
        K.VK_SHUTDOWN_GRACEFUL 0 env).2 ∧
    ((bcm_vk_msgq_marker_valid K env.rd32 = false ∨
        (env.kzalloc_ok = true ∧
          1 ≤ VK_MSGQ_AVAIL_SPACE (vk.h2vk_msg_chan.msgq 0) (vk.h2vk_msg_chan.sync_qinfo 0) ∧
          (vk.h2vk_msg_chan.msgq 0).wr_idx < (vk.h2vk_msg_chan.sync_qinfo 0).q_size)) →
      bcm_vk_drv_access_ok (bcm_vk_reset K vk current reset env).vk = bcm_vk_drv_access_ok vk) := by
  obtain ⟨_, _, _, _, _, _, f7, f8, _⟩ := bcm_vk_send_shutdown_msg_frame K
    { vk with klog := vk.klog ++ [klog_msg.issue_reset reset.arg1 reset.arg2] }
    K.VK_SHUTDOWN_GRACEFUL 0 env
  have hres := (bcm_vk_reset_cases K vk current reset env hcopy).2 hown
  have hin := bcm_vk_send_shutdown_msg_inited K
    { vk with klog := vk.klog ++ [klog_msg.issue_reset reset.arg1 reset.arg2] }
    K.VK_SHUTDOWN_GRACEFUL 0 env
  generalize (bcm_vk_send_shutdown_msg K
    { vk with klog := vk.klog ++ [klog_msg.issue_reset reset.arg1 reset.arg2] }
    K.VK_SHUTDOWN_GRACEFUL 0 env).2 = S at f7 f8 hres hin ⊢
  obtain ⟨t1, t2, _, _, _, _, t7, t8, t9, t10, t11, t12, t13, t14, _, _, t17, _⟩ :=
    bcm_vk_trigger_reset_spec K
      { S with
        reset_pid := current
        klog := S.klog ++
          (reset_kill_pids K { S with reset_pid := current }).map klog_msg.send_kill_signal }
      env.rd32
  rw [hres]
  refine ⟨rfl, t17, ?_, ?_, t7, t8, t9, t10, t11, t12, t13, t14, ?_⟩
  · intro q hq
    exact t1 q (by rw [← f7] at hq; exact hq)
  · intro q hq
    exact t2 q (by rw [← f8] at hq; exact hq)
  · intro h
    exact t14.trans (hin h)

theorem bcm_vk_reset_completed_witness :
    bcm_vk_drv_access_ok (ex_vk_reset 0) = true ∧
    (bcm_vk_reset ex_consts (ex_vk_reset 0) 9 { arg1 := 0, arg2 := 1 } (ex_env [])).rc = 0 ∧
    (bcm_vk_reset ex_consts (ex_vk_reset 0) 9 { arg1 := 0, arg2 := 1 } (ex_env [])).vk.reset_pid =
      9 ∧
    bcm_vk_drv_access_ok
      (bcm_vk_reset ex_consts (ex_vk_reset 0) 9 { arg1 := 0, arg2 := 1 } (ex_env [])).vk = true := by
  have h := bcm_vk_reset_completed ex_consts (ex_vk_reset 0) 9 { arg1 := 0, arg2 := 1 }
    (ex_env []) rfl rfl
  refine ⟨rfl, h.1, h.2.1, ?_⟩
  rw [h.2.2.2.2.2.2.2.2.2.2.2.2 (Or.inr ⟨rfl, by decide, by decide⟩)]
  rfl

/-! ## Termination of the dequeue -/

theorem deq_copy_loop_head (qinfo : bcm_vk_sync_qinfo) (ring : Nat → vk_msg_blk) (n src rd_idx : Nat)
    (hn : 0 < n) :
    (deq_copy_loop qinfo ring n src rd_idx).1.headD vk_msg_blk.zero = ring src := by
  cases n with
  | zero => omega
  | succ n => rfl

/-- A message of `q_size` blocks at the head of queue 0 is extracted and
leaves the dequeue facing the same message again: the read index is back
where it was. -/
theorem deq_stuck_step (K : vk_consts) (vk : bcm_vk) (k : Nat) (h : deq_stuck K vk k) :
    deq_head_ok vk 0 ∧ deq_stuck K (deq_msg_step K vk 0) k ∧
    (deq_msg_step K vk 0).vk2h_msg_chan.msgq 0 = vk.vk2h_msg_chan.msgq 0 ∧
    (deq_msg_step K vk 0).vk2h_msg_chan.sync_qinfo 0 = vk.vk2h_msg_chan.sync_qinfo 0 := by
  obtain ⟨h1, h2, h3, h4, h5, h6, h7, h8⟩ := h
  have hpow : 2 ^ k ≤ 2147483648 := by
    have : 2 ^ k ≤ 2 ^ 31 := Nat.pow_le_pow_right (by decide) h2
    exact this
  have hpos : 0 < 2 ^ k := Nat.two_pow_pos k
  have hsrc : (vk.vk2h_msg_chan.msgq 0).rd_idx &&&
      VK_MSGQ_SIZE_MASK (vk.vk2h_msg_chan.sync_qinfo 0) = (vk.vk2h_msg_chan.msgq 0).rd_idx := by
    rw [VK_MSGQ_SIZE_MASK, h4, Nat.and_pow_two_sub_one_eq_mod, Nat.mod_eq_of_lt h5]
  have hnum : (((vk.vk2h_msg_chan.msgq 0).ring (vk.vk2h_msg_chan.msgq 0).rd_idx).size + 1) %
      4294967296 = 2 ^ k := by
    rw [h7]
    omega
  have hhead : deq_head vk 0 =
      deq_copy_loop (vk.vk2h_msg_chan.sync_qinfo 0) (vk.vk2h_msg_chan.msgq 0).ring (2 ^ k)
        (vk.vk2h_msg_chan.msgq 0).rd_idx (vk.vk2h_msg_chan.msgq 0).rd_idx := by
    unfold deq_head
    simp only [hsrc, hnum]
  have hrd : (deq_head vk 0).2 = (vk.vk2h_msg_chan.msgq 0).rd_idx := by
    rw [hhead, deq_copy_loop_rd _ _ k (by omega) h4 _ _ _ h5, Nat.add_mod_right,
      Nat.mod_eq_of_lt h5]
  have hblk : (deq_head vk 0).1.headD vk_msg_blk.zero =
      (vk.vk2h_msg_chan.msgq 0).ring (vk.vk2h_msg_chan.msgq 0).rd_idx := by
    rw [hhead]
    exact deq_copy_loop_head _ _ _ _ _ hpos
  have hok : deq_head_ok vk 0 := by
    refine ⟨h1, ?_, ?_, ?_⟩
    · unfold VK_MSGQ_EMPTY
      simp only [beq_eq_false_iff_ne, ne_eq]
      exact fun he => h6 he.symm
    · rw [h3]
      exact h5
    · rw [hsrc, h7, h3]
      omega
  obtain ⟨l, hl⟩ := deq_msg_step_discard K vk 0 (by rw [hblk]; exact h8)
  have hq : (deq_msg_step K vk 0).vk2h_msg_chan.msgq 0 = vk.vk2h_msg_chan.msgq 0 := by
    rw [hl]
    show (if (0 : Nat) = 0 then
        ({ vk.vk2h_msg_chan.msgq 0 with rd_idx := (deq_head vk 0).2 } : bcm_vk_msgq)
      else vk.vk2h_msg_chan.msgq 0) = _
    rw [if_pos rfl, hrd]
  have hs : (deq_msg_step K vk 0).vk2h_msg_chan.sync_qinfo 0 = vk.vk2h_msg_chan.sync_qinfo 0 := by
    rw [hl]
    rfl
  refine ⟨hok, ⟨?_, h2, ?_, ?_, ?_, ?_, ?_, ?_⟩, hq, hs⟩
  · rw [hl]
    exact h1
  · rw [hs]
    exact h3
  · rw [hs]
    exact h4
  · rw [hq]
    exact h5
  · rw [hq]
    exact h6
  · rw [hq]
    exact h7
  · rw [hq]
    have hp : (deq_msg_step K vk 0).h2vk_msg_chan.pendq 0 = vk.h2vk_msg_chan.pendq 0 := by
      rw [hl]
      rfl
    rw [hp]
    exact h8

theorem deq_loop_stuck (K : vk_consts) (kzalloc_ok : Nat → Bool) (k : Nat)
    (hkz : ∀ n, kzalloc_ok n = true) (fuel : Nat) :
    ∀ total vk, deq_stuck K vk k → deq_loop K kzalloc_ok fuel 0 total vk = none := by
  induction fuel with
  | zero => intro _ _ _; rfl
  | succ fuel ih =>
    intro total vk h
    obtain ⟨hok, hst, _, _⟩ := deq_stuck_step K vk k h
    rw [deq_loop_step K kzalloc_ok fuel 0 total vk hok (hkz total)]
    exact ih (total + 1) _ hst

/-- C27 (what the code does): `bcm_vk2h_msg_dequeue` need not terminate.  When
the head block of card-to-host queue 0 passes the index check with
`size = q_size - 1` on a ring of `q_size = 2 ^ k` blocks (the message is
one-way or an orphan, and memory is always there), the extraction of its
`q_size` blocks moves the read index once around the ring and back, so the
occupancy is what it was, the queue is as non-empty as before and the inner
loop faces the same message again: no number of loop turns ends the call. -/
theorem bcm_vk2h_msg_dequeue_diverges (K : vk_consts) (kzalloc_ok : Nat → Bool) (vk : bcm_vk)
    (k : Nat) (hkz : ∀ n, kzalloc_ok n = true) (h : deq_stuck K vk k) :
    ((deq_msg_step K vk 0).vk2h_msg_chan.msgq 0).rd_idx = (vk.vk2h_msg_chan.msgq 0).rd_idx ∧
    VK_MSGQ_OCCUPIED ((deq_msg_step K vk 0).vk2h_msg_chan.msgq 0)
        ((deq_msg_step K vk 0).vk2h_msg_chan.sync_qinfo 0) =
      VK_MSGQ_OCCUPIED (vk.vk2h_msg_chan.msgq 0) (vk.vk2h_msg_chan.sync_qinfo 0) ∧
    deq_stuck K (deq_msg_step K vk 0) k ∧
    ∀ fuel, bcm_vk2h_msg_dequeue K kzalloc_ok fuel vk = none := by
  obtain ⟨_, hst, hq, hs⟩ := deq_stuck_step K vk k h
  refine ⟨by rw [hq], by rw [hq, hs], hst, fun fuel => deq_loop_stuck K kzalloc_ok k hkz fuel 0 vk h⟩

theorem bcm_vk2h_msg_dequeue_diverges_witness :
    (ex_vk_vk2h 4 0 1 [ex_blk 2 3 0x10] []).vk2h_msg_chan.sync_qinfo 0 =
      { q_size := 4, q_low := 2, q_mask := 3 } ∧
    (((ex_vk_vk2h 4 0 1 [ex_blk 2 3 0x10] []).vk2h_msg_chan.msgq 0).ring 0).size = 3 ∧
    ((deq_msg_step ex_consts (ex_vk_vk2h 4 0 1 [ex_blk 2 3 0x10] []) 0).vk2h_msg_chan.msgq
      0).rd_idx = 0 ∧
    bcm_vk2h_msg_dequeue ex_consts (fun _ => true) 1000 (ex_vk_vk2h 4 0 1 [ex_blk 2 3 0x10] []) =
      none := by
  have h := bcm_vk2h_msg_dequeue_diverges ex_consts (fun _ => true)
    (ex_vk_vk2h 4 0 1 [ex_blk 2 3 0x10] []) 2 (fun _ => rfl)
    ⟨by decide, by decide, rfl, rfl, by decide, by decide, rfl, Or.inr (fun x hx => by cases hx)⟩
  exact ⟨rfl, rfl, h.1, h.2.2.2 1000⟩

/-! ## The dequeue and the occupancy of the ring -/

/-- What `deq_msg_step` does to the descriptors of the card-to-host channel:
the read index of the queue is moved behind the message, nothing else
changes. -/
theorem deq_msg_step_msgq (K : vk_consts) (vk : bcm_vk) (q : Nat) :
    (deq_msg_step K vk q).vk2h_msg_chan.msgq =
      (fun i => if i = q then { vk.vk2h_msg_chan.msgq q with rd_idx := (deq_head vk q).2 }
        else vk.vk2h_msg_chan.msgq i) ∧
    (deq_msg_step K vk q).vk2h_msg_chan.sync_qinfo = vk.vk2h_msg_chan.sync_qinfo ∧
    (deq_msg_step K vk q).vk2h_msg_chan.q_nr = vk.vk2h_msg_chan.q_nr := by
  unfold deq_msg_step
  simp only []
  split
  · exact ⟨rfl, rfl, rfl⟩
  · cases hfp : find_pending_in
        (BCM_VK_GET_MSG_ID ((deq_head vk q).1.headD vk_msg_blk.zero))
        (vk.h2vk_msg_chan.pendq q) with
    | none =>
      simp only [bcm_vk_find_pending, get_chan, set_vk2h_msgq, hfp]
      exact ⟨trivial, trivial, trivial⟩
    | some p =>
      simp only [bcm_vk_find_pending, get_chan, set_vk2h_msgq, hfp]
      exact ⟨rfl, rfl, rfl⟩

/-- C28 (what the code does): the dequeue never looks at the occupancy.  At
a message that passes the index check (read index inside the ring, size field
at most `q_size - 1`) and gets its buffer, one turn of the inner loop of
`bcm_vk2h_msg_dequeue` copies `size + 1` blocks out of the ring and moves the
read index of a ring of `2 ^ k` blocks to `(rd_idx + size + 1) mod 2 ^ k`,
whatever the write index is: nothing in the hypotheses bounds `size + 1` by
the occupancy `(wr_idx - rd_idx) mod q_size`. -/
theorem bcm_vk2h_msg_dequeue_ignores_occupancy (K : vk_consts) (kzalloc_ok : Nat → Bool)
    (fuel total : Nat) (vk : bcm_vk) (q k : Nat) (hok : deq_head_ok vk q)
    (hkz : kzalloc_ok total = true) (hk : k ≤ 32)
    (hmask : (vk.vk2h_msg_chan.sync_qinfo q).q_mask = 2 ^ k - 1)
    (hrd : (vk.vk2h_msg_chan.msgq q).rd_idx < 2 ^ k) :
    deq_loop K kzalloc_ok (fuel + 1) q total vk =
      deq_loop K kzalloc_ok fuel q (total + 1) (deq_msg_step K vk q) ∧
    (deq_head vk q).1.length =
      (((vk.vk2h_msg_chan.msgq q).ring (vk.vk2h_msg_chan.msgq q).rd_idx).size + 1) %
        4294967296 ∧
    ((deq_msg_step K vk q).vk2h_msg_chan.msgq q).rd_idx =
      ((vk.vk2h_msg_chan.msgq q).rd_idx +
        (((vk.vk2h_msg_chan.msgq q).ring (vk.vk2h_msg_chan.msgq q).rd_idx).size + 1) %
          4294967296) % 2 ^ k ∧
    ((deq_msg_step K vk q).vk2h_msg_chan.msgq q).wr_idx = (vk.vk2h_msg_chan.msgq q).wr_idx := by
  have hsrc : (vk.vk2h_msg_chan.msgq q).rd_idx &&&
      VK_MSGQ_SIZE_MASK (vk.vk2h_msg_chan.sync_qinfo q) = (vk.vk2h_msg_chan.msgq q).rd_idx := by
    rw [VK_MSGQ_SIZE_MASK, hmask, Nat.and_pow_two_sub_one_eq_mod, Nat.mod_eq_of_lt hrd]
  have hhead : deq_head vk q =
      deq_copy_loop (vk.vk2h_msg_chan.sync_qinfo q) (vk.vk2h_msg_chan.msgq q).ring
        ((((vk.vk2h_msg_chan.msgq q).ring (vk.vk2h_msg_chan.msgq q).rd_idx).size + 1) %
          4294967296)
        (vk.vk2h_msg_chan.msgq q).rd_idx (vk.vk2h_msg_chan.msgq q).rd_idx := by
    unfold deq_head
    simp only [hsrc]
  obtain ⟨hm, _, _⟩ := deq_msg_step_msgq K vk q
  refine ⟨deq_loop_step K kzalloc_ok fuel q total vk hok hkz, ?_, ?_, ?_⟩
  · rw [hhead, deq_copy_loop_length]
  · rw [hm]
    simp only [if_true]
    rw [hhead, deq_copy_loop_rd _ _ k hk hmask _ _ _ hrd]
  · rw [hm]
    simp only [if_true]

theorem bcm_vk2h_msg_dequeue_ignores_occupancy_witness :
    VK_MSGQ_OCCUPIED (ex_vk_beyond.vk2h_msg_chan.msgq 0) (ex_vk_beyond.vk2h_msg_chan.sync_qinfo 0) =
      1 ∧
    (deq_head ex_vk_beyond 0).1 = [ex_blk 2 1 0x10, ex_blk 9 9 9] ∧
    ((deq_msg_step ex_consts ex_vk_beyond 0).vk2h_msg_chan.msgq 0).rd_idx = 2 ∧
    ((deq_msg_step ex_consts ex_vk_beyond 0).vk2h_msg_chan.msgq 0).wr_idx = 1 ∧
    VK_MSGQ_OCCUPIED ((deq_msg_step ex_consts ex_vk_beyond 0).vk2h_msg_chan.msgq 0)
      ((deq_msg_step ex_consts ex_vk_beyond 0).vk2h_msg_chan.sync_qinfo 0) = 3 ∧
    (bcm_vk2h_msg_dequeue ex_consts (fun _ => true) 10 ex_vk_beyond).map (fun r => r.rc) =
      some 2 ∧
    (bcm_vk2h_msg_dequeue ex_consts (fun _ => true) 10 ex_vk_beyond).map
        (fun r => r.vk.vk2h_msg_chan.pendq 0) =
      some [{ ex_wkent 0 0x10 false with
              vk2h_blks := 2, vk2h_msg := some [ex_blk 2 1 0x10, ex_blk 9 9 9] }] := by
  have h := bcm_vk2h_msg_dequeue_ignores_occupancy ex_consts (fun _ => true) 9 0 ex_vk_beyond 0 2
    ⟨by decide, by decide, by decide, by decide⟩ rfl (by decide) rfl (by decide)
  refine ⟨by decide, by decide, h.2.2.1.trans (by decide), h.2.2.2.trans (by decide), by decide,
    by decide, by decide⟩

/-! ## The pending counter and the response lists -/

/-- C29 (what the code does): `bcm_vk_trigger_reset` empties the response
lists of every queue of the card-to-host channel and leaves every context as
it was, pending counter included.  So afterwards no entry on the response
lists is owned by any context, while a context that had responses pending
still has the pending counter it had: the counter of an in-use context and the
number of its entries on the response lists differ from then on. -/
theorem bcm_vk_trigger_reset_pend_cnt (K : vk_consts) (vk : bcm_vk) (rd32 : Nat → Nat → Nat)
    (c : Nat) :
    (bcm_vk_trigger_reset K vk rd32).ctx c = vk.ctx c ∧
    ((bcm_vk_trigger_reset K vk rd32).ctx c).in_use = (vk.ctx c).in_use ∧
    ((bcm_vk_trigger_reset K vk rd32).ctx c).pend_cnt = (vk.ctx c).pend_cnt ∧
    resp_owned_count (bcm_vk_trigger_reset K vk rd32) c = 0 := by
  obtain ⟨_, t2, _, _, _, t6, _, _, _, _, _, _, _, _, t15, _⟩ := bcm_vk_trigger_reset_spec K vk rd32
  refine ⟨by rw [t15], by rw [t15], by rw [t15], ?_⟩
  unfold resp_owned_count pend_all
  rw [pend_from_nil _ _ 0 (fun q _ hq => t2 q (by rw [t6] at hq; omega))]
  rfl

theorem bcm_vk_trigger_reset_pend_cnt_witness :
    transport_reach ex_consts ex_pend_drained ∧
    (ex_pend_drained.ctx 0).in_use = true ∧
    (ex_pend_drained.ctx 0).pend_cnt = 1 ∧
    resp_owned_count ex_pend_drained 0 = 1 ∧
    transport_reach ex_consts (bcm_vk_trigger_reset ex_consts ex_pend_drained (fun _ _ => 0)) ∧
    ((bcm_vk_trigger_reset ex_consts ex_pend_drained (fun _ _ => 0)).ctx 0).in_use = true ∧
    ((bcm_vk_trigger_reset ex_consts ex_pend_drained (fun _ _ => 0)).ctx 0).pend_cnt = 1 ∧
    resp_owned_count (bcm_vk_trigger_reset ex_consts ex_pend_drained (fun _ _ => 0)) 0 = 0 := by
  have h0 : transport_reach ex_consts (ex_vk_resp true []) :=
    transport_reach.init _ ⟨by decide, fun _ => rfl, fun _ => rfl, fun q => by
      show (if q = 0 then [] else []) = []
      split <;> rfl⟩
  have h1 : transport_reach ex_consts ex_pend_open := transport_reach.get_ctx _ 100 h0
  have h2 : transport_reach ex_consts ex_pend_written :=
    transport_reach.write _ 0 16 (ex_env [ex_blk 1 0 0]) h1 (by decide)
      (fun b t => ⟨b, t, rfl, rfl⟩)
  have h3 : transport_reach ex_consts ex_pend_answered := transport_reach.card _ _ _ h2
  have h4 : transport_reach ex_consts ex_pend_drained := by
    cases hd : bcm_vk2h_msg_dequeue ex_consts (fun _ => true) 10 ex_pend_answered with
    | none =>
      have hn : ex_pend_drained = ex_pend_answered := by
        unfold ex_pend_drained
        rw [hd]
        rfl
      rw [hn]
      exact h3
    | some r =>
      have hs : ex_pend_drained = r.vk := by
        unfold ex_pend_drained
        rw [hd]
        rfl
      rw [hs]
      exact transport_reach.dequeue _ _ _ r h3 hd
  have h5 := bcm_vk_trigger_reset_pend_cnt ex_consts ex_pend_drained (fun _ _ => 0) 0
  have hin : (ex_pend_drained.ctx 0).in_use = true := by decide
  have hcnt : (ex_pend_drained.ctx 0).pend_cnt = 1 := by decide
  refine ⟨h4, hin, hcnt, by decide, transport_reach.trigger_reset _ _ h4, ?_, ?_, h5.2.2.2⟩
  · rw [h5.2.1]
    exact hin
  · rw [h5.2.2.1]
    exact hcnt

/-! ## The return value of an enqueue that finds a bad write index -/

theorem bcm_vk_append_pendq_msgq (vk : bcm_vk) (c : vk_chan_id) (q : Nat) (e : bcm_vk_wkent) :
    (bcm_vk_append_pendq vk c q e).h2vk_msg_chan.msgq = vk.h2vk_msg_chan.msgq ∧
    (bcm_vk_append_pendq vk c q e).h2vk_msg_chan.sync_qinfo = vk.h2vk_msg_chan.sync_qinfo ∧
    (bcm_vk_append_pendq vk c q e).iowrites = vk.iowrites ∧
    (bcm_vk_append_pendq vk c q e).seq_num = vk.seq_num ∧
    (get_chan (bcm_vk_append_pendq vk c q e) c).pendq q = (get_chan vk c).pendq q ++ [e] := by
  unfold bcm_vk_append_pendq
  simp only []
  split <;> cases c <;> refine ⟨rfl, rfl, rfl, rfl, ?_⟩ <;>
    simp only [get_chan, set_chan, set_pendq, if_true]

/-- An enqueue that finds room at once and the write index out of bounds:
the state it leaves. -/
theorem bcm_h2vk_msg_enqueue_idx_err (K : vk_consts) (vk : bcm_vk) (entry : bcm_vk_wkent)
    (card_rd : List Nat)
    (hblks : entry.h2vk_blks = ((entry.h2vk_msg.headD vk_msg_blk.zero).size + 1) % 4294967296)
    (havail : entry.h2vk_blks ≤ VK_MSGQ_AVAIL_SPACE (enq_msgq vk entry) (enq_qinfo vk entry))
    (hwr : (enq_qinfo vk entry).q_size ≤ (enq_msgq vk entry).wr_idx) :
    bcm_h2vk_msg_enqueue K vk entry card_rd =
      { rc := 0,
        vk := bcm_vk_set_host_alert
          (bcm_vk_blk_drv_access
            { set_h2vk_msgq vk (enq_q_num entry) (enq_msgq vk entry) with
              seq_num := (vk.seq_num + 1) % 4294967296,
              klog := vk.klog ++
                [klog_msg.invalid_wr_idx (enq_msgq vk entry).wr_idx (enq_qinfo vk entry).q_size] })
          K.ERR_LOG_HOST_PCIE_DWN,
        entry := { entry with seq_num := vk.seq_num }, sleeps := 0 } := by
  have hw : enq_wait_loop (enq_qinfo vk entry) entry.h2vk_blks (BCM_VK_H2VK_ENQ_RETRY + 1) 0
      (enq_msgq vk entry) card_rd 0 = (0, enq_msgq vk entry, 0) := by
    rw [enq_wait_loop, if_neg (Nat.not_lt.2 havail)]
  unfold bcm_h2vk_msg_enqueue
  simp only [ne_eq, hblks, not_true_eq_false, if_false]
  rw [← hblks]
  simp only [enq_qinfo, enq_msgq, enq_q_num] at hw hwr ⊢
  rw [hw]
  simp only [gt_iff_lt, ge_iff_le]
  rw [if_neg (by decide), if_pos hwr]
  rfl

/-- C30 (what the code does): `bcm_h2vk_msg_enqueue` returns 0 although
nothing was enqueued when it reads a write index that is out of bounds
(`wr_idx >= q_size`) under the lock: it blocks transport access, raises the
alert and leaves through `idx_err`, which is `return 0`.  No block is copied,
the descriptor of the queue (ring and write index) is as before and no
doorbell is rung.  `bcm_vk_write` takes the 0 for success: the end of the
write reports the full byte count as written, with the entry left on the
pending list and nothing in the ring. -/
theorem bcm_h2vk_msg_enqueue_idx_err_returns_zero (K : vk_consts) (vk : bcm_vk)
    (entry : bcm_vk_wkent) (env : vk_env) (q_num count : Nat)
    (hblks : entry.h2vk_blks = ((entry.h2vk_msg.headD vk_msg_blk.zero).size + 1) % 4294967296)
    (havail : entry.h2vk_blks ≤ VK_MSGQ_AVAIL_SPACE (enq_msgq vk entry) (enq_qinfo vk entry))
    (hwr : (enq_qinfo vk entry).q_size ≤ (enq_msgq vk entry).wr_idx) :
    (bcm_h2vk_msg_enqueue K vk entry env.card_rd).rc = 0 ∧
    (bcm_h2vk_msg_enqueue K vk entry env.card_rd).vk.h2vk_msg_chan.msgq (enq_q_num entry) =
      enq_msgq vk entry ∧
    (bcm_h2vk_msg_enqueue K vk entry env.card_rd).vk.iowrites = vk.iowrites ∧
    bcm_vk_drv_access_ok (bcm_h2vk_msg_enqueue K vk entry env.card_rd).vk = false ∧
    (write_send K vk q_num count entry env).1 = (count : Int) ∧
    (write_send K vk q_num count entry env).2.h2vk_msg_chan.msgq (enq_q_num entry) =
      enq_msgq vk entry ∧
    (write_send K vk q_num count entry env).2.iowrites = vk.iowrites ∧
    (write_send K vk q_num count entry env).2.h2vk_msg_chan.pendq q_num =
      vk.h2vk_msg_chan.pendq q_num ++ [{ entry with seq_num := vk.seq_num }] := by
  have hf := fun X => bcm_vk_set_host_alert_fields X K.ERR_LOG_HOST_PCIE_DWN
  obtain ⟨a1, a2, a3, a4, a5⟩ := bcm_vk_append_pendq_msgq vk vk_chan_id.h2vk q_num entry
  have he1 := bcm_h2vk_msg_enqueue_idx_err K vk entry env.card_rd hblks havail hwr
  have he2 := bcm_h2vk_msg_enqueue_idx_err K (bcm_vk_append_pendq vk vk_chan_id.h2vk q_num entry)
    entry env.card_rd hblks (by unfold enq_msgq enq_qinfo; rw [a1, a2]; exact havail)
    (by unfold enq_msgq enq_qinfo; rw [a1, a2]; exact hwr)
  refine ⟨?_, ?_, ?_, ?_, ?_, ?_, ?_, ?_⟩
  · rw [he1]
  · rw [he1]
    show (bcm_vk_set_host_alert _ _).h2vk_msg_chan.msgq _ = _
    rw [(hf _).2.2.2.2.2.1]
    show (if enq_q_num entry = enq_q_num entry then _ else _) = _
    rw [if_pos rfl]
  · rw [he1]
    exact (hf _).2.2.2.2.2.2.2.2.2
  · rw [he1]
    exact (hf _).1
  · unfold write_send
    simp only []
    rw [he2]
    simp only [ne_eq, not_true_eq_false, if_false]
  · unfold write_send
    simp only []
    rw [he2]
    simp only [ne_eq, not_true_eq_false, if_false]
    show (bcm_vk_set_host_alert _ _).h2vk_msg_chan.msgq _ = _
    rw [(hf _).2.2.2.2.2.1]
    show (if enq_q_num entry = enq_q_num entry then _ else _) = _
    rw [if_pos rfl]
    unfold enq_msgq
    rw [a1]
  · unfold write_send
    simp only []
    rw [he2]
    simp only [ne_eq, not_true_eq_false, if_false]
    show (bcm_vk_set_host_alert _ _).iowrites = _
    rw [(hf _).2.2.2.2.2.2.2.2.2]
    exact a3
  · unfold write_send
    simp only []
    rw [he2]
    simp only [ne_eq, not_true_eq_false, if_false]
    show (if q_num = q_num then
      ((bcm_vk_set_host_alert _ _).h2vk_msg_chan.pendq q_num).dropLast ++ [_] else _) = _
    rw [if_pos rfl, (hf _).2.2.2.2.2.1]
    show ((bcm_vk_append_pendq vk vk_chan_id.h2vk q_num entry).h2vk_msg_chan.pendq q_num).dropLast ++
      [_] = _
    have a5 : (bcm_vk_append_pendq vk vk_chan_id.h2vk q_num entry).h2vk_msg_chan.pendq q_num =
        vk.h2vk_msg_chan.pendq q_num ++ [entry] := a5
    rw [a5, List.dropLast_concat, a4]

theorem bcm_h2vk_msg_enqueue_idx_err_returns_zero_witness :
    ((ex_vk_h2vk 4 0 4).h2vk_msg_chan.msgq 0).wr_idx = 4 ∧
    (bcm_vk_write ex_consts (ex_vk_h2vk 4 0 4) 0 16 (ex_env [ex_blk 1 0 0])).1 = 16 ∧
    (bcm_vk_write ex_consts (ex_vk_h2vk 4 0 4) 0 16 (ex_env [ex_blk 1 0 0])).2.iowrites = [] ∧
    ((bcm_vk_write ex_consts (ex_vk_h2vk 4 0 4) 0 16
      (ex_env [ex_blk 1 0 0])).2.h2vk_msg_chan.msgq 0).wr_idx = 4 ∧
    (∀ i, i < 4 → ((bcm_vk_write ex_consts (ex_vk_h2vk 4 0 4) 0 16
      (ex_env [ex_blk 1 0 0])).2.h2vk_msg_chan.msgq 0).ring i = vk_msg_blk.zero) ∧
    (bcm_h2vk_msg_enqueue ex_consts (ex_vk_h2vk 4 0 4) (ex_entry 0) []).rc = 0 := by
  have h := bcm_h2vk_msg_enqueue_idx_err_returns_zero ex_consts (ex_vk_h2vk 4 0 4) (ex_entry 0)
    (ex_env []) 0 16 (by decide) (by decide) (by decide)
  exact ⟨rfl, by decide, by decide, by decide, by decide, h.1⟩

/-! ## Calls of the dequeue that return -/

/-- Past the last queue the loops of `bcm_vk2h_msg_dequeue` are left through
`idx_err` with the running total. -/
theorem deq_loop_done (K : vk_consts) (kzalloc_ok : Nat → Bool) (fuel q_num total : Nat)
    (vk : bcm_vk) (h : vk.vk2h_msg_chan.q_nr ≤ q_num) :
    deq_loop K kzalloc_ok (fuel + 1) q_num total vk = some (deq_exit vk total) := by
  rw [deq_loop, if_neg (by omega)]

/-- When queue `q_num` and the queues behind it are empty the call returns
the running total and leaves the state alone but for the debug line. -/
theorem deq_loop_rest_empty (K : vk_consts) (kzalloc_ok : Nat → Bool) (fuel q_num total : Nat)
    (vk : bcm_vk) (hq : q_num ≤ vk.vk2h_msg_chan.q_nr)
    (hemp : ∀ q, q_num ≤ q → q < vk.vk2h_msg_chan.q_nr →
      (vk.vk2h_msg_chan.msgq q).rd_idx = (vk.vk2h_msg_chan.msgq q).wr_idx) :
    deq_loop K kzalloc_ok (fuel + 1 + (vk.vk2h_msg_chan.q_nr - q_num)) q_num total vk =
      some (deq_exit vk total) := by
  rw [deq_loop_skip_empty K kzalloc_ok (vk.vk2h_msg_chan.q_nr - q_num) (fuel + 1) q_num total vk
    (by omega) (fun q h1 h2 => hemp q h1 (by omega))]
  exact deq_loop_done K kzalloc_ok fuel _ total vk (by omega)

/-- A buffer allocation that fails ends the call with `-ENOMEM`. -/
theorem deq_loop_nomem (K : vk_consts) (kzalloc_ok : Nat → Bool) (fuel q_num total : Nat)
    (vk : bcm_vk) (hok : deq_head_ok vk q_num) (hk : kzalloc_ok total = false) :
    deq_loop K kzalloc_ok (fuel + 1) q_num total vk =
      some { rc := -ENOMEM, vk := { vk with klog := vk.klog ++ [klog_msg.alloc_failure] } } := by
  obtain ⟨h1, h2, h3, h4⟩ := hok
  have hnf : ¬ ((vk.vk2h_msg_chan.msgq q_num).rd_idx ≥ (vk.vk2h_msg_chan.sync_qinfo q_num).q_size ∨
      ((vk.vk2h_msg_chan.msgq q_num).ring
        ((vk.vk2h_msg_chan.msgq q_num).rd_idx &&&
          VK_MSGQ_SIZE_MASK (vk.vk2h_msg_chan.sync_qinfo q_num))).size >
      ((vk.vk2h_msg_chan.sync_qinfo q_num).q_size + (4294967296 - 1)) % 4294967296) := by
    intro h
    rcases h with h | h
    · exact absurd h3 (Nat.not_lt.2 h)
    · exact absurd h4 (Nat.not_le.2 h)
  rw [deq_loop]
  simp only [if_pos h1, h2, if_true, if_neg hnf, hk, Bool.false_eq_true, if_false]

/-- The last message of the last non-empty queue: the call extracts it and
returns, with the running total one higher, in the state `deq_msg_step`
gives. -/
theorem deq_loop_last_msg (K : vk_consts) (kzalloc_ok : Nat → Bool) (fuel q_num total : Nat)
    (vk : bcm_vk) (hok : deq_head_ok vk q_num) (hk : kzalloc_ok total = true)
    (hlast : (deq_head vk q_num).2 = (vk.vk2h_msg_chan.msgq q_num).wr_idx)
    (hemp : ∀ q, q_num < q → q < vk.vk2h_msg_chan.q_nr →
      (vk.vk2h_msg_chan.msgq q).rd_idx = (vk.vk2h_msg_chan.msgq q).wr_idx) :
    deq_loop K kzalloc_ok (fuel + 2 + (vk.vk2h_msg_chan.q_nr - q_num)) q_num total vk =
      some (deq_exit (deq_msg_step K vk q_num) (total + 1)) := by
  obtain ⟨hm, _, hn⟩ := deq_msg_step_msgq K vk q_num
  rw [show fuel + 2 + (vk.vk2h_msg_chan.q_nr - q_num) =
    (fuel + 1 + (vk.vk2h_msg_chan.q_nr - q_num)) + 1 by omega,
    deq_loop_step K kzalloc_ok _ q_num total vk hok hk]
  have h := deq_loop_rest_empty K kzalloc_ok fuel q_num (total + 1) (deq_msg_step K vk q_num)
    (by rw [hn]; exact Nat.le_of_lt hok.1) (by
      intro q h1 h2
      rw [hm]
      by_cases hq : q = q_num
      · simp only [hq, if_true]
        exact hlast
      · simp only [if_neg hq]
        exact hemp q (by omega) (by rw [hn] at h2; exact h2))
  rw [hn] at h
  exact h

/-- The only message in the rings: the whole call extracts it and returns 1
in the state `deq_msg_step` gives. -/
theorem bcm_vk2h_msg_dequeue_only_msg (K : vk_consts) (kzalloc_ok : Nat → Bool)
    (fuel q_num : Nat) (vk : bcm_vk) (hok : deq_head_ok vk q_num) (hk : kzalloc_ok 0 = true)
    (hlast : (deq_head vk q_num).2 = (vk.vk2h_msg_chan.msgq q_num).wr_idx)
    (hemp : ∀ q, q < vk.vk2h_msg_chan.q_nr → q ≠ q_num →
      (vk.vk2h_msg_chan.msgq q).rd_idx = (vk.vk2h_msg_chan.msgq q).wr_idx) :
    bcm_vk2h_msg_dequeue K kzalloc_ok (fuel + 2 + vk.vk2h_msg_chan.q_nr) vk =
      some (deq_exit (deq_msg_step K vk q_num) 1) := by
  have hq := hok.1
  unfold bcm_vk2h_msg_dequeue
  have hskip := deq_loop_skip_empty K kzalloc_ok q_num
    (fuel + 2 + (vk.vk2h_msg_chan.q_nr - q_num)) 0 0 vk (by omega)
    (fun q _ h2 => hemp q (by omega) (by omega))
  rw [Nat.zero_add] at hskip
  rw [show fuel + 2 + vk.vk2h_msg_chan.q_nr =
    fuel + 2 + (vk.vk2h_msg_chan.q_nr - q_num) + q_num by omega, hskip]
  exact deq_loop_last_msg K kzalloc_ok fuel q_num 0 vk hok hk hlast
    (fun q h1 h2 => hemp q h2 (by omega))

/-- The log lines of one extracted message: one line of the extraction, no
allocation failure and no protocol fault. -/
theorem deq_msg_step_klog (K : vk_consts) (vk : bcm_vk) (q : Nat) :
    ∃ pre, (deq_msg_step K vk q).klog = vk.klog ++ pre ∧
      pre.countP klog_msg.is_extracted = 1 ∧ klog_msg.alloc_failure ∉ pre ∧
      pre.any klog_msg.is_invalid_rd_idx = false ∧
      bcm_vk_drv_access_ok (deq_msg_step K vk q) = bcm_vk_drv_access_ok vk := by
  unfold deq_msg_step
  simp only []
  split
  · refine ⟨_, rfl, ?_, ?_, ?_, rfl⟩
    · simp [klog_msg.is_extracted]
    · simp
    · simp [klog_msg.is_invalid_rd_idx]
  · cases hfp : find_pending_in
        (BCM_VK_GET_MSG_ID ((deq_head vk q).1.headD vk_msg_blk.zero))
        (vk.h2vk_msg_chan.pendq q) with
    | none =>
      simp only [bcm_vk_find_pending, get_chan, set_vk2h_msgq, hfp]
      refine ⟨_, List.append_assoc _ _ _, ?_, ?_, ?_, rfl⟩
      · simp [klog_msg.is_extracted]
      · simp
      · simp [klog_msg.is_invalid_rd_idx]
    | some p =>
      simp only [bcm_vk_find_pending, get_chan, set_vk2h_msgq, hfp]
      refine ⟨[klog_msg.blks_extracted q (deq_head vk q).2 (vk.vk2h_msg_chan.msgq q).wr_idx
        ((((vk.vk2h_msg_chan.msgq q).ring
          ((vk.vk2h_msg_chan.msgq q).rd_idx &&&
            VK_MSGQ_SIZE_MASK (vk.vk2h_msg_chan.sync_qinfo q))).size + 1) % 4294967296)],
        ?_, ?_, ?_, ?_, ?_⟩
      · rw [bcm_vk_append_pendq_klog]
        rfl
      · simp [klog_msg.is_extracted]
      · simp
      · simp [klog_msg.is_invalid_rd_idx]
      · unfold bcm_vk_append_pendq
        simp only [Option.isSome_some, if_true]
        rfl

/-- The five ways one turn of the loops of `bcm_vk2h_msg_dequeue` can go: past
the last queue, an empty queue, a protocol fault at the head, a failed
allocation, and an extracted message. -/
theorem deq_loop_cases (K : vk_consts) (kzalloc_ok : Nat → Bool) (fuel q_num total : Nat)
    (vk : bcm_vk) :
    (vk.vk2h_msg_chan.q_nr ≤ q_num ∧
      deq_loop K kzalloc_ok (fuel + 1) q_num total vk = some (deq_exit vk total)) ∨
    (q_num < vk.vk2h_msg_chan.q_nr ∧
      (vk.vk2h_msg_chan.msgq q_num).rd_idx = (vk.vk2h_msg_chan.msgq q_num).wr_idx ∧
      deq_loop K kzalloc_ok (fuel + 1) q_num total vk =
        deq_loop K kzalloc_ok fuel (q_num + 1) total vk) ∨
    (q_num < vk.vk2h_msg_chan.q_nr ∧
      (vk.vk2h_msg_chan.msgq q_num).rd_idx ≠ (vk.vk2h_msg_chan.msgq q_num).wr_idx ∧
      ¬ deq_head_ok vk q_num ∧
      deq_loop K kzalloc_ok (fuel + 1) q_num total vk =
        some (deq_exit
          (bcm_vk_set_host_alert
            (bcm_vk_blk_drv_access
              { vk with klog := vk.klog ++
                  [klog_msg.invalid_rd_idx (vk.vk2h_msg_chan.msgq q_num).rd_idx
                    ((vk.vk2h_msg_chan.msgq q_num).ring
                      ((vk.vk2h_msg_chan.msgq q_num).rd_idx &&&
                        VK_MSGQ_SIZE_MASK (vk.vk2h_msg_chan.sync_qinfo q_num))).size
                    (vk.vk2h_msg_chan.sync_qinfo q_num).q_size] })
            K.ERR_LOG_HOST_PCIE_DWN) total)) ∨
    (deq_head_ok vk q_num ∧ kzalloc_ok total = false ∧
      deq_loop K kzalloc_ok (fuel + 1) q_num total vk =
        some { rc := -ENOMEM,
               vk := { vk with klog := vk.klog ++ [klog_msg.alloc_failure] } }) ∨
    (deq_head_ok vk q_num ∧ kzalloc_ok total = true ∧
      deq_loop K kzalloc_ok (fuel + 1) q_num total vk =
        deq_loop K kzalloc_ok fuel q_num (total + 1) (deq_msg_step K vk q_num)) := by
  by_cases hq : q_num < vk.vk2h_msg_chan.q_nr
  · by_cases hemp : VK_MSGQ_EMPTY (vk.vk2h_msg_chan.msgq q_num) = false
    · have hne : (vk.vk2h_msg_chan.msgq q_num).rd_idx ≠ (vk.vk2h_msg_chan.msgq q_num).wr_idx := by
        intro h
        simp [VK_MSGQ_EMPTY, h] at hemp
      by_cases hf : ((vk.vk2h_msg_chan.msgq q_num).rd_idx ≥
            (vk.vk2h_msg_chan.sync_qinfo q_num).q_size ∨
          ((vk.vk2h_msg_chan.msgq q_num).ring
            ((vk.vk2h_msg_chan.msgq q_num).rd_idx &&&
              VK_MSGQ_SIZE_MASK (vk.vk2h_msg_chan.sync_qinfo q_num))).size >
          ((vk.vk2h_msg_chan.sync_qinfo q_num).q_size + (4294967296 - 1)) % 4294967296)
      · right; right; left
        refine ⟨hq, hne, ?_, ?_⟩
        · intro hok
          obtain ⟨_, _, h3, h4⟩ := hok
          rcases hf with h | h
          · exact absurd h3 (Nat.not_lt.2 h)
          · exact absurd h4 (Nat.not_le.2 h)
        · rw [deq_loop]
          simp only [if_pos hq, hemp, if_true, if_pos hf]
      · have hok : deq_head_ok vk q_num :=
          ⟨hq, hemp, Nat.lt_of_not_le (fun h => hf (Or.inl h)),
            Nat.le_of_not_lt (fun h => hf (Or.inr h))⟩
        cases hk : kzalloc_ok total with
        | true =>
          right; right; right; right
          exact ⟨hok, rfl, deq_loop_step K kzalloc_ok fuel q_num total vk hok hk⟩
        | false =>
          right; right; right; left
          exact ⟨hok, rfl, deq_loop_nomem K kzalloc_ok fuel q_num total vk hok hk⟩
    · right; left
      refine ⟨hq, ?_, ?_⟩
      · cases hb : VK_MSGQ_EMPTY (vk.vk2h_msg_chan.msgq q_num) with
        | false => exact absurd hb hemp
        | true => simpa [VK_MSGQ_EMPTY] using hb
      · have hb : VK_MSGQ_EMPTY (vk.vk2h_msg_chan.msgq q_num) = true := by
          cases hb : VK_MSGQ_EMPTY (vk.vk2h_msg_chan.msgq q_num) with
          | false => exact absurd hb hemp
          | true => rfl
        rw [deq_loop]
        simp only [if_pos hq, hb, Bool.true_eq_false, if_false]
  · left
    exact ⟨Nat.le_of_not_lt hq, deq_loop_done K kzalloc_ok fuel q_num total vk (Nat.le_of_not_lt hq)⟩

/-- What a call of the dequeue that returns has done, in terms of the
allocator: the buffers of all messages it extracted were granted; it returns
`-ENOMEM` exactly when the next allocation was refused, and the number of
extracted messages otherwise. -/
theorem deq_loop_alloc (K : vk_consts) (kzalloc_ok : Nat → Bool) (fuel : Nat) :
    ∀ (q_num total : Nat) (vk : bcm_vk) (r : deq_result),
      deq_loop K kzalloc_ok fuel q_num total vk = some r →
      ∃ l, r.vk.klog = vk.klog ++ l ∧
        (∀ j, j < l.countP klog_msg.is_extracted → kzalloc_ok (total + j) = true) ∧
        ((r.rc = -ENOMEM ∧ klog_msg.alloc_failure ∈ l ∧
            kzalloc_ok (total + l.countP klog_msg.is_extracted) = false ∧
            l.any klog_msg.is_invalid_rd_idx = false) ∨
          (r.rc = ((total + l.countP klog_msg.is_extracted : Nat) : Int) ∧
            klog_msg.alloc_failure ∉ l)) ∧
        (l.any klog_msg.is_invalid_rd_idx = true → bcm_vk_drv_access_ok r.vk = false) := by
  induction fuel with
  | zero =>
    intro q_num total vk r h
    simp [deq_loop] at h
  | succ fuel ih =>
    intro q_num total vk r h
    rcases deq_loop_cases K kzalloc_ok fuel q_num total vk with
      ⟨_, he⟩ | ⟨_, _, he⟩ | ⟨_, _, _, he⟩ | ⟨_, hk, he⟩ | ⟨_, hk, he⟩
    · rw [he] at h
      have hr := (Option.some.inj h).symm
      refine ⟨[klog_msg.total_drained (total : Int)], ?_, ?_, ?_, ?_⟩
      · rw [hr]
        rfl
      · intro j hj
        simp [klog_msg.is_extracted] at hj
      · right
        rw [hr]
        refine ⟨?_, by simp⟩
        simp [deq_exit, klog_msg.is_extracted]
      · intro hany
        simp [klog_msg.is_invalid_rd_idx] at hany
    · rw [he] at h
      exact ih _ _ _ _ h
    · rw [he] at h
      have hr := (Option.some.inj h).symm
      refine ⟨[klog_msg.invalid_rd_idx (vk.vk2h_msg_chan.msgq q_num).rd_idx
          ((vk.vk2h_msg_chan.msgq q_num).ring
            ((vk.vk2h_msg_chan.msgq q_num).rd_idx &&&
              VK_MSGQ_SIZE_MASK (vk.vk2h_msg_chan.sync_qinfo q_num))).size
          (vk.vk2h_msg_chan.sync_qinfo q_num).q_size,
        klog_msg.total_drained (total : Int)], ?_, ?_, ?_, ?_⟩
      · rw [hr]
        simp only [deq_exit, (bcm_vk_set_host_alert_fields _ _).2.1, bcm_vk_blk_drv_access,
          List.append_assoc, List.singleton_append]
      · intro j hj
        simp [klog_msg.is_extracted] at hj
      · right
        rw [hr]
        refine ⟨?_, by simp⟩
        simp [deq_exit, klog_msg.is_extracted]
      · intro _
        rw [hr]
        simp only [deq_exit, bcm_vk_drv_access_ok, (bcm_vk_set_host_alert_fields _ _).1,
          bcm_vk_blk_drv_access]
    · rw [he] at h
      have hr := (Option.some.inj h).symm
      refine ⟨[klog_msg.alloc_failure], ?_, ?_, ?_, ?_⟩
      · rw [hr]
      · intro j hj
        simp [klog_msg.is_extracted] at hj
      · left
        rw [hr]
        refine ⟨rfl, by simp, ?_, by simp [klog_msg.is_invalid_rd_idx]⟩
        simpa [klog_msg.is_extracted] using hk
      · intro hany
        simp [klog_msg.is_invalid_rd_idx] at hany
    · rw [he] at h
      obtain ⟨pre, hpre, hcnt, hna, hni, hacc⟩ := deq_msg_step_klog K vk q_num
      obtain ⟨l, hl, hkz, hrc, hblk⟩ := ih _ _ _ _ h
      have hc : (pre ++ l).countP klog_msg.is_extracted =
          1 + l.countP klog_msg.is_extracted := by
        rw [List.countP_append, hcnt]
      refine ⟨pre ++ l, ?_, ?_, ?_, ?_⟩
      · rw [hl, hpre, List.append_assoc]
      · intro j hj
        rw [hc] at hj
        cases j with
        | zero => exact hk
        | succ j =>
          have := hkz j (by omega)
          rw [show total + (j + 1) = total + 1 + j by omega]
          exact this
      · rw [hc]
        rcases hrc with ⟨h1, h2, h3, h4⟩ | ⟨h1, h2⟩
        · left
          refine ⟨h1, List.mem_append_right _ h2, ?_, ?_⟩
          · rw [show total + (1 + l.countP klog_msg.is_extracted) =
              total + 1 + l.countP klog_msg.is_extracted by omega]
            exact h3
          · rw [List.any_append, hni, h4]
            rfl
        · right
          refine ⟨?_, ?_⟩
          · rw [h1]
            congr 1
            omega
          · intro hm
            rcases List.mem_append.1 hm with hm | hm
            · exact hna hm
            · exact h2 hm
      · intro hany
        rw [List.any_append, hni, Bool.false_or] at hany
        exact hblk hany

/-! ## The result of the dequeue -/

/-- C10 (amended): `bcm_vk2h_msg_dequeue` returns a negative value, `-ENOMEM`,
exactly when a buffer allocation fails: a call that returns has been granted
the buffer of every message it extracted, its result is negative only if the
allocator refused the next buffer, and with the head of a queue in bounds and
the allocator refusing the call does return `-ENOMEM`.  When it detects a
protocol fault (read index or declared message size out of bounds) it blocks
transport access and raises the alert itself and returns the non-negative
number of messages drained before the fault.  Without allocation failure the
result is the number of messages drained over all configured queues: each
extracted message raises the count by one, and it is 0 when every queue was
empty.  The deferred work handler calls `bcm_vk_blk_drv_access` after the
drain exactly when that result is negative.  The result of a call that returns
does not depend on the bound on the number of loop tests. -/
theorem bcm_vk2h_msg_dequeue_result (K : vk_consts) (kzalloc_ok : Nat → Bool) :
    (∀ (fuel : Nat) (vk : bcm_vk) (r : deq_result),
      bcm_vk2h_msg_dequeue K kzalloc_ok fuel vk = some r →
      ∃ l, r.vk.klog = vk.klog ++ l ∧
        (∀ j, j < l.countP klog_msg.is_extracted → kzalloc_ok j = true) ∧
        (r.rc < 0 ↔ klog_msg.alloc_failure ∈ l) ∧
        (r.rc < 0 → r.rc = -ENOMEM ∧ kzalloc_ok (l.countP klog_msg.is_extracted) = false) ∧
        (0 ≤ r.rc → r.rc = ((l.countP klog_msg.is_extracted : Nat) : Int)) ∧
        (l.any klog_msg.is_invalid_rd_idx = true →
          0 ≤ r.rc ∧ bcm_vk_drv_access_ok r.vk = false)) ∧
    (∀ (fuel : Nat) (vk : bcm_vk) (r : deq_result), (∀ n, kzalloc_ok n = true) →
      bcm_vk2h_msg_dequeue K kzalloc_ok fuel vk = some r → 0 ≤ r.rc) ∧
    (∀ (fuel q_num total : Nat) (vk : bcm_vk), deq_head_ok vk q_num →
      kzalloc_ok total = false →
      deq_loop K kzalloc_ok (fuel + 1) q_num total vk =
        some { rc := -ENOMEM,
               vk := { vk with klog := vk.klog ++ [klog_msg.alloc_failure] } }) ∧
    (∀ (fuel q_num : Nat) (vk : bcm_vk), deq_head_ok vk q_num → kzalloc_ok 0 = false →
      (∀ q, q < q_num →
        (vk.vk2h_msg_chan.msgq q).rd_idx = (vk.vk2h_msg_chan.msgq q).wr_idx) →
      bcm_vk2h_msg_dequeue K kzalloc_ok (fuel + 1 + q_num) vk =
        some { rc := -ENOMEM,
               vk := { vk with klog := vk.klog ++ [klog_msg.alloc_failure] } }) ∧
    (∀ (fuel q_num total : Nat) (vk : bcm_vk), deq_head_ok vk q_num →
      kzalloc_ok total = true →
      (deq_head vk q_num).2 = (vk.vk2h_msg_chan.msgq q_num).wr_idx →
      (∀ q, q_num < q → q < vk.vk2h_msg_chan.q_nr →
        (vk.vk2h_msg_chan.msgq q).rd_idx = (vk.vk2h_msg_chan.msgq q).wr_idx) →
      ∃ vk1, deq_loop K kzalloc_ok (fuel + 2 + (vk.vk2h_msg_chan.q_nr - q_num)) q_num total vk =
        some { rc := ((total + 1 : Nat) : Int), vk := vk1 }) ∧
    (∀ (fuel q_num total : Nat) (vk : bcm_vk), q_num < vk.vk2h_msg_chan.q_nr →
      (vk.vk2h_msg_chan.msgq q_num).rd_idx ≠ (vk.vk2h_msg_chan.msgq q_num).wr_idx →
      (vk.vk2h_msg_chan.sync_qinfo q_num).q_size < 4294967296 →
      ((vk.vk2h_msg_chan.sync_qinfo q_num).q_size ≤ (vk.vk2h_msg_chan.msgq q_num).rd_idx ∨
        (vk.vk2h_msg_chan.sync_qinfo q_num).q_size - 1 <
          ((vk.vk2h_msg_chan.msgq q_num).ring
            ((vk.vk2h_msg_chan.msgq q_num).rd_idx &&&
              VK_MSGQ_SIZE_MASK (vk.vk2h_msg_chan.sync_qinfo q_num))).size) →
      ∃ vk1, deq_loop K kzalloc_ok (fuel + 1) q_num total vk =
          some { rc := (total : Int), vk := vk1 } ∧
        bcm_vk_drv_access_ok vk1 = false) ∧
    (∀ (fuel : Nat) (vk : bcm_vk),
      (∀ q, q < vk.vk2h_msg_chan.q_nr →
        (vk.vk2h_msg_chan.msgq q).rd_idx = (vk.vk2h_msg_chan.msgq q).wr_idx) →
      bcm_vk2h_msg_dequeue K kzalloc_ok (fuel + 1 + vk.vk2h_msg_chan.q_nr) vk =
        some { rc := 0,
               vk := { vk with klog := vk.klog ++ [klog_msg.total_drained 0] } }) ∧
    (∀ (handle_notf auto_load : bcm_vk → bcm_vk) (fuel : Nat) (vk : bcm_vk) (r : deq_result),
      bcm_vk2h_msg_dequeue K kzalloc_ok fuel (wq_handler_offloads handle_notf auto_load vk) =
        some r →
      bcm_vk_wq_handler K handle_notf auto_load kzalloc_ok fuel vk =
        some (if r.rc < 0 then bcm_vk_blk_drv_access r.vk
          else if r.rc = 0 then { r.vk with klog := r.vk.klog ++ [klog_msg.spurious_trigger] }
          else r.vk)) ∧
    (∀ (handle_notf auto_load : bcm_vk → bcm_vk) (fuel q_num : Nat) (vk : bcm_vk),
      deq_head_ok (wq_handler_offloads handle_notf auto_load vk) q_num →
      kzalloc_ok 0 = false →
      (∀ q, q < q_num →
        ((wq_handler_offloads handle_notf auto_load vk).vk2h_msg_chan.msgq q).rd_idx =
          ((wq_handler_offloads handle_notf auto_load vk).vk2h_msg_chan.msgq q).wr_idx) →
      ∃ vk1, bcm_vk_wq_handler K handle_notf auto_load kzalloc_ok (fuel + 1 + q_num) vk =
          some vk1 ∧ bcm_vk_drv_access_ok vk1 = false) ∧
    (∀ (fuel fuel1 : Nat) (vk : bcm_vk) (r : deq_result), fuel ≤ fuel1 →
      bcm_vk2h_msg_dequeue K kzalloc_ok fuel vk = some r →
      bcm_vk2h_msg_dequeue K kzalloc_ok fuel1 vk = some r) := by
  have hA : ∀ (fuel : Nat) (vk : bcm_vk) (r : deq_result),
      bcm_vk2h_msg_dequeue K kzalloc_ok fuel vk = some r →
      ∃ l, r.vk.klog = vk.klog ++ l ∧
        (∀ j, j < l.countP klog_msg.is_extracted → kzalloc_ok j = true) ∧
        (r.rc < 0 ↔ klog_msg.alloc_failure ∈ l) ∧
        (r.rc < 0 → r.rc = -ENOMEM ∧ kzalloc_ok (l.countP klog_msg.is_extracted) = false) ∧
        (0 ≤ r.rc → r.rc = ((l.countP klog_msg.is_extracted : Nat) : Int)) ∧
        (l.any klog_msg.is_invalid_rd_idx = true →
          0 ≤ r.rc ∧ bcm_vk_drv_access_ok r.vk = false) := by
    intro fuel vk r h
    obtain ⟨l, hl, hkz, hcase, hblk⟩ := deq_loop_alloc K kzalloc_ok fuel 0 0 vk r h
    refine ⟨l, hl, ?_, ?_, ?_, ?_, ?_⟩
    · intro j hj
      have := hkz j hj
      rw [Nat.zero_add] at this
      exact this
    · rcases hcase with ⟨h1, h2, _⟩ | ⟨h1, h2⟩
      · rw [h1]
        exact ⟨fun _ => h2, fun _ => by decide⟩
      · rw [h1]
        exact ⟨fun hneg => absurd hneg (by omega), fun hm => absurd hm h2⟩
    · rcases hcase with ⟨h1, _, h3, _⟩ | ⟨h1, _⟩
      · rw [Nat.zero_add] at h3
        exact fun _ => ⟨h1, h3⟩
      · rw [h1]
        exact fun hneg => absurd hneg (by omega)
    · rcases hcase with ⟨h1, _, _⟩ | ⟨h1, _⟩
      · rw [h1]
        exact fun hge => absurd hge (by decide)
      · rw [h1, Nat.zero_add]
        exact fun _ => rfl
    · intro hany
      refine ⟨?_, hblk hany⟩
      rcases hcase with ⟨_, _, _, h4⟩ | ⟨h1, _⟩
      · rw [h4] at hany
        exact absurd hany (by decide)
      · rw [h1]
        omega
  have hB : ∀ (fuel q_num : Nat) (vk : bcm_vk), deq_head_ok vk q_num → kzalloc_ok 0 = false →
      (∀ q, q < q_num →
        (vk.vk2h_msg_chan.msgq q).rd_idx = (vk.vk2h_msg_chan.msgq q).wr_idx) →
      bcm_vk2h_msg_dequeue K kzalloc_ok (fuel + 1 + q_num) vk =
        some { rc := -ENOMEM,
               vk := { vk with klog := vk.klog ++ [klog_msg.alloc_failure] } } := by
    intro fuel q_num vk hok hk hemp
    unfold bcm_vk2h_msg_dequeue
    have hskip := deq_loop_skip_empty K kzalloc_ok q_num (fuel + 1) 0 0 vk
      (by have := hok.1; omega) (fun q _ h2 => hemp q (by omega))
    rw [Nat.zero_add] at hskip
    rw [hskip]
    exact deq_loop_nomem K kzalloc_ok fuel q_num 0 vk hok hk
  have hH : ∀ (handle_notf auto_load : bcm_vk → bcm_vk) (fuel : Nat) (vk : bcm_vk)
      (r : deq_result),
      bcm_vk2h_msg_dequeue K kzalloc_ok fuel (wq_handler_offloads handle_notf auto_load vk) =
        some r →
      bcm_vk_wq_handler K handle_notf auto_load kzalloc_ok fuel vk =
        some (if r.rc < 0 then bcm_vk_blk_drv_access r.vk
          else if r.rc = 0 then { r.vk with klog := r.vk.klog ++ [klog_msg.spurious_trigger] }
          else r.vk) := by
    intro handle_notf auto_load fuel vk r h
    unfold bcm_vk_wq_handler
    rw [h]
    by_cases h0 : r.rc = 0
    · have hn : ¬ r.rc < 0 := by omega
      simp only [h0, if_true, hn, if_false]
      simp
    · by_cases hn : r.rc < 0
      · simp only [h0, if_false, hn, if_true]
      · simp only [h0, if_false, hn]
  refine ⟨hA, ?_, ?_, hB, ?_, ?_, ?_, hH, ?_, fun fuel fuel1 vk r hle h =>
    deq_loop_fuel_mono K kzalloc_ok fuel fuel1 0 0 vk r hle h⟩
  · intro fuel vk r hall h
    obtain ⟨l, _, _, _, hneg, _, _⟩ := hA fuel vk r h
    by_cases hr : r.rc < 0
    · have := (hneg hr).2
      rw [hall] at this
      exact absurd this (by decide)
    · omega
  · intro fuel q_num total vk hok hk
    exact deq_loop_nomem K kzalloc_ok fuel q_num total vk hok hk
  · intro fuel q_num total vk hok hk hlast hemp
    exact ⟨_, deq_loop_last_msg K kzalloc_ok fuel q_num total vk hok hk hlast hemp⟩
  · intro fuel q_num total vk hq hne hlt hfault
    refine ⟨_, ?_, (deq_faulted_of_fault K vk total
      (klog_msg.invalid_rd_idx (vk.vk2h_msg_chan.msgq q_num).rd_idx
        ((vk.vk2h_msg_chan.msgq q_num).ring
          ((vk.vk2h_msg_chan.msgq q_num).rd_idx &&&
            VK_MSGQ_SIZE_MASK (vk.vk2h_msg_chan.sync_qinfo q_num))).size
        (vk.vk2h_msg_chan.sync_qinfo q_num).q_size)).1⟩
    rw [deq_loop_fault K kzalloc_ok fuel q_num total vk hq hne hlt hfault]
    rfl
  · intro fuel vk hemp
    unfold bcm_vk2h_msg_dequeue
    have hskip := deq_loop_skip_empty K kzalloc_ok vk.vk2h_msg_chan.q_nr (fuel + 1) 0 0 vk
      (by omega) (fun q _ h2 => hemp q (by omega))
    rw [Nat.zero_add] at hskip
    rw [hskip, deq_loop]
    simp only [Nat.lt_irrefl, if_false]
    rfl
  · intro handle_notf auto_load fuel q_num vk hok hk hemp
    have h := hB fuel q_num _ hok hk hemp
    refine ⟨_, hH handle_notf auto_load _ vk _ h, ?_⟩
    rw [if_pos (show -ENOMEM < 0 by decide)]
    rfl

theorem bcm_vk2h_msg_dequeue_result_witness :
    (∃ r, bcm_vk2h_msg_dequeue ex_consts (fun n => decide (n = 0)) 10
          (ex_vk_vk2h 4 0 2 [ex_blk 7 0 0x30, ex_blk 8 0 0x50] [ex_entry 0]) = some r ∧
        r.rc = -ENOMEM ∧
        ∃ l, r.vk.klog =
            (ex_vk_vk2h 4 0 2 [ex_blk 7 0 0x30, ex_blk 8 0 0x50] [ex_entry 0]).klog ++ l ∧
          (∀ j, j < l.countP klog_msg.is_extracted → decide (j = 0) = true) ∧
          (r.rc < 0 ↔ klog_msg.alloc_failure ∈ l) ∧
          (r.rc < 0 → r.rc = -ENOMEM ∧
            decide (l.countP klog_msg.is_extracted = 0) = false) ∧
          (0 ≤ r.rc → r.rc = ((l.countP klog_msg.is_extracted : Nat) : Int)) ∧
          (l.any klog_msg.is_invalid_rd_idx = true →
            0 ≤ r.rc ∧ bcm_vk_drv_access_ok r.vk = false)) ∧
    bcm_vk2h_msg_dequeue ex_consts (fun _ => false) (0 + 1 + 0)
        (ex_vk_vk2h 4 3 1 [ex_blk 7 0 0x30, ex_blk 8 8 8, ex_blk 9 9 9, ex_blk 5 1 0x30]
          [ex_entry 0]) =
      some { rc := -ENOMEM,
             vk := { ex_vk_vk2h 4 3 1
                       [ex_blk 7 0 0x30, ex_blk 8 8 8, ex_blk 9 9 9, ex_blk 5 1 0x30]
                       [ex_entry 0] with
                     klog := (ex_vk_vk2h 4 3 1
                       [ex_blk 7 0 0x30, ex_blk 8 8 8, ex_blk 9 9 9, ex_blk 5 1 0x30]
                       [ex_entry 0]).klog ++ [klog_msg.alloc_failure] } } ∧
    (∃ vk1, deq_loop ex_consts (fun _ => true)
          (0 + 2 + ((ex_vk_vk2h 4 3 1
            [ex_blk 7 0 0x30, ex_blk 8 8 8, ex_blk 9 9 9, ex_blk 5 1 0x30]
            [ex_entry 0]).vk2h_msg_chan.q_nr - 0)) 0 3
          (ex_vk_vk2h 4 3 1 [ex_blk 7 0 0x30, ex_blk 8 8 8, ex_blk 9 9 9, ex_blk 5 1 0x30]
            [ex_entry 0]) =
          some { rc := ((3 + 1 : Nat) : Int), vk := vk1 }) ∧
    (∃ vk1, deq_loop ex_consts (fun _ => true) (0 + 1) 0 3
          (ex_vk_vk2h 4 4 1 [ex_blk 7 0 0x30] [ex_entry 0]) =
          some { rc := ((3 : Nat) : Int), vk := vk1 } ∧
        bcm_vk_drv_access_ok vk1 = false) ∧
    bcm_vk2h_msg_dequeue ex_consts (fun _ => true)
        (0 + 1 + (ex_vk_vk2h 4 0 0 [] []).vk2h_msg_chan.q_nr) (ex_vk_vk2h 4 0 0 [] []) =
      some { rc := 0,
             vk := { ex_vk_vk2h 4 0 0 [] [] with
                     klog := (ex_vk_vk2h 4 0 0 [] []).klog ++ [klog_msg.total_drained 0] } } ∧
    (∃ vk1, bcm_vk_wq_handler ex_consts (fun vk => vk) (fun vk => vk) (fun _ => false)
          (0 + 1 + 0)
          (ex_vk_vk2h 4 3 1 [ex_blk 7 0 0x30, ex_blk 8 8 8, ex_blk 9 9 9, ex_blk 5 1 0x30]
            [ex_entry 0]) = some vk1 ∧
        bcm_vk_drv_access_ok vk1 = false) :=
  ⟨⟨(bcm_vk2h_msg_dequeue ex_consts (fun n => decide (n = 0)) 10
        (ex_vk_vk2h 4 0 2 [ex_blk 7 0 0x30, ex_blk 8 0 0x50] [ex_entry 0])).get (by decide),
      Option.eq_some_of_isSome _, by decide,
      (bcm_vk2h_msg_dequeue_result ex_consts (fun n => decide (n = 0))).1 10 _ _
        (Option.eq_some_of_isSome _)⟩,
    (bcm_vk2h_msg_dequeue_result ex_consts (fun _ => false)).2.2.2.1 0 0
      (ex_vk_vk2h 4 3 1 [ex_blk 7 0 0x30, ex_blk 8 8 8, ex_blk 9 9 9, ex_blk 5 1 0x30]
        [ex_entry 0]) ⟨by decide, by decide, by decide, by decide⟩ rfl
      (fun q hq => absurd hq (Nat.not_lt_zero q)),
    (bcm_vk2h_msg_dequeue_result ex_consts (fun _ => true)).2.2.2.2.1 0 0 3
      (ex_vk_vk2h 4 3 1 [ex_blk 7 0 0x30, ex_blk 8 8 8, ex_blk 9 9 9, ex_blk 5 1 0x30]
        [ex_entry 0]) ⟨by decide, by decide, by decide, by decide⟩ rfl (by decide)
      (fun q h1 h2 => by
        have h3 : q < 2 := h2
        obtain rfl : q = 1 := by omega
        decide),
    (bcm_vk2h_msg_dequeue_result ex_consts (fun _ => true)).2.2.2.2.2.1 0 0 3
      (ex_vk_vk2h 4 4 1 [ex_blk 7 0 0x30] [ex_entry 0]) (by decide) (by decide) (by decide)
      (by decide),
    (bcm_vk2h_msg_dequeue_result ex_consts (fun _ => true)).2.2.2.2.2.2.1 0
      (ex_vk_vk2h 4 0 0 [] []) (by decide),
    (bcm_vk2h_msg_dequeue_result ex_consts (fun _ => false)).2.2.2.2.2.2.2.2.1
      (fun vk => vk) (fun vk => vk) 0 0
      (ex_vk_vk2h 4 3 1 [ex_blk 7 0 0x30, ex_blk 8 8 8, ex_blk 9 9 9, ex_blk 5 1 0x30]
        [ex_entry 0]) ⟨by decide, by decide, by decide, by decide⟩ rfl
      (fun q hq => absurd hq (Nat.not_lt_zero q))⟩

/-! ## The message id of the user from write to read -/

/-- The list `find_pending_in` leaves holds entries of the list it searched
only. -/
theorem find_pending_in_mem (m : Nat) (l : List bcm_vk_wkent) (p : bcm_vk_wkent × List bcm_vk_wkent)
    (h : find_pending_in m l = some p) : ∀ x, x ∈ p.2 → x ∈ l := by
  obtain ⟨pre, post, h1, h2, _⟩ := find_pending_in_some m l p.1 p.2 h
  intro x hx
  rw [h2] at hx
  rw [h1]
  rcases List.mem_append.1 hx with hx | hx
  · exact List.mem_append_left _ hx
  · exact List.mem_append_right _ (List.mem_cons_of_mem _ hx)

/-- After `bcm_vk_find_pending` on the host-to-card channel every entry on a
host-to-card pending list was on it before, and the card-to-host channel is
as before. -/
theorem bcm_vk_find_pending_h2vk_mem (vk : bcm_vk) (q m : Nat) :
    (∀ q1 x, x ∈ (bcm_vk_find_pending vk vk_chan_id.h2vk q m).2.h2vk_msg_chan.pendq q1 →
      x ∈ vk.h2vk_msg_chan.pendq q1) ∧
    (bcm_vk_find_pending vk vk_chan_id.h2vk q m).2.vk2h_msg_chan = vk.vk2h_msg_chan := by
  unfold bcm_vk_find_pending
  cases hfp : find_pending_in m ((get_chan vk vk_chan_id.h2vk).pendq q) with
  | none => exact ⟨fun _ _ hx => hx, rfl⟩
  | some p =>
    refine ⟨?_, rfl⟩
    intro q1 x hx
    have hx1 : x ∈ (if q1 = q then p.2 else vk.h2vk_msg_chan.pendq q1) := hx
    by_cases hq : q1 = q
    · rw [if_pos hq] at hx1
      rw [hq]
      exact find_pending_in_mem m _ p hfp x hx1
    · rw [if_neg hq] at hx1
      exact hx1

/-- The scatter-gather branch of `bcm_vk_write` keeps the owner and the user's
message id of the work entry and both pending tables; with an `errno` result
of the scatter-gather allocation an exit through it is negative. -/
theorem write_trans_buf_entry (K : vk_consts) (vk : bcm_vk) (c : Nat) (entry : bcm_vk_wkent)
    (env : vk_env) :
    (write_trans_buf K vk c entry env).2.2.ctx = entry.ctx ∧
    (write_trans_buf K vk c entry env).2.2.usr_msg_id = entry.usr_msg_id ∧
    (write_trans_buf K vk c entry env).2.2.vk2h_msg = entry.vk2h_msg ∧
    (write_trans_buf K vk c entry env).2.1.h2vk_msg_chan = vk.h2vk_msg_chan ∧
    (write_trans_buf K vk c entry env).2.1.vk2h_msg_chan = vk.vk2h_msg_chan ∧
    (∀ rc, env.sg_rc ≤ 0 → (write_trans_buf K vk c entry env).1 = some rc → rc < 0) := by
  unfold write_trans_buf
  simp only []
  split
  · split
    · refine ⟨rfl, rfl, rfl, rfl, rfl, ?_⟩
      intro rc _ h
      rw [← Option.some.inj h]
      decide
    · split
      · refine ⟨rfl, rfl, rfl, rfl, rfl, ?_⟩
        intro rc _ h
        rw [← Option.some.inj h]
        decide
      · split
        · rename_i hsg
          refine ⟨rfl, rfl, rfl, rfl, rfl, ?_⟩
          intro rc hle h
          rw [← Option.some.inj h]
          omega
        · unfold bcm_vk_append_ib_sgl
          simp only []
          split
          · exact ⟨rfl, rfl, rfl, rfl, rfl, fun rc _ h => by cases h⟩
          · exact ⟨rfl, rfl, rfl, rfl, rfl, fun rc _ h => by cases h⟩
  · exact ⟨rfl, rfl, rfl, rfl, rfl, fun rc _ h => by cases h⟩

/-- The enqueue writes only `seq_num` into the work entry, and its result is
zero or a negative `errno`. -/
theorem bcm_h2vk_msg_enqueue_entry (K : vk_consts) (vk : bcm_vk) (entry : bcm_vk_wkent)
    (card_rd : List Nat) :
    (bcm_h2vk_msg_enqueue K vk entry card_rd).entry.ctx = entry.ctx ∧
    (bcm_h2vk_msg_enqueue K vk entry card_rd).entry.usr_msg_id = entry.usr_msg_id ∧
    (bcm_h2vk_msg_enqueue K vk entry card_rd).rc ≤ 0 := by
  unfold bcm_h2vk_msg_enqueue
  simp only []
  split
  · exact ⟨rfl, rfl, show (-EMSGSIZE : Int) ≤ 0 by decide⟩
  · split
    · exact ⟨rfl, rfl, show (-EAGAIN : Int) ≤ 0 by decide⟩
    · split
      · exact ⟨rfl, rfl, Int.le_refl 0⟩
      · exact ⟨rfl, rfl, Int.le_refl 0⟩

/-- The end of `bcm_vk_write`: an entry on a host-to-card pending list
afterwards was there before or is the work entry of this write, with its
owner and its user id; when the result is `count` that entry is the new tail
of the list of queue `q_num`. -/
theorem write_send_pendq (K : vk_consts) (vk : bcm_vk) (q_num count : Nat)
    (entry : bcm_vk_wkent) (env : vk_env) :
    (∀ q x, x ∈ (write_send K vk q_num count entry env).2.h2vk_msg_chan.pendq q →
      x ∈ vk.h2vk_msg_chan.pendq q ∨
        (q = q_num ∧ x.ctx = entry.ctx ∧ x.usr_msg_id = entry.usr_msg_id ∧
          x.vk2h_msg = entry.vk2h_msg)) ∧
    ((write_send K vk q_num count entry env).1 = (count : Int) →
      ∃ x, (write_send K vk q_num count entry env).2.h2vk_msg_chan.pendq q_num =
          vk.h2vk_msg_chan.pendq q_num ++ [x] ∧
        x.ctx = entry.ctx ∧ x.usr_msg_id = entry.usr_msg_id ∧
        x.vk2h_msg = entry.vk2h_msg) ∧
    (write_send K vk q_num count entry env).2.vk2h_msg_chan.pendq = vk.vk2h_msg_chan.pendq := by
  obtain ⟨f1, f2, f3⟩ := bcm_h2vk_msg_enqueue_entry K
    (bcm_vk_append_pendq vk vk_chan_id.h2vk q_num entry) entry env.card_rd
  obtain ⟨_, _, _, g4, g5, _, g7⟩ := bcm_h2vk_msg_enqueue_frame K
    (bcm_vk_append_pendq vk vk_chan_id.h2vk q_num entry) entry env.card_rd
  have a5 : (bcm_vk_append_pendq vk vk_chan_id.h2vk q_num entry).h2vk_msg_chan.pendq q_num =
      vk.h2vk_msg_chan.pendq q_num ++ [entry] :=
    (bcm_vk_append_pendq_msgq vk vk_chan_id.h2vk q_num entry).2.2.2.2
  have hv : (bcm_vk_append_pendq vk vk_chan_id.h2vk q_num entry).vk2h_msg_chan.pendq =
      vk.vk2h_msg_chan.pendq := by
    unfold bcm_vk_append_pendq
    split <;> rfl
  have ho : ∀ q, q ≠ q_num →
      (bcm_vk_append_pendq vk vk_chan_id.h2vk q_num entry).h2vk_msg_chan.pendq q =
        vk.h2vk_msg_chan.pendq q := by
    intro q hq
    unfold bcm_vk_append_pendq
    split
    · show (if q = q_num then _ else _) = _
      rw [if_neg hq]
      rfl
    · show (if q = q_num then _ else _) = _
      rw [if_neg hq]
      rfl
  unfold write_send
  simp only []
  generalize bcm_h2vk_msg_enqueue K (bcm_vk_append_pendq vk vk_chan_id.h2vk q_num entry) entry
    env.card_rd = r at f1 f2 f3 g4 g5 g7
  have hlist : ∀ q, (set_chan r.vk vk_chan_id.h2vk
      (set_pendq r.vk.h2vk_msg_chan q_num
        ((r.vk.h2vk_msg_chan.pendq q_num).dropLast ++ [r.entry]))).h2vk_msg_chan.pendq q =
      if q = q_num then vk.h2vk_msg_chan.pendq q_num ++ [r.entry]
      else vk.h2vk_msg_chan.pendq q := by
    intro q
    show (if q = q_num then _ else _) = _
    by_cases hq : q = q_num
    · rw [if_pos hq, if_pos hq, g4, a5, List.dropLast_concat]
    · rw [if_neg hq, if_neg hq, g4, ho q hq]
  have hmem : ∀ q x, x ∈ (set_chan r.vk vk_chan_id.h2vk
      (set_pendq r.vk.h2vk_msg_chan q_num
        ((r.vk.h2vk_msg_chan.pendq q_num).dropLast ++ [r.entry]))).h2vk_msg_chan.pendq q →
      x ∈ vk.h2vk_msg_chan.pendq q ∨
        (q = q_num ∧ x.ctx = entry.ctx ∧ x.usr_msg_id = entry.usr_msg_id ∧
          x.vk2h_msg = entry.vk2h_msg) := by
    intro q x hx
    rw [hlist] at hx
    by_cases hq : q = q_num
    · rw [if_pos hq] at hx
      rcases List.mem_append.1 hx with hx | hx
      · left
        rw [hq]
        exact hx
      · right
        rw [List.mem_singleton.1 hx]
        exact ⟨hq, f1, f2, g7⟩
    · rw [if_neg hq] at hx
      exact Or.inl hx
  split
  · rename_i hrc
    refine ⟨?_, ?_, ?_⟩
    · intro q x hx
      have hx2 := (bcm_vk_find_pending_h2vk_mem _ q_num _).1 q x hx
      exact hmem q x hx2
    · intro h
      have h1 : r.rc = (count : Int) := h
      omega
    · rw [(bcm_vk_find_pending_h2vk_mem _ q_num _).2]
      show r.vk.vk2h_msg_chan.pendq = _
      rw [g5, hv]
  · refine ⟨hmem, ?_, ?_⟩
    · intro _
      refine ⟨r.entry, ?_, f1, f2, g7⟩
      have := hlist q_num
      rw [if_pos rfl] at this
      exact this
    · show r.vk.vk2h_msg_chan.pendq = _
      rw [g5, hv]

/-- The entry `bcm_vk_write` stores carries the id the user put into the first
block: an entry on a host-to-card pending list after the call was there before
or belongs to the writing context and has `usr_msg_id` equal to the message id
of the first block of the user's buffer; a write that returns `count` has put
exactly that entry at the tail of the list of the queue the block names.  The
response lists are as before. -/
theorem bcm_vk_write_usr_msg_id (K : vk_consts) (vk : bcm_vk) (c count : Nat) (env : vk_env) :
    (∀ q x, x ∈ (bcm_vk_write K vk c count env).2.h2vk_msg_chan.pendq q →
      x ∈ vk.h2vk_msg_chan.pendq q ∨
        (q = write_q_num K count env ∧ x.ctx = c ∧
          x.usr_msg_id = BCM_VK_GET_MSG_ID ((write_msg K count env).headD vk_msg_blk.zero) ∧
          x.vk2h_msg = none)) ∧
    (env.sg_rc ≤ 0 → (bcm_vk_write K vk c count env).1 = (count : Int) →
      ∃ x, (bcm_vk_write K vk c count env).2.h2vk_msg_chan.pendq (write_q_num K count env) =
          vk.h2vk_msg_chan.pendq (write_q_num K count env) ++ [x] ∧
        x.ctx = c ∧
        x.usr_msg_id = BCM_VK_GET_MSG_ID ((write_msg K count env).headD vk_msg_blk.zero) ∧
        x.vk2h_msg = none) ∧
    (bcm_vk_write K vk c count env).2.vk2h_msg_chan.pendq = vk.vk2h_msg_chan.pendq := by
  suffices H : ∀ w : Int × bcm_vk, bcm_vk_write K vk c count env = w →
      (∀ q x, x ∈ w.2.h2vk_msg_chan.pendq q →
        x ∈ vk.h2vk_msg_chan.pendq q ∨
          (q = write_q_num K count env ∧ x.ctx = c ∧
            x.usr_msg_id = BCM_VK_GET_MSG_ID ((write_msg K count env).headD vk_msg_blk.zero) ∧
            x.vk2h_msg = none)) ∧
      (env.sg_rc ≤ 0 → w.1 = (count : Int) →
        ∃ x, w.2.h2vk_msg_chan.pendq (write_q_num K count env) =
            vk.h2vk_msg_chan.pendq (write_q_num K count env) ++ [x] ∧
          x.ctx = c ∧
          x.usr_msg_id = BCM_VK_GET_MSG_ID ((write_msg K count env).headD vk_msg_blk.zero) ∧
          x.vk2h_msg = none) ∧
      w.2.vk2h_msg_chan.pendq = vk.vk2h_msg_chan.pendq from H _ rfl
  have hneg : ∀ e : Int, e < 0 → e = (count : Int) → False := by
    intro e h1 h2
    omega
  intro w hw
  unfold bcm_vk_write at hw
  split at hw
  · subst hw
    exact ⟨fun _ _ hx => Or.inl hx, fun _ h => (hneg _ (show (-EPERM : Int) < 0 by decide) h).elim, rfl⟩
  · simp only [] at hw
    split at hw
    · subst hw
      exact ⟨fun _ _ hx => Or.inl hx, fun _ h => (hneg _ (show (-EBADR : Int) < 0 by decide) h).elim, rfl⟩
    · split at hw
      · subst hw
        exact ⟨fun _ _ hx => Or.inl hx, fun _ h => (hneg _ (show (-ENOMEM : Int) < 0 by decide) h).elim, rfl⟩
      · split at hw
        · subst hw
          exact ⟨fun _ _ hx => Or.inl hx, fun _ h => (hneg _ (show (-EPERM : Int) < 0 by decide) h).elim, rfl⟩
        · split at hw
          · subst hw
            exact ⟨fun _ _ hx => Or.inl hx, fun _ h => (hneg _ (show (-EOVERFLOW : Int) < 0 by decide) h).elim, rfl⟩
          · split at hw
            · subst hw
              exact ⟨fun _ _ hx => Or.inl hx, fun _ h => (hneg _ (show (-EOVERFLOW : Int) < 0 by decide) h).elim, rfl⟩
            · have t := write_trans_buf_entry K
                { (bcm_vk_get_msg_id { vk with klog := vk.klog ++ [klog_msg.msg_count count] }).2 with
                  klog := (bcm_vk_get_msg_id
                      { vk with klog := vk.klog ++ [klog_msg.msg_count count] }).2.klog ++
                    [klog_msg.message_ids
                      ((bcm_vk_get_msg_id
                        { vk with klog := vk.klog ++ [klog_msg.msg_count count] }).2.ctx c).idx
                      (BCM_VK_GET_MSG_ID ((write_msg K count env).headD vk_msg_blk.zero))
                      (BCM_VK_GET_MSG_ID
                        (BCM_VK_SET_MSG_ID ((write_msg K count env).headD vk_msg_blk.zero)
                          (bcm_vk_get_msg_id
                            { vk with klog := vk.klog ++ [klog_msg.msg_count count] }).1))] }
                c
                { ctx := c, seq_num := 0,
                  usr_msg_id :=
                    BCM_VK_GET_MSG_ID ((write_msg K count env).headD vk_msg_blk.zero),
                  vk2h_blks := 0, vk2h_msg := none,
                  h2vk_blks := (count >>> K.VK_MSGQ_BLK_SZ_SHIFT) % 4294967296,
                  h2vk_msg :=
                    BCM_VK_SET_MSG_ID ((write_msg K count env).headD vk_msg_blk.zero)
                        (bcm_vk_get_msg_id
                          { vk with klog := vk.klog ++ [klog_msg.msg_count count] }).1 ::
                      (write_msg K count env).tail }
                env
              generalize write_trans_buf K _ c _ env = tb at hw t
              obtain ⟨t1, t2, t3, t4, t5, t6⟩ := t
              obtain ⟨rc, vk2, entry1⟩ := tb
              simp only [] at t1 t2 t3 t4 t5 t6
              obtain ⟨s1, s2, s3⟩ := write_send_pendq K vk2 (write_q_num K count env) count
                entry1 env
              cases rc with
              | some rc =>
                simp only [] at hw
                subst hw
                refine ⟨?_, ?_, ?_⟩
                · intro q x hx
                  left
                  have hx1 : x ∈ vk2.h2vk_msg_chan.pendq q := hx
                  rw [t4] at hx1
                  exact hx1
                · intro hsg h
                  exact (hneg _ (t6 rc hsg rfl) h).elim
                · show vk2.vk2h_msg_chan.pendq = _
                  rw [t5]
                  rfl
              | none =>
                simp only [] at hw
                subst hw
                refine ⟨?_, ?_, ?_⟩
                · intro q x hx
                  rcases s1 q x hx with h1 | ⟨h1, h2, h3, h4⟩
                  · left
                    rw [t4] at h1
                    exact h1
                  · right
                    exact ⟨h1, h2.trans t1, h3.trans t2, h4.trans t3⟩
                · intro _ h
                  obtain ⟨x, h1, h2, h3, h4⟩ := s2 h
                  refine ⟨x, ?_, h2.trans t1, h3.trans t2, h4.trans t3⟩
                  rw [h1, t4]
                  rfl
                · rw [s3, t5]
                  rfl

/-- Transfer of a relation between the device state before and after along
every call of the dequeue that returns: it is enough that the relation holds
across one extracted message, is transitive, and holds between states with
the same pending tables, contexts and bitmap. -/
theorem deq_loop_rel (K : vk_consts) (kzalloc_ok : Nat → Bool) (R : bcm_vk → bcm_vk → Prop)
    (hframe : ∀ vk vk1 : bcm_vk, vk1.h2vk_msg_chan.pendq = vk.h2vk_msg_chan.pendq →
      vk1.vk2h_msg_chan.pendq = vk.vk2h_msg_chan.pendq → vk1.ctx = vk.ctx →
      vk1.bmap = vk.bmap → R vk vk1)
    (htrans : ∀ a b c, R a b → R b c → R a c)
    (hstep : ∀ vk q, deq_head_ok vk q → R vk (deq_msg_step K vk q)) (fuel : Nat) :
    ∀ (q_num total : Nat) (vk : bcm_vk) (r : deq_result),
      deq_loop K kzalloc_ok fuel q_num total vk = some r → R vk r.vk := by
  induction fuel with
  | zero =>
    intro q_num total vk r h
    simp [deq_loop] at h
  | succ fuel ih =>
    intro q_num total vk r h
    rcases deq_loop_cases K kzalloc_ok fuel q_num total vk with
      ⟨_, he⟩ | ⟨_, _, he⟩ | ⟨_, _, _, he⟩ | ⟨_, _, he⟩ | ⟨hok, _, he⟩
    · rw [he] at h
      rw [← Option.some.inj h]
      exact hframe _ _ rfl rfl rfl rfl
    · rw [he] at h
      exact ih _ _ _ _ h
    · rw [he] at h
      rw [← Option.some.inj h]
      refine hframe _ _ ?_ ?_ ?_ ?_
      · show (bcm_vk_set_host_alert _ _).h2vk_msg_chan.pendq = _
        rw [(bcm_vk_set_host_alert_fields _ _).2.2.2.2.2.1]
        rfl
      · show (bcm_vk_set_host_alert _ _).vk2h_msg_chan.pendq = _
        rw [(bcm_vk_set_host_alert_fields _ _).2.2.2.2.1]
        rfl
      · show (bcm_vk_set_host_alert _ _).ctx = _
        rw [(bcm_vk_set_host_alert_fields _ _).2.2.2.2.2.2.2.1]
        rfl
      · show (bcm_vk_set_host_alert _ _).bmap = _
        rw [(bcm_vk_set_host_alert_fields _ _).2.2.2.2.2.2.1]
        rfl
    · rw [he] at h
      rw [← Option.some.inj h]
      exact hframe _ _ rfl rfl rfl rfl
    · rw [he] at h
      exact htrans _ _ _ (hstep vk q_num hok) (ih _ _ _ _ h)

/-- One extracted message moves at most one entry from the host-to-card
pending list of its queue to the response list, with its owner, its user id
and its request blocks as they were; nothing else enters either table. -/
theorem deq_msg_step_moves (K : vk_consts) (vk : bcm_vk) (q : Nat) :
    (∀ q1 x, x ∈ (deq_msg_step K vk q).h2vk_msg_chan.pendq q1 →
      x ∈ vk.h2vk_msg_chan.pendq q1) ∧
    (∀ q1 x, x ∈ (deq_msg_step K vk q).vk2h_msg_chan.pendq q1 →
      x ∈ vk.vk2h_msg_chan.pendq q1 ∨
        ∃ e, e ∈ vk.h2vk_msg_chan.pendq q1 ∧ x.usr_msg_id = e.usr_msg_id ∧ x.ctx = e.ctx) := by
  unfold deq_msg_step
  simp only []
  split
  · exact ⟨fun _ _ hx => hx, fun _ _ hx => Or.inl hx⟩
  · cases hfp : find_pending_in
        (BCM_VK_GET_MSG_ID ((deq_head vk q).1.headD vk_msg_blk.zero))
        (vk.h2vk_msg_chan.pendq q) with
    | none =>
      simp only [bcm_vk_find_pending, get_chan, set_vk2h_msgq, hfp]
      exact ⟨fun _ _ hx => hx, fun _ _ hx => Or.inl hx⟩
    | some p =>
      simp only [bcm_vk_find_pending, get_chan, set_vk2h_msgq, hfp]
      obtain ⟨pre, post, h1, h2, _⟩ := find_pending_in_some _ _ p.1 p.2 hfp
      unfold bcm_vk_append_pendq
      simp only [Option.isSome_some, if_true]
      refine ⟨?_, ?_⟩
      · intro q1 x hx
        have hx1 : x ∈ (if q1 = q then p.2 else vk.h2vk_msg_chan.pendq q1) := hx
        by_cases hq : q1 = q
        · rw [if_pos hq] at hx1
          rw [hq]
          exact find_pending_in_mem _ _ p hfp x hx1
        · rw [if_neg hq] at hx1
          exact hx1
      · intro q1 x hx
        have hx1 : x ∈ (if q1 = q then vk.vk2h_msg_chan.pendq q ++
            [{ p.1 with
               vk2h_blks := (((vk.vk2h_msg_chan.msgq q).ring
                 ((vk.vk2h_msg_chan.msgq q).rd_idx &&&
                   VK_MSGQ_SIZE_MASK (vk.vk2h_msg_chan.sync_qinfo q))).size + 1) % 4294967296
               vk2h_msg := some (deq_head vk q).1 }]
            else vk.vk2h_msg_chan.pendq q1) := hx
        by_cases hq : q1 = q
        · rw [if_pos hq] at hx1
          rcases List.mem_append.1 hx1 with hx2 | hx2
          · left
            rw [hq]
            exact hx2
          · right
            refine ⟨p.1, ?_, ?_, ?_⟩
            · rw [hq, h1]
              exact List.mem_append_right _ (List.mem_cons_self _ _)
            · rw [List.mem_singleton.1 hx2]
            · rw [List.mem_singleton.1 hx2]
        · rw [if_neg hq] at hx1
          exact Or.inl hx1

/-- Every entry on a response list after a call of the dequeue that returns
was there before or comes from the host-to-card pending list of the same
queue, with the owner and the user id it had there; the host-to-card lists
only lose entries. -/
theorem deq_loop_moves (K : vk_consts) (kzalloc_ok : Nat → Bool) (fuel q_num total : Nat)
    (vk : bcm_vk) (r : deq_result) (h : deq_loop K kzalloc_ok fuel q_num total vk = some r) :
    (∀ q1 x, x ∈ r.vk.h2vk_msg_chan.pendq q1 → x ∈ vk.h2vk_msg_chan.pendq q1) ∧
    (∀ q1 x, x ∈ r.vk.vk2h_msg_chan.pendq q1 →
      x ∈ vk.vk2h_msg_chan.pendq q1 ∨
        ∃ e, e ∈ vk.h2vk_msg_chan.pendq q1 ∧ x.usr_msg_id = e.usr_msg_id ∧ x.ctx = e.ctx) := by
  refine deq_loop_rel K kzalloc_ok
    (fun vk vk1 =>
      (∀ q1 x, x ∈ vk1.h2vk_msg_chan.pendq q1 → x ∈ vk.h2vk_msg_chan.pendq q1) ∧
      (∀ q1 x, x ∈ vk1.vk2h_msg_chan.pendq q1 →
        x ∈ vk.vk2h_msg_chan.pendq q1 ∨
          ∃ e, e ∈ vk.h2vk_msg_chan.pendq q1 ∧ x.usr_msg_id = e.usr_msg_id ∧ x.ctx = e.ctx))
    ?_ ?_ ?_ fuel q_num total vk r h
  · intro vk vk1 h1 h2 _ _
    refine ⟨?_, ?_⟩
    · intro q1 x hx
      rw [h1] at hx
      exact hx
    · intro q1 x hx
      rw [h2] at hx
      exact Or.inl hx
  · intro a b c hab hbc
    refine ⟨fun q1 x hx => hab.1 q1 x (hbc.1 q1 x hx), ?_⟩
    intro q1 x hx
    rcases hbc.2 q1 x hx with hx1 | ⟨e, he, h1, h2⟩
    · exact hab.2 q1 x hx1
    · exact Or.inr ⟨e, hab.1 q1 e he, h1, h2⟩
  · intro vk q _
    exact deq_msg_step_moves K vk q

/-! ## Responses matched and responses discarded -/

/-- One extracted message only adds to the response lists, only clears bits
of the bitmap and only raises pending counters. -/
theorem deq_msg_step_mono (K : vk_consts) (vk : bcm_vk) (q : Nat) :
    (∀ q1, ∃ l, (deq_msg_step K vk q).vk2h_msg_chan.pendq q1 =
      vk.vk2h_msg_chan.pendq q1 ++ l) ∧
    (∀ i, vk.bmap i = false → (deq_msg_step K vk q).bmap i = false) ∧
    (∀ i, (vk.ctx i).pend_cnt ≤ ((deq_msg_step K vk q).ctx i).pend_cnt) := by
  unfold deq_msg_step
  simp only []
  split
  · exact ⟨fun _ => ⟨[], (List.append_nil _).symm⟩, fun _ h => h, fun _ => le_refl _⟩
  · cases hfp : find_pending_in
        (BCM_VK_GET_MSG_ID ((deq_head vk q).1.headD vk_msg_blk.zero))
        (vk.h2vk_msg_chan.pendq q) with
    | none =>
      simp only [bcm_vk_find_pending, get_chan, set_vk2h_msgq, hfp]
      exact ⟨fun _ => ⟨[], (List.append_nil _).symm⟩, fun _ h => h, fun _ => le_refl _⟩
    | some p =>
      simp only [bcm_vk_find_pending, get_chan, set_vk2h_msgq, hfp]
      unfold bcm_vk_append_pendq
      simp only [Option.isSome_some, if_true]
      refine ⟨?_, ?_, ?_⟩
      · intro q1
        show ∃ l, (if q1 = q then _ else _) = _
        by_cases hq : q1 = q
        · rw [if_pos hq, hq]
          exact ⟨_, rfl⟩
        · rw [if_neg hq]
          exact ⟨[], (List.append_nil _).symm⟩
      · intro i hi
        show (if _ ≤ i ∧ i < _ + 1 then false else vk.bmap i) = false
        split
        · rfl
        · exact hi
      · intro i
        show _ ≤ (if i = p.1.ctx then _ else _ : bcm_vk_ctx).pend_cnt
        by_cases hc : i = p.1.ctx
        · rw [if_pos hc]
          show (vk.ctx i).pend_cnt ≤ (vk.ctx i).pend_cnt + 1
          omega
        · rw [if_neg hc]
          exact le_refl _

/-- A call of the dequeue that returns has only added to the response lists,
only cleared bits of the bitmap and only raised pending counters. -/
theorem deq_loop_mono (K : vk_consts) (kzalloc_ok : Nat → Bool) (fuel q_num total : Nat)
    (vk : bcm_vk) (r : deq_result) (h : deq_loop K kzalloc_ok fuel q_num total vk = some r) :
    (∀ q1, ∃ l, r.vk.vk2h_msg_chan.pendq q1 = vk.vk2h_msg_chan.pendq q1 ++ l) ∧
    (∀ i, vk.bmap i = false → r.vk.bmap i = false) ∧
    (∀ i, (vk.ctx i).pend_cnt ≤ (r.vk.ctx i).pend_cnt) := by
  refine deq_loop_rel K kzalloc_ok
    (fun vk vk1 =>
      (∀ q1, ∃ l, vk1.vk2h_msg_chan.pendq q1 = vk.vk2h_msg_chan.pendq q1 ++ l) ∧
      (∀ i, vk.bmap i = false → vk1.bmap i = false) ∧
      (∀ i, (vk.ctx i).pend_cnt ≤ (vk1.ctx i).pend_cnt))
    ?_ ?_ ?_ fuel q_num total vk r h
  · intro vk vk1 _ h2 h3 h4
    refine ⟨fun q1 => ⟨[], ?_⟩, fun i hi => ?_, fun i => ?_⟩
    · rw [h2, List.append_nil]
    · rw [h4]
      exact hi
    · rw [h3]
  · intro a b c hab hbc
    refine ⟨fun q1 => ?_, fun i hi => hbc.2.1 i (hab.2.1 i hi),
      fun i => le_trans (hab.2.2 i) (hbc.2.2 i)⟩
    obtain ⟨l1, h1⟩ := hab.1 q1
    obtain ⟨l2, h2⟩ := hbc.1 q1
    exact ⟨l1 ++ l2, by rw [h2, h1, List.append_assoc]⟩
  · intro vk q _
    exact deq_msg_step_mono K vk q

/-- C11: for a drained device message on queue `q` that is not one-way and
whose message id is that of an entry `e` on the host-to-card pending list of
queue `q` (the first such entry), `bcm_vk2h_msg_dequeue` counts the message
and goes on in a state where `e` is off that list (the other entries keep
their order, other queues keep their lists), the bit of the id is clear (other
bits as before), `e` with the linearised response of `size + 1` blocks
attached is at the tail of the response list of queue `q`, and the pending
counter of the context owning `e` is one higher (other contexts as before).
When the message is the last one in the rings the call returns in that state
(with the debug line of the exit added to the log): from the message on with
the running total one higher, and as a whole call with result 1.  Whatever
follows the message in the rings, a call that returns leaves `e` with the
response attached on the response list of queue `q` directly behind the
entries that were there, the bit of the id clear, the pending counter of the
owner of `e` at least one higher and on the host-to-card list of queue `q`
only entries of that list without `e`, and its result is `-ENOMEM` or counts
the message. -/
theorem bcm_vk2h_msg_dequeue_match (K : vk_consts) (kzalloc_ok : Nat → Bool) (q total : Nat)
    (vk : bcm_vk) (pre post : List bcm_vk_wkent) (e : bcm_vk_wkent)
    (hok : deq_head_ok vk q) (hk : kzalloc_ok total = true)
    (hfid : ((deq_head vk q).1.headD vk_msg_blk.zero).function_id ≠ K.VK_FID_SHUTDOWN)
    (hpend : vk.h2vk_msg_chan.pendq q = pre ++ e :: post)
    (hpre : ∀ x ∈ pre, BCM_VK_GET_MSG_ID (x.h2vk_msg.headD vk_msg_blk.zero) ≠
      BCM_VK_GET_MSG_ID ((deq_head vk q).1.headD vk_msg_blk.zero))
    (he : BCM_VK_GET_MSG_ID (e.h2vk_msg.headD vk_msg_blk.zero) =
      BCM_VK_GET_MSG_ID ((deq_head vk q).1.headD vk_msg_blk.zero)) :
    (∀ fuel, deq_loop K kzalloc_ok (fuel + 1) q total vk =
      deq_loop K kzalloc_ok fuel q (total + 1) (deq_msg_step K vk q)) ∧
    (∀ fuel, (deq_head vk q).2 = (vk.vk2h_msg_chan.msgq q).wr_idx →
      (∀ q1, q < q1 → q1 < vk.vk2h_msg_chan.q_nr →
        (vk.vk2h_msg_chan.msgq q1).rd_idx = (vk.vk2h_msg_chan.msgq q1).wr_idx) →
      deq_loop K kzalloc_ok (fuel + 2 + (vk.vk2h_msg_chan.q_nr - q)) q total vk =
        some (deq_exit (deq_msg_step K vk q) (total + 1))) ∧
    (∀ fuel, kzalloc_ok 0 = true →
      (deq_head vk q).2 = (vk.vk2h_msg_chan.msgq q).wr_idx →
      (∀ q1, q1 < vk.vk2h_msg_chan.q_nr → q1 ≠ q →
        (vk.vk2h_msg_chan.msgq q1).rd_idx = (vk.vk2h_msg_chan.msgq q1).wr_idx) →
      bcm_vk2h_msg_dequeue K kzalloc_ok (fuel + 2 + vk.vk2h_msg_chan.q_nr) vk =
        some (deq_exit (deq_msg_step K vk q) 1)) ∧
    (∀ fuel r, deq_loop K kzalloc_ok (fuel + 1) q total vk = some r →
      (∃ l, r.vk.vk2h_msg_chan.pendq q =
        vk.vk2h_msg_chan.pendq q ++
          { e with
            vk2h_blks := (deq_head vk q).1.length
            vk2h_msg := some (deq_head vk q).1 } :: l) ∧
      r.vk.bmap (BCM_VK_GET_MSG_ID ((deq_head vk q).1.headD vk_msg_blk.zero)) = false ∧
      (vk.ctx e.ctx).pend_cnt + 1 ≤ (r.vk.ctx e.ctx).pend_cnt ∧
      (∀ x, x ∈ r.vk.h2vk_msg_chan.pendq q → x ∈ pre ++ post) ∧
      (r.rc = -ENOMEM ∨ ((total + 1 : Nat) : Int) ≤ r.rc)) ∧
    (deq_msg_step K vk q).h2vk_msg_chan.pendq q = pre ++ post ∧
    (∀ q1, q1 ≠ q →
      (deq_msg_step K vk q).h2vk_msg_chan.pendq q1 = vk.h2vk_msg_chan.pendq q1) ∧
    (deq_msg_step K vk q).bmap
      (BCM_VK_GET_MSG_ID ((deq_head vk q).1.headD vk_msg_blk.zero)) = false ∧
    (∀ i, i ≠ BCM_VK_GET_MSG_ID ((deq_head vk q).1.headD vk_msg_blk.zero) →
      (deq_msg_step K vk q).bmap i = vk.bmap i) ∧
    (deq_msg_step K vk q).vk2h_msg_chan.pendq q =
      vk.vk2h_msg_chan.pendq q ++
        [{ e with
           vk2h_blks := (deq_head vk q).1.length
           vk2h_msg := some (deq_head vk q).1 }] ∧
    (∀ q1, q1 ≠ q →
      (deq_msg_step K vk q).vk2h_msg_chan.pendq q1 = vk.vk2h_msg_chan.pendq q1) ∧
    (deq_head vk q).1.length =
      (((vk.vk2h_msg_chan.msgq q).ring
        ((vk.vk2h_msg_chan.msgq q).rd_idx &&&
          VK_MSGQ_SIZE_MASK (vk.vk2h_msg_chan.sync_qinfo q))).size + 1) % 4294967296 ∧
    ((deq_msg_step K vk q).ctx e.ctx).pend_cnt = (vk.ctx e.ctx).pend_cnt + 1 ∧
    (∀ i, i ≠ e.ctx → (deq_msg_step K vk q).ctx i = vk.ctx i) := by
  have hlen : (deq_head vk q).1.length =
      (((vk.vk2h_msg_chan.msgq q).ring
        ((vk.vk2h_msg_chan.msgq q).rd_idx &&&
          VK_MSGQ_SIZE_MASK (vk.vk2h_msg_chan.sync_qinfo q))).size + 1) % 4294967296 :=
    deq_copy_loop_length _ _ _ _ _
  have hfacts :
      (deq_msg_step K vk q).h2vk_msg_chan.pendq q = pre ++ post ∧
      (∀ q1, q1 ≠ q →
        (deq_msg_step K vk q).h2vk_msg_chan.pendq q1 = vk.h2vk_msg_chan.pendq q1) ∧
      (deq_msg_step K vk q).bmap
        (BCM_VK_GET_MSG_ID ((deq_head vk q).1.headD vk_msg_blk.zero)) = false ∧
      (∀ i, i ≠ BCM_VK_GET_MSG_ID ((deq_head vk q).1.headD vk_msg_blk.zero) →
        (deq_msg_step K vk q).bmap i = vk.bmap i) ∧
      (deq_msg_step K vk q).vk2h_msg_chan.pendq q =
        vk.vk2h_msg_chan.pendq q ++
          [{ e with
             vk2h_blks := (deq_head vk q).1.length
             vk2h_msg := some (deq_head vk q).1 }] ∧
      (∀ q1, q1 ≠ q →
        (deq_msg_step K vk q).vk2h_msg_chan.pendq q1 = vk.vk2h_msg_chan.pendq q1) ∧
      (deq_head vk q).1.length =
        (((vk.vk2h_msg_chan.msgq q).ring
          ((vk.vk2h_msg_chan.msgq q).rd_idx &&&
            VK_MSGQ_SIZE_MASK (vk.vk2h_msg_chan.sync_qinfo q))).size + 1) % 4294967296 ∧
      ((deq_msg_step K vk q).ctx e.ctx).pend_cnt = (vk.ctx e.ctx).pend_cnt + 1 ∧
      (∀ i, i ≠ e.ctx → (deq_msg_step K vk q).ctx i = vk.ctx i) := by
    rw [deq_msg_step_match K vk q pre post e hfid hpend hpre he, hlen]
    refine ⟨?_, ?_, ?_, ?_, ?_, ?_, rfl, ?_, ?_⟩
    · show (if q = q then pre ++ post else _) = _
      rw [if_pos rfl]
    · intro q1 h1
      show (if q1 = q then pre ++ post else _) = _
      rw [if_neg h1]
    · show (if _ ≤ _ ∧ _ < _ + 1 then false else _) = false
      rw [if_pos ⟨Nat.le_refl _, Nat.lt_succ_self _⟩]
    · intro i hi
      show (if _ ≤ i ∧ i < _ + 1 then false else _) = _
      rw [if_neg (by omega)]
      rfl
    · show (if q = q then _ else _) = _
      rw [if_pos rfl]
      rfl
    · intro q1 h1
      show (if q1 = q then _ else _) = _
      rw [if_neg h1]
      rfl
    · show ((if e.ctx = e.ctx then _ else _ : bcm_vk_ctx)).pend_cnt = _
      rw [if_pos rfl]
      rfl
    · intro i hi
      show (if i = e.ctx then _ else _) = _
      rw [if_neg hi]
      rfl
  refine ⟨fun fuel => deq_loop_step K kzalloc_ok fuel q total vk hok hk,
    fun fuel hlast hemp => deq_loop_last_msg K kzalloc_ok fuel q total vk hok hk hlast hemp,
    fun fuel hk0 hlast hemp =>
      bcm_vk2h_msg_dequeue_only_msg K kzalloc_ok fuel q vk hok hk0 hlast hemp, ?_, hfacts⟩
  intro fuel r h
  rw [deq_loop_step K kzalloc_ok fuel q total vk hok hk] at h
  obtain ⟨m1, m2, m3⟩ := deq_loop_mono K kzalloc_ok fuel q (total + 1) _ r h
  obtain ⟨v1, _⟩ := deq_loop_moves K kzalloc_ok fuel q (total + 1) _ r h
  obtain ⟨l, _, _, hrc, _⟩ := deq_loop_alloc K kzalloc_ok fuel q (total + 1) _ r h
  obtain ⟨f1, _, f3, _, f5, _, _, f8, _⟩ := hfacts
  refine ⟨?_, m2 _ f3, ?_, ?_, ?_⟩
  · obtain ⟨l1, hl1⟩ := m1 q
    refine ⟨l1, ?_⟩
    rw [hl1, f5, List.append_assoc]
    rfl
  · have h3 := m3 e.ctx
    rw [f8] at h3
    exact h3
  · intro x hx
    have h4 := v1 q x hx
    rw [f1] at h4
    exact h4
  · rcases hrc with ⟨h1, _⟩ | ⟨h1, _⟩
    · exact Or.inl h1
    · right
      rw [h1]
      omega

theorem bcm_vk2h_msg_dequeue_match_witness :
    (∃ r, bcm_vk2h_msg_dequeue ex_consts (fun _ => true)
        (0 + 2 + (ex_vk_vk2h 4 0 1 [ex_blk 1 0 0x30]
          [ex_wkent 0 0x10 false, ex_wkent 1 0x30 false]).vk2h_msg_chan.q_nr)
        (ex_vk_vk2h 4 0 1 [ex_blk 1 0 0x30] [ex_wkent 0 0x10 false, ex_wkent 1 0x30 false]) =
        some r ∧
      r.rc = 1 ∧
      r.vk.h2vk_msg_chan.pendq 0 = [ex_wkent 0 0x10 false] ∧
      r.vk.bmap 3 = false ∧
      r.vk.bmap 1 = true ∧
      r.vk.vk2h_msg_chan.pendq 0 =
        [{ ex_wkent 1 0x30 false with vk2h_blks := 1, vk2h_msg := some [ex_blk 1 0 0x30] }] ∧
      (r.vk.ctx 1).pend_cnt = 1 ∧
      (r.vk.ctx 0).pend_cnt = 0 ∧
      (r.vk.vk2h_msg_chan.msgq 0).rd_idx = 1) ∧
    (∃ r, deq_loop ex_consts (fun _ => true) (9 + 1) 0 0
        (ex_vk_vk2h 4 0 2 [ex_blk 1 0 0x30, ex_blk 2 0 0x50]
          [ex_wkent 0 0x10 false, ex_wkent 1 0x30 false]) = some r ∧
      r.rc = 2 ∧
      (∃ l, r.vk.vk2h_msg_chan.pendq 0 =
        [] ++ { ex_wkent 1 0x30 false with
                vk2h_blks := 1, vk2h_msg := some [ex_blk 1 0 0x30] } :: l) ∧
      r.vk.bmap 3 = false ∧
      (0 : Int) + 1 ≤ (r.vk.ctx 1).pend_cnt ∧
      (∀ x, x ∈ r.vk.h2vk_msg_chan.pendq 0 → x ∈ [ex_wkent 0 0x10 false] ++ []) ∧
      (r.rc = -ENOMEM ∨ ((0 + 1 : Nat) : Int) ≤ r.rc)) :=
  ⟨⟨_, (bcm_vk2h_msg_dequeue_match ex_consts (fun _ => true) 0 0
        (ex_vk_vk2h 4 0 1 [ex_blk 1 0 0x30] [ex_wkent 0 0x10 false, ex_wkent 1 0x30 false])
        [ex_wkent 0 0x10 false] [] (ex_wkent 1 0x30 false)
        ⟨by decide, by decide, by decide, by decide⟩ rfl (by decide) rfl (by decide)
        (by decide)).2.2.1 0 rfl rfl (fun q1 h1 h2 => by
          have h3 : q1 < 2 := h1
          obtain rfl : q1 = 1 := by omega
          decide),
      by decide, by decide, by decide, by decide, by decide, by decide, by decide, by decide⟩,
    ⟨(deq_loop ex_consts (fun _ => true) (9 + 1) 0 0
        (ex_vk_vk2h 4 0 2 [ex_blk 1 0 0x30, ex_blk 2 0 0x50]
          [ex_wkent 0 0x10 false, ex_wkent 1 0x30 false])).get (by decide),
      Option.eq_some_of_isSome _, by decide,
      (bcm_vk2h_msg_dequeue_match ex_consts (fun _ => true) 0 0
        (ex_vk_vk2h 4 0 2 [ex_blk 1 0 0x30, ex_blk 2 0 0x50]
          [ex_wkent 0 0x10 false, ex_wkent 1 0x30 false])
        [ex_wkent 0 0x10 false] [] (ex_wkent 1 0x30 false)
        ⟨by decide, by decide, by decide, by decide⟩ rfl (by decide) rfl (by decide)
        (by decide)).2.2.2.1 9 _ (Option.eq_some_of_isSome _)⟩⟩

/-- C12: for a drained device message that is one-way (function id
`VK_FID_SHUTDOWN`, whatever is on the pending lists) or orphaned (no entry on
the host-to-card pending list of its queue carries its id),
`bcm_vk2h_msg_dequeue` counts the message and goes on in a state that differs
from the one before only in the read index of the queue, which is behind the
message (`rd_idx + size + 1` wrapped, for a ring of `2 ^ k` blocks), and in
the log: both pending tables, the bitmap, the contexts, the transport-ready
flag and the host alerts are as before.  When the message is the last one in
the rings the call returns in that state (with the debug line of the exit
added to the log): from the message on with the running total one higher, and
as a whole call with result 1.  Whatever follows the message in the rings,
the result of a call that returns is `-ENOMEM` or counts the message. -/
theorem bcm_vk2h_msg_dequeue_discard (K : vk_consts) (kzalloc_ok : Nat → Bool) (q total : Nat)
    (vk : bcm_vk) (hok : deq_head_ok vk q) (hk : kzalloc_ok total = true)
    (hdis : ((deq_head vk q).1.headD vk_msg_blk.zero).function_id = K.VK_FID_SHUTDOWN ∨
      ∀ x ∈ vk.h2vk_msg_chan.pendq q,
        BCM_VK_GET_MSG_ID (x.h2vk_msg.headD vk_msg_blk.zero) ≠
          BCM_VK_GET_MSG_ID ((deq_head vk q).1.headD vk_msg_blk.zero)) :
    (∀ fuel, deq_loop K kzalloc_ok (fuel + 1) q total vk =
      deq_loop K kzalloc_ok fuel q (total + 1) (deq_msg_step K vk q)) ∧
    (∀ fuel, (deq_head vk q).2 = (vk.vk2h_msg_chan.msgq q).wr_idx →
      (∀ q1, q < q1 → q1 < vk.vk2h_msg_chan.q_nr →
        (vk.vk2h_msg_chan.msgq q1).rd_idx = (vk.vk2h_msg_chan.msgq q1).wr_idx) →
      deq_loop K kzalloc_ok (fuel + 2 + (vk.vk2h_msg_chan.q_nr - q)) q total vk =
        some (deq_exit (deq_msg_step K vk q) (total + 1))) ∧
    (∀ fuel, kzalloc_ok 0 = true →
      (deq_head vk q).2 = (vk.vk2h_msg_chan.msgq q).wr_idx →
      (∀ q1, q1 < vk.vk2h_msg_chan.q_nr → q1 ≠ q →
        (vk.vk2h_msg_chan.msgq q1).rd_idx = (vk.vk2h_msg_chan.msgq q1).wr_idx) →
      bcm_vk2h_msg_dequeue K kzalloc_ok (fuel + 2 + vk.vk2h_msg_chan.q_nr) vk =
        some (deq_exit (deq_msg_step K vk q) 1)) ∧
    (∀ fuel r, deq_loop K kzalloc_ok (fuel + 1) q total vk = some r →
      r.rc = -ENOMEM ∨ ((total + 1 : Nat) : Int) ≤ r.rc) ∧
    (∃ l, deq_msg_step K vk q =
      { set_vk2h_msgq vk q { vk.vk2h_msg_chan.msgq q with rd_idx := (deq_head vk q).2 } with
        klog := vk.klog ++ l }) ∧
    (deq_msg_step K vk q).h2vk_msg_chan = vk.h2vk_msg_chan ∧
    (deq_msg_step K vk q).vk2h_msg_chan.pendq = vk.vk2h_msg_chan.pendq ∧
    (deq_msg_step K vk q).bmap = vk.bmap ∧
    (deq_msg_step K vk q).ctx = vk.ctx ∧
    bcm_vk_drv_access_ok (deq_msg_step K vk q) = bcm_vk_drv_access_ok vk ∧
    (deq_msg_step K vk q).host_alert_notfs = vk.host_alert_notfs ∧
    (deq_msg_step K vk q).wq_notf_pend = vk.wq_notf_pend ∧
    ((deq_msg_step K vk q).vk2h_msg_chan.msgq q).rd_idx = (deq_head vk q).2 ∧
    (∀ k, k ≤ 32 → (vk.vk2h_msg_chan.sync_qinfo q).q_mask = 2 ^ k - 1 →
      (vk.vk2h_msg_chan.msgq q).rd_idx < 2 ^ k →
      (deq_head vk q).2 =
        ((vk.vk2h_msg_chan.msgq q).rd_idx +
          (((vk.vk2h_msg_chan.msgq q).ring
            ((vk.vk2h_msg_chan.msgq q).rd_idx &&&
              VK_MSGQ_SIZE_MASK (vk.vk2h_msg_chan.sync_qinfo q))).size + 1) % 4294967296) %
          2 ^ k) := by
  obtain ⟨l, hl⟩ := deq_msg_step_discard K vk q hdis
  refine ⟨fun fuel => deq_loop_step K kzalloc_ok fuel q total vk hok hk,
    fun fuel hlast hemp => deq_loop_last_msg K kzalloc_ok fuel q total vk hok hk hlast hemp,
    fun fuel hk0 hlast hemp =>
      bcm_vk2h_msg_dequeue_only_msg K kzalloc_ok fuel q vk hok hk0 hlast hemp,
    fun fuel r h => by
      rw [deq_loop_step K kzalloc_ok fuel q total vk hok hk] at h
      obtain ⟨l1, _, _, hrc, _⟩ := deq_loop_alloc K kzalloc_ok fuel q (total + 1) _ r h
      rcases hrc with ⟨h1, _⟩ | ⟨h1, _⟩
      · exact Or.inl h1
      · right
        rw [h1]
        omega,
    ⟨l, hl⟩, ?_⟩
  rw [hl]
  refine ⟨rfl, rfl, rfl, rfl, rfl, rfl, rfl, ?_, ?_⟩
  · show (if q = q then _ else _ : bcm_vk_msgq).rd_idx = _
    rw [if_pos rfl]
  · intro k hk1 hm hrd
    exact deq_copy_loop_rd _ _ k hk1 hm _ _ _ hrd

theorem bcm_vk2h_msg_dequeue_discard_witness :
    (∃ r, bcm_vk2h_msg_dequeue ex_consts (fun _ => true)
        (0 + 2 + (ex_vk_vk2h 4 0 1 [ex_blk 255 0 0x30] [ex_wkent 0 0x10 false, ex_wkent 1 0x30 false]).vk2h_msg_chan.q_nr)
        (ex_vk_vk2h 4 0 1 [ex_blk 255 0 0x30] [ex_wkent 0 0x10 false, ex_wkent 1 0x30 false]) = some r ∧
      r.rc = 1 ∧
      r.vk.h2vk_msg_chan.pendq 0 = [ex_wkent 0 0x10 false, ex_wkent 1 0x30 false] ∧
      r.vk.vk2h_msg_chan.pendq 0 = [] ∧
      r.vk.bmap 1 = true ∧ r.vk.bmap 3 = true ∧ r.vk.bmap 5 = false ∧
      (r.vk.ctx 0).pend_cnt = 0 ∧ (r.vk.ctx 1).pend_cnt = 0 ∧
      bcm_vk_drv_access_ok r.vk = true ∧
      r.vk.host_alert_notfs = 0 ∧
      (r.vk.vk2h_msg_chan.msgq 0).rd_idx = 1) ∧
    (∃ r, bcm_vk2h_msg_dequeue ex_consts (fun _ => true)
        (0 + 2 + (ex_vk_vk2h 4 0 1 [ex_blk 2 0 0x50] [ex_wkent 0 0x10 false, ex_wkent 1 0x30 false]).vk2h_msg_chan.q_nr)
        (ex_vk_vk2h 4 0 1 [ex_blk 2 0 0x50] [ex_wkent 0 0x10 false, ex_wkent 1 0x30 false]) = some r ∧
      r.rc = 1 ∧
      r.vk.h2vk_msg_chan.pendq 0 = [ex_wkent 0 0x10 false, ex_wkent 1 0x30 false] ∧
      r.vk.vk2h_msg_chan.pendq 0 = [] ∧
      r.vk.bmap 1 = true ∧ r.vk.bmap 3 = true ∧ r.vk.bmap 5 = false ∧
      (r.vk.ctx 0).pend_cnt = 0 ∧ (r.vk.ctx 1).pend_cnt = 0 ∧
      bcm_vk_drv_access_ok r.vk = true ∧
      r.vk.host_alert_notfs = 0 ∧
      (r.vk.vk2h_msg_chan.msgq 0).rd_idx = 1) :=
  ⟨⟨_, (bcm_vk2h_msg_dequeue_discard ex_consts (fun _ => true) 0 0
      (ex_vk_vk2h 4 0 1 [ex_blk 255 0 0x30] [ex_wkent 0 0x10 false, ex_wkent 1 0x30 false])
      ⟨by decide, by decide, by decide, by decide⟩ rfl (Or.inl (by decide))).2.2.1 0 rfl rfl
      (fun q1 h1 h2 => by
        have h3 : q1 < 2 := h1
        obtain rfl : q1 = 1 := by omega
        decide),
    by decide, by decide, by decide, by decide, by decide, by decide, by decide, by decide,
    by decide, by decide, by decide⟩,
   ⟨_, (bcm_vk2h_msg_dequeue_discard ex_consts (fun _ => true) 0 0
      (ex_vk_vk2h 4 0 1 [ex_blk 2 0 0x50] [ex_wkent 0 0x10 false, ex_wkent 1 0x30 false])
      ⟨by decide, by decide, by decide, by decide⟩ rfl (Or.inr (by decide))).2.2.1 0 rfl rfl
      (fun q1 h1 h2 => by
        have h3 : q1 < 2 := h1
        obtain rfl : q1 = 1 := by omega
        decide),
    by decide, by decide, by decide, by decide, by decide, by decide, by decide, by decide,
    by decide, by decide, by decide⟩⟩

/-! ## What read hands back -/

/-- The entry `read_find_in` finds is on the list it searched. -/
theorem read_find_in_entry_mem (vk : bcm_vk) (c : Nat) (l : List bcm_vk_wkent) :
    ∀ e rest, read_find_in vk c l = some (e, rest) → e ∈ l := by
  induction l with
  | nil =>
    intro e rest h
    cases h
  | cons y l ih =>
    intro e rest h
    rw [read_find_in] at h
    by_cases ho : wkent_owned vk c y = true
    · rw [if_pos ho] at h
      cases h
      exact List.mem_cons_self _ _
    · rw [if_neg ho] at h
      cases hr : read_find_in vk c l with
      | none =>
        rw [hr] at h
        cases h
      | some p =>
        rw [hr] at h
        cases h
        exact List.mem_cons_of_mem _ (ih p.1 p.2 hr)

/-- The entry the search loops of `bcm_vk_read` find is on the response list
of the queue they report. -/
theorem read_find_entry_mem (vk : bcm_vk) (c : Nat) (n : Nat) :
    ∀ q0 q e rest, read_find vk c n q0 = some (q, e, rest) →
      e ∈ vk.vk2h_msg_chan.pendq q := by
  induction n with
  | zero =>
    intro q0 q e rest h
    cases h
  | succ n ih =>
    intro q0 q e rest h
    rw [read_find] at h
    cases hr : read_find_in vk c (vk.vk2h_msg_chan.pendq q0) with
    | none =>
      rw [hr] at h
      exact ih (q0 + 1) q e rest h
    | some p =>
      rw [hr] at h
      cases h
      exact read_find_in_entry_mem vk c _ p.1 p.2 hr

/-- Whatever `bcm_vk_read` copies out starts with a block whose message id
is the `usr_msg_id` of an entry that was on a response list. -/
theorem bcm_vk_read_ubuf_head (K : vk_consts) (vk : bcm_vk) (c count : Nat) (copy_ok : Bool)
    (h : (bcm_vk_read K vk c count copy_ok).ubuf ≠ []) :
    ∃ q x, x ∈ vk.vk2h_msg_chan.pendq q ∧
      BCM_VK_GET_MSG_ID ((bcm_vk_read K vk c count copy_ok).ubuf.headD vk_msg_blk.zero) =
        x.usr_msg_id % 4096 := by
  suffices H : ∀ w : read_result, bcm_vk_read K vk c count copy_ok = w → w.ubuf ≠ [] →
      ∃ q x, x ∈ vk.vk2h_msg_chan.pendq q ∧
        BCM_VK_GET_MSG_ID (w.ubuf.headD vk_msg_blk.zero) = x.usr_msg_id % 4096 from H _ rfl h
  intro w hw hne
  unfold bcm_vk_read at hw
  split at hw
  · subst hw
    exact absurd rfl hne
  · simp only [] at hw
    cases hf : read_find { vk with klog := vk.klog ++ [klog_msg.buf_count count] } c
        vk.vk2h_msg_chan.q_nr 0 with
    | none =>
      rw [hf] at hw
      subst hw
      exact absurd rfl hne
    | some p =>
      obtain ⟨q, e, rest⟩ := p
      have hmem : e ∈ vk.vk2h_msg_chan.pendq q :=
        read_find_entry_mem { vk with klog := vk.klog ++ [klog_msg.buf_count count] } c _ 0 q e
          rest hf
      rw [hf] at hw
      simp only [] at hw
      refine ⟨q, e, hmem, ?_⟩
      split at hw
      · cases copy_ok with
        | false =>
          subst hw
          exact absurd rfl hne
        | true =>
          subst hw
          simp only [if_true] at hne ⊢
          cases hb : e.vk2h_blks with
          | zero =>
            rw [hb] at hne
            exact absurd rfl hne
          | succ n =>
            exact BCM_VK_GET_MSG_ID_SET_MSG_ID _ _
      · cases copy_ok with
        | false =>
          subst hw
          exact absurd rfl hne
        | true =>
          subst hw
          have hcg : ∀ (b : vk_msg_blk) (s : Nat),
              BCM_VK_GET_MSG_ID { b with size := s } = BCM_VK_GET_MSG_ID b := fun _ _ => rfl
          simp only [if_true, List.headD_cons]
          exact (hcg _ _).trans (BCM_VK_GET_MSG_ID_SET_MSG_ID _ _)

/-- From write to read: a context writes a message into a device whose
pending tables are empty, the card answers (rings and indices change, the
tables do not), and a call of the dequeue returns.  Then the first block of
whatever `bcm_vk_read` copies out afterwards carries, as its message id, the
id of the first block of the buffer the user passed to write. -/
theorem bcm_vk_write_read_usr_msg_id (K : vk_consts) (vk0 vk1 : bcm_vk) (c0 count0 : Nat)
    (env : vk_env) (kzalloc_ok : Nat → Bool) (fuel : Nat) (r : deq_result)
    (hp0 : ∀ q, vk0.h2vk_msg_chan.pendq q = [])
    (hr0 : ∀ q, vk0.vk2h_msg_chan.pendq q = [])
    (h1 : vk1.h2vk_msg_chan.pendq = (bcm_vk_write K vk0 c0 count0 env).2.h2vk_msg_chan.pendq)
    (h2 : vk1.vk2h_msg_chan.pendq = (bcm_vk_write K vk0 c0 count0 env).2.vk2h_msg_chan.pendq)
    (hd : bcm_vk2h_msg_dequeue K kzalloc_ok fuel vk1 = some r)
    (c count : Nat) (copy_ok : Bool)
    (hne : (bcm_vk_read K r.vk c count copy_ok).ubuf ≠ []) :
    BCM_VK_GET_MSG_ID ((bcm_vk_read K r.vk c count copy_ok).ubuf.headD vk_msg_blk.zero) =
      BCM_VK_GET_MSG_ID ((write_msg K count0 env).headD vk_msg_blk.zero) := by
  obtain ⟨q, x, hx, hid⟩ := bcm_vk_read_ubuf_head K r.vk c count copy_ok hne
  obtain ⟨w1, _, w3⟩ := bcm_vk_write_usr_msg_id K vk0 c0 count0 env
  obtain ⟨_, d2⟩ := deq_loop_moves K kzalloc_ok fuel 0 0 vk1 r hd
  have hnew : ∀ q y, y ∈ vk1.h2vk_msg_chan.pendq q →
      y.usr_msg_id = BCM_VK_GET_MSG_ID ((write_msg K count0 env).headD vk_msg_blk.zero) := by
    intro q y hy
    rw [h1] at hy
    rcases w1 q y hy with hy1 | ⟨_, _, hy1, _⟩
    · rw [hp0 q] at hy1
      cases hy1
    · exact hy1
  rw [hid]
  rcases d2 q x hx with hx1 | ⟨e, he, hxe, _⟩
  · rw [h2, w3, hr0 q] at hx1
    cases hx1
  · rw [hxe, hnew q e he]
    exact Nat.mod_eq_of_lt (BCM_VK_GET_MSG_ID_lt _)

/-- The first block of the work entry of a write of at least one block is the
first block of the user's buffer. -/
theorem write_msg_head (K : vk_consts) (count : Nat) (env : vk_env)
    (h : 0 < count >>> K.VK_MSGQ_BLK_SZ_SHIFT) :
    (write_msg K count env).headD vk_msg_blk.zero = env.ubuf 0 := by
  unfold write_msg
  obtain ⟨n, hn⟩ : ∃ n, count >>> K.VK_MSGQ_BLK_SZ_SHIFT = n + 1 :=
    ⟨count >>> K.VK_MSGQ_BLK_SZ_SHIFT - 1, by omega⟩
  rw [hn, List.range_succ_eq_map]
  rfl

/-- C20 (amended): with the transport ready, for every context `c` whose
oldest response in the lowest-numbered queue holding one is `e` (queue `q`,
no entry owned by `c` before `e` on that list nor on the lists of the queues
below `q`), `bcm_vk_read` with a writable buffer of at least
`e.vk2h_blks * VK_MSGQ_BLK_SIZE` bytes returns that length, takes `e` off the
response list (the other entries and lists stay), decrements the pending
counter of `c` by one and changes no other context, and copies out the
response blocks of `e` with the first block passed through
`BCM_VK_SET_MSG_ID(.., e.usr_msg_id)`, which replaces the message id and
keeps the queue bits and every other field.  With no response pending for `c`
it returns `-ENOMSG` and the state changes only by the debug line of the
log.  The id put back is the one the user passed to write: the entry a
successful `bcm_vk_write` appends has `usr_msg_id` equal to the message id of
the first block of the user's buffer (and no other entry appears on a
host-to-card list by a write), the dequeue moves entries to the
response list with `usr_msg_id` and owner as they are, and so after a write
into a device with empty pending tables, the card's answer and a dequeue, the
first block `bcm_vk_read` copies out carries the id of the first block the
user wrote. -/
theorem bcm_vk_read_spec (K : vk_consts) (vk : bcm_vk) (c count : Nat)
    (hready : bcm_vk_drv_access_ok vk = true) :
    (∀ q pre e post, q < vk.vk2h_msg_chan.q_nr →
      vk.vk2h_msg_chan.pendq q = pre ++ e :: post →
      wkent_owned vk c e = true →
      (∀ x ∈ pre, wkent_owned vk c x = false) →
      (∀ q1, q1 < q → ∀ x ∈ vk.vk2h_msg_chan.pendq q1, wkent_owned vk c x = false) →
      e.vk2h_blks * K.VK_MSGQ_BLK_SIZE ≤ count →
      e.vk2h_blks * K.VK_MSGQ_BLK_SIZE < 4294967296 →
      (bcm_vk_read K vk c count true).rc = ((e.vk2h_blks * K.VK_MSGQ_BLK_SIZE : Nat) : Int) ∧
      (bcm_vk_read K vk c count true).vk.vk2h_msg_chan.pendq q = pre ++ post ∧
      (∀ q1, q1 ≠ q →
        (bcm_vk_read K vk c count true).vk.vk2h_msg_chan.pendq q1 =
          vk.vk2h_msg_chan.pendq q1) ∧
      ((bcm_vk_read K vk c count true).vk.ctx c).pend_cnt = (vk.ctx c).pend_cnt - 1 ∧
      (∀ i, i ≠ c → (bcm_vk_read K vk c count true).vk.ctx i = vk.ctx i) ∧
      (bcm_vk_read K vk c count true).ubuf =
        (BCM_VK_SET_MSG_ID ((e.vk2h_msg.getD []).headD vk_msg_blk.zero) e.usr_msg_id ::
          (e.vk2h_msg.getD []).tail).take e.vk2h_blks ∧
      (bcm_vk_read K vk c count true).vk.h2vk_msg_chan = vk.h2vk_msg_chan ∧
      (bcm_vk_read K vk c count true).vk.bmap = vk.bmap) ∧
    (∀ (b : vk_msg_blk) (v : Nat),
      BCM_VK_GET_MSG_ID (BCM_VK_SET_MSG_ID b v) = v % 4096 ∧
      BCM_VK_GET_Q (BCM_VK_SET_MSG_ID b v) = BCM_VK_GET_Q b ∧
      (BCM_VK_SET_MSG_ID b v).function_id = b.function_id ∧
      (BCM_VK_SET_MSG_ID b v).size = b.size ∧
      (BCM_VK_SET_MSG_ID b v).context_id = b.context_id ∧
      (BCM_VK_SET_MSG_ID b v).args = b.args) ∧
    ((∀ q, q < vk.vk2h_msg_chan.q_nr →
        ∀ x ∈ vk.vk2h_msg_chan.pendq q, wkent_owned vk c x = false) →
      ∀ copy_ok, (bcm_vk_read K vk c count copy_ok).rc = -ENOMSG ∧
        (bcm_vk_read K vk c count copy_ok).vk =
          { vk with klog := vk.klog ++ [klog_msg.buf_count count] } ∧
        (bcm_vk_read K vk c count copy_ok).ubuf = []) ∧
    (∀ (vk0 : bcm_vk) (c0 count0 : Nat) (env : vk_env), env.sg_rc ≤ 0 →
      (bcm_vk_write K vk0 c0 count0 env).1 = (count0 : Int) →
      ∃ x, (bcm_vk_write K vk0 c0 count0 env).2.h2vk_msg_chan.pendq (write_q_num K count0 env) =
          vk0.h2vk_msg_chan.pendq (write_q_num K count0 env) ++ [x] ∧
        x.ctx = c0 ∧
        x.usr_msg_id = BCM_VK_GET_MSG_ID ((write_msg K count0 env).headD vk_msg_blk.zero) ∧
        x.vk2h_msg = none) ∧
    (∀ (vk0 : bcm_vk) (c0 count0 : Nat) (env : vk_env) (q : Nat) (x : bcm_vk_wkent),
      x ∈ (bcm_vk_write K vk0 c0 count0 env).2.h2vk_msg_chan.pendq q →
      x ∈ vk0.h2vk_msg_chan.pendq q ∨
        (q = write_q_num K count0 env ∧ x.ctx = c0 ∧
          x.usr_msg_id = BCM_VK_GET_MSG_ID ((write_msg K count0 env).headD vk_msg_blk.zero) ∧
          x.vk2h_msg = none)) ∧
    (∀ (count0 : Nat) (env : vk_env), 0 < count0 >>> K.VK_MSGQ_BLK_SZ_SHIFT →
      (write_msg K count0 env).headD vk_msg_blk.zero = env.ubuf 0) ∧
    (∀ (kzalloc_ok : Nat → Bool) (fuel : Nat) (vk1 : bcm_vk) (r : deq_result),
      bcm_vk2h_msg_dequeue K kzalloc_ok fuel vk1 = some r →
      ∀ q x, x ∈ r.vk.vk2h_msg_chan.pendq q →
        x ∈ vk1.vk2h_msg_chan.pendq q ∨
          ∃ e, e ∈ vk1.h2vk_msg_chan.pendq q ∧ x.usr_msg_id = e.usr_msg_id ∧ x.ctx = e.ctx) ∧
    (∀ (vk0 vk1 : bcm_vk) (c0 count0 : Nat) (env : vk_env) (kzalloc_ok : Nat → Bool)
      (fuel : Nat) (r : deq_result),
      (∀ q, vk0.h2vk_msg_chan.pendq q = []) → (∀ q, vk0.vk2h_msg_chan.pendq q = []) →
      vk1.h2vk_msg_chan.pendq = (bcm_vk_write K vk0 c0 count0 env).2.h2vk_msg_chan.pendq →
      vk1.vk2h_msg_chan.pendq = (bcm_vk_write K vk0 c0 count0 env).2.vk2h_msg_chan.pendq →
      bcm_vk2h_msg_dequeue K kzalloc_ok fuel vk1 = some r →
      ∀ (c1 count1 : Nat) (copy_ok : Bool),
        (bcm_vk_read K r.vk c1 count1 copy_ok).ubuf ≠ [] →
        BCM_VK_GET_MSG_ID ((bcm_vk_read K r.vk c1 count1 copy_ok).ubuf.headD vk_msg_blk.zero) =
          BCM_VK_GET_MSG_ID ((write_msg K count0 env).headD vk_msg_blk.zero)) := by
  have hnr : ¬ (bcm_vk_drv_access_ok vk = false) := by
    rw [hready]
    decide
  refine ⟨?_, ?_, ?_,
    fun vk0 c0 count0 env hsg hrc => (bcm_vk_write_usr_msg_id K vk0 c0 count0 env).2.1 hsg hrc,
    fun vk0 c0 count0 env q x hx => (bcm_vk_write_usr_msg_id K vk0 c0 count0 env).1 q x hx,
    ?_,
    fun kzalloc_ok fuel vk1 r hd => (deq_loop_moves K kzalloc_ok fuel 0 0 vk1 r hd).2,
    fun vk0 vk1 c0 count0 env kzalloc_ok fuel r hp0 hr0 h1 h2 hd c1 count1 copy_ok hne =>
      bcm_vk_write_read_usr_msg_id K vk0 vk1 c0 count0 env kzalloc_ok fuel r hp0 hr0 h1 h2 hd
        c1 count1 copy_ok hne⟩
  · intro q pre e post hq hpend he hpre hlow hcount hfit
    have hfind : read_find { vk with klog := vk.klog ++ [klog_msg.buf_count count] } c
        vk.vk2h_msg_chan.q_nr 0 = some (q, e, pre ++ post) :=
      read_find_some { vk with klog := vk.klog ++ [klog_msg.buf_count count] } c q pre post e
        hpend hpre he _ 0 (Nat.zero_le _) (by omega) (fun q1 _ h2 => hlow q1 h2)
    unfold bcm_vk_read
    rw [if_neg hnr]
    simp only [hfind, ge_iff_le, hcount, if_true, Nat.mod_eq_of_lt hfit]
    refine ⟨trivial, ?_, ?_, ?_, ?_, trivial, ?_, rfl⟩
    · simp only [set_chan, set_pendq, if_true]
    · intro q1 h1
      simp only [set_chan, set_pendq, if_neg h1]
    · simp only [set_chan, if_true]
    · intro i hi
      simp only [set_chan, if_neg hi]
    · simp only [set_chan]
  · intro b v
    exact ⟨BCM_VK_GET_MSG_ID_SET_MSG_ID b v, BCM_VK_GET_Q_SET_MSG_ID b v, rfl, rfl, rfl, rfl⟩
  · intro hnone copy_ok
    have hfind : read_find { vk with klog := vk.klog ++ [klog_msg.buf_count count] } c
        vk.vk2h_msg_chan.q_nr 0 = none :=
      read_find_none { vk with klog := vk.klog ++ [klog_msg.buf_count count] } c _ 0
        (fun q1 _ h2 => hnone q1 (by omega))
    unfold bcm_vk_read
    rw [if_neg hnr]
    simp only [hfind]
    exact ⟨trivial, trivial, trivial⟩
  · intro count0 env hpos
    exact write_msg_head K count0 env hpos

theorem bcm_vk_read_spec_witness :
    (bcm_vk_write ex_consts ex_pend_open 0 16 (ex_env [ex_blk 1 0 0x70])).1 = 16 ∧
    BCM_VK_GET_MSG_ID ((ex_env [ex_blk 1 0 0x70]).ubuf 0) = 7 ∧
    ex_usr_written.h2vk_msg_chan.pendq 0 = [ex_usr_wkent false] ∧
    ex_usr_drained.vk2h_msg_chan.pendq 0 = [ex_usr_wkent true] ∧
    (bcm_vk_read ex_consts ex_usr_drained 0 16 true).rc = 16 ∧
    (bcm_vk_read ex_consts ex_usr_drained 0 16 true).vk.vk2h_msg_chan.pendq 0 = [] ∧
    ((bcm_vk_read ex_consts ex_usr_drained 0 16 true).vk.ctx 0).pend_cnt = 0 ∧
    (bcm_vk_read ex_consts ex_usr_drained 0 16 true).ubuf = [ex_blk 2 0 0x70] ∧
    BCM_VK_GET_MSG_ID
        ((bcm_vk_read ex_consts ex_usr_drained 0 16 true).ubuf.headD vk_msg_blk.zero) = 7 ∧
    (bcm_vk_read ex_consts (ex_vk_resp true [ex_wkent 1 0x10 true, ex_wkent 0 0x30 true]) 0 16
      true).vk.vk2h_msg_chan.pendq 0 = [ex_wkent 1 0x10 true] ∧
    (bcm_vk_read ex_consts (ex_vk_resp true [ex_wkent 1 0x10 true]) 0 16 true).rc = -ENOMSG := by
  have h := bcm_vk_read_spec ex_consts ex_usr_drained 0 16 rfl
  have h1 := h.1 0 [] (ex_usr_wkent true) [] (by decide) (by decide)
    (by decide) (by decide) (by decide) (by decide) (by decide)
  have h2 := (bcm_vk_read_spec ex_consts (ex_vk_resp true [ex_wkent 1 0x10 true]) 0 16
    rfl).2.2.1 (by decide) true
  have h3 := (bcm_vk_read_spec ex_consts
    (ex_vk_resp true [ex_wkent 1 0x10 true, ex_wkent 0 0x30 true]) 0 16 rfl).1 0
    [ex_wkent 1 0x10 true] (ex_wkent 0 0x30 true) [] (by decide) rfl
    (by decide) (by decide) (by decide) (by decide) (by decide)
  have h4 := h.2.2.2.2.2.2.2 ex_pend_open ex_usr_answered 0 16 (ex_env [ex_blk 1 0 0x70])
    (fun _ => true) 10
    ((bcm_vk2h_msg_dequeue ex_consts (fun _ => true) 10 ex_usr_answered).get (by decide))
    (fun _ => rfl)
    (fun q => by
      show (if q = 0 then [] else []) = []
      split <;> rfl)
    rfl rfl (Option.eq_some_of_isSome _) 0 16 true (by decide)
  have h5 : (bcm_vk_write ex_consts ex_pend_open 0 16 (ex_env [ex_blk 1 0 0x70])).1 = 16 := by
    decide
  obtain ⟨x, hx1, _, hx3, _⟩ := h.2.2.2.1 ex_pend_open 0 16 (ex_env [ex_blk 1 0 0x70])
    (by decide) h5
  refine ⟨h5, by decide, by decide, by decide, h1.1, h1.2.1, ?_, ?_, ?_, h3.2.1, h2.1⟩
  · rw [h1.2.2.2.1]
    decide
  · rw [h1.2.2.2.2.2.1]
    decide
  · exact h4.trans (by decide)

/-- C21 (amended): with the transport ready, for every context `c` whose first
pending response in queue-priority order is `e` (queue `q`, no entry owned by
`c` before `e` on that list nor on the lists of the queues below `q`) and
every writable buffer of `count` bytes that is smaller than the response
(`count < e.vk2h_blks * VK_MSGQ_BLK_SIZE`, a length that fits in 32 bits),
`bcm_vk_read` returns `-EMSGSIZE` and hands back exactly one block: the first
block of `e` with the message id set to `e.usr_msg_id` (queue bits and the
other fields kept) and the size field set to `e.vk2h_blks - 1`.  The state
changes only by the debug line of the log, so `e` stays on the response list
and the pending counter of `c` is what it was; and a retry with a buffer of at
least `e.vk2h_blks * VK_MSGQ_BLK_SIZE` bytes returns the full response, takes
`e` off the list and decrements the pending counter of `c`.  The id in the
block is the user's original one: the entry a successful `bcm_vk_write`
appends has `usr_msg_id` equal to the message id of the first block of the
user's buffer, and after a write into a device with empty pending tables, the
card's answer and a dequeue, the block handed back by a read, too small or
not, carries that id. -/
theorem bcm_vk_read_too_small (K : vk_consts) (vk : bcm_vk) (c count q : Nat)
    (pre post : List bcm_vk_wkent) (e : bcm_vk_wkent)
    (hready : bcm_vk_drv_access_ok vk = true)
    (hq : q < vk.vk2h_msg_chan.q_nr)
    (hpend : vk.vk2h_msg_chan.pendq q = pre ++ e :: post)
    (he : wkent_owned vk c e = true)
    (hpre : ∀ x ∈ pre, wkent_owned vk c x = false)
    (hlow : ∀ q1, q1 < q → ∀ x ∈ vk.vk2h_msg_chan.pendq q1, wkent_owned vk c x = false)
    (hsmall : count < e.vk2h_blks * K.VK_MSGQ_BLK_SIZE)
    (hfit : e.vk2h_blks * K.VK_MSGQ_BLK_SIZE < 4294967296) :
    (bcm_vk_read K vk c count true).rc = -EMSGSIZE ∧
    (∃ b, (bcm_vk_read K vk c count true).ubuf = [b] ∧
      b = { BCM_VK_SET_MSG_ID ((e.vk2h_msg.getD []).headD vk_msg_blk.zero) e.usr_msg_id with
            size := e.vk2h_blks - 1 } ∧
      b.size = e.vk2h_blks - 1 ∧
      BCM_VK_GET_MSG_ID b = e.usr_msg_id % 4096 ∧
      BCM_VK_GET_Q b = BCM_VK_GET_Q ((e.vk2h_msg.getD []).headD vk_msg_blk.zero) ∧
      b.function_id = ((e.vk2h_msg.getD []).headD vk_msg_blk.zero).function_id ∧
      b.context_id = ((e.vk2h_msg.getD []).headD vk_msg_blk.zero).context_id ∧
      b.args = ((e.vk2h_msg.getD []).headD vk_msg_blk.zero).args) ∧
    (bcm_vk_read K vk c count true).vk =
      { vk with klog := vk.klog ++ [klog_msg.buf_count count] } ∧
    (bcm_vk_read K vk c count true).vk.vk2h_msg_chan.pendq q = pre ++ e :: post ∧
    ((bcm_vk_read K vk c count true).vk.ctx c).pend_cnt = (vk.ctx c).pend_cnt ∧
    (∀ count1, e.vk2h_blks * K.VK_MSGQ_BLK_SIZE ≤ count1 →
      (bcm_vk_read K (bcm_vk_read K vk c count true).vk c count1 true).rc =
        ((e.vk2h_blks * K.VK_MSGQ_BLK_SIZE : Nat) : Int) ∧
      (bcm_vk_read K (bcm_vk_read K vk c count true).vk c count1 true).ubuf =
        (BCM_VK_SET_MSG_ID ((e.vk2h_msg.getD []).headD vk_msg_blk.zero) e.usr_msg_id ::
          (e.vk2h_msg.getD []).tail).take e.vk2h_blks ∧
      (bcm_vk_read K (bcm_vk_read K vk c count true).vk c count1 true).vk.vk2h_msg_chan.pendq q =
        pre ++ post ∧
      ((bcm_vk_read K (bcm_vk_read K vk c count true).vk c count1 true).vk.ctx c).pend_cnt =
        (vk.ctx c).pend_cnt - 1) ∧
    (∀ (vk0 : bcm_vk) (c0 count0 : Nat) (env : vk_env), env.sg_rc ≤ 0 →
      (bcm_vk_write K vk0 c0 count0 env).1 = (count0 : Int) →
      ∃ x, (bcm_vk_write K vk0 c0 count0 env).2.h2vk_msg_chan.pendq (write_q_num K count0 env) =
          vk0.h2vk_msg_chan.pendq (write_q_num K count0 env) ++ [x] ∧
        x.ctx = c0 ∧
        x.usr_msg_id = BCM_VK_GET_MSG_ID ((write_msg K count0 env).headD vk_msg_blk.zero) ∧
        x.vk2h_msg = none) ∧
    (∀ (vk0 vk1 : bcm_vk) (c0 count0 : Nat) (env : vk_env) (kzalloc_ok : Nat → Bool)
      (fuel : Nat) (r : deq_result),
      (∀ q, vk0.h2vk_msg_chan.pendq q = []) → (∀ q, vk0.vk2h_msg_chan.pendq q = []) →
      vk1.h2vk_msg_chan.pendq = (bcm_vk_write K vk0 c0 count0 env).2.h2vk_msg_chan.pendq →
      vk1.vk2h_msg_chan.pendq = (bcm_vk_write K vk0 c0 count0 env).2.vk2h_msg_chan.pendq →
      bcm_vk2h_msg_dequeue K kzalloc_ok fuel vk1 = some r →
      ∀ (c1 count1 : Nat) (copy_ok : Bool),
        (bcm_vk_read K r.vk c1 count1 copy_ok).ubuf ≠ [] →
        BCM_VK_GET_MSG_ID ((bcm_vk_read K r.vk c1 count1 copy_ok).ubuf.headD vk_msg_blk.zero) =
          BCM_VK_GET_MSG_ID ((write_msg K count0 env).headD vk_msg_blk.zero)) := by
  have hnr : ¬ (bcm_vk_drv_access_ok vk = false) := by
    rw [hready]
    decide
  have hblks : 0 < e.vk2h_blks ∧ e.vk2h_blks < 4294967296 := by
    have h0 : 0 < e.vk2h_blks * K.VK_MSGQ_BLK_SIZE := by omega
    have h1 : 0 < e.vk2h_blks := Nat.pos_of_mul_pos_right h0
    have h2 : 0 < K.VK_MSGQ_BLK_SIZE := Nat.pos_of_mul_pos_left h0
    have h3 : e.vk2h_blks ≤ e.vk2h_blks * K.VK_MSGQ_BLK_SIZE := Nat.le_mul_of_pos_right _ h2
    omega
  have hsize : (e.vk2h_blks + 4294967295) % 4294967296 = e.vk2h_blks - 1 := by omega
  have hfind : ∀ l, read_find { vk with klog := l } c vk.vk2h_msg_chan.q_nr 0 =
      some (q, e, pre ++ post) := fun l =>
    read_find_some { vk with klog := l } c q pre post e
      hpend hpre he _ 0 (Nat.zero_le _) (by omega) (fun q1 _ h2 => hlow q1 h2)
  have hres : bcm_vk_read K vk c count true =
      { rc := -EMSGSIZE, vk := { vk with klog := vk.klog ++ [klog_msg.buf_count count] },
        ubuf := [{ BCM_VK_SET_MSG_ID ((e.vk2h_msg.getD []).headD vk_msg_blk.zero) e.usr_msg_id with
                   size := e.vk2h_blks - 1 }] } := by
    unfold bcm_vk_read
    rw [if_neg hnr]
    simp only [hfind, ge_iff_le, Nat.not_le.mpr hsmall, if_false, if_true, hsize]
  rw [hres]
  refine ⟨rfl, ⟨_, rfl, rfl, rfl, ?_, ?_, rfl, rfl, rfl⟩, rfl, hpend, rfl, ?_,
    fun vk0 c0 count0 env hsg hrc => (bcm_vk_write_usr_msg_id K vk0 c0 count0 env).2.1 hsg hrc,
    fun vk0 vk1 c0 count0 env kzalloc_ok fuel r hp0 hr0 h1 h2 hd c1 count1 copy_ok hne =>
      bcm_vk_write_read_usr_msg_id K vk0 vk1 c0 count0 env kzalloc_ok fuel r hp0 hr0 h1 h2 hd
        c1 count1 copy_ok hne⟩
  · exact BCM_VK_GET_MSG_ID_SET_MSG_ID _ _
  · exact BCM_VK_GET_Q_SET_MSG_ID _ _
  · intro count1 hcount1
    exact bcm_vk_read_fit K { vk with klog := vk.klog ++ [klog_msg.buf_count count] } c count1 q
      pre post e hready hq hpend he hpre hlow hcount1 hfit

theorem bcm_vk_read_too_small_witness :
    (bcm_vk_write ex_consts ex_pend_open 0 16 (ex_env [ex_blk 1 0 0x70])).1 = 16 ∧
    BCM_VK_GET_MSG_ID ((ex_env [ex_blk 1 0 0x70]).ubuf 0) = 7 ∧
    ex_usr_drained.vk2h_msg_chan.pendq 0 = [ex_usr_wkent true] ∧
    (bcm_vk_read ex_consts ex_usr_drained 0 8 true).rc = -EMSGSIZE ∧
    (bcm_vk_read ex_consts ex_usr_drained 0 8 true).ubuf = [ex_blk 2 0 0x70] ∧
    BCM_VK_GET_MSG_ID
        ((bcm_vk_read ex_consts ex_usr_drained 0 8 true).ubuf.headD vk_msg_blk.zero) = 7 ∧
    (bcm_vk_read ex_consts ex_usr_drained 0 8 true).vk.vk2h_msg_chan.pendq 0 =
      [ex_usr_wkent true] ∧
    ((bcm_vk_read ex_consts ex_usr_drained 0 8 true).vk.ctx 0).pend_cnt = 1 ∧
    (bcm_vk_read ex_consts (bcm_vk_read ex_consts ex_usr_drained 0 8 true).vk 0 16 true).rc =
      16 ∧
    (bcm_vk_read ex_consts (bcm_vk_read ex_consts ex_usr_drained 0 8 true).vk 0 16 true).ubuf =
      [ex_blk 2 0 0x70] := by
  have h := bcm_vk_read_too_small ex_consts ex_usr_drained 0 8 0 [] [] (ex_usr_wkent true)
    rfl (by decide) (by decide) (by decide) (by decide) (by decide) (by decide) (by decide)
  obtain ⟨g1, ⟨b, hb1, hb2, _⟩, _, g4, g5, g6, g7, g8⟩ := h
  have h5 : (bcm_vk_write ex_consts ex_pend_open 0 16 (ex_env [ex_blk 1 0 0x70])).1 = 16 := by
    decide
  have h4 := g8 ex_pend_open ex_usr_answered 0 16 (ex_env [ex_blk 1 0 0x70])
    (fun _ => true) 10
    ((bcm_vk2h_msg_dequeue ex_consts (fun _ => true) 10 ex_usr_answered).get (by decide))
    (fun _ => rfl)
    (fun q => by
      show (if q = 0 then [] else []) = []
      split <;> rfl)
    rfl rfl (Option.eq_some_of_isSome _) 0 8 true (by decide)
  refine ⟨h5, by decide, by decide, g1, ?_, ?_, g4, ?_, (g6 16 (by decide)).1, ?_⟩
  · rw [hb1, hb2]
    decide
  · exact h4.trans (by decide)
  · rw [g5]
    decide
  · rw [(g6 16 (by decide)).2.1]
    decide

end BcmVk
